import Mathlib

/-!
# go-typemeta: the conversion engine, embedded

A shallow embedding of `convertvalue.go`, `convertprimitivevalue.go`, `schema.go`,
`struct.go` and the descriptor files of the package `typemeta`.

* `Ty` stands for `reflect.Type`, `Val` for `reflect.Value` (a value tagged with its type),
  `TypeMeta` for the descriptor interface of `typemeta.go` with its seven implementations.
* Pointers are embedded by the value they point to; `int`, `uint` and `uintptr` are 64 bits wide.
* A Go map is embedded by the list of its entries in the order in which `MapRange` visits them.
* Functions of the Go standard library that the package calls and that are not embedded
  (floating point, user methods, JSON text, Unicode tables) are the fields of `Lib`.
* `Res` is what a call gives back: a value with a nil error, a value with an error,
  a runtime panic, or `timeout` when the recursion budget of the embedding is used up.
-/

namespace Typemeta

/-! ## reflect.Kind and reflect.Type -/

/-- The kinds of `reflect.Kind`. -/
inductive Kind where
  | invalid | bool | int | int8 | int16 | int32 | int64
  | uint | uint8 | uint16 | uint32 | uint64 | uintptr
  | float32 | float64 | complex64 | complex128
  | array | chan | func | interface | map | ptr | slice | string | struct | unsafePointer
deriving DecidableEq, Repr

/-- The text of `reflect.Kind.String`, which is also the name of the predeclared type. -/
def Kind.Str : Kind → String
  | .invalid => "invalid" | .bool => "bool" | .int => "int" | .int8 => "int8"
  | .int16 => "int16" | .int32 => "int32" | .int64 => "int64"
  | .uint => "uint" | .uint8 => "uint8" | .uint16 => "uint16" | .uint32 => "uint32"
  | .uint64 => "uint64" | .uintptr => "uintptr"
  | .float32 => "float32" | .float64 => "float64"
  | .complex64 => "complex64" | .complex128 => "complex128"
  | .array => "array" | .chan => "chan" | .func => "func" | .interface => "interface"
  | .map => "map" | .ptr => "ptr" | .slice => "slice" | .string => "string"
  | .struct => "struct" | .unsafePointer => "unsafe.Pointer"

/-- Signed integer kinds (`reflect.Int` .. `reflect.Int64`). -/
def Kind.isInt : Kind → Bool
  | .int | .int8 | .int16 | .int32 | .int64 => true
  | _ => false

/-- Unsigned integer kinds (`reflect.Uint` .. `reflect.Uintptr`). -/
def Kind.isUint : Kind → Bool
  | .uint | .uint8 | .uint16 | .uint32 | .uint64 | .uintptr => true
  | _ => false

/-- Floating-point kinds. -/
def Kind.isFloat : Kind → Bool
  | .float32 | .float64 => true
  | _ => false

/-- Complex kinds. -/
def Kind.isComplex : Kind → Bool
  | .complex64 | .complex128 => true
  | _ => false

/-- Width in bits of an integer kind (64-bit platform). -/
def Kind.bits : Kind → Nat
  | .int8 | .uint8 => 8
  | .int16 | .uint16 => 16
  | .int32 | .uint32 | .float32 => 32
  | _ => 64

/-- A method of a type: its name and the text of its signature. -/
structure Method where
  name : String
  sig : String
deriving DecidableEq, Repr

/-- The declaration of a defined type: `name` is `Type.Name()` (empty for a type literal),
`str` is what `Type.String()` returns, `methods` the methods with a value receiver (for an interface
type: its methods), `ptrMethods` those with a pointer receiver. -/
structure Decl where
  name : String
  str : String
  methods : List Method
  ptrMethods : List Method
deriving DecidableEq, Repr

/-- One struct tag as `structtag.Parse` returns it: key, name and options. -/
structure Tag where
  key : String
  name : String
  options : List String
deriving DecidableEq, Repr

/-- A field of a struct type (`reflect.StructField` without its type): name, embedded flag
and parsed tags. -/
structure FieldDecl where
  name : String
  anonymous : Bool
  tags : List Tag
deriving DecidableEq, Repr

mutual
/-- The type `reflect.Type`. `basic` covers the scalar kinds (and, opaquely, channel, function
and unsafe-pointer types); `d = none` is the predeclared or literal type. -/
inductive Ty where
  | basic (k : Kind) (d : Option Decl)
  | ptr (elem : Ty)
  | slice (d : Option Decl) (elem : Ty)
  | array (d : Option Decl) (len : Nat) (elem : Ty)
  | map (d : Option Decl) (key : Ty) (elem : Ty)
  | struct (d : Decl) (fields : FieldList)
  | iface (d : Decl)
deriving DecidableEq, Repr
/-- The fields of a struct type, in declaration order. -/
inductive FieldList where
  | nil
  | cons (f : FieldDecl) (t : Ty) (rest : FieldList)
deriving DecidableEq, Repr
end

/-- The method `reflect.Type.Kind`. -/
def Ty.Kind : Ty → Kind
  | .basic k _ => k
  | .ptr _ => .ptr
  | .slice _ _ => .slice
  | .array _ _ _ => .array
  | .map _ _ _ => .map
  | .struct _ _ => .struct
  | .iface _ => .interface

/-- The method `reflect.Type.String`. -/
def Ty.Str : Ty → String
  | .basic k none => k.Str
  | .basic _ (some d) => d.str
  | .ptr e => "*" ++ e.Str
  | .slice none e => "[]" ++ e.Str
  | .slice (some d) _ => d.str
  | .array none n e => "[" ++ toString n ++ "]" ++ e.Str
  | .array (some d) _ _ => d.str
  | .map none k e => "map[" ++ k.Str ++ "]" ++ e.Str
  | .map (some d) _ _ => d.str
  | .struct d _ => d.str
  | .iface d => d.str

/-- The method `reflect.Type.Name`. -/
def Ty.Name : Ty → String
  | .basic k none => k.Str
  | .basic _ (some d) => d.name
  | .ptr _ => ""
  | .slice d _ => (d.map (·.name)).getD ""
  | .array d _ _ => (d.map (·.name)).getD ""
  | .map d _ _ => (d.map (·.name)).getD ""
  | .struct d _ => d.name
  | .iface d => d.name

/-- Number of fields of a struct type (`reflect.Type.NumField`). -/
def FieldList.length : FieldList → Nat
  | .nil => 0
  | .cons _ _ r => r.length + 1

/-- The declaration of a type that is not a pointer type, if it has one. -/
def Ty.decl : Ty → Option Decl
  | .basic _ d => d
  | .ptr _ => none
  | .slice d _ => d
  | .array d _ _ => d
  | .map d _ _ => d
  | .struct d _ => some d
  | .iface d => some d

/-- The method set of a type: a pointer to a defined type has the methods of both receivers. -/
def Ty.methodSet : Ty → List Method
  | .ptr (.iface _) => []
  | .ptr e => match e.decl with
    | some d => d.methods ++ d.ptrMethods
    | none => []
  | t => match t.decl with
    | some d => d.methods
    | none => []

/-- The method `reflect.Type.Implements` for an interface type `it`. -/
def Ty.Implements (t it : Ty) : Bool :=
  match it with
  | .iface d => d.methods.all (fun m => t.methodSet.contains m)
  | _ => false

/-- Whether the method set has a method of this name (`Value.MethodByName(..).IsValid()`). -/
def Ty.findMethod (t : Ty) (name : String) : Option Method :=
  t.methodSet.find? (fun m => m.name == name)

/-! ## reflect.Value -/

mutual
/-- The type `reflect.Value`: a Go value together with its type. `invalid` is the zero
`reflect.Value`; `ref` is a channel, function or unsafe pointer (address 0 is nil);
`nilIface`/`iface` are the values of interface kind (an element of a `[]interface{}`, what
`Elem` gives for a `*interface{}`), `iface t dyn` holding the dynamic value `dyn`. -/
inductive Val where
  | invalid
  | bool (t : Ty) (b : Bool)
  | int (t : Ty) (n : Int)
  | uint (t : Ty) (n : Nat)
  | float (t : Ty) (bits : Nat)
  | complex (t : Ty) (re : Nat) (im : Nat)
  | str (t : Ty) (s : String)
  | ref (t : Ty) (addr : Nat)
  | nilPtr (t : Ty)
  | ptr (t : Ty) (target : Val)
  | nilSlice (t : Ty)
  | slice (t : Ty) (elems : Vals)
  | array (t : Ty) (elems : Vals)
  | nilMap (t : Ty)
  | map (t : Ty) (entries : Entries)
  | struct (t : Ty) (fields : Vals)
  | nilIface (t : Ty)
  | iface (t : Ty) (dyn : Val)
deriving DecidableEq, Repr
/-- A sequence of values: the elements of a slice or array, the fields of a struct. -/
inductive Vals where
  | nil
  | cons (v : Val) (rest : Vals)
deriving DecidableEq, Repr
/-- The entries of a map, in the order in which `MapRange` visits them. -/
inductive Entries where
  | nil
  | cons (k : Val) (v : Val) (rest : Entries)
deriving DecidableEq, Repr
end

/-- The elements as a list. -/
def Vals.toList : Vals → List Val
  | .nil => []
  | .cons v r => v :: r.toList

/-- The sequence of a list. -/
def Vals.ofList : List Val → Vals
  | [] => .nil
  | v :: r => .cons v (Vals.ofList r)

/-- The entries as a list of key and value. -/
def Entries.toList : Entries → List (Val × Val)
  | .nil => []
  | .cons k v r => (k, v) :: r.toList

/-- The entries of a list of key and value. -/
def Entries.ofList : List (Val × Val) → Entries
  | [] => .nil
  | (k, v) :: r => .cons k v (Entries.ofList r)

/-- Number of values (`Value.Len` of a slice or array). -/
def Vals.length : Vals → Nat
  | .nil => 0
  | .cons _ r => r.length + 1

/-- The value at an index (`Value.Index`, `Value.Field`). -/
def Vals.get? : Vals → Nat → Option Val
  | .nil, _ => none
  | .cons v _, 0 => some v
  | .cons _ r, i + 1 => r.get? i

/-- The sequence with the value at an index replaced; `none` when the index is out of range. -/
def Vals.set? : Vals → Nat → Val → Option Vals
  | .nil, _, _ => none
  | .cons _ r, 0, x => some (.cons x r)
  | .cons v r, i + 1, x => (r.set? i x).map (Vals.cons v)

/-- A sequence of `n` copies of a value. -/
def Vals.replicate : Nat → Val → Vals
  | 0, _ => .nil
  | n + 1, v => .cons v (Vals.replicate n v)

/-- The method `Value.Type`; `none` for the invalid value (where Go panics). -/
def Val.Type : Val → Option Ty
  | .invalid => none
  | .bool t _ | .int t _ | .uint t _ | .float t _ | .complex t _ _ | .str t _ | .ref t _
  | .nilPtr t | .ptr t _ | .nilSlice t | .slice t _ | .array t _ | .nilMap t | .map t _
  | .struct t _ | .nilIface t | .iface t _ => some t

/-- The method `Value.IsValid`. -/
def Val.IsValid (v : Val) : Bool := v.Type.isSome

/-- The method `Value.Kind`: the kind of the value's type, `Invalid` for the invalid value. -/
def Val.Kind (v : Val) : Kind :=
  match v.Type with
  | none => .invalid
  | some t => t.Kind

mutual
/-- The method `Value.IsZero`. A float is zero when its bits are. -/
def Val.IsZero : Val → Bool
  | .invalid => false
  | .bool _ b => !b
  | .int _ n => n == 0
  | .uint _ n => n == 0
  | .float _ bits => bits == 0
  | .complex _ re im => re == 0 && im == 0
  | .str _ s => s.length == 0
  | .ref _ addr => addr == 0
  | .nilPtr _ => true
  | .ptr _ _ => false
  | .nilSlice _ => true
  | .slice _ _ => false
  | .array _ es => Vals.allZero es
  | .nilMap _ => true
  | .map _ _ => false
  | .struct _ fs => Vals.allZero fs
  | .nilIface _ => true
  | .iface _ _ => false
/-- Every value of the sequence is zero. -/
def Vals.allZero : Vals → Bool
  | .nil => true
  | .cons v r => v.IsZero && Vals.allZero r
end

mutual
/-- The zero value of a type: `reflect.New(t).Elem()`, `reflect.Zero(t)`. -/
def zero : Ty → Val
  | .basic k d =>
    if k == .bool then .bool (.basic k d) false
    else if k.isInt then .int (.basic k d) 0
    else if k.isUint then .uint (.basic k d) 0
    else if k.isFloat then .float (.basic k d) 0
    else if k.isComplex then .complex (.basic k d) 0 0
    else if k == .string then .str (.basic k d) ""
    else .ref (.basic k d) 0
  | .ptr e => .nilPtr (.ptr e)
  | .slice d e => .nilSlice (.slice d e)
  | .array d n e => .array (.array d n e) (Vals.replicate n (zero e))
  | .map d k e => .nilMap (.map d k e)
  | .struct d fs => .struct (.struct d fs) (zeroFields fs)
  | .iface d => .nilIface (.iface d)
/-- The zero values of the fields of a struct type. -/
def zeroFields : FieldList → Vals
  | .nil => .nil
  | .cons _ t r => .cons (zero t) (zeroFields r)
end

/-- What a call gives back. `ok v` is `(v, nil)`; `err v msg` is `(v, errors.New(msg))`;
`panic` is a runtime panic; `timeout` is the recursion budget of the embedding used up. -/
inductive Res where
  | ok (v : Val)
  | err (v : Val) (msg : String)
  | panic (msg : String)
  | timeout
deriving DecidableEq, Repr

/-! ## The standard library -/

/-- The functions of the Go standard library and of user code that the package calls and
that are not embedded. -/
structure Lib where
  /-- The function `unicode.IsLower`. -/
  isLower : Char → Bool
  /-- The function `unicode.IsUpper`: a field is exported when its name starts with such a letter. -/
  isUpper : Char → Bool
  /-- The function `strconv.ParseFloat(s, 64)`, giving the bits of the float. -/
  parseFloat : String → Option Nat
  /-- The rendering of a float by `fmt.Sprint`. -/
  formatFloat : Kind → Nat → String
  /-- The rendering of a complex number by `fmt.Sprint`. -/
  formatComplex : Kind → Nat → Nat → String
  /-- The comparison `f > 0` of a float. -/
  floatGtZero : Nat → Bool
  /-- The conversion `float64(n)` of an integer. -/
  intToFloat : Int → Nat
  /-- The conversion `int64(f)` of a float. -/
  floatToInt : Nat → Int
  /-- The conversion `uint64(f)` of a float. -/
  floatToUint : Nat → Nat
  /-- The conversion `float64(float32(f))`. -/
  roundFloat32 : Nat → Nat
  /-- A call of the method `MarshalText`, `MarshalJSON` or `MarshalBinary` of a value. -/
  callMarshal : String → Val → Except String String
  /-- A call of `UnmarshalText`, `UnmarshalJSON` or `UnmarshalBinary` on a pointer to a new value of
  the type: the value afterwards, or the value afterwards and the error. -/
  callUnmarshal : String → Ty → String → Val × Option String
  /-- A call of the method `Format`, `Error` or `String` of a value by `fmt.Sprint`. -/
  callStringer : String → Val → String
  /-- The rendering by `fmt.Sprint` of a map, of a pointer printed as an address, of a channel,
  function or unsafe pointer. -/
  sprintOther : Val → String
  /-- The call `json.Unmarshal(data, p)` for `p` a pointer to a new value of the type: the value
  afterwards and the error, if any. -/
  jsonUnmarshal : String → Ty → Val × Option String

/-- A library for programs that use ASCII names only and neither floating point nor methods nor
JSON text: every such call gives a fixed answer. It serves to run the embedding on inputs whose
conversion makes none of these calls. -/
def asciiLib : Lib where
  isLower := Char.isLower
  isUpper := Char.isUpper
  parseFloat := fun _ => none
  formatFloat := fun _ _ => ""
  formatComplex := fun _ _ _ => ""
  floatGtZero := fun bits => decide (0 < bits)
  intToFloat := fun _ => 0
  floatToInt := fun _ => 0
  floatToUint := fun _ => 0
  roundFloat32 := fun bits => bits
  callMarshal := fun _ _ => .error "no such method"
  callUnmarshal := fun _ t _ => (zero t, some "no such method")
  callStringer := fun _ _ => ""
  sprintOther := fun _ => ""
  jsonUnmarshal := fun _ t => (zero t, some "json: not embedded")

/-! ## The descriptors (typemeta.go, primitive.go, struct.go, structfield.go, slice.go,
array.go, map.go, ptr.go, interface.go) -/

/-- The fields of `StructField` other than the embedded `TypeMeta`. -/
structure FieldInfo where
  Name : String
  Index : Nat
  Anonymous : Bool
  Private : Bool
  JSONName : String
  JSONExcluded : Bool
  JSONOmitEmpty : Bool
  Description : String
  DefaultValue : Option String
  Tags : List Tag
deriving DecidableEq, Repr

mutual
/-- The interface `TypeMeta` with its implementations `*Primitive`, `*Struct`, `*Slice`,
`*Array`, `*Map`, `*Ptr` and `*Interface` (whose `typ` may be nil). -/
inductive TypeMeta where
  | Primitive (typ : Ty) (name : String)
  | Struct (name : String) (Description : String) (Fields : StructFields) (typ : Ty)
  | Slice (Elem : TypeMeta) (typ : Ty)
  | Array (Elem : TypeMeta) (typ : Ty)
  | Map (Key : TypeMeta) (Elem : TypeMeta) (typ : Ty)
  | Ptr (Elem : TypeMeta) (typ : Ty)
  | Interface (typ : Option Ty)
deriving DecidableEq, Repr
/-- The map `Struct.Fields`, listed by field index: the entry at position `i` is `Fields[i]`. -/
inductive StructFields where
  | nil
  | cons (f : FieldInfo) (tm : TypeMeta) (rest : StructFields)
deriving DecidableEq, Repr
end

/-- The type `StructField`: the field's data and its descriptor. -/
structure StructField where
  info : FieldInfo
  TypeMeta : TypeMeta
deriving DecidableEq, Repr

/-- The method `Type` of a descriptor; `none` is the nil `reflect.Type`. -/
def TypeMeta.Type : TypeMeta → Option Ty
  | .Primitive typ _ => some typ
  | .Struct _ _ _ typ => some typ
  | .Slice _ typ => some typ
  | .Array _ typ => some typ
  | .Map _ _ typ => some typ
  | .Ptr _ typ => some typ
  | .Interface typ => typ

/-- The method `Kind` of a descriptor. -/
def TypeMeta.Kind : TypeMeta → Kind
  | .Primitive typ _ => typ.Kind
  | .Struct _ _ _ _ => .struct
  | .Slice _ _ => .slice
  | .Array _ _ => .array
  | .Map _ _ _ => .map
  | .Ptr _ _ => .ptr
  | .Interface _ => .interface

/-- The method `String` of a descriptor. -/
def TypeMeta.Str : TypeMeta → String
  | .Primitive typ _ => typ.Str
  | .Struct _ _ _ typ => typ.Str
  | .Slice _ typ => typ.Str
  | .Array _ typ => typ.Str
  | .Map Key Elem _ => "map[" ++ Key.Str ++ "]" ++ Elem.Str
  | .Ptr _ typ => typ.Str
  | .Interface none => "interface\x7b\x7d"
  | .Interface (some typ) => typ.Str

/-- The method `Name` of a descriptor. -/
def TypeMeta.Name : TypeMeta → String
  | .Primitive typ name => if name != "" then name else typ.Name
  | .Struct name _ _ typ => if name != "" then name else typ.Name
  | .Slice _ typ => typ.Name
  | .Array _ typ => typ.Name
  | .Map _ _ typ => typ.Name
  | .Ptr _ typ => typ.Name
  | .Interface none => "interface\x7b\x7d"
  | .Interface (some typ) => typ.Name

/-- The method `Primitive` of a descriptor. -/
def TypeMeta.IsPrimitive : TypeMeta → Bool
  | .Primitive _ _ => true
  | .Struct _ _ _ _ => false
  | .Slice Elem _ => Elem.IsPrimitive
  | .Array Elem _ => Elem.IsPrimitive
  | .Map Key Elem _ => Key.IsPrimitive && Elem.IsPrimitive
  | .Ptr Elem _ => Elem.IsPrimitive
  | .Interface _ => true

/-- The method `JSONNonNull` of a descriptor. -/
def TypeMeta.JSONNonNull : TypeMeta → Bool
  | .Primitive _ _ => true
  | .Struct _ _ _ _ => true
  | _ => false

/-- The method `StructField.JSONNonNull`. -/
def StructField.JSONNonNull (sf : StructField) : Bool :=
  !(sf.info.JSONOmitEmpty || sf.TypeMeta.JSONNonNull)

/-- The method `StructField.String`. -/
def StructField.Str (sf : StructField) : String :=
  sf.info.Name ++ ": " ++ sf.TypeMeta.Str

/-- The function `NonPtr` of util.go. -/
def NonPtr : TypeMeta → TypeMeta
  | .Ptr Elem _ => NonPtr Elem
  | t => t

/-- The first of the entries `Fields[0]`, .., `Fields[n-1]` for which the test holds: the loop of
`Struct.FindField`. -/
def StructFields.find (p : StructField → Bool) : StructFields → Nat → Option StructField
  | .nil, _ => none
  | .cons _ _ _, 0 => none
  | .cons f tm rest, n + 1 => if p ⟨f, tm⟩ then some ⟨f, tm⟩ else rest.find p n

/-- The method `Struct.FindField`; `none` is nil, also for a descriptor that is no `*Struct`. -/
def TypeMeta.FindField (s : TypeMeta) (iteratee : StructField → Bool) : Option StructField :=
  match s with
  | .Struct _ _ Fields (.struct _ fs) => Fields.find iteratee fs.length
  | _ => none

/-- The method `Struct.FieldByName`. -/
def TypeMeta.FieldByName (s : TypeMeta) (fieldName : String) : Option StructField :=
  if fieldName == "" then none
  else s.FindField (fun field => field.info.Name == fieldName || field.info.JSONName == fieldName)

/-! ## The schema (schema.go) -/

/-- The signature of `MarshalText`, `MarshalJSON` and `MarshalBinary`. -/
def marshalSig : String := "func() ([]uint8, error)"

/-- The signature of `UnmarshalText`, `UnmarshalJSON` and `UnmarshalBinary`. -/
def unmarshalSig : String := "func([]uint8) error"

/-- The variable `primitiveType`: the interface type `json.Marshaler`. -/
def primitiveType : Ty :=
  .iface ⟨"Marshaler", "json.Marshaler", [⟨"MarshalJSON", marshalSig⟩], []⟩

/-- The constant `underscoreChar`. -/
def underscoreChar : Char := '_'

/-- The method `Tags.Get` of structtag: the first tag with the key. -/
def tagsGet (tags : List Tag) (key : String) : Option Tag :=
  tags.find? (fun t => t.key == key)

/-- The method `Tag.HasOption` of structtag. -/
def Tag.HasOption (t : Tag) (opt : String) : Bool :=
  t.options.any (fun o => o == opt)

/-- The method `Tag.Value` of structtag: the name and the options, joined by commas. -/
def Tag.Value (t : Tag) : String :=
  let options := ",".intercalate t.options
  if options != "" then t.name ++ "," ++ options else t.name

/-- The body of the loop over the fields in `Schema.get`: the `StructField` of the field with
index `fieldIndex`, without its descriptor. -/
def fieldInfoOf (L : Lib) (rsf : FieldDecl) (fieldIndex : Nat) : FieldInfo :=
  let isPrivate := match rsf.name.data with
    | [] => false
    | nameFirstChar :: _ => L.isLower nameFirstChar || nameFirstChar == underscoreChar
  let field : FieldInfo :=
    { Name := rsf.name, Index := fieldIndex, Anonymous := rsf.anonymous, Private := isPrivate,
      JSONName := "", JSONExcluded := isPrivate, JSONOmitEmpty := false, Description := "",
      DefaultValue := none, Tags := rsf.tags }
  let field : FieldInfo :=
    match tagsGet rsf.tags "json" with
    | some jsonTag =>
      let field : FieldInfo :=
        if jsonTag.name != "" then
          if jsonTag.name != "-" then { field with JSONName := jsonTag.name }
          else { field with JSONExcluded := true }
        else { field with JSONName := rsf.name }
      if jsonTag.HasOption "omitempty" then { field with JSONOmitEmpty := true } else field
    | none => if !field.JSONExcluded then { field with JSONName := rsf.name } else field
  let field : FieldInfo :=
    match tagsGet rsf.tags "default" with
    | some defaultValueTag => { field with DefaultValue := some defaultValueTag.name }
    | none => field
  match tagsGet rsf.tags "description" with
  | some descriptionTag => { field with Description := descriptionTag.Value }
  | none => field

mutual
/-- The method `Schema.get` for a non-nil type: the descriptor that the schema builds for the
type on the first request and returns from its cache afterwards. -/
def get (L : Lib) : Ty → TypeMeta
  | .ptr e => .Ptr (get L e) (.ptr e)
  | .struct d fs =>
    if (Ty.struct d fs).Implements primitiveType then .Primitive (.struct d fs) ""
    else .Struct "" "" (getFields L fs 0) (.struct d fs)
  | .map d k e => .Map (get L k) (get L e) (.map d k e)
  | .slice d e => .Slice (get L e) (.slice d e)
  | .array d n e => .Array (get L e) (.array d n e)
  | .iface d => .Interface (some (.iface d))
  | .basic k d => .Primitive (.basic k d) ""
/-- The loop over the fields of a struct type in `Schema.get`, from index `fieldIndex` on. -/
def getFields (L : Lib) : FieldList → Nat → StructFields
  | .nil, _ => .nil
  | .cons rsf t rest, fieldIndex =>
    .cons (fieldInfoOf L rsf fieldIndex) (get L t) (getFields L rest (fieldIndex + 1))
end

/-- The method `Schema.get` for the nil type: an `*Interface` without type. -/
def getNil : TypeMeta := .Interface none

/-- The table `kindTypes`: the default type of a kind. `some none` is the nil type that the
table holds for `reflect.Interface`; `none` is a kind without entry. -/
def kindTypes : Kind → Option (Option Ty)
  | .bool => some (some (.basic .bool none))
  | .int => some (some (.basic .int none))
  | .int8 => some (some (.basic .int8 none))
  | .int16 => some (some (.basic .int16 none))
  | .int32 => some (some (.basic .int32 none))
  | .int64 => some (some (.basic .int64 none))
  | .uint => some (some (.basic .uint none))
  | .uint8 => some (some (.basic .uint8 none))
  | .uint16 => some (some (.basic .uint16 none))
  | .uint32 => some (some (.basic .uint32 none))
  | .uint64 => some (some (.basic .uint64 none))
  | .uintptr => some (some (.basic .uintptr none))
  | .float32 => some (some (.basic .float32 none))
  | .float64 => some (some (.basic .float64 none))
  | .complex64 => some (some (.basic .complex64 none))
  | .complex128 => some (some (.basic .complex128 none))
  | .array => some (some (.slice none (.iface ⟨"", "interface \x7b\x7d", [], []⟩)))
  | .map => some (some (.map none (.iface ⟨"", "interface \x7b\x7d", [], []⟩)
      (.iface ⟨"", "interface \x7b\x7d", [], []⟩)))
  | .slice => some (some (.slice none (.iface ⟨"", "interface \x7b\x7d", [], []⟩)))
  | .string => some (some (.basic .string none))
  | .interface => some none
  | _ => none

/-- What `Schema.Get` is called with: a descriptor, a `reflect.Type`, a `reflect.Value`, a
`reflect.Kind`, or any other Go value (nil included), given by its `reflect.TypeOf`. -/
inductive GetArg where
  | meta (tm : TypeMeta)
  | type (t : Ty)
  | value (v : Val)
  | kind (k : Kind)
  | other (typeOf : Option Ty)

/-- The method `Schema.Get`; `none` where it panics. -/
def Get (L : Lib) : GetArg → Option TypeMeta
  | .meta tm => some tm
  | .type t => some (get L t)
  | .value v => v.Type.map (get L)
  | .kind k =>
    match kindTypes k with
    | some (some kindType) => some (get L kindType)
    | some none => some getNil
    | none => none
  | .other (some t) => some (get L t)
  | .other none => some getNil

/-! ## strconv and fmt -/

/-- The function `strconv.ParseBool`; `none` is a syntax error. -/
def ParseBool (str : String) : Option Bool :=
  if str == "1" || str == "t" || str == "T" || str == "TRUE" || str == "true" || str == "True" then
    some true
  else if str == "0" || str == "f" || str == "F" || str == "FALSE" || str == "false"
      || str == "False" then
    some false
  else none

/-- The value of a decimal digit. -/
def digitVal (c : Char) : Option Nat :=
  if 48 ≤ c.toNat ∧ c.toNat ≤ 57 then some (c.toNat - 48) else none

/-- The number read from decimal digits after the number `acc` read so far; `none` when a
character is not a digit. -/
def parseDigits : List Char → Nat → Option Nat
  | [], acc => some acc
  | c :: cs, acc =>
    match digitVal c with
    | some d => parseDigits cs (acc * 10 + d)
    | none => none

/-- The function `strconv.ParseUint(s, 10, 64)`; `none` is a syntax or range error. -/
def ParseUint (s : String) : Option Nat :=
  match s.data with
  | [] => none
  | cs =>
    match parseDigits cs 0 with
    | some un => if un < 2 ^ 64 then some un else none
    | none => none

/-- The function `strconv.ParseInt(s, 10, 64)`; `none` is a syntax or range error. -/
def ParseInt (s : String) : Option Int :=
  match s.data with
  | [] => none
  | c :: cs =>
    if c = '+' then
      match cs, parseDigits cs 0 with
      | _ :: _, some un => if un < 2 ^ 63 then some (Int.ofNat un) else none
      | _, _ => none
    else if c = '-' then
      match cs, parseDigits cs 0 with
      | _ :: _, some un => if un ≤ 2 ^ 63 then some (- Int.ofNat un) else none
      | _, _ => none
    else
      match parseDigits (c :: cs) 0 with
      | some un => if un < 2 ^ 63 then some (Int.ofNat un) else none
      | none => none

/-- The character of a decimal digit. -/
def digitChar (d : Nat) : Char := Char.ofNat (48 + d)

/-- The decimal digits of a number, most significant first; `fuel` bounds their count. -/
def natDigits : Nat → Nat → List Char
  | 0, _ => []
  | fuel + 1, n => if n < 10 then [digitChar n] else natDigits fuel (n / 10) ++ [digitChar (n % 10)]

/-- The rendering of an unsigned integer by `fmt.Sprint`: base 10. -/
def formatNat (n : Nat) : String := String.mk (natDigits (n + 1) n)

/-- The rendering of a signed integer by `fmt.Sprint`: base 10 with a minus sign. -/
def formatInt : Int → String
  | .ofNat n => formatNat n
  | .negSucc n => "-" ++ formatNat (n + 1)

/-- The method of a type that `fmt.Sprint` calls in place of the default rendering: `Format`,
else `Error`, else `String` (the `handleMethods` of package fmt). -/
def stringerOf (t : Ty) : Option String :=
  if t.methodSet.contains ⟨"Format", "func(fmt.State, int32)"⟩ then some "Format"
  else if t.methodSet.contains ⟨"Error", "func() string"⟩ then some "Error"
  else if t.methodSet.contains ⟨"String", "func() string"⟩ then some "String"
  else none

/-- A nested value whose type has a method for `fmt` is rendered by that method. -/
def printScalar (L : Lib) (depth : Nat) (v : Val) (dflt : String) : String :=
  if depth == 0 then dflt
  else match v.Type.bind stringerOf with
    | some m => L.callStringer m v
    | none => dflt

mutual
/-- The function `printValue` of package fmt for the verb `%v` at a nesting depth. Scalars,
interface values, slices, arrays and nil pointers are rendered here, the rest by `Lib`. -/
def printValue (L : Lib) (depth : Nat) : Val → String
  | .invalid => if depth == 0 then "<invalid reflect.Value>" else "<nil>"
  | .bool t b => printScalar L depth (.bool t b) (if b then "true" else "false")
  | .int t n => printScalar L depth (.int t n) (formatInt n)
  | .uint t n => printScalar L depth (.uint t n) (formatNat n)
  | .float t bits => printScalar L depth (.float t bits) (L.formatFloat t.Kind bits)
  | .complex t re im => printScalar L depth (.complex t re im) (L.formatComplex t.Kind re im)
  | .str t s => printScalar L depth (.str t s) s
  | .nilIface _ => "<nil>"
  | .iface _ dyn => printValue L (depth + 1) dyn
  | .nilSlice t => printScalar L depth (.nilSlice t) "[]"
  | .slice t es => printScalar L depth (.slice t es) ("[" ++ printElems L (depth + 1) es ++ "]")
  | .array t es => printScalar L depth (.array t es) ("[" ++ printElems L (depth + 1) es ++ "]")
  | .nilPtr t => printScalar L depth (.nilPtr t) "<nil>"
  | .ref t addr => printScalar L depth (.ref t addr) (L.sprintOther (.ref t addr))
  | .ptr t x => printScalar L depth (.ptr t x) (L.sprintOther (.ptr t x))
  | .nilMap t => printScalar L depth (.nilMap t) (L.sprintOther (.nilMap t))
  | .map t es => printScalar L depth (.map t es) (L.sprintOther (.map t es))
  | .struct t fs => printScalar L depth (.struct t fs) (L.sprintOther (.struct t fs))
/-- The elements of a slice or array, separated by spaces. -/
def printElems (L : Lib) (depth : Nat) : Vals → String
  | .nil => ""
  | .cons v .nil => printValue L depth v
  | .cons v (.cons w r) => printValue L depth v ++ " " ++ printElems L depth (.cons w r)
end

/-- The function `printArg` of package fmt for one operand that is not the nil interface. -/
def printArg (L : Lib) (v : Val) : String :=
  match v.Type.bind stringerOf with
  | some m => L.callStringer m v
  | none => printValue L 0 v

/-- The call `fmt.Sprint(value.Interface())`. -/
def Sprint (L : Lib) : Val → String
  | .nilIface _ => "<nil>"
  | .iface _ dyn => printArg L dyn
  | v => printArg L v

/-- The method `Value.String`: the string of a string, else the text `<T Value>`. -/
def Val.GoString : Val → String
  | .invalid => "<invalid Value>"
  | .str _ s => s
  | v => "<" ++ (v.Type.map Ty.Str).getD "" ++ " Value>"

/-! ## reflect: conversion and assignment -/

/-- A signed integer reduced to `w` bits, two's complement (Go's integer conversion). -/
def wrapInt (w : Nat) (x : Int) : Int :=
  (x + 2 ^ (w - 1)) % 2 ^ w - 2 ^ (w - 1)

/-- An integer reduced to `w` bits, unsigned. -/
def wrapUint (w : Nat) (x : Int) : Nat :=
  (x % 2 ^ w).toNat

/-- The function `makeInt` of package reflect: the integer `x` as a value of the integer type. -/
def makeInt (t : Ty) (x : Int) : Val :=
  if t.Kind.isInt then .int t (wrapInt t.Kind.bits x) else .uint t (wrapUint t.Kind.bits x)

/-- The function `makeFloat` of package reflect. -/
def makeFloat (L : Lib) (t : Ty) (bits : Nat) : Val :=
  if t.Kind == .float32 then .float t (L.roundFloat32 bits) else .float t bits

/-- The tags of a field are left out of the comparison unless `cmpTags`. -/
def sameFieldDecl (cmpTags : Bool) (f g : FieldDecl) : Bool :=
  f.name == g.name && f.anonymous == g.anonymous && (!cmpTags || f.tags == g.tags)

/-- The function `haveIdenticalType` of package reflect, given what
`haveIdenticalUnderlyingType` says of the two types. -/
def identicalTypeIf (cmpTags : Bool) (T V : Ty) (underlying : Bool) : Bool :=
  if cmpTags then T == V
  else if T == V then true
  else T.Name == V.Name && T.Kind == V.Kind && (T.Name == "" || T.Str == V.Str) && underlying

mutual
/-- The function `haveIdenticalUnderlyingType` of package reflect, for two types that are not
the same type. Two channel or two function types, which the embedding does not take apart,
are told apart. -/
def haveIdenticalUnderlyingType (cmpTags : Bool) : Ty → Ty → Bool
  | .basic k _, V => V.Kind == k && k != .chan && k != .func
  | .ptr e, V =>
    match V with
    | .ptr e2 => identicalTypeIf cmpTags e e2 (haveIdenticalUnderlyingType cmpTags e e2)
    | _ => false
  | .slice _ e, V =>
    match V with
    | .slice _ e2 => identicalTypeIf cmpTags e e2 (haveIdenticalUnderlyingType cmpTags e e2)
    | _ => false
  | .array _ n e, V =>
    match V with
    | .array _ n2 e2 =>
      n == n2 && identicalTypeIf cmpTags e e2 (haveIdenticalUnderlyingType cmpTags e e2)
    | _ => false
  | .map _ k e, V =>
    match V with
    | .map _ k2 e2 =>
      identicalTypeIf cmpTags k k2 (haveIdenticalUnderlyingType cmpTags k k2)
        && identicalTypeIf cmpTags e e2 (haveIdenticalUnderlyingType cmpTags e e2)
    | _ => false
  | .struct _ fs, V =>
    match V with
    | .struct _ fs2 => haveIdenticalFields cmpTags fs fs2
    | _ => false
  | .iface d, V =>
    match V with
    | .iface d2 => d.methods.isEmpty && d2.methods.isEmpty
    | _ => false
/-- The loop over the fields of two struct types in `haveIdenticalUnderlyingType`. -/
def haveIdenticalFields (cmpTags : Bool) : FieldList → FieldList → Bool
  | .nil, .nil => true
  | .cons f t r, .cons f2 t2 r2 =>
    sameFieldDecl cmpTags f f2
      && identicalTypeIf cmpTags t t2 (haveIdenticalUnderlyingType cmpTags t t2)
      && haveIdenticalFields cmpTags r r2
  | _, _ => false
end

/-- The function `directlyAssignable` of package reflect: a value of type `V` is stored in a
variable of type `T` as it is. -/
def directlyAssignable (T V : Ty) : Bool :=
  if T == V then true
  else if (T.Name != "" && V.Name != "") || T.Kind != V.Kind then false
  else haveIdenticalUnderlyingType true T V

mutual
/-- The value with its type replaced by an identical underlying type (`cvtDirect`). -/
def retag : Ty → Val → Val
  | t, .bool _ b => .bool t b
  | t, .int _ n => .int t n
  | t, .uint _ n => .uint t n
  | t, .float _ bits => .float t bits
  | t, .complex _ re im => .complex t re im
  | t, .str _ s => .str t s
  | t, .ref _ addr => .ref t addr
  | t, .nilPtr _ => .nilPtr t
  | t, .ptr _ x =>
    match t with
    | .ptr e => .ptr t (retag e x)
    | _ => .ptr t x
  | t, .nilSlice _ => .nilSlice t
  | t, .slice _ es =>
    match t with
    | .slice _ e => .slice t (retagAll e es)
    | _ => .slice t es
  | t, .array _ es =>
    match t with
    | .array _ _ e => .array t (retagAll e es)
    | _ => .array t es
  | t, .nilMap _ => .nilMap t
  | t, .map _ es =>
    match t with
    | .map _ k e => .map t (retagEntries k e es)
    | _ => .map t es
  | t, .struct _ fs =>
    match t with
    | .struct _ decls => .struct t (retagFields decls fs)
    | _ => .struct t fs
  | t, .nilIface _ => .nilIface t
  | t, .iface _ dyn => .iface t dyn
  | _, .invalid => .invalid
/-- The elements retagged to an element type. -/
def retagAll : Ty → Vals → Vals
  | _, .nil => .nil
  | e, .cons v r => .cons (retag e v) (retagAll e r)
/-- The fields retagged to the types of the fields of a struct type. -/
def retagFields : FieldList → Vals → Vals
  | .cons _ t decls, .cons v r => .cons (retag t v) (retagFields decls r)
  | _, vs => vs
/-- The entries retagged to a key and an element type. -/
def retagEntries : Ty → Ty → Entries → Entries
  | _, _, .nil => .nil
  | k, e, .cons key v r => .cons (retag k key) (retag e v) (retagEntries k e r)
end

/-- A value stored in an interface type (`cvtT2I`, `cvtI2I`): the interface value holding the
dynamic value. -/
def toIface (t : Ty) : Val → Val
  | .nilIface _ => .nilIface t
  | .iface _ dyn => .iface t dyn
  | v => .iface t v

/-- The conversion of a value whose type is the destination type, has the same underlying
type, or implements the interface type (the end of `convertOp` of package reflect); `none` is
a panic. -/
def convertDirect (v : Val) (t : Ty) : Option Val :=
  match v.Type with
  | none => none
  | some vt =>
    if vt = t then some v
    else if haveIdenticalUnderlyingType false t vt then some (retag t v)
    else match t, vt with
      | .ptr e, .ptr e2 =>
        if haveIdenticalUnderlyingType false e e2 then some (retag t v) else none
      | .iface _, _ => if vt.Implements t then some (toIface t v) else none
      | _, _ => none

/-- The method `Value.Convert`; `none` is a panic. The conversions between strings and integers
or byte and rune slices, which the package never asks for, are left out. -/
def convertTo (L : Lib) (v : Val) (t : Ty) : Option Val :=
  match v with
  | .int _ n =>
    if t.Kind.isInt || t.Kind.isUint then some (makeInt t n)
    else if t.Kind.isFloat then some (makeFloat L t (L.intToFloat n))
    else convertDirect v t
  | .uint _ n =>
    if t.Kind.isInt || t.Kind.isUint then some (makeInt t (Int.ofNat n))
    else if t.Kind.isFloat then some (makeFloat L t (L.intToFloat (Int.ofNat n)))
    else convertDirect v t
  | .float _ bits =>
    if t.Kind.isInt then some (makeInt t (L.floatToInt bits))
    else if t.Kind.isUint then some (makeInt t (Int.ofNat (L.floatToUint bits)))
    else if t.Kind.isFloat then some (makeFloat L t bits)
    else convertDirect v t
  | .complex _ re im =>
    if t.Kind == .complex64 then some (.complex t (L.roundFloat32 re) (L.roundFloat32 im))
    else if t.Kind == .complex128 then some (.complex t re im)
    else convertDirect v t
  | _ => convertDirect v t

/-- The method `Value.assignTo` of package reflect, which `Set` and `SetMapIndex` apply to the
value stored: the value as a value of the type `dst`; `none` is the panic for a value that is
not assignable to `dst`. -/
def assignTo (v : Val) (dst : Ty) : Option Val :=
  match v.Type with
  | none => none
  | some vt =>
    if vt = dst then some v
    else if directlyAssignable dst vt then some (retag dst v)
    else if vt.Implements dst then some (toIface dst v)
    else none

/-- The field declaration and type at an index of a struct type. -/
def FieldList.get? : FieldList → Nat → Option (FieldDecl × Ty)
  | .nil, _ => none
  | .cons f t _, 0 => some (f, t)
  | .cons _ _ r, i + 1 => r.get? i

/-- Whether a field name is exported: it starts with an upper-case letter. -/
def exported (L : Lib) (name : String) : Bool :=
  match name.data with
  | [] => false
  | c :: _ => L.isUpper c

/-- The call `newValue.Field(i).Set(x)` on an addressable struct value: the struct afterwards.
`none` is a panic: no field at the index, a field that is not exported, a value that is not
assignable to the field's type. -/
def setField (L : Lib) (newValue : Val) (i : Nat) (x : Val) : Option Val :=
  match newValue with
  | .struct (.struct d decls) fs =>
    match decls.get? i with
    | none => none
    | some (f, ft) =>
      if !exported L f.name then none
      else match assignTo x ft with
        | none => none
        | some y => (fs.set? i y).map (Val.struct (.struct d decls))
  | _ => none

mutual
/-- Whether a value can be a map key: it holds no slice, map or function. -/
def hashable : Val → Bool
  | .invalid => false
  | .bool _ _ | .int _ _ | .uint _ _ | .float _ _ | .complex _ _ _ | .str _ _ => true
  | .ref t _ => t.Kind != .func
  | .nilPtr _ | .ptr _ _ => true
  | .nilSlice _ | .slice _ _ | .nilMap _ | .map _ _ => false
  | .array _ es => hashableAll es
  | .struct _ fs => hashableAll fs
  | .nilIface _ => true
  | .iface _ dyn => hashable dyn
/-- Every value of the sequence can be a map key. -/
def hashableAll : Vals → Bool
  | .nil => true
  | .cons v r => hashable v && hashableAll r
end

/-- The entries with the value of a key set: replaced where the key is present, added at the
end otherwise. -/
def Entries.insert : Entries → Val → Val → Entries
  | .nil, key, elem => .cons key elem .nil
  | .cons k v r, key, elem => if k = key then .cons k elem r else .cons k v (r.insert key elem)

/-- The entries without a key. -/
def Entries.erase : Entries → Val → Entries
  | .nil, _ => .nil
  | .cons k v r, key => if k = key then r else .cons k v (r.erase key)

/-- The method `Value.SetMapIndex` on a map value: the map afterwards; `none` is a panic (a
nil map, a key or element that is not assignable, a key that cannot be hashed). An invalid
element deletes the key. -/
def SetMapIndex (m : Val) (key : Val) (elem : Val) : Option Val :=
  match m with
  | .map (.map d kt et) es =>
    match assignTo key kt with
    | none => none
    | some k =>
      if !hashable k then none
      else match elem with
        | .invalid => some (.map (.map d kt et) (es.erase k))
        | _ =>
          match assignTo elem et with
          | none => none
          | some e => some (.map (.map d kt et) (es.insert k e))
  | _ => none

/-- The function `reflect.MakeSlice(t, n, n)`; `none` is the panic for a type that is no slice. -/
def MakeSlice (t : Ty) (n : Nat) : Option Val :=
  match t with
  | .slice _ e => some (.slice t (Vals.replicate n (zero e)))
  | _ => none

/-- The function `reflect.MakeMap`; `none` is the panic for a type that is no map. -/
def MakeMap (t : Ty) : Option Val :=
  match t with
  | .map _ _ _ => some (.map t .nil)
  | _ => none

/-! ## convertprimitivevalue.go -/

/-- The predeclared type of a kind. -/
def builtin (k : Kind) : Ty := .basic k none

/-- The function `notAssignibleError`: the text of the error. -/
def notAssignibleError (valueTypeMeta toTypeMeta : TypeMeta) : String :=
  valueTypeMeta.Str ++ " not assignable to " ++ toTypeMeta.Str

/-- The function `valueNotAssignibleError`: the text of the error. -/
def valueNotAssignibleError (value : Val) (toTypeMeta : TypeMeta) : String :=
  value.GoString ++ " not assignable to " ++ toTypeMeta.Str

/-- The first of three method names that the method set of the type has. -/
def methodByNames (t : Ty) (a b c : String) : Option Method :=
  match t.findMethod a with
  | some m => some m
  | none =>
    match t.findMethod b with
    | some m => some m
    | none => t.findMethod c

/-- The function `marshalerOf`: the name of the method found, `some none` for nil; `none` is the
panic of `Value.Method` on a nil interface value. -/
def marshalerOf (value : Val) : Option (Option String) :=
  match value.Type with
  | none => none
  | some t =>
    match methodByNames t "MarshalText" "MarshalJSON" "MarshalBinary" with
    | none => some none
    | some m =>
      match value with
      | .nilIface _ => none
      | _ => if m.sig == marshalSig then some (some m.name) else some none

/-- The function `unmarshalerOf` for a pointer to a new value of the type: the name of the
method found. -/
def unmarshalerOf (t : Ty) : Option String :=
  match methodByNames (.ptr t) "UnmarshalText" "UnmarshalJSON" "UnmarshalBinary" with
  | none => none
  | some m => if m.sig == unmarshalSig then some m.name else none

/-- The expression `reflect.ValueOf(x).Convert(toTypeMeta.Type())`. -/
def convertOf (L : Lib) (x : Val) (toTypeMeta : TypeMeta) : Res :=
  match toTypeMeta.Type with
  | none => .panic "reflect: nil type passed to Convert"
  | some toType =>
    match convertTo L x toType with
    | none => .panic "reflect.Value.Convert: value cannot be converted"
    | some r => .ok r

/-- The function `convertValueToString`. -/
def convertValueToString (L : Lib) (value : Val) (_valueTypeMeta toTypeMeta : TypeMeta) : Res :=
  match marshalerOf value with
  | none => .panic "reflect: Method on nil interface value"
  | some (some marshaler) =>
    match L.callMarshal marshaler value with
    | .error err => .err value err
    | .ok b => convertOf L (.str (builtin .string) b) toTypeMeta
  | some none => convertOf L (.str (builtin .string) (Sprint L value)) toTypeMeta

/-- The function `convertString`. -/
def convertString (L : Lib) (str : String) (toTypeMeta : TypeMeta) : Res :=
  match toTypeMeta.Type with
  | none => .panic "reflect: New(nil)"
  | some t =>
    match unmarshalerOf t with
    | some unmarshaler =>
      match L.callUnmarshal unmarshaler t str with
      | (v, some err) => .err (.ptr (.ptr t) v) err
      | (v, none) => .ok (.ptr (.ptr t) v)
    | none => .ok (.ptr (.ptr t) (zero t))

/-- The function `convertPrimitiveValue`, its one recursive call (a string to `float64`, on the
way to a bool) given by `recur`. A descriptor that is no `*Primitive` is excluded by the Go
types of the arguments. -/
def convertPrimitiveValueWith (L : Lib) (recur : Val → TypeMeta → TypeMeta → Res)
    (value : Val) (valueTypeMeta toTypeMeta : TypeMeta) : Res :=
  match valueTypeMeta, toTypeMeta with
  | .Primitive vtyp _, .Primitive toType _ =>
    let valueKind := vtyp.Kind
    let toKind := toType.Kind
    if toKind == .string then convertValueToString L value valueTypeMeta toTypeMeta
    else if value.IsZero then .ok (.ptr (.ptr toType) (zero toType))
    else if valueKind == toKind then convertOf L value toTypeMeta
    else if toKind == .bool then
      if valueKind == .string then
        match ParseBool value.GoString with
        | some b => convertOf L (.bool (builtin .bool) b) toTypeMeta
        | none =>
          match recur value valueTypeMeta (get L (builtin .float64)) with
          | .ok (.float _ bits) => convertOf L (.bool (builtin .bool) (L.floatGtZero bits)) toTypeMeta
          | .ok _ => .panic "reflect: call of reflect.Value.Float on a value that is no float"
          | .err _ _ => .err value (valueNotAssignibleError value toTypeMeta)
          | .panic m => .panic m
          | .timeout => .timeout
      else if valueKind.isInt then
        match value with
        | .int _ n => convertOf L (.bool (builtin .bool) (decide (n > 0))) toTypeMeta
        | _ => .panic "reflect: call of reflect.Value.Int on a value that is no int"
      else if valueKind.isUint then
        match value with
        | .uint _ n => convertOf L (.bool (builtin .bool) (decide (n > 0))) toTypeMeta
        | _ => .panic "reflect: call of reflect.Value.Uint on a value that is no uint"
      else if valueKind.isFloat then
        match value with
        | .float _ bits => convertOf L (.bool (builtin .bool) (L.floatGtZero bits)) toTypeMeta
        | _ => .panic "reflect: call of reflect.Value.Float on a value that is no float"
      else .err value (notAssignibleError valueTypeMeta toTypeMeta)
    else if toKind == .struct then
      if valueKind == .string then convertString L value.GoString toTypeMeta
      else .err value (notAssignibleError valueTypeMeta toTypeMeta)
    else if toKind.isInt then
      if valueKind == .string then
        match ParseInt value.GoString with
        | none => .err value (valueNotAssignibleError value toTypeMeta)
        | some n => convertOf L (.int (builtin .int64) n) toTypeMeta
      else if valueKind.isInt || valueKind.isUint || valueKind.isFloat then
        convertOf L value toTypeMeta
      else if valueKind == .bool then
        match value with
        | .bool _ true => convertOf L (.int (builtin .int) 1) toTypeMeta
        | .bool _ false => convertOf L (.int (builtin .int) 0) toTypeMeta
        | _ => .panic "reflect: call of reflect.Value.Bool on a value that is no bool"
      else .err value (notAssignibleError valueTypeMeta toTypeMeta)
    else if toKind.isUint then
      if valueKind == .string then
        match ParseUint value.GoString with
        | none => .err value (valueNotAssignibleError value toTypeMeta)
        | some n => convertOf L (.uint (builtin .uint64) n) toTypeMeta
      else if valueKind.isInt || valueKind.isUint || valueKind.isFloat then
        convertOf L value toTypeMeta
      else if valueKind == .bool then
        match value with
        | .bool _ true => convertOf L (.int (builtin .int) 1) toTypeMeta
        | .bool _ false => convertOf L (.int (builtin .int) 0) toTypeMeta
        | _ => .panic "reflect: call of reflect.Value.Bool on a value that is no bool"
      else .err value (notAssignibleError valueTypeMeta toTypeMeta)
    else if toKind.isFloat then
      if valueKind == .string then
        match L.parseFloat value.GoString with
        | none => .err value (valueNotAssignibleError value toTypeMeta)
        | some bits => convertOf L (.float (builtin .float64) bits) toTypeMeta
      else if valueKind.isInt || valueKind.isUint || valueKind.isFloat then
        convertOf L value toTypeMeta
      else if valueKind == .bool then
        match value with
        | .bool _ true => convertOf L (.int (builtin .int) 1) toTypeMeta
        | .bool _ false => convertOf L (.int (builtin .int) 0) toTypeMeta
        | _ => .panic "reflect: call of reflect.Value.Bool on a value that is no bool"
      else .err value (notAssignibleError valueTypeMeta toTypeMeta)
    else .err value (notAssignibleError valueTypeMeta toTypeMeta)
  | _, _ => .panic "descriptor is no *Primitive"

/-- The function `convertPrimitiveValue`: the recursive call has `float64` for destination and
makes no further one. -/
def convertPrimitiveValue (L : Lib) (value : Val) (valueTypeMeta toTypeMeta : TypeMeta) : Res :=
  convertPrimitiveValueWith L (convertPrimitiveValueWith L (fun _ _ _ => .timeout))
    value valueTypeMeta toTypeMeta

/-! ## convertvalue.go -/

/-- The loop of the slice-to-slice case: the elements of the new slice, or what the function
returns from inside the loop. -/
def convertElems (conv : Val → Res) (value : Val) (elemType : Ty) : Vals → Except Res Vals
  | .nil => .ok .nil
  | .cons x rest =>
    match conv x with
    | .ok newElem =>
      match assignTo newElem elemType with
      | none => .error (.panic "reflect.Set: value is not assignable to the element type")
      | some e =>
        match convertElems conv value elemType rest with
        | .ok es => .ok (.cons e es)
        | .error r => .error r
    | .err _ msg => .error (.err value msg)
    | .panic m => .error (.panic m)
    | .timeout => .error .timeout

/-- The strings `value.Index(i).String()` of the elements. -/
def elemStrings : Vals → List String
  | .nil => []
  | .cons x rest => x.GoString :: elemStrings rest

/-- The loop of the map-to-struct case over the entries not yet visited, `newValue` being the
struct filled so far. -/
def mapToStruct (L : Lib) (conv : Val → TypeMeta → TypeMeta → Res) (value : Val)
    (valueElem toTypeMeta : TypeMeta) : Entries → Val → Res
  | .nil, newValue => .ok newValue
  | .cons key keyValue rest, newValue =>
    match toTypeMeta.FieldByName key.GoString with
    | none =>
      .err value ("unrecognized key \"" ++ Sprint L key ++ "\" does not exist in struct \""
        ++ toTypeMeta.Str ++ "\"")
    | some structField =>
      match conv keyValue valueElem structField.TypeMeta with
      | .ok convertedValue =>
        match setField L newValue structField.info.Index convertedValue with
        | none => .panic "reflect.Set: the field cannot be set to the value"
        | some filled => mapToStruct L conv value valueElem toTypeMeta rest filled
      | .err _ msg =>
        .err value ("could not convert value of key \"" ++ Sprint L key ++ "\" to field \""
          ++ structField.Str ++ "\". " ++ msg)
      | .panic m => .panic m
      | .timeout => .timeout

/-- The two loops of the map-to-map case over the entries not yet visited, `newValue` being
the map filled so far; `convertKey` tells which loop. -/
def mapToMap (L : Lib) (conv : Val → TypeMeta → TypeMeta → Res) (value : Val)
    (valueKey valueElem toKey toElem : TypeMeta) (convertKey : Bool) : Entries → Val → Res
  | .nil, newValue => .ok newValue
  | .cons key keyValue rest, newValue =>
    let convertedKeyRes : Res := if convertKey then conv key valueKey toKey else .ok key
    match convertedKeyRes with
    | .ok convertedKey =>
      match conv keyValue valueElem toElem with
      | .ok convertedKeyValue =>
        match SetMapIndex newValue convertedKey convertedKeyValue with
        | none => .panic "reflect.Value.SetMapIndex: the entry cannot be set"
        | some filled =>
          mapToMap L conv value valueKey valueElem toKey toElem convertKey rest filled
      | .err _ msg =>
        .err value ("could not convert value of key \"" ++ Sprint L key ++ "\" to \""
          ++ toElem.Str ++ "\". " ++ msg)
      | .panic m => .panic m
      | .timeout => .timeout
    | .err _ msg =>
      .err value ("could not convert key \"" ++ Sprint L key ++ "\" to \"" ++ toKey.Str
        ++ "\". " ++ msg)
    | .panic m => .panic m
    | .timeout => .timeout

/-- The package function `ConvertValue` called with a descriptor, as `convertNonPtrValue`
does: `conv` is `convertValue` on the default schema. -/
def ConvertValueMeta (L : Lib) (conv : Val → TypeMeta → TypeMeta → Res) (value : Val)
    (toTypeMeta : TypeMeta) : Res :=
  match value.Type with
  | none => .err value "received invalid value"
  | some t => conv value (get L t) toTypeMeta

/-- The part of `convertNonPtrValue` for a source descriptor that is a `*Slice`. -/
def convertSliceValue (L : Lib) (conv : Val → TypeMeta → TypeMeta → Res) (value : Val)
    (valueTypeMeta toTypeMeta : TypeMeta) (valueElem : TypeMeta) (toType : Ty) : Res :=
  match value with
  | .nilSlice _ => .ok (zero toType)
  | .slice _ .nil => .ok (zero toType)
  | .slice _ elems =>
    match toTypeMeta with
    | .Slice toElem _ =>
      match toType with
      | .slice _ elemType =>
        match convertElems (fun x => conv x valueElem toElem) value elemType elems with
        | .ok es => .ok (.slice toType es)
        | .error r => r
      | _ => .panic "reflect.MakeSlice of non-slice type"
    | _ =>
      let first : Option Res :=
        match elems with
        | .cons x .nil =>
          match ConvertValueMeta L conv x toTypeMeta with
          | .ok newValue => some (.ok newValue)
          | .err _ _ => none
          | .panic m => some (.panic m)
          | .timeout => some .timeout
        | _ =>
          if valueElem.Kind == .string then
            match ConvertValueMeta L conv
                (.str (builtin .string) (", ".intercalate (elemStrings elems))) toTypeMeta with
            | .ok newValue => some (.ok newValue)
            | .err _ _ => none
            | .panic m => some (.panic m)
            | .timeout => some .timeout
          else none
      match first with
      | some r => r
      | none => .err value (notAssignibleError valueTypeMeta toTypeMeta)
  | _ => .panic "reflect: call of reflect.Value.Len or IsNil on a value that is no slice"

/-- The function `convertNonPtrValue`; `conv` is `convertValue` on the schema of the call and
on the default schema, which have the same descriptors. -/
def convertNonPtrValue (L : Lib) (conv : Val → TypeMeta → TypeMeta → Res) (value : Val)
    (valueTypeMeta toTypeMeta : TypeMeta) : Res :=
  match toTypeMeta.Type with
  | none => .panic "reflect: New(nil)"
  | some toType =>
    let newValue := zero toType
    if toType.Kind == .string then convertValueToString L value valueTypeMeta toTypeMeta
    else match valueTypeMeta with
    | .Slice valueElem _ =>
      convertSliceValue L conv value valueTypeMeta toTypeMeta valueElem toType
    | _ =>
      match toTypeMeta with
      | .Struct _ _ _ _ =>
        -- toTypeMeta.Primitive() is false for a *Struct
        match valueTypeMeta with
        | .Map _ valueElem _ =>
          match value with
          | .nilMap _ => .ok newValue
          | .map _ entries => mapToStruct L conv value valueElem toTypeMeta entries newValue
          | _ => .panic "reflect: call of reflect.Value.MapRange on a value that is no map"
        | .Struct _ _ _ _ =>
          -- valueTypeMeta.Primitive() is false for a *Struct: the switch is left
          .ok newValue
        | _ => .err value (notAssignibleError valueTypeMeta toTypeMeta)
      | .Interface _ => .ok value
      | .Primitive _ _ =>
        match valueTypeMeta with
        | .Primitive _ _ => convertPrimitiveValue L value valueTypeMeta toTypeMeta
        | _ => .err value (notAssignibleError valueTypeMeta toTypeMeta)
      | .Slice toElem _ =>
        match valueTypeMeta with
        | .Array _ _ => .ok newValue
        | .Primitive _ _ =>
          if valueTypeMeta.Kind == .string then
            match L.jsonUnmarshal value.GoString toType with
            | (v, none) => .ok v
            | (_, some _) => .ok newValue
          else .ok newValue
        | _ =>
          match toType with
          | .slice _ elemType =>
            match conv value valueTypeMeta toElem with
            | .ok newElemValue =>
              match assignTo newElemValue elemType with
              | none => .panic "reflect.Set: value is not assignable to the element type"
              | some e => .ok (.slice toType (.cons e .nil))
            | .err _ msg => .err value msg
            | .panic m => .panic m
            | .timeout => .timeout
          | _ => .panic "reflect.MakeSlice of non-slice type"
      | .Map toKey toElem _ =>
        match valueTypeMeta with
        | .Map valueKey valueElem _ =>
          let convertKey := decide (valueKey.Type ≠ toKey.Type)
          let convertElem := decide (valueElem.Type ≠ toElem.Type)
          if !convertKey && !convertElem then convertOf L value toTypeMeta
          else
            match MakeMap toType, value with
            | none, _ => .panic "reflect.MakeMap of non-map type"
            | some made, .nilMap _ => .ok made
            | some made, .map _ entries =>
              mapToMap L conv value valueKey valueElem toKey toElem convertKey entries made
            | some _, _ => .panic "reflect: call of reflect.Value.MapRange on a value that is no map"
        | _ => .err value (notAssignibleError valueTypeMeta toTypeMeta)
      | .Ptr _ _ => .err value "expected non-ptr"
      | .Array _ _ => .err value (notAssignibleError valueTypeMeta toTypeMeta)

/-- The number of pointer layers of a type (the loops counting `valuePtrLevel`, `toPtrLevel`). -/
def Ty.ptrLevel : Ty → Nat
  | .ptr e => e.ptrLevel + 1
  | _ => 0

/-- The type below all pointer layers (the loops computing `valueNonPtrType`, `nonPtrToType`). -/
def Ty.nonPtr : Ty → Ty
  | .ptr e => e.nonPtr
  | t => t

/-- The loop that takes the element `n` times; `.error` is the return from inside the loop
when a nil pointer is met. -/
def derefTimes (toType : Ty) : Nat → Val → Except Res Val
  | 0, newValue => .ok newValue
  | n + 1, newValue =>
    match newValue with
    | .nilPtr _ => .error (.ok (zero toType))
    | .ptr _ x => derefTimes toType n x
    | _ => .error (.panic "reflect: call of reflect.Value.IsNil on a value that is no pointer")

/-- The loop that takes a pointer to the value `n` times. -/
def wrapTimes : Nat → Val → Option Val
  | 0, newValue => some newValue
  | n + 1, newValue =>
    match newValue.Type with
    | none => none
    | some t => wrapTimes n (.ptr (.ptr t) newValue)

/-- The loop `for nonPtrValue.Kind() == reflect.Ptr`: `.ok` is the value below the pointers,
`.error` the return from inside the loop. -/
def stripPtr (toType : Ty) : Val → Except Res Val
  | .nilPtr _ => .error (.ok (zero toType))
  | .ptr _ x => if x.Type = some toType then .error (.ok x) else stripPtr toType x
  | v => .ok v

/-- The end of `convertValue`: what it returns once `convertNonPtrValue` has returned `r`. -/
def convertValueEnd (L : Lib) (conv : Val → TypeMeta → TypeMeta → Res) (value : Val)
    (toTypeMeta : TypeMeta) (toType : Ty) (r : Res) : Res :=
  match r with
  | .ok converted =>
    match converted.Type with
    | none => .panic "reflect: call of reflect.Value.Type on zero Value"
    | some convertedType =>
      if convertedType = toType then .ok converted
      else match (NonPtr toTypeMeta).Type with
        | none => .panic "invalid memory address or nil pointer dereference"
        | some nonPtrToType =>
          if nonPtrToType.Kind == .interface then .ok converted
          else conv converted (get L convertedType) toTypeMeta
  | .err _ msg => .err value msg
  | .panic m => .panic m
  | .timeout => .timeout

/-- The body of `convertValue` after the source has been taken out of its interface value;
`conv` is the function itself, for its recursive calls. -/
def convertValueBody (L : Lib) (conv : Val → TypeMeta → TypeMeta → Res) (value : Val)
    (valueTypeMeta toTypeMeta : TypeMeta) : Res :=
  match value.Type, toTypeMeta.Type with
  | none, _ => .panic "reflect: call of reflect.Value.Type on zero Value"
  | some _, none => .panic "invalid memory address or nil pointer dereference"
  | some valueType, some toType =>
    if valueType = toType then .ok value
    else if toType.Kind == .interface then
      if !valueType.Implements toType then
        .err value (valueType.Str ++ " does not implement " ++ toType.Str)
      else .ok value
    else
      let ptrCase : Option Res :=
        if toType.Kind == .ptr then
          if value.Kind != .ptr then
            -- parse a pointer to the value
            some (conv (.ptr (.ptr valueType) value) (get L (.ptr valueType)) toTypeMeta)
          else if toType.nonPtr = valueType.nonPtr then
            if valueType.ptrLevel > toType.ptrLevel then
              match derefTimes toType (valueType.ptrLevel - toType.ptrLevel) value with
              | .ok newValue => some (.ok newValue)
              | .error r => some r
            else
              match wrapTimes (toType.ptrLevel - valueType.ptrLevel) value with
              | some newValue => some (.ok newValue)
              | none => some (.panic "reflect: call of reflect.Value.Type on zero Value")
          else none
        else none
      match ptrCase with
      | some r => r
      | none =>
        match stripPtr toType value with
        | .error r => r
        | .ok nonPtrValue =>
          if nonPtrValue.Type = some toType then .ok nonPtrValue
          else
            convertValueEnd L conv value toTypeMeta toType
              (convertNonPtrValue L conv nonPtrValue (NonPtr valueTypeMeta) (NonPtr toTypeMeta))

/-- The function `convertValue`. The first argument bounds the depth of the recursion: with
`fuel` used up the result is `timeout`. -/
def convertValue (L : Lib) : Nat → Val → TypeMeta → TypeMeta → Res
  | 0, _, _, _ => .timeout
  | fuel + 1, value, valueTypeMeta, toTypeMeta =>
    match value with
    | .invalid => .err value "received invalid value"
    | .nilIface _ =>
      -- reflect.TypeOf(value.Interface()) is nil, and value.IsZero() holds
      match toTypeMeta.Type with
      | none => .panic "reflect: New(nil)"
      | some toType => .ok (zero toType)
    | .iface _ dyn =>
      match dyn.Type with
      | none => .panic "reflect: call of reflect.Value.Type on zero Value"
      | some dynType => convertValueBody L (convertValue L fuel) dyn (get L dynType) toTypeMeta
    | _ => convertValueBody L (convertValue L fuel) value valueTypeMeta toTypeMeta

/-- The method `Schema.ConvertValue` (and the package function of the same name, on the default
schema). -/
def ConvertValue (L : Lib) (fuel : Nat) (value : Val) (toType : GetArg) : Res :=
  match value.Type with
  | none => .err value "received invalid value"
  | some valueType =>
    match Get L toType with
    | none => .panic "No default type has been defined for kind"
    | some toTypeMeta => convertValue L fuel value (get L valueType) toTypeMeta

/-! ## Predicates and inputs of the statements -/

/-- The destination kinds of the zero rule of `convertPrimitiveValue`: bool, the integer and
unsigned kinds, the float kinds, and struct (a record type that the schema classifies as
primitive). -/
def zeroRuleKind (k : Kind) : Bool :=
  k == .bool || k.isInt || k.isUint || k.isFloat || k == .struct

/-- The kinds of the predeclared scalar types: bool, the integer and unsigned kinds, the float
kinds and string. -/
def primitiveKind (k : Kind) : Bool :=
  k == .bool || k.isInt || k.isUint || k.isFloat || k == .string

/-- The values of the predeclared integer types, within the range of their width, and of
`bool`. -/
def isIntegerOrBool : Val → Bool
  | .int (.basic k none) n => k.isInt && decide (-(2 : Int) ^ (k.bits - 1) ≤ n ∧ n < 2 ^ (k.bits - 1))
  | .uint (.basic k none) n => k.isUint && decide (n < 2 ^ k.bits)
  | .bool (.basic .bool none) _ => true
  | _ => false

/-- Plain values: valid values that are neither pointers nor of interface kind. -/
def Val.plain : Val → Bool
  | .invalid | .nilPtr _ | .ptr _ _ | .nilIface _ | .iface _ _ => false
  | _ => true

/-- The number of pointers to follow from a value down to a value that is no pointer. -/
def Val.ptrDepth : Val → Nat
  | .ptr _ x => x.ptrDepth + 1
  | _ => 0

/-- The fields of a struct after the stores `(i, y)` of a list, in order: field `i` set to `y`. -/
def fill : List (Nat × Val) → Vals → Vals
  | [], fs => fs
  | (i, y) :: rest, fs => fill rest ((fs.set? i y).getD fs)

/-- One entry of the source map is stored in the struct: its key names a field of the
descriptor, the field at that index is exported, the value converts, and the converted value
is assignable to the field. `iy` is the index of the field and the value stored. -/
def stores (L : Lib) (conv : Val → TypeMeta → TypeMeta → Res) (valueElem toTypeMeta : TypeMeta)
    (decls : FieldList) (e : Val × Val) (iy : Nat × Val) : Prop :=
  ∃ sf r f ft, toTypeMeta.FieldByName e.1.GoString = some sf ∧ sf.info.Index = iy.1 ∧
    decls.get? iy.1 = some (f, ft) ∧ exported L f.name = true ∧
    conv e.2 valueElem sf.TypeMeta = .ok r ∧ assignTo r ft = some iy.2

/-- The empty interface type. -/
def emptyInterface : Ty := .iface ⟨"", "interface \x7b\x7d", [], []⟩

/-- The struct type `StructA` of convertvalue_test.go: a string field `Name` and a bool field
`Active`. -/
def StructA : Ty :=
  .struct ⟨"StructA", "typemeta.StructA", [], []⟩
    (.cons ⟨"Name", false, []⟩ (builtin .string) (.cons ⟨"Active", false, []⟩ (builtin .bool) .nil))

/-- A struct type with one string field `Name`. -/
def StructB : Ty :=
  .struct ⟨"StructB", "typemeta.StructB", [], []⟩ (.cons ⟨"Name", false, []⟩ (builtin .string) .nil)

/-- A struct type with one field `P` of type `*interface{}`. -/
def StructP : Ty :=
  .struct ⟨"StructP", "typemeta.StructP", [], []⟩ (.cons ⟨"P", false, []⟩ (.ptr emptyInterface) .nil)

/-- A record type that the schema classifies as primitive, as `time.Time` is: it has the
method `MarshalJSON`. -/
def TimeLike : Ty :=
  .struct ⟨"Time", "time.Time",
      [⟨"MarshalJSON", marshalSig⟩, ⟨"MarshalText", marshalSig⟩, ⟨"String", "func() string"⟩],
      [⟨"UnmarshalJSON", unmarshalSig⟩, ⟨"UnmarshalText", unmarshalSig⟩]⟩
    (.cons ⟨"wall", false, []⟩ (builtin .uint64) (.cons ⟨"ext", false, []⟩ (builtin .int64) .nil))

/-- The type `map[string]interface{}`. -/
def mapStringAny : Ty := .map none (builtin .string) emptyInterface

/-- The type `map[string]int`. -/
def mapStringInt : Ty := .map none (builtin .string) (builtin .int)

/-- The type `[]string`. -/
def sliceOfString : Ty := .slice none (builtin .string)

/-- The slice of type `[]string` with the given strings. -/
def stringSlice (xs : List String) : Val :=
  .slice sliceOfString (Vals.ofList (xs.map (Val.str (builtin .string))))

/-! ## Further predicates and inputs of the statements -/

/-- Whether a character is one of the decimal digits `0` to `9`. -/
def isDecimalDigit (c : Char) : Bool := decide (48 ≤ c.toNat ∧ c.toNat ≤ 57)

/-- The number that decimal digits write in base 10 after the number `acc` written so far. -/
def decimalValue (cs : List Char) (acc : Nat) : Nat :=
  cs.foldl (fun a c => a * 10 + (c.toNat - 48)) acc

/-- The natural number of which the characters are a base-10 literal without sign: one or more
decimal digits. -/
def natLiteral (cs : List Char) : Option Nat :=
  if cs ≠ [] ∧ cs.all isDecimalDigit = true then some (decimalValue cs 0) else none

/-- The integer of which the string is a base-10 literal: one or more decimal digits, with or
without a sign `+` or `-` in front. -/
def intLiteral (s : String) : Option Int :=
  match s.data with
  | [] => none
  | c :: ds =>
    if c = '+' then (natLiteral ds).map Int.ofNat
    else if c = '-' then (natLiteral ds).map (fun n => - Int.ofNat n)
    else (natLiteral (c :: ds)).map Int.ofNat

/-- A pointer in which a nil pointer is met on the way down to the base value: a nil pointer, or
a pointer to such a pointer. -/
def Val.nilMet : Val → Bool
  | .nilPtr (.ptr _) => true
  | .ptr (.ptr _) x => x.nilMet
  | _ => false

/-- An interface type with the one method `String() string`, as `fmt.Stringer` is. -/
def stringerType : Ty :=
  .iface ⟨"Stringer", "fmt.Stringer", [⟨"String", "func() string"⟩], []⟩

/-- The type of the pointers of depth `n` to a base type: `n` stars in front of the type. -/
def ptrN : Nat → Ty → Ty
  | 0, b => b
  | n + 1, b => .ptr (ptrN n b)

/-- A well-typed pointer: a nil pointer of a pointer type, or a pointer of a pointer type to a
value of the element type that, when the element type is a pointer type, is a well-typed
pointer itself. -/
def Val.ptrOK : Val → Bool
  | .nilPtr (.ptr _) => true
  | .ptr (.ptr e) x => x.Type == some e && (e.Kind != .ptr || x.ptrOK)
  | _ => false

/-- The value reached from a pointer by `n` dereferences (`Elem`); `none` when a nil pointer
or a value that is no pointer is met before. -/
def derefN : Nat → Val → Option Val
  | 0, v => some v
  | n + 1, .ptr _ x => derefN n x
  | _ + 1, _ => none

/-- Whether a nil pointer is met during `n` dereferences of a pointer. -/
def nilWithin : Nat → Val → Bool
  | 0, _ => false
  | _ + 1, .nilPtr _ => true
  | n + 1, .ptr _ x => nilWithin n x
  | _ + 1, _ => false

/-- Whether a value is of interface kind: an interface value, nil or holding a dynamic value. -/
def Val.isInterface : Val → Bool
  | .nilIface _ | .iface _ _ => true
  | _ => false

mutual
/-- A value whose parts carry the types that its own type gives them: the target of a pointer
the element type, the elements of a slice or array the element type, the keys and values of a
map the key and element types, the fields of a struct the types of the fields. -/
def Val.wt : Val → Bool
  | .ptr (.ptr e) x => x.Type == some e && x.wt
  | .ptr _ _ => false
  | .slice (.slice _ e) es => Vals.wt e es
  | .slice _ _ => false
  | .array (.array _ _ e) es => Vals.wt e es
  | .array _ _ => false
  | .map (.map _ k e) es => Entries.wt k e es
  | .map _ _ => false
  | .struct (.struct _ decls) fs => Vals.wtFields decls fs
  | .struct _ _ => false
  | .iface _ dyn => dyn.wt
  | _ => true
/-- Every value of the sequence has the element type and is well typed. -/
def Vals.wt (e : Ty) : Vals → Bool
  | .nil => true
  | .cons v r => v.Type == some e && v.wt && Vals.wt e r
/-- The values are those of the fields of a struct type, each well typed. -/
def Vals.wtFields : FieldList → Vals → Bool
  | .nil, .nil => true
  | .cons _ t decls, .cons v r => v.Type == some t && v.wt && Vals.wtFields decls r
  | _, _ => false
/-- Every entry has a key of the key type and a value of the element type, both well typed. -/
def Entries.wt (k e : Ty) : Entries → Bool
  | .nil => true
  | .cons key v r =>
    key.Type == some k && key.wt && v.Type == some e && v.wt && Entries.wt k e r
end

/-- One entry of the source map is stored in the new map: its key (converted when the key types
differ) and its converted value are assignable to the key and element types of the
destination, and the key can be hashed. `y` is the entry stored. -/
def storesEntry (L : Lib) (conv : Val → TypeMeta → TypeMeta → Res) (kt et kt2 et2 : Ty)
    (e y : Val × Val) : Prop :=
  ∃ rk rv, (if kt = kt2 then rk = e.1 else conv e.1 (get L kt) (get L kt2) = .ok rk) ∧
    conv e.2 (get L et) (get L et2) = .ok rv ∧
    assignTo rk kt2 = some y.1 ∧ hashable y.1 = true ∧ assignTo rv et2 = some y.2

/-- A struct type with one field `name` of type string that is not exported. -/
def StructU : Ty :=
  .struct ⟨"StructU", "typemeta.StructU", [], []⟩ (.cons ⟨"name", false, []⟩ (builtin .string) .nil)

/-- A second record type that the schema classifies as primitive: a struct with one field and
the method `MarshalJSON`. -/
def DecimalLike : Ty :=
  .struct ⟨"Decimal", "typemeta.Decimal", [⟨"MarshalJSON", marshalSig⟩], []⟩
    (.cons ⟨"Unscaled", false, []⟩ (builtin .int64) .nil)

/-- The values of the predeclared scalar types: `bool`, the integer, unsigned and float types,
and `string`. -/
def isScalar : Val → Bool
  | .bool (.basic .bool none) _ => true
  | .int (.basic k none) _ => k.isInt
  | .uint (.basic k none) _ => k.isUint
  | .float (.basic k none) _ => k.isFloat
  | .str (.basic .string none) _ => true
  | _ => false

/-- The call returns, with or without an error: it neither panics nor uses up the recursion
budget of the embedding. -/
def Res.returns : Res → Bool
  | .ok _ => true
  | .err _ _ => true
  | _ => false

/-- The library `asciiLib` with the floating-point functions that a string needs on its way to a
bool: `strconv.ParseFloat` given on the one text `Inf`, which it reads as positive infinity
(the bits `0x7FF0000000000000`), and the comparison `f > 0`, true of the floats with the sign
bit clear that are neither zero nor NaN. -/
def infLib : Lib :=
  { asciiLib with
    parseFloat := fun s => if s == "Inf" then some 0x7FF0000000000000 else none
    floatGtZero := fun bits => decide (0 < bits ∧ bits ≤ 0x7FF0000000000000) }

mutual
/-- The tags of a value agree with its type as far as pointers and interfaces go: a value
embedded as a pointer has a type of kind pointer, a value embedded as an interface value has a
type of kind interface, and so for the values that it holds. -/
def Val.tagOK : Val → Bool
  | .nilPtr t => t.Kind == .ptr
  | .ptr t x => t.Kind == .ptr && x.tagOK
  | .nilIface t => t.Kind == .interface
  | .iface t dyn => t.Kind == .interface && dyn.tagOK
  | .slice _ es => Vals.tagOK es
  | .array _ es => Vals.tagOK es
  | .struct _ fs => Vals.tagOK fs
  | .map _ es => Entries.tagOK es
  | _ => true
/-- The tags of every value of the sequence agree with its type. -/
def Vals.tagOK : Vals → Bool
  | .nil => true
  | .cons v r => v.tagOK && Vals.tagOK r
/-- The tags of every key and value of the entries agree with its type. -/
def Entries.tagOK : Entries → Bool
  | .nil => true
  | .cons k v r => k.tagOK && v.tagOK && Entries.tagOK r
end

/-- The library leaves, in the variable that it unmarshals into, a value of the type of the
variable (a type that is neither pointer nor interface type), embedded with the tags of that
type. -/
def Lib.typed (L : Lib) : Prop :=
  (∀ (m : String) (t : Ty) (s : String), t.Kind ≠ .ptr → t.Kind ≠ .interface →
    (L.callUnmarshal m t s).1.Type = some t ∧ (L.callUnmarshal m t s).1.plain = true)
  ∧ (∀ (s : String) (t : Ty), t.Kind ≠ .ptr → t.Kind ≠ .interface →
    (L.jsonUnmarshal s t).1.Type = some t ∧ (L.jsonUnmarshal s t).1.plain = true)

/-! ## The schema as a state (schema.go, util.go)

The descriptors of a schema are objects with an identity, and the types of a program may refer
to themselves. Here the types of a program are numbered, a descriptor object is known by its
address, and `Schema.get` is a function from the state of the schema to its next state. -/

/-- One `reflect.Type` of a program, as `Schema.get` reads it. A type names its element, key
and field types by their numbers, so that type definitions may refer to each other and to
themselves. `basic` covers every kind of the default case of the switch. -/
inductive TypeDef where
  | basic (k : Kind)
  | ptr (elem : Nat)
  | struct (d : Decl) (fields : List (FieldDecl × Nat))
  | map (key : Nat) (elem : Nat)
  | slice (elem : Nat)
  | array (len : Nat) (elem : Nat)
  | iface (d : Decl)
deriving DecidableEq, Repr

/-- The types that a type refers to: `Elem()`, `Key()` and the types of the fields. -/
def TypeDef.refs : TypeDef → List Nat
  | .ptr e => [e]
  | .slice e => [e]
  | .array _ e => [e]
  | .map k e => [k, e]
  | .struct _ fields => fields.map Prod.snd
  | _ => []

/-- The types with a number below `n` refer to types with a number below `n` only: they are a
finite set of type definitions. -/
def Closed (T : Nat → TypeDef) (n : Nat) : Prop :=
  ∀ t, t < n → ∀ r ∈ (T t).refs, r < n

/-- The test `rtyp.Implements(primitiveType)` for a struct type with the declaration `d`: the
method set of a struct type is that of its declaration. -/
def implementsPrimitive (d : Decl) : Bool :=
  (Ty.struct d .nil).Implements primitiveType

/-- A `StructField` held by a `*Struct` object: its `TypeMeta` is the address of a descriptor
object. -/
structure FieldObj where
  info : FieldInfo
  TypeMeta : Nat
deriving DecidableEq, Repr

/-- A descriptor object. The descriptors that it refers to are given by their addresses,
`none` being the nil `TypeMeta` of a field that is not set; `typ` is the number of the type,
for an `*Interface` `none` when its `typ` is nil. The map `Fields` of a `*Struct` is the list of
its entries in the order in which they were stored. -/
inductive Desc where
  | Primitive (typ : Nat)
  | Struct (Fields : List FieldObj) (typ : Nat)
  | Slice (Elem : Option Nat) (typ : Nat)
  | Array (Elem : Option Nat) (typ : Nat)
  | Map (Key : Option Nat) (Elem : Option Nat) (typ : Nat)
  | Ptr (Elem : Option Nat) (typ : Nat)
  | Interface (typ : Option Nat)
deriving DecidableEq, Repr

/-- The state of a schema: the descriptor objects allocated so far, the address of an object
being its position, and the map `types` as the list of its entries, the latest first. The key
`none` is the nil type. -/
structure Schema where
  objects : List Desc
  types : List (Option Nat × Nat)
deriving DecidableEq, Repr

/-- The function `NewSchema`: no object, an empty map. -/
def NewSchema : Schema := ⟨[], []⟩

/-- The entry of a key in the entries of a map. -/
def lookupType (rtyp : Option Nat) : List (Option Nat × Nat) → Option Nat
  | [] => none
  | e :: rest => if e.1 = rtyp then some e.2 else lookupType rtyp rest

/-- The read `s.types[rtyp]`; `none` is nil. -/
def Schema.typesGet (s : Schema) (rtyp : Option Nat) : Option Nat :=
  lookupType rtyp s.types

/-- The two statements `x := &D{..}` and `s.types[rtyp] = x`: a new object, at the address
`s.objects.length`, stored in the map. -/
def Schema.new (s : Schema) (rtyp : Option Nat) (d : Desc) : Schema :=
  ⟨s.objects ++ [d], (rtyp, s.objects.length) :: s.types⟩

/-- The list with the function applied to the element at a position. -/
def modifyAt (f : Desc → Desc) : Nat → List Desc → List Desc
  | _, [] => []
  | 0, d :: ds => f d :: ds
  | a + 1, d :: ds => d :: modifyAt f a ds

/-- An assignment to a field of the object at an address. -/
def Schema.update (s : Schema) (a : Nat) (f : Desc → Desc) : Schema :=
  ⟨modifyAt f a s.objects, s.types⟩

/-- The assignment `x.Elem = elem`. -/
def Desc.setElem (elem : Nat) : Desc → Desc
  | .Slice _ typ => .Slice (some elem) typ
  | .Array _ typ => .Array (some elem) typ
  | .Map Key _ typ => .Map Key (some elem) typ
  | .Ptr _ typ => .Ptr (some elem) typ
  | d => d

/-- The assignment `mp.Key = key`. -/
def Desc.setKey (key : Nat) : Desc → Desc
  | .Map _ Elem typ => .Map (some key) Elem typ
  | d => d

/-- The assignment `strct.Fields[fieldIndex] = field` for an index not stored before. -/
def Desc.addField (field : FieldObj) : Desc → Desc
  | .Struct Fields typ => .Struct (Fields ++ [field]) typ
  | d => d

/-- The loop over the fields of a struct type in `Schema.get`, from the field with index
`fieldIndex` on; `get` is the method itself, for the descriptors of the field types, and
`strct` the address of the `*Struct`. `none` when a call of `get` gives none. -/
def Schema.getFields (L : Lib) (get : Schema → Option Nat → Option (Schema × Nat)) (strct : Nat) :
    List (FieldDecl × Nat) → Nat → Schema → Option Schema
  | [], _, s => some s
  | rsf :: rest, fieldIndex, s =>
    match get s (some rsf.2) with
    | none => none
    | some r =>
      Schema.getFields L get strct rest (fieldIndex + 1)
        (r.1.update strct (Desc.addField ⟨fieldInfoOf L rsf.1 fieldIndex, r.2⟩))

/-- The method `Schema.get`, for the types `T` of a program: the state afterwards and the
address of the descriptor returned. The first argument bounds the depth of the recursion:
`none` when it is used up. -/
def Schema.get (L : Lib) (T : Nat → TypeDef) : Nat → Schema → Option Nat → Option (Schema × Nat)
  | 0, _, _ => none
  | fuel + 1, s, rtyp =>
    match s.typesGet rtyp with
    | some tm => some (s, tm)
    | none =>
      match rtyp with
      | none => some (s.new none (.Interface none), s.objects.length)
      | some t =>
        match T t with
        | .ptr e =>
          match Schema.get L T fuel (s.new rtyp (.Ptr none t)) (some e) with
          | none => none
          | some r => some (r.1.update s.objects.length (Desc.setElem r.2), s.objects.length)
        | .struct d fields =>
          if implementsPrimitive d then some (s.new rtyp (.Primitive t), s.objects.length)
          else
            match Schema.getFields L (Schema.get L T fuel) s.objects.length fields 0
                (s.new rtyp (.Struct [] t)) with
            | none => none
            | some s1 => some (s1, s.objects.length)
        | .map k e =>
          match Schema.get L T fuel (s.new rtyp (.Map none none t)) (some k) with
          | none => none
          | some r =>
            match Schema.get L T fuel (r.1.update s.objects.length (Desc.setKey r.2))
                (some e) with
            | none => none
            | some r2 => some (r2.1.update s.objects.length (Desc.setElem r2.2), s.objects.length)
        | .slice e =>
          match Schema.get L T fuel (s.new rtyp (.Slice none t)) (some e) with
          | none => none
          | some r => some (r.1.update s.objects.length (Desc.setElem r.2), s.objects.length)
        | .array _ e =>
          match Schema.get L T fuel (s.new rtyp (.Array none t)) (some e) with
          | none => none
          | some r => some (r.1.update s.objects.length (Desc.setElem r.2), s.objects.length)
        | .iface _ => some (s.new rtyp (.Interface (some t)), s.objects.length)
        | .basic _ => some (s.new rtyp (.Primitive t), s.objects.length)

/-- The states that a schema reaches from a state by calls of `get` that return. -/
inductive Schema.Steps (L : Lib) (T : Nat → TypeDef) : Schema → Schema → Prop where
  | refl (s : Schema) : Schema.Steps L T s s
  | step (s s1 s2 : Schema) (fuel : Nat) (rtyp : Option Nat) (a : Nat) :
      Schema.Steps L T s s1 → Schema.get L T fuel s1 rtyp = some (s2, a) → Schema.Steps L T s s2

/-- The fields that the `*Struct` of a struct type holds when the descriptor of each field is
the one that the map `types` has for the type of the field; `none` when the map has none for
some field. -/
def Schema.fieldsOf (L : Lib) (s : Schema) : List (FieldDecl × Nat) → Nat → Option (List FieldObj)
  | [], _ => some []
  | rsf :: rest, fieldIndex =>
    match s.typesGet (some rsf.2), Schema.fieldsOf L s rest (fieldIndex + 1) with
    | some tm, some fs => some (⟨fieldInfoOf L rsf.1 fieldIndex, tm⟩ :: fs)
    | _, _ => none

/-- The descriptor of a type whose element, key and field descriptors are the descriptors that
the map `types` has for the element, key and field types; `none` when the map has none for one
of them. -/
def Schema.descOf (L : Lib) (T : Nat → TypeDef) (s : Schema) : Option Nat → Option Desc
  | none => some (.Interface none)
  | some t =>
    match T t with
    | .ptr e => (s.typesGet (some e)).map (fun ea => .Ptr (some ea) t)
    | .struct d fields =>
      if implementsPrimitive d then some (.Primitive t)
      else (Schema.fieldsOf L s fields 0).map (fun fs => .Struct fs t)
    | .map k e =>
      match s.typesGet (some k), s.typesGet (some e) with
      | some ka, some ea => some (.Map (some ka) (some ea) t)
      | _, _ => none
    | .slice e => (s.typesGet (some e)).map (fun ea => .Slice (some ea) t)
    | .array _ e => (s.typesGet (some e)).map (fun ea => .Array (some ea) t)
    | .iface _ => some (.Interface (some t))
    | .basic _ => some (.Primitive t)

/-- Every descriptor that the map `types` holds is complete: the object is the descriptor of
its type, and the descriptors it refers to are the ones that the map holds for the element,
key and field types. -/
def Schema.coherent (L : Lib) (T : Nat → TypeDef) (s : Schema) : Prop :=
  ∀ rtyp a, s.typesGet rtyp = some a →
    ∃ d, Schema.descOf L T s rtyp = some d ∧ s.objects[a]? = some d

/-- The function `StructOf` of util.go on the descriptor at an address (`none` for the nil
`TypeMeta`): `some none` is nil. The first argument bounds the depth of the recursion. -/
def StructOf (s : Schema) : Nat → Option Nat → Option (Option Nat)
  | 0, _ => none
  | _ + 1, none => some none
  | fuel + 1, some t =>
    match s.objects[t]? with
    | none => none
    | some (.Struct _ _) => some (some t)
    | some (.Ptr Elem _) => StructOf s fuel Elem
    | some (.Slice Elem _) => StructOf s fuel Elem
    | some (.Array Elem _) => StructOf s fuel Elem
    | some (.Map _ Elem _) => StructOf s fuel Elem
    | some _ => some none

/-- The function `ElemOf` of util.go on the descriptor at an address: `some none` is nil. The
first argument bounds the depth of the recursion. -/
def ElemOf (s : Schema) : Nat → Option Nat → Option (Option Nat)
  | 0, _ => none
  | _ + 1, none => some none
  | fuel + 1, some t =>
    match s.objects[t]? with
    | none => none
    | some (.Ptr Elem _) => ElemOf s fuel Elem
    | some (.Slice Elem _) => some Elem
    | some (.Array Elem _) => some Elem
    | some (.Map _ Elem _) => some Elem
    | some _ => some none

/-- The field `Elem` of a descriptor object that has one. -/
def Desc.Elem : Desc → Option (Option Nat)
  | .Slice Elem _ => some Elem
  | .Array Elem _ => some Elem
  | .Map _ Elem _ => some Elem
  | .Ptr Elem _ => some Elem
  | _ => none

/-- The descriptor at `a` is built from the descriptor at `target` by `n` wrappers, each a
pointer, slice, array or map descriptor whose `Elem` is the next one. -/
inductive Wraps (s : Schema) (target : Nat) : Nat → Nat → Prop where
  | zero : Wraps s target 0 target
  | succ (n a e : Nat) (d : Desc) :
      s.objects[a]? = some d → d.Elem = some (some e) → Wraps s target n e →
      Wraps s target (n + 1) a

/-- The types of a program with a struct type that refers to itself: type 0 is
`type Node struct { Value string; Next *Node }`, type 1 is `*Node`, type 2 is `string`. -/
def nodeTypes : Nat → TypeDef
  | 0 => .struct ⟨"Node", "typemeta.Node", [], []⟩
      [(⟨"Value", false, []⟩, 2), (⟨"Next", false, []⟩, 1)]
  | 1 => .ptr 0
  | _ => .basic .string

/-- The types of `TestUtil`: type 0 is `StructA`, type 1 is `string`, type 2 is `bool`, type 3
is `*StructA`, type 4 is `[]*StructA`, type 5 is `*[]*StructA`, type 6 is `*string`. -/
def utilTypes : Nat → TypeDef
  | 0 => .struct ⟨"StructA", "typemeta.StructA", [], []⟩
      [(⟨"Name", false, []⟩, 1), (⟨"Active", false, []⟩, 2)]
  | 1 => .basic .string
  | 2 => .basic .bool
  | 3 => .ptr 0
  | 4 => .slice 3
  | 5 => .ptr 4
  | 6 => .ptr 1
  | _ => .basic .string

/-- The state of the schema after a call of `get`; the state before when the call gives
none. -/
def Schema.after (L : Lib) (T : Nat → TypeDef) (fuel : Nat) (s : Schema) (rtyp : Option Nat) :
    Schema :=
  match Schema.get L T fuel s rtyp with
  | some r => r.1
  | none => s

/-- The schema of `TestUtil` after the descriptors of `*[]*StructA` and of `*string` were
requested: the objects at the addresses 0 to 5 are the descriptors of `*[]*StructA`,
`[]*StructA`, `*StructA`, `StructA`, `string` and `bool`, the object at 6 is that of
`*string`. -/
def utilSchema : Schema :=
  Schema.after asciiLib utilTypes 5 (Schema.after asciiLib utilTypes 5 NewSchema (some 5)) (some 6)

/-- Every descriptor that the map `types` holds is an object of the state. -/
def Schema.wf (s : Schema) : Prop :=
  ∀ k a, s.typesGet k = some a → a < s.objects.length

/-- The state `s1` extends the state `s`: the entries of the map `types` are kept, and an entry
that is new holds an object that is new. -/
structure Schema.Ext (s s1 : Schema) : Prop where
  mono : ∀ k a, s.typesGet k = some a → s1.typesGet k = some a
  len : s.objects.length ≤ s1.objects.length
  fresh : ∀ k a, s1.typesGet k = some a → s.typesGet k = some a ∨ s.objects.length ≤ a

/-- The objects of `s` other than the one at `x` are the same in `s1`. -/
def Schema.Frame (s s1 : Schema) (x : Nat) : Prop :=
  ∀ b, b < s.objects.length → b ≠ x → s1.objects[b]? = s.objects[b]?

/-- The object at `x` is held by the map `types` for the key `k` at most. -/
def Schema.uniq (s : Schema) (k : Option Nat) (x : Nat) : Prop :=
  ∀ j a, s.typesGet j = some a → j ≠ k → a ≠ x

/-- Every descriptor that the map `types` holds for a key outside `P` is complete (see
`Schema.coherent`); the keys in `P` are those whose descriptors are under construction. -/
def Schema.cohExcept (L : Lib) (T : Nat → TypeDef) (s : Schema) (P : List (Option Nat)) : Prop :=
  ∀ k a, s.typesGet k = some a → k ∉ P →
    ∃ d, Schema.descOf L T s k = some d ∧ s.objects[a]? = some d

/-- The number of types with a number below `n` for which the map `types` has no descriptor. -/
def Schema.uncached (s : Schema) (n : Nat) : Nat :=
  ((List.range n).filter (fun t => (s.typesGet (some t)).isNone)).length

/-- What a call of `get` that returns does to the state: the state afterwards extends the state
before, the objects of the state before are untouched, the descriptor returned is the one that
the map `types` holds for the type, and the descriptors that were complete stay complete. -/
structure Schema.GetSpec (L : Lib) (T : Nat → TypeDef) (s : Schema) (k : Option Nat)
    (s1 : Schema) (a : Nat) : Prop where
  ext : Schema.Ext s s1
  frame : ∀ b, b < s.objects.length → s1.objects[b]? = s.objects[b]?
  wf : s1.wf
  cached : s1.typesGet k = some a
  coh : ∀ P, s.cohExcept L T P → s1.cohExcept L T P

/-- The schema after the descriptor of `Node` was requested from a new schema: the object at
the address 0 is the descriptor of `Node`, the object at 1 that of `string`, the object at 2
that of `*Node`. -/
def nodeSchema : Schema := Schema.after asciiLib nodeTypes 4 NewSchema (some 0)

/-! ## Further inputs of the statements -/

/-- A struct type with one string field `Name` that has the serialization alias `name`. -/
def StructN : Ty :=
  .struct ⟨"StructN", "typemeta.StructN", [], []⟩
    (.cons ⟨"Name", false, [⟨"json", "name", []⟩]⟩ (builtin .string) .nil)

/-! ## enum.go -/

/-- The type `Enum`. The map `values` is the list of its entries, each key once, in the order
in which the keys were stored first; `none` is the nil map. A value of the map is given by
`reflect.ValueOf` of it. -/
structure Enum where
  name : String
  typ : Option Ty
  values : Option (List (String × Val))
  firstKey : String
deriving DecidableEq

/-- The assignment `values[key] = value` to a map that is not nil. -/
def enumSet (values : List (String × Val)) (key : String) (value : Val) : List (String × Val) :=
  if values.any (fun e => e.1 == key) then
    values.map (fun e => if e.1 == key then (key, value) else e)
  else values ++ [(key, value)]

/-- The read `values[key]` of a map; `none` is the nil value of a key that is absent. -/
def enumGet (values : List (String × Val)) (key : String) : Option Val :=
  (values.find? (fun e => e.1 == key)).map Prod.snd

/-- The loop of `NewEnum` over a `[]string`: it stores each string under itself. -/
def enumOfStrings (strarr : List Val) : List (String × Val) :=
  strarr.foldl (fun values stri => enumSet values stri.GoString (.str (builtin .string) stri.GoString))
    []

/-- The loop of `NewEnum` over a `[]interface{}`, from the item with index `index` on: the map
and the first key afterwards. The type stays nil, for `reflect.TypeOf(typ)` of the nil `typ` is
nil. -/
def enumOfInterfaces (L : Lib) : List Val → Nat → List (String × Val) × String
    → List (String × Val) × String
  | [], _, acc => acc
  | iv :: rest, index, acc =>
    let strv := Sprint L iv
    enumOfInterfaces L rest (index + 1)
      (enumSet acc.1 strv (.str (builtin .string) strv), if index = 0 then strv else acc.2)

/-- The method `Value.Elem` of a pointer: the invalid value for a nil pointer. -/
def ptrElem : Val → Val
  | .ptr _ x => x
  | .nilPtr _ => .invalid
  | v => v

/-- The loop of `NewEnum` over the items of any other slice or array, from the item with index
`i` on: the type, the map and the first key afterwards; `none` is the panic of
`reflect.Value.Type` on the invalid value that a nil pointer holds. -/
def enumOfItems : List Val → Nat → Option Ty × List (String × Val) × String
    → Option (Option Ty × List (String × Val) × String)
  | [], _, acc => some acc
  | item :: rest, i, acc =>
    let iv := if item.Kind == .ptr then ptrElem item else item
    match (match acc.1 with
      | some typ => some (some typ)
      | none => iv.Type.map some) with
    | none => none
    | some typ =>
      let str := iv.GoString
      enumOfItems rest (i + 1)
        (typ, enumSet acc.2.1 str (.str (builtin .string) str), if i = 0 then str else acc.2.2)

/-- The items of a slice or array value. -/
def Val.items : Val → Option (List Val)
  | .nilSlice _ => some []
  | .slice _ elems => some elems.toList
  | .array _ elems => some elems.toList
  | _ => none

/-- The function `NewEnum`; `v` is `reflect.ValueOf` of the argument, the invalid value for
nil. The error is the message of a panic. -/
def NewEnum (L : Lib) (name : String) (v : Val) : Except String Enum :=
  let stringType : Ty := builtin .string
  if v.Type = some (.slice none (builtin .string)) then
    .ok ⟨name, some stringType, some (enumOfStrings (v.items.getD [])), ""⟩
  else if v.Type = some (.slice none emptyInterface) then
    let r := enumOfInterfaces L (v.items.getD []) 0 ([], "")
    .ok ⟨name, some stringType, some r.1, r.2⟩
  else if v.Type = some (.map none (builtin .string) emptyInterface) then
    match v with
    | .map _ entries =>
      .ok ⟨name, some stringType, some (entries.toList.map (fun e => (e.1.GoString, e.2))), ""⟩
    | _ => .ok ⟨name, some stringType, none, ""⟩
  else
    let rv := if v.Kind == .ptr then ptrElem v else v
    if rv.Kind == .array || rv.Kind == .slice then
      match enumOfItems (rv.items.getD []) 0 (none, [], "") with
      | none => .error "reflect: call of reflect.Value.Type on zero Value"
      | some r =>
        .ok ⟨name, some (r.1.getD stringType), some r.2.1, r.2.2⟩
    else
      .error ("Unable to create enum " ++ name ++ " from value "
        ++ (if v.IsValid then Sprint L v else "<nil>"))

/-- The method `Enum.SetValue`: the enum that it returns. -/
def Enum.SetValue (e : Enum) (name : String) (value : Val) : Enum :=
  match e.values with
  | none => { e with values := some [(name, value)] }
  | some values => { e with values := some (enumSet values name value) }

/-- The method `Enum.FirstEntry`: the key and the value, `none` for nil. `visit` gives the
order in which a `range` over the map visits its entries, which Go does not fix. -/
def Enum.FirstEntry (visit : List (String × Val) → List (String × Val)) (e : Enum) :
    String × Option Val :=
  match e.values with
  | none => ("", none)
  | some values =>
    if e.firstKey != "" then (e.firstKey, enumGet values e.firstKey)
    else
      match visit values with
      | entry :: _ => (entry.1, some entry.2)
      | [] => ("", none)

/-- The method `Enum.Parse`: what is left of it, the rest being commented out. -/
def Enum.Parse (e : Enum) (_value : Val) : Option Val × Bool :=
  match e.values with
  | none => (none, false)
  | some _ => (none, false)

/-- The method `Enum.Has`. -/
def Enum.Has (e : Enum) (value : Val) : Bool :=
  (e.Parse value).2

/-! ## struct.go and util.go on descriptor objects -/

/-- The read `s.Fields[fieldIndex]` of the map of a `*Struct`; `none` when the map has no such
key. -/
def fieldAt (Fields : List FieldObj) (fieldIndex : Int) : Option FieldObj :=
  Fields.find? (fun f => (f.info.Index : Int) == fieldIndex)

/-- The method `Struct.Field` on the object at an address; `none` is nil. -/
def Schema.Field (s : Schema) (st : Nat) (fieldIndex : Int) : Option FieldObj :=
  match s.objects[st]? with
  | some (.Struct Fields _) => fieldAt Fields fieldIndex
  | _ => none

/-- The method `Struct.FindField` for a struct type with `numField` fields: the first index
whose field passes the test. The zero `StructField` read at an index that is no key of the map
passes no test on a name that is not empty. -/
def findFieldObj (Fields : List FieldObj) (numField : Nat) (iteratee : FieldObj → Bool) :
    Option FieldObj :=
  (List.range numField).findSome? (fun i =>
    match fieldAt Fields i with
    | some field => if iteratee field then some field else none
    | none => none)

/-- The method `Struct.FieldByName` on the fields of a `*Struct`. -/
def fieldObjByName (Fields : List FieldObj) (numField : Nat) (fieldName : String) :
    Option FieldObj :=
  if fieldName == "" then none
  else findFieldObj Fields numField
    (fun field => field.info.Name == fieldName || field.info.JSONName == fieldName)

/-- The method `NumField` of the type with a number. -/
def numField (T : Nat → TypeDef) (typ : Nat) : Nat :=
  match T typ with
  | .struct _ fields => fields.length
  | _ => 0

/-- The method `Copy` of a `*Ptr` or `*Slice`: the state with a new object that holds the same
fields; its address is the number of objects before. -/
def Schema.copy (s : Schema) (d : Desc) : Schema :=
  ⟨s.objects ++ [d], s.types⟩

/-- The assignment `fieldType.Elem = elemTypeMeta` to a `*Slice`; the descriptor given may be
nil. -/
def Desc.assignElem (elemTypeMeta : Option Nat) : Desc → Desc
  | .Slice _ typ => .Slice elemTypeMeta typ
  | d => d

/-- The function `setElem` of struct.go: the state afterwards and the address of the
descriptor returned. `some none` is the panic of the default case, `none` the end of the
recursion budget given by the first argument (also when the address holds no object, as in
`StructOf`). -/
def setElem : Nat → Schema → Option Nat → Option Nat → Option (Option (Schema × Nat))
  | 0, _, _, _ => none
  | fuel + 1, s, typeMeta, elemTypeMeta =>
    match typeMeta with
    | none => some none
    | some a =>
      match s.objects[a]? with
      | none => none
      | some (.Ptr Elem typ) =>
        -- fieldType = fieldType.Copy(); return setElem(fieldType, elemTypeMeta)
        setElem fuel (s.copy (.Ptr Elem typ)) (some s.objects.length) elemTypeMeta
      | some (.Slice Elem typ) =>
        -- fieldType = fieldType.Copy(); fieldType.Elem = elemTypeMeta
        some (some ((s.copy (.Slice Elem typ)).update s.objects.length
          (Desc.assignElem elemTypeMeta), s.objects.length))
      | some _ => some none

/-- The assignment `s.Fields[field.Index] = field` for an index that is a key of the map. -/
def Desc.putField (field : FieldObj) : Desc → Desc
  | .Struct Fields typ =>
    .Struct (Fields.map (fun f => if f.info.Index = field.info.Index then field else f)) typ
  | d => d

/-- The method `Struct.SetFieldElem` on the `*Struct` at the address `st`: the state afterwards.
`some none` is a panic (no field of the name, or the default case of `setElem`), `none` the end
of the recursion budget (also when the address holds no `*Struct`). -/
def SetFieldElem (T : Nat → TypeDef) (fuel : Nat) (s : Schema) (st : Nat) (fieldName : String)
    (fieldElemType : Option Nat) : Option (Option Schema) :=
  match s.objects[st]? with
  | some (.Struct Fields typ) =>
    match fieldObjByName Fields (numField T typ) fieldName with
    | none => some none
    | some field =>
      match setElem fuel s (some field.TypeMeta) fieldElemType with
      | none => none
      | some none => some none
      | some (some r) =>
        some (some (r.1.update st (Desc.putField { field with TypeMeta := r.2 })))
  | _ => none

/-- What `StructFieldAt` gives back: nil, a field, or a runtime panic. -/
inductive FieldRes where
  | nil
  | field (f : FieldObj)
  | panic (msg : String)
deriving DecidableEq, Repr

/-- The function `structFieldAt` of util.go; `st` is the address of the `*Struct`, `none` for
nil, and `fieldPathLen` is the length of the path. `none` when `StructOf` has used up its
recursion budget `fuel`. -/
def structFieldAt (s : Schema) (fuel : Nat) : Option Nat → List Int → Option FieldRes
  | none, _ => some .nil
  | some _, [] => some (.panic "index out of range")
  | some st, [fieldIndex] =>
    match s.Field st fieldIndex with
    | none => some .nil
    | some field => some (.field field)
  | some st, fieldIndex :: rest =>
    match s.Field st fieldIndex with
    | none => some (.panic "invalid memory address or nil pointer dereference")
    | some field =>
      match StructOf s fuel (some field.TypeMeta) with
      | none => none
      | some st2 => structFieldAt s fuel st2 rest

/-- The function `StructFieldAt` of util.go on the descriptor at an address. -/
def StructFieldAt (s : Schema) (fuel : Nat) (t : Option Nat) (fieldPath : List Int) :
    Option FieldRes :=
  if fieldPath.length = 0 then some .nil
  else
    match StructOf s fuel t with
    | none => none
    | some st => structFieldAt s fuel st fieldPath

/-- The types of a program with a struct in a struct and fields that are a slice and a pointer
to a slice: type 0 is `type Outer struct { Inner Inner; Tags []string; Refs *[]string }`,
type 1 is `type Inner struct { Name string }`, type 2 is `string`, type 3 is `[]string`,
type 4 is `*[]string`, type 5 is `int`. -/
def outerTypes : Nat → TypeDef
  | 0 => .struct ⟨"Outer", "typemeta.Outer", [], []⟩
      [(⟨"Inner", false, []⟩, 1), (⟨"Tags", false, []⟩, 3), (⟨"Refs", false, []⟩, 4)]
  | 1 => .struct ⟨"Inner", "typemeta.Inner", [], []⟩ [(⟨"Name", false, []⟩, 2)]
  | 2 => .basic .string
  | 3 => .slice 2
  | 4 => .ptr 3
  | _ => .basic .int

/-- The schema after the descriptors of `Outer` and of `int` were requested: the objects at the
addresses 0 to 5 are the descriptors of `Outer`, `Inner`, `string`, `[]string`, `*[]string` and
`int`. -/
def outerSchema : Schema :=
  Schema.after asciiLib outerTypes 6 (Schema.after asciiLib outerTypes 6 NewSchema (some 0))
    (some 5)

/-- The fields that the descriptor of `Outer` holds in `outerSchema`. -/
def outerFields : List FieldObj :=
  [⟨⟨"Inner", 0, false, false, "Inner", false, false, "", none, []⟩, 1⟩,
   ⟨⟨"Tags", 1, false, false, "Tags", false, false, "", none, []⟩, 3⟩,
   ⟨⟨"Refs", 2, false, false, "Refs", false, false, "", none, []⟩, 4⟩]

/-! ## Which field a key names -/

/-- Whether a key is the name or the serialization alias (`JSONName`) of the field declared at
an index. -/
def namesField (L : Lib) (f : FieldDecl) (fieldIndex : Nat) (key : String) : Bool :=
  f.name == key || (fieldInfoOf L f fieldIndex).JSONName == key

/-- The field that a key selects among the fields of a struct type: the key is not empty, it is
the name or the alias of the field at the index, and of no field declared before it. -/
def selectsField (L : Lib) (decls : FieldList) (key : String) (fieldIndex : Nat) : Prop :=
  key ≠ "" ∧ (decls.get? fieldIndex).any (fun p => namesField L p.1 fieldIndex key) = true
    ∧ ∀ j, j < fieldIndex → (decls.get? j).any (fun p => namesField L p.1 j key) = false

/-- The first two fields of `StructA` of struct_test.go:
`String string` with the tags `json:"string" description:"A string field"` and
`Bool bool` with the tag `json:"bool,omitempty"`. -/
def StructJ : Ty :=
  .struct ⟨"StructJ", "typemeta.StructJ", [], []⟩
    (.cons ⟨"String", false, [⟨"json", "string", []⟩, ⟨"description", "A string field", []⟩]⟩
      (builtin .string)
      (.cons ⟨"Bool", false, [⟨"json", "bool", ["omitempty"]⟩]⟩ (builtin .bool) .nil))

/-- A struct type in which the alias of the first field is the name of the second:
`struct { A string; B string }` with the tag `json:"B"` on `A`. -/
def StructAB : Ty :=
  .struct ⟨"StructAB", "typemeta.StructAB", [], []⟩
    (.cons ⟨"A", false, [⟨"json", "B", []⟩]⟩ (builtin .string)
      (.cons ⟨"B", false, []⟩ (builtin .string) .nil))

/-! ## Facts about the embedding -/

theorem get_Type (L : Lib) (t : Ty) : (get L t).Type = some t := by
  cases t with
  | struct d fs =>
    by_cases h : (Ty.struct d fs).Implements primitiveType = true <;> simp [get, TypeMeta.Type, h]
  | _ => simp [get, TypeMeta.Type]

theorem zero_Type (t : Ty) : (zero t).Type = some t := by
  cases t with
  | basic k d => simp only [zero]; split_ifs <;> rfl
  | _ => simp [zero, Val.Type]

theorem allZero_replicate (n : Nat) (v : Val) (h : v.IsZero = true) :
    Vals.allZero (Vals.replicate n v) = true := by
  induction n with
  | zero => rfl
  | succ n ih => simp [Vals.replicate, Vals.allZero, h, ih]

mutual
theorem zero_IsZero : ∀ (t : Ty), (zero t).IsZero = true
  | .basic k d => by
    simp only [zero]
    split_ifs <;> simp [Val.IsZero]
  | .ptr e => by simp [zero, Val.IsZero]
  | .slice d e => by simp [zero, Val.IsZero]
  | .array d n e => by
    simp only [zero, Val.IsZero]
    exact allZero_replicate n _ (zero_IsZero e)
  | .map d k e => by simp [zero, Val.IsZero]
  | .struct d fs => by
    simp only [zero, Val.IsZero]
    exact zeroFields_allZero fs
  | .iface d => by simp [zero, Val.IsZero]
theorem zeroFields_allZero : ∀ (fs : FieldList), Vals.allZero (zeroFields fs) = true
  | .nil => rfl
  | .cons _ t r => by
    simp [zeroFields, Vals.allZero, zero_IsZero t, zeroFields_allZero r]
end

theorem zero_plain (L : Lib) (S : Ty) (hS : get L S = .Primitive S "") : (zero S).plain = true := by
  cases S with
  | basic k d => simp only [zero]; split_ifs <;> rfl
  | struct d fs => rfl
  | _ => simp [get] at hS

theorem convertValueBody_same (L : Lib) (conv : Val → TypeMeta → TypeMeta → Res) (value : Val)
    (vm tm : TypeMeta) (t : Ty) (hv : value.Type = some t) (ht : tm.Type = some t) :
    convertValueBody L conv value vm tm = .ok value := by
  simp [convertValueBody, hv, ht]

theorem stripPtr_of_not_ptr (T : Ty) (v : Val) (h1 : ∀ t, v ≠ .nilPtr t) (h2 : ∀ t x, v ≠ .ptr t x) :
    stripPtr T v = .ok v := by
  cases v <;> simp_all [stripPtr]

theorem convertValue_eq_body (L : Lib) (fuel : Nat) (v : Val) (vm tm : TypeMeta) (S : Ty)
    (hv : v.Type = some S) (h1 : ∀ it dyn, v ≠ .iface it dyn) (h2 : ∀ it, v ≠ .nilIface it) :
    convertValue L (fuel + 1) v vm tm = convertValueBody L (convertValue L fuel) v vm tm := by
  cases v with
  | invalid => simp [Val.Type] at hv
  | iface it dyn => exact absurd rfl (h1 it dyn)
  | nilIface it => exact absurd rfl (h2 it)
  | _ => simp only [convertValue]

theorem convertValue_same (L : Lib) (fuel : Nat) (v : Val) (vm tm : TypeMeta) (t : Ty)
    (hv : v.Type = some t) (ht : tm.Type = some t)
    (h1 : ∀ it dyn, v ≠ .iface it dyn) (h2 : ∀ it, v ≠ .nilIface it) :
    convertValue L (fuel + 1) v vm tm = .ok v := by
  have hb := convertValueBody_same L (convertValue L fuel) v vm tm t hv ht
  cases v with
  | invalid => simp [Val.Type] at hv
  | iface it dyn => exact absurd rfl (h1 it dyn)
  | nilIface it => exact absurd rfl (h2 it)
  | _ => simpa only [convertValue] using hb

theorem convertValueBody_plain (L : Lib) (conv : Val → TypeMeta → TypeMeta → Res) (v : Val)
    (vm tm : TypeMeta) (S T : Ty) (hv : v.Type = some S) (ht : tm.Type = some T) (hp : v.plain = true)
    (hST : S ≠ T) (hki : T.Kind ≠ .interface) (hkp : T.Kind ≠ .ptr) :
    convertValueBody L conv v vm tm =
      convertValueEnd L conv v tm T (convertNonPtrValue L conv v (NonPtr vm) (NonPtr tm)) := by
  have hs : stripPtr T v = .ok v := by
    apply stripPtr_of_not_ptr <;> intros <;> intro h <;> subst h <;> simp [Val.plain] at hp
  simp only [convertValueBody, hv, ht, hs]
  simp [hST, hki, hkp]

theorem convertValue_plain (L : Lib) (fuel : Nat) (v : Val)
    (vm tm : TypeMeta) (S T : Ty) (hv : v.Type = some S) (ht : tm.Type = some T) (hp : v.plain = true)
    (hST : S ≠ T) (hki : T.Kind ≠ .interface) (hkp : T.Kind ≠ .ptr) :
    convertValue L (fuel + 1) v vm tm =
      convertValueEnd L (convertValue L fuel) v tm T
        (convertNonPtrValue L (convertValue L fuel) v (NonPtr vm) (NonPtr tm)) := by
  rw [convertValue_eq_body L fuel v vm tm S hv, convertValueBody_plain L _ v vm tm S T hv ht hp hST hki hkp]
  · intro it dyn h; subst h; simp [Val.plain] at hp
  · intro it h; subst h; simp [Val.plain] at hp

theorem convertValueEnd_ok (L : Lib) (conv : Val → TypeMeta → TypeMeta → Res) (v r : Val)
    (tm : TypeMeta) (T : Ty) (h : r.Type = some T) :
    convertValueEnd L conv v tm T (.ok r) = .ok r := by
  simp [convertValueEnd, h]

theorem NonPtr_get (L : Lib) (T : Ty) (hkp : T.Kind ≠ .ptr) : NonPtr (get L T) = get L T := by
  cases T with
  | ptr e => simp [Ty.Kind] at hkp
  | struct d fs =>
    by_cases h : (Ty.struct d fs).Implements primitiveType = true <;> simp [get, NonPtr, h]
  | _ => simp [get, NonPtr]

theorem get_not_Slice (L : Lib) (T : Ty) (hk : T.Kind ≠ .slice) :
    ∀ e t, get L T ≠ .Slice e t := by
  intro e t
  cases T with
  | slice d e => simp [Ty.Kind] at hk
  | struct d fs =>
    by_cases h : (Ty.struct d fs).Implements primitiveType = true <;> simp [get, h]
  | _ => simp [get]

theorem get_struct (L : Lib) (d : Decl) (decls : FieldList)
    (hT : (Ty.struct d decls).Implements primitiveType = false) :
    get L (.struct d decls) = .Struct "" "" (getFields L decls 0) (.struct d decls) := by
  simp [get, hT]

theorem convertNonPtrValue_prim (L : Lib) (conv : Val → TypeMeta → TypeMeta → Res) (v : Val)
    (S T : Ty) (n m : String) (hk : T.Kind ≠ .string) :
    convertNonPtrValue L conv v (.Primitive S n) (.Primitive T m)
      = convertPrimitiveValue L v (.Primitive S n) (.Primitive T m) := by
  simp [convertNonPtrValue, TypeMeta.Type, hk]

theorem convertPrimitiveValue_zero (L : Lib) (v : Val) (S T : Ty) (n m : String)
    (hz : v.IsZero = true) (hk : T.Kind ≠ .string) :
    convertPrimitiveValue L v (.Primitive S n) (.Primitive T m) = .ok (.ptr (.ptr T) (zero T)) := by
  simp [convertPrimitiveValue, convertPrimitiveValueWith, hk, hz]

theorem convertValue_ptr_zero (L : Lib) (fuel : Nat) (T : Ty) (vm tm : TypeMeta)
    (htm : tm.Type = some T) (hi : T.Kind ≠ .interface) (hp : T.Kind ≠ .ptr) :
    convertValue L (fuel + 1) (.ptr (.ptr T) (zero T)) vm tm = .ok (zero T) := by
  have hne : Ty.ptr T ≠ T := by
    intro h
    have := congrArg Ty.Kind h
    simp [Ty.Kind] at this
    exact hp this.symm
  have h1 : (Val.ptr (Ty.ptr T) (zero T)).Type = some (Ty.ptr T) := rfl
  have h2 : (Val.ptr (Ty.ptr T) (zero T)).Kind = .ptr := rfl
  simp [convertValue, convertValueBody, h1, h2, htm, hne, hi, hp, stripPtr, zero_Type]

theorem convertValueBody_prim_zero (L : Lib) (fuel : Nat) (v : Val) (S T : Ty) (n m : String)
    (hv : v.Type = some S) (hz : v.IsZero = true) (hST : S ≠ T)
    (hks : T.Kind ≠ .string) (hki : T.Kind ≠ .interface) (hkp : T.Kind ≠ .ptr) :
    convertValueBody L (convertValue L (fuel + 1)) v (.Primitive S n) (.Primitive T m)
      = .ok (zero T) := by
  have hTT : (TypeMeta.Primitive T m).Type = some T := rfl
  have hne : Ty.ptr T ≠ T := by
    intro h
    have := congrArg Ty.Kind h
    simp [Ty.Kind] at this
    exact hkp this.symm
  have hpt : (Val.ptr (Ty.ptr T) (zero T)).Type = some (Ty.ptr T) := rfl
  by_cases hnp : ∃ t, v = .nilPtr t
  · obtain ⟨t, rfl⟩ := hnp
    simp [convertValueBody, hv, hTT, hST, hki, hkp, stripPtr]
  · have hs : stripPtr T v = .ok v := by
      apply stripPtr_of_not_ptr
      · intro t h; exact hnp ⟨t, h⟩
      · intro t x h; subst h; simp [Val.IsZero] at hz
    simp only [convertValueBody, hv, hTT, hs]
    simp [hST, hki, hkp, NonPtr, convertValueEnd, convertNonPtrValue_prim L _ v S T n m hks,
      convertPrimitiveValue_zero L v S T n m hz hks, hpt, hne, hTT,
      convertValue_ptr_zero L fuel T _ _ hTT hki hkp]

theorem zero_rule_core (L : Lib) (fuel : Nat) (v : Val) (S T : Ty)
    (hv : v.Type = some S) (hz : v.IsZero = true)
    (hS : get L S = .Primitive S "") (hT : get L T = .Primitive T "")
    (hk : zeroRuleKind T.Kind = true) (hid : S = T → v = zero T) :
    ConvertValue L (fuel + 2) v (.type T) = .ok (zero T) := by
  have hks : T.Kind ≠ .string := by intro h; simp [h, zeroRuleKind, Kind.isInt, Kind.isUint, Kind.isFloat] at hk
  have hki : T.Kind ≠ .interface := by intro h; simp [h, zeroRuleKind, Kind.isInt, Kind.isUint, Kind.isFloat] at hk
  have hkp : T.Kind ≠ .ptr := by intro h; simp [h, zeroRuleKind, Kind.isInt, Kind.isUint, Kind.isFloat] at hk
  have hTT : (TypeMeta.Primitive T "").Type = some T := rfl
  simp only [ConvertValue, hv, Get, hS, hT]
  by_cases hi : (∃ it dyn, v = .iface it dyn) ∨ (∃ it, v = .nilIface it)
  · rcases hi with ⟨it, dyn, rfl⟩ | ⟨it, rfl⟩
    · simp [Val.IsZero] at hz
    · simp [convertValue, hTT]
  · have h1 : ∀ it dyn, v ≠ .iface it dyn := fun it dyn h => hi (Or.inl ⟨it, dyn, h⟩)
    have h2 : ∀ it, v ≠ .nilIface it := fun it h => hi (Or.inr ⟨it, h⟩)
    by_cases hST : S = T
    · subst hST
      rw [convertValue_same L (fuel + 1) v _ _ S hv hTT h1 h2, hid rfl]
    · have hb := convertValueBody_prim_zero L fuel v S T "" "" hv hz hST hks hki hkp
      cases v with
      | invalid => simp [Val.Type] at hv
      | iface it dyn => exact absurd rfl (h1 it dyn)
      | nilIface it => exact absurd rfl (h2 it)
      | _ => simpa only [convertValue] using hb

theorem Get_kind_prim (L : Lib) (K : Kind) (hK : primitiveKind K = true) :
    Get L (.kind K) = some (.Primitive (builtin K) "") := by
  cases K <;> simp [primitiveKind, Kind.isInt, Kind.isUint, Kind.isFloat] at hK <;>
    simp [Get, kindTypes, get, builtin]

theorem digitVal_digitChar (d : Nat) (h : d < 10) : digitVal (digitChar d) = some d := by
  interval_cases d <;> rfl

theorem digitChar_ne_sign (d : Nat) (h : d < 10) : digitChar d ≠ '+' ∧ digitChar d ≠ '-' := by
  interval_cases d <;> decide

theorem parseDigits_append (l : List Char) (c : Char) (acc : Nat) :
    parseDigits (l ++ [c]) acc
      = match parseDigits l acc with
        | some a => (digitVal c).map (fun d => a * 10 + d)
        | none => none := by
  induction l generalizing acc with
  | nil =>
    simp only [List.nil_append, parseDigits]
    cases digitVal c <;> simp [parseDigits]
  | cons x xs ih =>
    simp only [List.cons_append, parseDigits]
    cases digitVal x with
    | none => rfl
    | some d => exact ih _

theorem parseDigits_natDigits (fuel n : Nat) (h : n < fuel) :
    parseDigits (natDigits fuel n) 0 = some n := by
  induction fuel generalizing n with
  | zero => omega
  | succ f ih =>
    unfold natDigits
    split_ifs with h10
    · simp [parseDigits, digitVal_digitChar n h10]
    · have hlt : n / 10 < f := by omega
      rw [parseDigits_append, ih _ hlt, digitVal_digitChar _ (Nat.mod_lt _ (by norm_num))]
      simp
      omega

theorem natDigits_ne_nil (fuel n : Nat) : natDigits (fuel + 1) n ≠ [] := by
  unfold natDigits
  split_ifs <;> simp

theorem natDigits_head (fuel n : Nat) :
    ∃ d cs, d < 10 ∧ natDigits (fuel + 1) n = digitChar d :: cs := by
  induction fuel generalizing n with
  | zero =>
    unfold natDigits
    split_ifs with h
    · exact ⟨n, [], h, rfl⟩
    · exact ⟨n % 10, [], Nat.mod_lt _ (by norm_num), by simp [natDigits]⟩
  | succ f ih =>
    unfold natDigits
    split_ifs with h
    · exact ⟨n, [], h, rfl⟩
    · obtain ⟨d, cs, hd, hcs⟩ := ih (n / 10)
      exact ⟨d, cs ++ [digitChar (n % 10)], hd, by rw [hcs]; rfl⟩

theorem ParseUint_formatNat (n : Nat) (h : n < 2 ^ 64) : ParseUint (formatNat n) = some n := by
  obtain ⟨d, cs, _, hcs⟩ := natDigits_head n n
  have hp := parseDigits_natDigits (n + 1) n (Nat.lt_succ_self n)
  simp only [ParseUint, formatNat]
  rw [hcs] at hp ⊢
  simp only [hp]
  have h' : n < 18446744073709551616 := by norm_num at h; exact h
  simp [h']

theorem ParseInt_formatInt (n : Int) (h1 : -(2 ^ 63) ≤ n) (h2 : n < 2 ^ 63) :
    ParseInt (formatInt n) = some n := by
  cases n with
  | ofNat m =>
    obtain ⟨d, cs, hd, hcs⟩ := natDigits_head m m
    have hp := parseDigits_natDigits (m + 1) m (Nat.lt_succ_self m)
    have hm : m < 9223372036854775808 := by
      have : (m : Int) < 2 ^ 63 := h2
      norm_num at this
      omega
    simp only [ParseInt, formatInt, formatNat]
    rw [hcs] at hp ⊢
    simp only [(digitChar_ne_sign d hd).1, (digitChar_ne_sign d hd).2, if_false, hp]
    simp [hm]
  | negSucc m =>
    obtain ⟨d, cs, hd, hcs⟩ := natDigits_head (m + 1) (m + 1)
    have hp := parseDigits_natDigits (m + 1 + 1) (m + 1) (Nat.lt_succ_self _)
    have hm : m ≤ 9223372036854775807 := by
      have : -((2 : Int) ^ 63) ≤ Int.negSucc m := h1
      rw [Int.negSucc_eq] at this
      norm_num at this
      omega
    have hdata : ("-" ++ formatNat (m + 1)).data = '-' :: natDigits (m + 1 + 1) (m + 1) := rfl
    simp only [ParseInt, formatInt, hdata]
    rw [hcs] at hp ⊢
    simp only [hp]
    simp [hm, Int.negSucc_eq]

theorem wrapInt_eq (k : Kind) (n : Int) (hk : k.isInt = true)
    (h1 : -(2 : Int) ^ (k.bits - 1) ≤ n) (h2 : n < 2 ^ (k.bits - 1)) : wrapInt k.bits n = n := by
  cases k <;> simp [Kind.isInt] at hk <;> simp only [Kind.bits, wrapInt] at * <;>
    norm_num at * <;> omega

theorem int64_of_range (k : Kind) (n : Int) (hk : k.isInt = true)
    (h1 : -(2 : Int) ^ (k.bits - 1) ≤ n) (h2 : n < 2 ^ (k.bits - 1)) :
    -(2 : Int) ^ 63 ≤ n ∧ n < 2 ^ 63 := by
  cases k <;> simp [Kind.isInt] at hk <;> simp only [Kind.bits] at * <;>
    norm_num at * <;> omega

theorem wrapUint_eq (k : Kind) (n : Nat) (hk : k.isUint = true) (h : n < 2 ^ k.bits) :
    wrapUint k.bits (Int.ofNat n) = n := by
  cases k <;> simp [Kind.isUint] at hk <;> simp only [Kind.bits, wrapUint] at * <;>
    norm_num at * <;> omega

theorem uint64_of_range (k : Kind) (n : Nat) (hk : k.isUint = true) (h : n < 2 ^ k.bits) :
    n < 2 ^ 64 := by
  cases k <;> simp [Kind.isUint] at hk <;> simp only [Kind.bits] at * <;>
    norm_num at * <;> omega

theorem formatNat_length (n : Nat) : (formatNat n).length ≠ 0 := by
  obtain ⟨d, cs, _, hcs⟩ := natDigits_head n n
  simp [formatNat, String.length, hcs]

theorem formatInt_length (n : Int) : (formatInt n).length ≠ 0 := by
  cases n with
  | ofNat m => exact formatNat_length m
  | negSucc m =>
    have hdata : ("-" ++ formatNat (m + 1)).data = '-' :: natDigits (m + 1 + 1) (m + 1) := rfl
    simp [formatInt, String.length, hdata]

theorem convertValue_to_string (L : Lib) (fuel : Nat) (v : Val) (vm : TypeMeta) (S : Ty)
    (d : Option Decl) (m : String)
    (hv : v.Type = some S) (hp : v.plain = true) (hST : S ≠ .basic .string d)
    (hm : marshalerOf v = some none) :
    convertValue L (fuel + 1) v vm (.Primitive (.basic .string d) m)
      = .ok (.str (.basic .string d) (Sprint L v)) := by
  rw [convertValue_plain L fuel v vm (.Primitive (.basic .string d) m) S (.basic .string d) hv rfl
    hp hST (by simp [Ty.Kind]) (by simp [Ty.Kind])]
  have : convertNonPtrValue L (convertValue L fuel) v (NonPtr vm)
      (NonPtr (.Primitive (.basic .string d) m)) = .ok (.str (.basic .string d) (Sprint L v)) := by
    simp [NonPtr, convertNonPtrValue, TypeMeta.Type, Ty.Kind, convertValueToString, hm, convertOf,
      convertTo, convertDirect, Val.Type, builtin, haveIdenticalUnderlyingType, retag]
    split_ifs with hd
    · subst hd; rfl
    · rfl
  rw [this]
  exact convertValueEnd_ok _ _ _ _ _ _ rfl

theorem convertValue_string_to_int (L : Lib) (fuel : Nat) (s : String) (k : Kind) (n : Int)
    (hk : k.isInt = true) (hs : s.length ≠ 0) (hn : ParseInt s = some n) :
    convertValue L (fuel + 1) (.str (builtin .string) s) (.Primitive (builtin .string) "")
        (.Primitive (builtin k) "")
      = .ok (.int (builtin k) (wrapInt k.bits n)) := by
  have hne : builtin .string ≠ builtin k := by
    cases k <;> simp [Kind.isInt] at hk <;> simp [builtin]
  rw [convertValue_plain L fuel (.str (builtin .string) s) (.Primitive (builtin .string) "")
    (.Primitive (builtin k) "") (builtin .string) (builtin k) rfl rfl
    rfl hne (by cases k <;> simp [Kind.isInt] at hk <;> simp [builtin, Ty.Kind])
    (by cases k <;> simp [Kind.isInt] at hk <;> simp [builtin, Ty.Kind])]
  have : convertNonPtrValue L (convertValue L fuel) (.str (builtin .string) s)
      (NonPtr (.Primitive (builtin .string) "")) (NonPtr (.Primitive (builtin k) ""))
      = .ok (.int (builtin k) (wrapInt k.bits n)) := by
    cases k <;> simp [Kind.isInt] at hk <;>
      simp [NonPtr, convertNonPtrValue, TypeMeta.Type, Ty.Kind, builtin, convertPrimitiveValue,
        convertPrimitiveValueWith, Val.IsZero, hs, Val.GoString, hn, convertOf, convertTo,
        Kind.isInt, Kind.isUint, makeInt]
  rw [this]
  exact convertValueEnd_ok _ _ _ _ _ _ rfl

theorem convertValue_string_to_uint (L : Lib) (fuel : Nat) (s : String) (k : Kind) (n : Nat)
    (hk : k.isUint = true) (hs : s.length ≠ 0) (hn : ParseUint s = some n) :
    convertValue L (fuel + 1) (.str (builtin .string) s) (.Primitive (builtin .string) "")
        (.Primitive (builtin k) "")
      = .ok (.uint (builtin k) (wrapUint k.bits (Int.ofNat n))) := by
  have hne : builtin .string ≠ builtin k := by
    cases k <;> simp [Kind.isUint] at hk <;> simp [builtin]
  rw [convertValue_plain L fuel (.str (builtin .string) s) (.Primitive (builtin .string) "")
    (.Primitive (builtin k) "") (builtin .string) (builtin k) rfl rfl
    rfl hne (by cases k <;> simp [Kind.isUint] at hk <;> simp [builtin, Ty.Kind])
    (by cases k <;> simp [Kind.isUint] at hk <;> simp [builtin, Ty.Kind])]
  have : convertNonPtrValue L (convertValue L fuel) (.str (builtin .string) s)
      (NonPtr (.Primitive (builtin .string) "")) (NonPtr (.Primitive (builtin k) ""))
      = .ok (.uint (builtin k) (wrapUint k.bits (Int.ofNat n))) := by
    cases k <;> simp [Kind.isUint] at hk <;>
      simp [NonPtr, convertNonPtrValue, TypeMeta.Type, Ty.Kind, builtin, convertPrimitiveValue,
        convertPrimitiveValueWith, Val.IsZero, hs, Val.GoString, hn, convertOf, convertTo,
        Kind.isInt, Kind.isUint, makeInt]
  rw [this]
  exact convertValueEnd_ok _ _ _ _ _ _ rfl

theorem convertValue_string_to_bool (L : Lib) (fuel : Nat) (s : String) (b : Bool)
    (hs : s.length ≠ 0) (hn : ParseBool s = some b) :
    convertValue L (fuel + 1) (.str (builtin .string) s) (.Primitive (builtin .string) "")
        (.Primitive (builtin .bool) "")
      = .ok (.bool (builtin .bool) b) := by
  rw [convertValue_plain L fuel (.str (builtin .string) s) (.Primitive (builtin .string) "")
    (.Primitive (builtin .bool) "") (builtin .string) (builtin .bool) rfl rfl rfl (by simp [builtin]) (by simp [builtin, Ty.Kind]) (by simp [builtin, Ty.Kind])]
  have : convertNonPtrValue L (convertValue L fuel) (.str (builtin .string) s)
      (NonPtr (.Primitive (builtin .string) "")) (NonPtr (.Primitive (builtin .bool) ""))
      = .ok (.bool (builtin .bool) b) := by
    simp [NonPtr, convertNonPtrValue, TypeMeta.Type, Ty.Kind, builtin, convertPrimitiveValue,
        convertPrimitiveValueWith, Val.IsZero, hs, Val.GoString, hn, convertOf, convertTo,
        convertDirect, Val.Type, haveIdenticalUnderlyingType, retag]
  rw [this]
  exact convertValueEnd_ok _ _ _ _ _ _ rfl

theorem Sprint_builtin_int (L : Lib) (k : Kind) (n : Int) :
    Sprint L (.int (.basic k none) n) = formatInt n := by
  simp [Sprint, printArg, Val.Type, stringerOf, Ty.methodSet, Ty.decl, printValue, printScalar]

theorem Sprint_builtin_uint (L : Lib) (k : Kind) (n : Nat) :
    Sprint L (.uint (.basic k none) n) = formatNat n := by
  simp [Sprint, printArg, Val.Type, stringerOf, Ty.methodSet, Ty.decl, printValue, printScalar]

theorem Sprint_builtin_bool (L : Lib) (k : Kind) (b : Bool) :
    Sprint L (.bool (.basic k none) b) = if b then "true" else "false" := by
  simp [Sprint, printArg, Val.Type, stringerOf, Ty.methodSet, Ty.decl, printValue, printScalar]

theorem Sprint_builtin_str (L : Lib) (s : String) : Sprint L (.str (builtin .string) s) = s := by
  simp [Sprint, printArg, Val.Type, stringerOf, Ty.methodSet, Ty.decl, printValue, printScalar,
    builtin]

theorem marshalerOf_builtin (v : Val) (k : Kind) (hv : v.Type = some (.basic k none)) :
    marshalerOf v = some none := by
  simp [marshalerOf, hv, methodByNames, Ty.findMethod, Ty.methodSet, Ty.decl]

theorem stripPtr_error_aux (T : Ty) (n : Nat) :
    ∀ (v : Val) (r : Res), v.ptrDepth = n → stripPtr T v = .error r →
      ∃ y, r = .ok y ∧ y.Type = some T := by
  induction n with
  | zero =>
    intro v r hd h
    cases v <;> simp [stripPtr, Val.ptrDepth] at h hd
    exact ⟨_, h.symm, zero_Type T⟩
  | succ n ih =>
    intro v r hd h
    cases v <;> simp [stripPtr, Val.ptrDepth] at h hd
    rename_i t x
    split_ifs at h with hx
    · exact ⟨x, by simpa using h.symm, hx⟩
    · exact ih x r hd h

theorem stripPtr_error (T : Ty) (v : Val) (r : Res) (h : stripPtr T v = .error r) :
    ∃ y, r = .ok y ∧ y.Type = some T :=
  stripPtr_error_aux T v.ptrDepth v r rfl h

theorem convertValueEnd_type_sound (L : Lib) (conv : Val → TypeMeta → TypeMeta → Res)
    (v : Val) (tm : TypeMeta) (T : Ty) (r0 : Res) (r : Val)
    (ht : tm.Type = some T) (hki : T.Kind ≠ .interface) (hnp : NonPtr tm = tm)
    (ih : ∀ v vm r, conv v vm tm = .ok r → r.Type = some T)
    (h : convertValueEnd L conv v tm T r0 = .ok r) : r.Type = some T := by
  cases r0 with
  | ok converted =>
    simp only [convertValueEnd, hnp, ht] at h
    cases hc : converted.Type with
    | none => simp [hc] at h
    | some ct =>
      simp only [hc] at h
      split_ifs at h with h1 h2
      · simp at h; subst h; rw [hc, h1]
      · simp at h2; exact absurd h2 hki
      · exact ih _ _ _ h
  | err v' msg => simp [convertValueEnd] at h
  | panic m => simp [convertValueEnd] at h
  | timeout => simp [convertValueEnd] at h

theorem convertValueBody_type_sound (L : Lib) (conv : Val → TypeMeta → TypeMeta → Res)
    (v : Val) (vm tm : TypeMeta) (T : Ty) (r : Val)
    (ht : tm.Type = some T) (hki : T.Kind ≠ .interface) (hkp : T.Kind ≠ .ptr) (hnp : NonPtr tm = tm)
    (ih : ∀ v vm r, conv v vm tm = .ok r → r.Type = some T)
    (h : convertValueBody L conv v vm tm = .ok r) : r.Type = some T := by
  have hki' : (T.Kind == Kind.interface) = false := by simp [hki]
  have hkp' : (T.Kind == Kind.ptr) = false := by simp [hkp]
  cases hv : v.Type with
  | none => simp [convertValueBody, hv] at h
  | some S =>
    simp only [convertValueBody, hv, ht] at h
    by_cases h1 : S = T
    · simp [h1] at h; subst h; rw [hv, h1]
    · simp only [h1, if_false, hki', hkp', Bool.false_eq_true] at h
      cases hs : stripPtr T v with
      | error r' =>
        simp only [hs] at h
        obtain ⟨y, hy, hyt⟩ := stripPtr_error T v r' hs
        subst hy
        simp at h; subst h; exact hyt
      | ok npv =>
        simp only [hs] at h
        split_ifs at h with h4
        · simp at h; subst h; exact h4
        · exact convertValueEnd_type_sound L conv v tm T _ r ht hki hnp ih h

theorem convertValue_type_sound (L : Lib) (tm : TypeMeta) (T : Ty)
    (ht : tm.Type = some T) (hki : T.Kind ≠ .interface) (hkp : T.Kind ≠ .ptr) (hnp : NonPtr tm = tm) :
    ∀ (fuel : Nat) (v : Val) (vm : TypeMeta) (r : Val),
      convertValue L fuel v vm tm = .ok r → r.Type = some T := by
  intro fuel
  induction fuel with
  | zero => intro v vm r h; simp [convertValue] at h
  | succ n ih =>
    intro v vm r h
    have hb := fun v' vm' => convertValueBody_type_sound L (convertValue L n) v' vm' tm T r ht hki hkp hnp
      (fun v vm r h => ih v vm r h)
    cases v with
    | invalid => simp [convertValue] at h
    | nilIface it =>
      simp [convertValue, ht] at h
      subst h; exact zero_Type T
    | iface it dyn =>
      simp only [convertValue] at h
      cases hd : dyn.Type with
      | none => simp [hd] at h
      | some dt => simp only [hd] at h; exact hb _ _ h
    | _ => simp only [convertValue] at h; exact hb _ _ h

theorem convertSliceValue_single (L : Lib) (conv : Val → TypeMeta → TypeMeta → Res) (st : Ty)
    (x r : Val) (vtm tm ve : TypeMeta) (T : Ty) (hns : ∀ e t, tm ≠ .Slice e t)
    (hx : ConvertValueMeta L conv x tm = .ok r) :
    convertSliceValue L conv (.slice st (.cons x .nil)) vtm tm ve T = .ok r := by
  cases tm with
  | Slice e t => exact absurd rfl (hns e t)
  | _ => simp [convertSliceValue, hx]

theorem convertElems_ok (conv : Val → Res) (value : Val) (elemType : Ty) (xs : List Val)
    (ys : List Val)
    (h : List.Forall₂ (fun x y => ∃ r, conv x = .ok r ∧ assignTo r elemType = some y) xs ys) :
    convertElems conv value elemType (Vals.ofList xs) = .ok (Vals.ofList ys) := by
  induction h with
  | nil => rfl
  | cons hxy _ ih =>
    obtain ⟨r, hr, hy⟩ := hxy
    simp [Vals.ofList, convertElems, hr, hy, ih]

theorem convertElems_err (conv : Val → Res) (value : Val) (elemType : Ty) (pre : List Val)
    (ys : List Val) (x : Val) (post : List Val) (ev : Val) (msg : String)
    (h : List.Forall₂ (fun x y => ∃ r, conv x = .ok r ∧ assignTo r elemType = some y) pre ys)
    (hx : conv x = .err ev msg) :
    convertElems conv value elemType (Vals.ofList (pre ++ x :: post)) = .error (.err value msg) := by
  induction h with
  | nil => simp [Vals.ofList, convertElems, hx]
  | cons hxy _ ih =>
    obtain ⟨r, hr, hy⟩ := hxy
    simp [Vals.ofList, convertElems, hr, hy, ih]

theorem convertValue_slice_eq (L : Lib) (fuel : Nat) (d d2 : Option Decl) (et et2 : Ty)
    (v : Val) (hv : v.Type = some (.slice d et)) (hp : v.plain = true)
    (hne : Ty.slice d et ≠ Ty.slice d2 et2) :
    ConvertValue L (fuel + 1) v (.type (.slice d2 et2))
      = convertValueEnd L (convertValue L fuel) v (get L (.slice d2 et2)) (.slice d2 et2)
          (convertSliceValue L (convertValue L fuel) v (get L (.slice d et)) (get L (.slice d2 et2))
            (get L et) (.slice d2 et2)) := by
  simp only [ConvertValue, hv, Get]
  rw [convertValue_plain L fuel v (get L (.slice d et)) (get L (.slice d2 et2)) (.slice d et)
    (.slice d2 et2) hv (get_Type L _) hp hne (by simp [Ty.Kind]) (by simp [Ty.Kind])]
  simp [get, NonPtr, convertNonPtrValue, TypeMeta.Type, Ty.Kind]

theorem Vals.set?_spec : ∀ (fs : Vals) (i : Nat) (y : Val), i < fs.length →
    ∃ fs', fs.set? i y = some fs' ∧ fs'.length = fs.length ∧ fs'.get? i = some y ∧
      ∀ j, j ≠ i → fs'.get? j = fs.get? j
  | .nil, i, y, h => by simp [Vals.length] at h
  | .cons v r, 0, y, _ => by
    refine ⟨.cons y r, rfl, rfl, rfl, ?_⟩
    intro j hj
    cases j with
    | zero => exact absurd rfl hj
    | succ j => rfl
  | .cons v r, i + 1, y, h => by
    obtain ⟨r', h1, h2, h3, h4⟩ := Vals.set?_spec r i y (by simpa [Vals.length] using h)
    refine ⟨.cons v r', by simp [Vals.set?, h1], by simp [Vals.length, h2], by simpa [Vals.get?] using h3, ?_⟩
    intro j hj
    cases j with
    | zero => rfl
    | succ j => simpa [Vals.get?] using h4 j (by omega)

theorem zeroFields_length : ∀ (decls : FieldList), (zeroFields decls).length = decls.length
  | .nil => rfl
  | .cons _ _ r => by simp [zeroFields, Vals.length, FieldList.length, zeroFields_length r]

theorem FieldList.get?_lt : ∀ (decls : FieldList) (i : Nat) (ft : FieldDecl × Ty),
    decls.get? i = some ft → i < decls.length
  | .nil, _, _, h => by simp [FieldList.get?] at h
  | .cons _ _ _, 0, _, _ => by simp [FieldList.length]
  | .cons _ _ r, i + 1, ft, h => by
    have := FieldList.get?_lt r i ft (by simpa [FieldList.get?] using h)
    simp [FieldList.length]; omega

theorem fill_length (iys : List (Nat × Val)) : ∀ (fs : Vals), (∀ iy ∈ iys, iy.1 < fs.length) →
    (fill iys fs).length = fs.length := by
  induction iys with
  | nil => intro fs _; rfl
  | cons iy rest ih =>
    intro fs h
    obtain ⟨i, y⟩ := iy
    obtain ⟨fs', h1, h2, _, _⟩ := Vals.set?_spec fs i y (h (i, y) (by simp))
    simp only [fill, h1, Option.getD_some]
    rw [ih fs' (fun iy hiy => by rw [h2]; exact h iy (by simp [hiy])), h2]

theorem fill_get?_other (iys : List (Nat × Val)) : ∀ (fs : Vals) (j : Nat),
    (∀ iy ∈ iys, iy.1 < fs.length) → j ∉ iys.map Prod.fst → (fill iys fs).get? j = fs.get? j := by
  induction iys with
  | nil => intro fs j _ _; rfl
  | cons iy rest ih =>
    intro fs j h hj
    obtain ⟨i, y⟩ := iy
    obtain ⟨fs', h1, h2, _, h4⟩ := Vals.set?_spec fs i y (h (i, y) (by simp))
    simp only [fill, h1, Option.getD_some]
    simp only [List.map_cons, List.mem_cons, not_or] at hj
    rw [ih fs' j (fun iy hiy => by rw [h2]; exact h iy (by simp [hiy])) hj.2, h4 j hj.1]

theorem fill_get?_mem (iys : List (Nat × Val)) : ∀ (fs : Vals),
    (∀ iy ∈ iys, iy.1 < fs.length) → (iys.map Prod.fst).Nodup →
    ∀ iy ∈ iys, (fill iys fs).get? iy.1 = some iy.2 := by
  induction iys with
  | nil => intro fs _ _ iy hiy; simp at hiy
  | cons iy0 rest ih =>
    intro fs h hd iy hiy
    obtain ⟨i, y⟩ := iy0
    obtain ⟨fs', h1, h2, h3, _⟩ := Vals.set?_spec fs i y (h (i, y) (by simp))
    have hrest : ∀ iy ∈ rest, iy.1 < fs'.length := fun iy hiy => by
      rw [h2]; exact h iy (by simp [hiy])
    simp only [List.map_cons, List.nodup_cons] at hd
    simp only [fill, h1, Option.getD_some]
    rcases List.mem_cons.1 hiy with heq | hmem
    · subst heq
      rw [fill_get?_other rest fs' i hrest hd.1, h3]
    · exact ih fs' hrest hd.2 iy hmem

theorem stores_lt {L : Lib} {conv : Val → TypeMeta → TypeMeta → Res} {ve tm : TypeMeta}
    {decls : FieldList} {e : Val × Val} {iy : Nat × Val} (h : stores L conv ve tm decls e iy) :
    iy.1 < decls.length := by
  obtain ⟨sf, r, f, ft, _, _, h3, _⟩ := h
  exact FieldList.get?_lt decls iy.1 (f, ft) h3

theorem mapToStruct_ok (L : Lib) (conv : Val → TypeMeta → TypeMeta → Res) (value : Val)
    (ve tm : TypeMeta) (d : Decl) (decls : FieldList) (es : List (Val × Val))
    (iys : List (Nat × Val)) (h : List.Forall₂ (stores L conv ve tm decls) es iys) :
    ∀ fs : Vals, fs.length = decls.length →
      mapToStruct L conv value ve tm (Entries.ofList es) (.struct (.struct d decls) fs)
        = .ok (.struct (.struct d decls) (fill iys fs)) := by
  induction h with
  | nil => intro fs _; rfl
  | @cons e iy es' iys' hst _ ih =>
    intro fs hfs
    obtain ⟨k, x⟩ := e
    obtain ⟨i, y⟩ := iy
    have hlt := stores_lt hst
    obtain ⟨sf, r, f, ft, h1, h2, h3, h4, h5, h6⟩ := hst
    simp only at h1 h2 h3 h5 h6 hlt
    obtain ⟨fs', hs1, hs2, _, _⟩ := Vals.set?_spec fs i y (by rw [hfs]; exact hlt)
    simp only [Entries.ofList, mapToStruct, h1, h5, setField, h2, h3, h4, h6, hs1, fill,
      Option.getD_some]
    simpa using ih fs' (by rw [hs2, hfs])

theorem mapToStruct_unknown (L : Lib) (conv : Val → TypeMeta → TypeMeta → Res) (value : Val)
    (ve tm : TypeMeta) (d : Decl) (decls : FieldList) (pre : List (Val × Val))
    (iys : List (Nat × Val)) (k x : Val) (post : List (Val × Val))
    (h : List.Forall₂ (stores L conv ve tm decls) pre iys)
    (hk : tm.FieldByName k.GoString = none) :
    ∀ fs : Vals, fs.length = decls.length →
      mapToStruct L conv value ve tm (Entries.ofList (pre ++ (k, x) :: post))
          (.struct (.struct d decls) fs)
        = .err value ("unrecognized key \"" ++ Sprint L k ++ "\" does not exist in struct \""
            ++ tm.Str ++ "\"") := by
  induction h with
  | nil => intro fs _; simp [Entries.ofList, mapToStruct, hk]
  | @cons e iy es' iys' hst _ ih =>
    intro fs hfs
    obtain ⟨k', x'⟩ := e
    obtain ⟨i, y⟩ := iy
    have hlt := stores_lt hst
    obtain ⟨sf, r, f, ft, h1, h2, h3, h4, h5, h6⟩ := hst
    simp only at h1 h2 h3 h5 h6 hlt
    obtain ⟨fs', hs1, hs2, _, _⟩ := Vals.set?_spec fs i y (by rw [hfs]; exact hlt)
    simp only [List.cons_append, Entries.ofList, mapToStruct, h1, h5, setField, h2, h3, h4, h6, hs1]
    simpa using ih fs' (by rw [hs2, hfs])

theorem mapToStruct_never_ok (L : Lib) (conv : Val → TypeMeta → TypeMeta → Res) (value : Val)
    (ve tm : TypeMeta) (es : List (Val × Val))
    (h : ∃ e ∈ es, tm.FieldByName e.1.GoString = none) :
    ∀ (cur r : Val), mapToStruct L conv value ve tm (Entries.ofList es) cur ≠ .ok r := by
  induction es with
  | nil => simp at h
  | cons e es' ih =>
    intro cur r
    obtain ⟨k, x⟩ := e
    simp only [Entries.ofList, mapToStruct]
    cases hf : tm.FieldByName k.GoString with
    | none => simp
    | some sf =>
      simp only
      cases hc : conv x ve sf.TypeMeta with
      | ok cv =>
        simp only
        cases hsf : setField L cur sf.info.Index cv with
        | none => simp
        | some filled =>
          simp only
          apply ih
          obtain ⟨e, he, hen⟩ := h
          rcases List.mem_cons.1 he with heq | hmem
          · subst heq; simp [hf] at hen
          · exact ⟨e, hmem, hen⟩
      | err ev msg => simp
      | panic m => simp
      | timeout => simp

theorem fieldInfoOf_Index (L : Lib) (f : FieldDecl) (i : Nat) : (fieldInfoOf L f i).Index = i := by
  simp only [fieldInfoOf]
  repeat' split
  all_goals rfl

theorem fieldInfoOf_Name (L : Lib) (f : FieldDecl) (i : Nat) : (fieldInfoOf L f i).Name = f.name := by
  simp only [fieldInfoOf]
  repeat' split
  all_goals rfl

theorem getFields_find (L : Lib) (p : StructField → Bool) :
    ∀ (decls : FieldList) (k n : Nat) (sf : StructField),
      (getFields L decls k).find p n = some sf →
      ∃ j f ft, decls.get? j = some (f, ft) ∧ sf.info = fieldInfoOf L f (k + j) ∧
        sf.TypeMeta = get L ft
  | .nil, k, n, sf, h => by simp [getFields, StructFields.find] at h
  | .cons f t rest, k, 0, sf, h => by simp [getFields, StructFields.find] at h
  | .cons f t rest, k, n + 1, sf, h => by
    simp only [getFields, StructFields.find] at h
    split_ifs at h with hp
    · simp only [Option.some.injEq] at h
      subst h
      exact ⟨0, f, t, rfl, rfl, rfl⟩
    · obtain ⟨j, f', ft, h1, h2, h3⟩ := getFields_find L p rest (k + 1) n sf h
      exact ⟨j + 1, f', ft, by simpa [FieldList.get?] using h1, by rw [h2]; congr 1; omega, h3⟩

theorem FieldByName_get (L : Lib) (d : Decl) (decls : FieldList)
    (hT : (Ty.struct d decls).Implements primitiveType = false) (name : String) (sf : StructField)
    (h : (get L (.struct d decls)).FieldByName name = some sf) :
    ∃ f ft, decls.get? sf.info.Index = some (f, ft) ∧ sf.info.Name = f.name ∧
      sf.TypeMeta = get L ft := by
  rw [get_struct L d decls hT] at h
  simp only [TypeMeta.FieldByName, TypeMeta.FindField] at h
  split_ifs at h
  obtain ⟨j, f, ft, h1, h2, h3⟩ := getFields_find L _ decls 0 _ sf h
  refine ⟨f, ft, ?_, ?_, h3⟩
  · rw [h2, fieldInfoOf_Index]; simpa using h1
  · rw [h2, fieldInfoOf_Name]

theorem forall₂_right {α β : Type} {R : α → β → Prop} {xs : List α} {ys : List β}
    (h : List.Forall₂ R xs ys) : ∀ y ∈ ys, ∃ x, R x y := by
  induction h with
  | nil => intro y hy; simp at hy
  | cons hxy _ ih =>
    intro y hy
    rcases List.mem_cons.1 hy with heq | hmem
    · subst heq; exact ⟨_, hxy⟩
    · exact ih y hmem

theorem ConvertValue_map_to_struct (L : Lib) (fuel : Nat) (d : Decl) (decls : FieldList)
    (md : Option Decl) (kt et : Ty) (es : Entries)
    (hT : (Ty.struct d decls).Implements primitiveType = false) :
    ConvertValue L (fuel + 1) (.map (.map md kt et) es) (.type (.struct d decls))
      = convertValueEnd L (convertValue L fuel) (.map (.map md kt et) es) (get L (.struct d decls))
          (.struct d decls)
          (mapToStruct L (convertValue L fuel) (.map (.map md kt et) es) (get L et)
            (get L (.struct d decls)) es (.struct (.struct d decls) (zeroFields decls))) := by
  simp only [ConvertValue, Val.Type, Get]
  rw [convertValue_plain L fuel (.map (.map md kt et) es) (get L (.map md kt et))
    (get L (.struct d decls)) (.map md kt et) (.struct d decls) rfl (get_Type L _) rfl (by simp)
    (by simp [Ty.Kind]) (by simp [Ty.Kind])]
  rw [get_struct L d decls hT]
  simp [get, NonPtr, convertNonPtrValue, TypeMeta.Type, Ty.Kind, zero]

theorem stores_of_field (L : Lib) (fuel : Nat) (d : Decl) (decls : FieldList) (et : Ty)
    (hT : (Ty.struct d decls).Implements primitiveType = false)
    (es : List (Val × Val)) (iys : List (Nat × Val))
    (h : List.Forall₂ (fun e iy => ∃ sf r ft,
        (get L (.struct d decls)).FieldByName e.1.GoString = some sf ∧ sf.info.Index = iy.1 ∧
        exported L sf.info.Name = true ∧ sf.TypeMeta.Type = some ft ∧
        convertValue L fuel e.2 (get L et) sf.TypeMeta = .ok r ∧ assignTo r ft = some iy.2) es iys) :
    List.Forall₂ (stores L (convertValue L fuel) (get L et) (get L (.struct d decls)) decls)
      es iys := by
  refine List.Forall₂.imp ?_ h
  rintro e iy ⟨sf, r, ft, h1, h2, h3, h4, h5, h6⟩
  obtain ⟨f, ft', g1, g2, g3⟩ := FieldByName_get L d decls hT _ sf h1
  have : ft' = ft := by
    rw [g3, get_Type] at h4; exact Option.some.inj h4
  subst this
  exact ⟨sf, r, f, ft', h1, h2, by rw [← h2]; exact g1, by rw [← g2]; exact h3, h5, h6⟩

/-! ## Further facts about the embedding -/

theorem convertValue_int_to_bool (L : Lib) (fuel : Nat) (k : Kind) (d d2 : Option Decl) (n : Int)
    (hk : k.isInt = true) (hn : n ≠ 0) :
    convertValue L (fuel + 1) (.int (.basic k d) n) (.Primitive (.basic k d) "")
        (.Primitive (.basic .bool d2) "")
      = .ok (.bool (.basic .bool d2) (decide (n > 0))) := by
  have hkb : k ≠ .bool := by rintro rfl; simp [Kind.isInt] at hk
  have hks : k ≠ .string := by rintro rfl; simp [Kind.isInt] at hk
  rw [convertValue_plain L fuel (.int (.basic k d) n) (.Primitive (.basic k d) "")
    (.Primitive (.basic .bool d2) "") (.basic k d) (.basic .bool d2) rfl rfl rfl
    (by simp [hkb]) (by simp [Ty.Kind]) (by simp [Ty.Kind])]
  have : convertNonPtrValue L (convertValue L fuel) (.int (.basic k d) n)
      (NonPtr (.Primitive (.basic k d) "")) (NonPtr (.Primitive (.basic .bool d2) ""))
      = .ok (.bool (.basic .bool d2) (decide (n > 0))) := by
    simp [NonPtr, convertNonPtrValue, TypeMeta.Type, Ty.Kind, builtin, convertPrimitiveValue,
        convertPrimitiveValueWith, Val.IsZero, hn, hkb, hks, hk, convertOf, convertTo,
        convertDirect, Val.Type, haveIdenticalUnderlyingType, retag]
    split_ifs with hd
    · subst hd; rfl
    · rfl
  rw [this]
  exact convertValueEnd_ok _ _ _ _ _ _ rfl

theorem convertValue_uint_to_bool (L : Lib) (fuel : Nat) (k : Kind) (d d2 : Option Decl) (u : Nat)
    (hk : k.isUint = true) (hn : u ≠ 0) :
    convertValue L (fuel + 1) (.uint (.basic k d) u) (.Primitive (.basic k d) "")
        (.Primitive (.basic .bool d2) "")
      = .ok (.bool (.basic .bool d2) (decide (u > 0))) := by
  have hkb : k ≠ .bool := by rintro rfl; simp [Kind.isUint] at hk
  have hks : k ≠ .string := by rintro rfl; simp [Kind.isUint] at hk
  have hki : k.isInt = false := by cases k <;> simp_all [Kind.isUint, Kind.isInt]
  rw [convertValue_plain L fuel (.uint (.basic k d) u) (.Primitive (.basic k d) "")
    (.Primitive (.basic .bool d2) "") (.basic k d) (.basic .bool d2) rfl rfl rfl
    (by simp [hkb]) (by simp [Ty.Kind]) (by simp [Ty.Kind])]
  have : convertNonPtrValue L (convertValue L fuel) (.uint (.basic k d) u)
      (NonPtr (.Primitive (.basic k d) "")) (NonPtr (.Primitive (.basic .bool d2) ""))
      = .ok (.bool (.basic .bool d2) (decide (u > 0))) := by
    simp [NonPtr, convertNonPtrValue, TypeMeta.Type, Ty.Kind, builtin, convertPrimitiveValue,
        convertPrimitiveValueWith, Val.IsZero, hn, hkb, hks, hk, hki, convertOf, convertTo,
        convertDirect, Val.Type, haveIdenticalUnderlyingType, retag]
    split_ifs with hd
    · subst hd; rfl
    · rfl
  rw [this]
  exact convertValueEnd_ok _ _ _ _ _ _ rfl

theorem parseDigits_eq (cs : List Char) : ∀ acc : Nat,
    parseDigits cs acc = if cs.all isDecimalDigit = true then some (decimalValue cs acc) else none := by
  induction cs with
  | nil => intro acc; simp [parseDigits, decimalValue]
  | cons c cs ih =>
    intro acc
    simp only [parseDigits, digitVal, List.all_cons, decimalValue, List.foldl_cons, isDecimalDigit]
    by_cases hc : 48 ≤ c.toNat ∧ c.toNat ≤ 57
    · simp only [hc, and_self, if_true, decide_True, Bool.true_and]
      rw [ih]
      rfl
    · simp [hc]

theorem ParseUint_eq (s : String) :
    ParseUint s = (natLiteral s.data).bind (fun n => if n < 2 ^ 64 then some n else none) := by
  unfold ParseUint natLiteral
  cases h : s.data with
  | nil => simp
  | cons c cs =>
    simp only [parseDigits_eq]
    by_cases hd : (c :: cs).all isDecimalDigit = true
    · simp [hd]
    · simp [hd]

theorem int64_range_ofNat (m : Nat) :
    (-(2 : Int) ^ 63 ≤ Int.ofNat m ∧ Int.ofNat m < 2 ^ 63) ↔ m < 2 ^ 63 := by
  simp only [Int.ofNat_eq_coe]
  norm_num
  omega

theorem int64_range_neg (m : Nat) :
    (-(2 : Int) ^ 63 ≤ -Int.ofNat m ∧ -Int.ofNat m < 2 ^ 63) ↔ m ≤ 2 ^ 63 := by
  simp only [Int.ofNat_eq_coe]
  norm_num
  omega

theorem int64_check_ofNat (m : Nat) :
    (if m < 2 ^ 63 then some (Int.ofNat m) else none)
      = (some (Int.ofNat m)).bind
          (fun n => if -(2 : Int) ^ 63 ≤ n ∧ n < 2 ^ 63 then some n else none) := by
  by_cases hm : m < 2 ^ 63
  · rw [if_pos hm, Option.some_bind, if_pos ((int64_range_ofNat m).2 hm)]
  · rw [if_neg hm, Option.some_bind, if_neg (fun h => hm ((int64_range_ofNat m).1 h))]

theorem int64_check_neg (m : Nat) :
    (if m ≤ 2 ^ 63 then some (-Int.ofNat m) else none)
      = (some (-Int.ofNat m)).bind
          (fun n => if -(2 : Int) ^ 63 ≤ n ∧ n < 2 ^ 63 then some n else none) := by
  by_cases hm : m ≤ 2 ^ 63
  · rw [if_pos hm, Option.some_bind, if_pos ((int64_range_neg m).2 hm)]
  · rw [if_neg hm, Option.some_bind, if_neg (fun h => hm ((int64_range_neg m).1 h))]

theorem ParseInt_eq (s : String) :
    ParseInt s = (intLiteral s).bind
      (fun n => if -(2 : Int) ^ 63 ≤ n ∧ n < 2 ^ 63 then some n else none) := by
  unfold ParseInt intLiteral natLiteral
  cases h : s.data with
  | nil => rfl
  | cons c cs =>
    simp only [parseDigits_eq]
    by_cases hp : c = '+'
    · simp only [hp, if_true]
      cases cs with
      | nil => rfl
      | cons x xs =>
        by_cases hd : (x :: xs).all isDecimalDigit = true
        · simp only [hd, if_true, ne_eq, reduceCtorEq, not_false_eq_true, and_self,
            Option.map_some']
          exact int64_check_ofNat _
        · simp only [hd, Bool.false_eq_true, if_false, and_false, Option.map_none', Option.none_bind]
    · by_cases hm : c = '-'
      · have hne : ¬ ('-' : Char) = '+' := by decide
        simp only [hm, hne, if_true, if_false]
        cases cs with
        | nil => rfl
        | cons x xs =>
          by_cases hd : (x :: xs).all isDecimalDigit = true
          · simp only [hd, if_true, ne_eq, reduceCtorEq, not_false_eq_true, and_self,
              Option.map_some']
            exact int64_check_neg _
          · simp only [hd, Bool.false_eq_true, if_false, and_false, Option.map_none', Option.none_bind]
      · simp only [hp, hm, if_false]
        by_cases hd : (c :: cs).all isDecimalDigit = true
        · simp only [hd, if_true, ne_eq, reduceCtorEq, not_false_eq_true, and_self,
            Option.map_some']
          exact int64_check_ofNat _
        · simp only [hd, Bool.false_eq_true, if_false, and_false, Option.map_none', Option.none_bind]

theorem convertValue_str_to_int (L : Lib) (fuel : Nat) (s : String) (k : Kind)
    (ds d : Option Decl) (hk : k.isInt = true) (hs : s.length ≠ 0) :
    convertValue L (fuel + 1) (.str (.basic .string ds) s) (.Primitive (.basic .string ds) "")
        (.Primitive (.basic k d) "")
      = match ParseInt s with
        | some n => .ok (.int (.basic k d) (wrapInt k.bits n))
        | none => .err (.str (.basic .string ds) s)
            (valueNotAssignibleError (.str (.basic .string ds) s) (.Primitive (.basic k d) "")) := by
  have hks : k ≠ .string := by rintro rfl; simp [Kind.isInt] at hk
  have hkb : k ≠ .bool := by rintro rfl; simp [Kind.isInt] at hk
  have hkst : k ≠ .struct := by rintro rfl; simp [Kind.isInt] at hk
  rw [convertValue_plain L fuel (.str (.basic .string ds) s) (.Primitive (.basic .string ds) "")
    (.Primitive (.basic k d) "") (.basic .string ds) (.basic k d) rfl rfl rfl
    (by simp [Ne.symm hks]) (by cases k <;> simp [Kind.isInt] at hk <;> simp [Ty.Kind])
    (by cases k <;> simp [Kind.isInt] at hk <;> simp [Ty.Kind])]
  have : convertNonPtrValue L (convertValue L fuel) (.str (.basic .string ds) s)
      (NonPtr (.Primitive (.basic .string ds) "")) (NonPtr (.Primitive (.basic k d) ""))
      = match ParseInt s with
        | some n => .ok (.int (.basic k d) (wrapInt k.bits n))
        | none => .err (.str (.basic .string ds) s)
            (valueNotAssignibleError (.str (.basic .string ds) s) (.Primitive (.basic k d) "")) := by
    simp only [NonPtr, convertNonPtrValue, TypeMeta.Type, Ty.Kind, convertPrimitiveValue,
        convertPrimitiveValueWith, Val.IsZero, Val.GoString]
    simp only [hks, hkb, hkst, hk, hs, beq_iff_eq, if_false, if_true, beq_self_eq_true,
      reduceCtorEq, Ne.symm hks, decide_False, decide_True, Bool.false_eq_true]
    cases ParseInt s with
    | none => rfl
    | some n => simp [convertOf, TypeMeta.Type, convertTo, Ty.Kind, hk, makeInt]
  rw [this]
  cases ParseInt s with
  | none => rfl
  | some n => exact convertValueEnd_ok _ _ _ _ _ _ rfl

theorem convertValue_str_to_uint (L : Lib) (fuel : Nat) (s : String) (k : Kind)
    (ds d : Option Decl) (hk : k.isUint = true) (hs : s.length ≠ 0) :
    convertValue L (fuel + 1) (.str (.basic .string ds) s) (.Primitive (.basic .string ds) "")
        (.Primitive (.basic k d) "")
      = match ParseUint s with
        | some n => .ok (.uint (.basic k d) (wrapUint k.bits (Int.ofNat n)))
        | none => .err (.str (.basic .string ds) s)
            (valueNotAssignibleError (.str (.basic .string ds) s) (.Primitive (.basic k d) "")) := by
  have hks : k ≠ .string := by rintro rfl; simp [Kind.isUint] at hk
  have hkb : k ≠ .bool := by rintro rfl; simp [Kind.isUint] at hk
  have hkst : k ≠ .struct := by rintro rfl; simp [Kind.isUint] at hk
  have hki : k.isInt = false := by cases k <;> simp_all [Kind.isUint, Kind.isInt]
  rw [convertValue_plain L fuel (.str (.basic .string ds) s) (.Primitive (.basic .string ds) "")
    (.Primitive (.basic k d) "") (.basic .string ds) (.basic k d) rfl rfl rfl
    (by simp [Ne.symm hks]) (by cases k <;> simp [Kind.isUint] at hk <;> simp [Ty.Kind])
    (by cases k <;> simp [Kind.isUint] at hk <;> simp [Ty.Kind])]
  have : convertNonPtrValue L (convertValue L fuel) (.str (.basic .string ds) s)
      (NonPtr (.Primitive (.basic .string ds) "")) (NonPtr (.Primitive (.basic k d) ""))
      = match ParseUint s with
        | some n => .ok (.uint (.basic k d) (wrapUint k.bits (Int.ofNat n)))
        | none => .err (.str (.basic .string ds) s)
            (valueNotAssignibleError (.str (.basic .string ds) s) (.Primitive (.basic k d) "")) := by
    simp only [NonPtr, convertNonPtrValue, TypeMeta.Type, Ty.Kind, convertPrimitiveValue,
        convertPrimitiveValueWith, Val.IsZero, Val.GoString]
    simp only [hks, hkb, hkst, hk, hki, hs, beq_iff_eq, if_false, if_true, beq_self_eq_true,
      reduceCtorEq, Ne.symm hks, decide_False, decide_True, Bool.false_eq_true]
    cases ParseUint s with
    | none => rfl
    | some n => simp [convertOf, TypeMeta.Type, convertTo, Ty.Kind, hk, hki, makeInt]
  rw [this]
  cases ParseUint s with
  | none => rfl
  | some n => exact convertValueEnd_ok _ _ _ _ _ _ rfl

theorem nilMet_Type (v : Val) (h : v.nilMet = true) : ∃ e, v.Type = some (.ptr e) := by
  cases v with
  | nilPtr t =>
    cases t <;> simp [Val.nilMet] at h
    exact ⟨_, rfl⟩
  | ptr t x =>
    cases t <;> simp [Val.nilMet] at h
    exact ⟨_, rfl⟩
  | _ => simp [Val.nilMet] at h

theorem stripPtr_nilMet_aux (T : Ty) (hT : T.Kind ≠ .ptr) (n : Nat) :
    ∀ v : Val, v.ptrDepth = n → v.nilMet = true → stripPtr T v = .error (.ok (zero T)) := by
  induction n with
  | zero =>
    intro v hd h
    cases v with
    | nilPtr t => simp [stripPtr]
    | ptr t x => simp [Val.ptrDepth] at hd
    | _ => simp [Val.nilMet] at h
  | succ n ih =>
    intro v hd h
    cases v <;> simp [Val.ptrDepth] at hd
    rename_i t x
    have h : x.nilMet = true := by
      cases t <;> simp [Val.nilMet] at h
      exact h
    obtain ⟨e, he⟩ := nilMet_Type x h
    have hne : x.Type ≠ some T := by
      rw [he]; intro hh; simp at hh; subst hh; simp [Ty.Kind] at hT
    simp only [stripPtr, hne, if_false]
    exact ih x hd h

theorem stripPtr_nilMet (T : Ty) (hT : T.Kind ≠ .ptr) (v : Val) (h : v.nilMet = true) :
    stripPtr T v = .error (.ok (zero T)) :=
  stripPtr_nilMet_aux T hT v.ptrDepth v rfl h

theorem ptrLevel_of_not_ptr (B : Ty) (hB : B.Kind ≠ .ptr) : B.ptrLevel = 0 ∧ B.nonPtr = B := by
  cases B <;> simp [Ty.ptrLevel, Ty.nonPtr, Ty.Kind] at hB ⊢

theorem ptrN_ptrLevel (B : Ty) (hB : B.Kind ≠ .ptr) (n : Nat) :
    (ptrN n B).ptrLevel = n ∧ (ptrN n B).nonPtr = B := by
  induction n with
  | zero => exact ptrLevel_of_not_ptr B hB
  | succ n ih => simp [ptrN, Ty.ptrLevel, Ty.nonPtr, ih]

theorem ptrN_ne (B : Ty) (hB : B.Kind ≠ .ptr) (m n : Nat) (h : m ≠ n) : ptrN m B ≠ ptrN n B := by
  intro he
  have h1 := (ptrN_ptrLevel B hB m).1
  rw [he, (ptrN_ptrLevel B hB n).1] at h1
  exact h h1.symm

theorem ptrN_shift (n : Nat) (t : Ty) : ptrN n (.ptr t) = .ptr (ptrN n t) := by
  induction n with
  | zero => rfl
  | succ n ih => simp [ptrN, ih]

theorem ptrN_add (j m : Nat) (B : Ty) : ptrN j (ptrN m B) = ptrN (j + m) B := by
  induction j with
  | zero => simp [ptrN]
  | succ j ih => simp [ptrN, ih, Nat.succ_add]

theorem derefTimes_ptrOK (T B : Ty) : ∀ (j m : Nat) (v : Val), j ≤ m →
    v.Type = some (ptrN m B) → (0 < j → v.ptrOK = true) →
    (nilWithin j v = true ∧ derefTimes T j v = .error (.ok (zero T))) ∨
    (nilWithin j v = false ∧ ∃ r, derefTimes T j v = .ok r ∧ derefN j v = some r ∧
      r.Type = some (ptrN (m - j) B)) := by
  intro j
  induction j with
  | zero =>
    intro m v _ hv _
    exact Or.inr ⟨rfl, v, rfl, rfl, by simpa using hv⟩
  | succ j ih =>
    intro m v hjm hv hok
    have hok := hok (Nat.succ_pos j)
    cases v with
    | nilPtr t => exact Or.inl ⟨rfl, rfl⟩
    | ptr t x =>
      cases t with
      | ptr e =>
        simp only [Val.ptrOK, Bool.and_eq_true, beq_iff_eq, Bool.or_eq_true, bne_iff_ne, ne_eq,
          Bool.not_eq_true', decide_eq_false_iff_not] at hok
        obtain ⟨hx, hrec⟩ := hok
        cases m with
        | zero => omega
        | succ m =>
          simp only [Val.Type, ptrN, Option.some.injEq, Ty.ptr.injEq] at hv
          have hxok : 0 < j → x.ptrOK = true := by
            intro hj
            rcases hrec with hk | hk
            · exfalso
              cases m with
              | zero => omega
              | succ m => rw [hv] at hk; simp [ptrN, Ty.Kind] at hk
            · exact hk
          have := ih m x (by omega) (by rw [hx, hv]) hxok
          simpa [nilWithin, derefTimes, derefN] using this
      | _ => simp [Val.ptrOK] at hok
    | _ => simp [Val.ptrOK] at hok

theorem derefN_succ (j : Nat) : ∀ (r : Val), derefN (j + 1) r = (derefN j r).bind (derefN 1) := by
  induction j with
  | zero => intro r; simp [derefN]
  | succ j ih =>
    intro r
    cases r <;> simp [derefN]
    exact ih _

theorem wrapTimes_spec : ∀ (j : Nat) (v : Val) (t : Ty), v.Type = some t →
    ∃ r, wrapTimes j v = some r ∧ derefN j r = some v ∧ r.Type = some (ptrN j t) := by
  intro j
  induction j with
  | zero => intro v t hv; exact ⟨v, rfl, rfl, hv⟩
  | succ j ih =>
    intro v t hv
    obtain ⟨r, h1, h2, h3⟩ := ih (.ptr (.ptr t) v) (.ptr t) rfl
    refine ⟨r, by simp [wrapTimes, hv, h1], ?_, ?_⟩
    · rw [derefN_succ, h2]; rfl
    · rw [h3, ptrN_shift]; rfl

theorem ptrOK_Kind (v : Val) (h : v.ptrOK = true) :
    v.Kind = .ptr ∧ (∀ it dyn, v ≠ .iface it dyn) ∧ (∀ it, v ≠ .nilIface it) := by
  cases v with
  | nilPtr t =>
    cases t <;> simp [Val.ptrOK] at h
    exact ⟨rfl, fun _ _ hh => (by cases hh), fun _ hh => (by cases hh)⟩
  | ptr t x =>
    cases t <;> simp [Val.ptrOK] at h
    exact ⟨rfl, fun _ _ hh => (by cases hh), fun _ hh => (by cases hh)⟩
  | _ => simp [Val.ptrOK] at h

theorem convertValueBody_to_iface (L : Lib) (conv : Val → TypeMeta → TypeMeta → Res) (v : Val)
    (vm : TypeMeta) (S : Ty) (d : Decl) (hv : v.Type = some S) (hne : S ≠ .iface d) :
    convertValueBody L conv v vm (get L (.iface d))
      = if S.Implements (.iface d) then .ok v
        else .err v (S.Str ++ " does not implement " ++ (Ty.iface d).Str) := by
  simp only [convertValueBody, hv, get_Type, hne, if_false, Ty.Kind]
  by_cases hi : S.Implements (.iface d) = true <;> simp [hi]

mutual
theorem retag_self : ∀ (v : Val) (t : Ty), v.Type = some t → v.wt = true → retag t v = v
  | .invalid, t, h, _ => by simp [Val.Type] at h
  | .bool _ _, t, h, _ => by simp [Val.Type] at h; subst h; rfl
  | .int _ _, t, h, _ => by simp [Val.Type] at h; subst h; rfl
  | .uint _ _, t, h, _ => by simp [Val.Type] at h; subst h; rfl
  | .float _ _, t, h, _ => by simp [Val.Type] at h; subst h; rfl
  | .complex _ _ _, t, h, _ => by simp [Val.Type] at h; subst h; rfl
  | .str _ _, t, h, _ => by simp [Val.Type] at h; subst h; rfl
  | .ref _ _, t, h, _ => by simp [Val.Type] at h; subst h; rfl
  | .nilPtr _, t, h, _ => by simp [Val.Type] at h; subst h; rfl
  | .nilSlice _, t, h, _ => by simp [Val.Type] at h; subst h; rfl
  | .nilMap _, t, h, _ => by simp [Val.Type] at h; subst h; rfl
  | .nilIface _, t, h, _ => by simp [Val.Type] at h; subst h; rfl
  | .iface _ _, t, h, _ => by simp [Val.Type] at h; subst h; rfl
  | .ptr t0 x, t, h, hw => by
    simp only [Val.Type, Option.some.injEq] at h
    subst h
    cases t0 <;> simp [Val.wt] at hw
    simp only [retag]
    rw [retag_self x _ hw.1 hw.2]
  | .slice t0 es, t, h, hw => by
    simp only [Val.Type, Option.some.injEq] at h
    subst h
    cases t0 <;> simp [Val.wt] at hw
    simp only [retag]
    rw [retagAll_self es _ hw]
  | .array t0 es, t, h, hw => by
    simp only [Val.Type, Option.some.injEq] at h
    subst h
    cases t0 <;> simp [Val.wt] at hw
    simp only [retag]
    rw [retagAll_self es _ hw]
  | .map t0 es, t, h, hw => by
    simp only [Val.Type, Option.some.injEq] at h
    subst h
    cases t0 <;> simp [Val.wt] at hw
    simp only [retag]
    rw [retagEntries_self es _ _ hw]
  | .struct t0 fs, t, h, hw => by
    simp only [Val.Type, Option.some.injEq] at h
    subst h
    cases t0 <;> simp [Val.wt] at hw
    simp only [retag]
    rw [retagFields_self fs _ hw]
theorem retagAll_self : ∀ (es : Vals) (e : Ty), Vals.wt e es = true → retagAll e es = es
  | .nil, _, _ => rfl
  | .cons v r, e, hw => by
    simp only [Vals.wt, Bool.and_eq_true, beq_iff_eq] at hw
    simp only [retagAll]
    rw [retag_self v e hw.1.1 hw.1.2, retagAll_self r e hw.2]
theorem retagFields_self : ∀ (fs : Vals) (decls : FieldList), Vals.wtFields decls fs = true →
    retagFields decls fs = fs
  | .nil, .nil, _ => rfl
  | .nil, .cons _ _ _, _ => rfl
  | .cons v r, .nil, _ => rfl
  | .cons v r, .cons _ t decls, hw => by
    simp only [Vals.wtFields, Bool.and_eq_true, beq_iff_eq] at hw
    simp only [retagFields]
    rw [retag_self v t hw.1.1 hw.1.2, retagFields_self r decls hw.2]
theorem retagEntries_self : ∀ (es : Entries) (k e : Ty), Entries.wt k e es = true →
    retagEntries k e es = es
  | .nil, _, _, _ => rfl
  | .cons key v r, k, e, hw => by
    simp only [Entries.wt, Bool.and_eq_true, beq_iff_eq] at hw
    simp only [retagEntries]
    rw [retag_self key k hw.1.1.1.1 hw.1.1.1.2, retag_self v e hw.1.1.2 hw.1.2,
      retagEntries_self r k e hw.2]
end

theorem Entries.insert_fresh : ∀ (acc : List (Val × Val)) (k e : Val),
    k ∉ acc.map Prod.fst →
    (Entries.ofList acc).insert k e = Entries.ofList (acc ++ [(k, e)])
  | [], k, e, _ => rfl
  | (k0, v0) :: rest, k, e, h => by
    simp only [List.map_cons, List.mem_cons, not_or] at h
    simp only [Entries.ofList, Entries.insert, List.cons_append]
    rw [if_neg (fun hh => h.1 hh.symm), Entries.insert_fresh rest k e h.2]
    rfl

theorem SetMapIndex_ok (d : Option Decl) (kt et : Ty) (es : Entries) (key elem k e : Val)
    (hk : assignTo key kt = some k) (hh : hashable k = true) (he : assignTo elem et = some e) :
    SetMapIndex (.map (.map d kt et) es) key elem = some (.map (.map d kt et) (es.insert k e)) := by
  have hne : elem ≠ .invalid := by
    intro h; subst h; simp [assignTo, Val.Type] at he
  simp only [SetMapIndex, hk, hh]
  cases elem <;> simp_all

theorem mapToMap_prefix (L : Lib) (conv : Val → TypeMeta → TypeMeta → Res) (value : Val)
    (d2 : Option Decl) (kt et kt2 et2 : Ty) (pre : List (Val × Val)) (ys : List (Val × Val))
    (rest : List (Val × Val))
    (h : List.Forall₂ (storesEntry L conv kt et kt2 et2) pre ys) :
    ∀ acc : List (Val × Val), ((acc ++ ys).map Prod.fst).Nodup →
      mapToMap L conv value (get L kt) (get L et) (get L kt2) (get L et2) (decide (kt ≠ kt2))
          (Entries.ofList (pre ++ rest)) (.map (.map d2 kt2 et2) (Entries.ofList acc))
        = mapToMap L conv value (get L kt) (get L et) (get L kt2) (get L et2) (decide (kt ≠ kt2))
          (Entries.ofList rest) (.map (.map d2 kt2 et2) (Entries.ofList (acc ++ ys))) := by
  induction h with
  | nil => intro acc _; simp
  | @cons e y es ys hey _ ih =>
    intro acc hnd
    obtain ⟨rk, rv, hkey, hval, hak, hhash, hav⟩ := hey
    obtain ⟨ek, ev⟩ := e
    obtain ⟨yk, yv⟩ := y
    have hfresh : yk ∉ acc.map Prod.fst := by
      intro hm
      rw [List.map_append, List.map_cons] at hnd
      have := (List.nodup_append.1 hnd).2.2
      exact this hm (List.mem_cons_self _ _)
    have hkr : (if decide (kt ≠ kt2) = true then conv ek (get L kt) (get L kt2) else Res.ok ek)
        = .ok rk := by
      by_cases hk : kt = kt2
      · simp only [hk, if_true] at hkey
        simp [hk, hkey]
      · simp only [hk, if_false] at hkey
        simp [hk, hkey]
    simp only [List.cons_append, Entries.ofList, mapToMap, hkr, hval,
      SetMapIndex_ok d2 kt2 et2 _ rk rv yk yv hak hhash hav, Entries.insert_fresh acc yk yv hfresh]
    have := ih (acc ++ [(yk, yv)]) (by simpa using hnd)
    simpa using this

theorem ConvertValue_map_to_map (L : Lib) (fuel : Nat) (d d2 : Option Decl) (kt et kt2 et2 : Ty)
    (es : Entries) (hne : kt ≠ kt2 ∨ et ≠ et2) :
    ConvertValue L (fuel + 1) (.map (.map d kt et) es) (.type (.map d2 kt2 et2))
      = convertValueEnd L (convertValue L fuel) (.map (.map d kt et) es) (get L (.map d2 kt2 et2))
          (.map d2 kt2 et2)
          (mapToMap L (convertValue L fuel) (.map (.map d kt et) es) (get L kt) (get L et)
            (get L kt2) (get L et2) (decide (kt ≠ kt2)) es (.map (.map d2 kt2 et2) .nil)) := by
  have hST : Ty.map d kt et ≠ Ty.map d2 kt2 et2 := by
    intro h; simp only [Ty.map.injEq] at h
    rcases hne with h1 | h1
    · exact h1 h.2.1
    · exact h1 h.2.2
  have hv : (Val.map (.map d kt et) es).Type = some (.map d kt et) := rfl
  simp only [ConvertValue, hv, Get]
  rw [convertValue_plain L fuel _ _ _ (.map d kt et) (.map d2 kt2 et2) hv (get_Type L _) rfl hST
    (by simp [Ty.Kind]) (by simp [Ty.Kind])]
  congr 1
  have hk : (Ty.map d2 kt2 et2).Kind = .map := rfl
  have hg1 : get L (.map d kt et) = .Map (get L kt) (get L et) (.map d kt et) := by simp [get]
  have hg2 : get L (.map d2 kt2 et2) = .Map (get L kt2) (get L et2) (.map d2 kt2 et2) := by
    simp [get]
  have ht : (TypeMeta.Map (get L kt2) (get L et2) (.map d2 kt2 et2)).Type
      = some (.map d2 kt2 et2) := rfl
  rw [hg1, hg2]
  simp only [NonPtr, convertNonPtrValue, ht, hk, get_Type, MakeMap]
  rcases hne with h1 | h1 <;> simp [h1]

theorem mapToMap_key_err (L : Lib) (conv : Val → TypeMeta → TypeMeta → Res) (value : Val)
    (kt et kt2 et2 : Ty) (k x : Val) (post : Entries) (newValue ev : Val) (msg : String)
    (hk : kt ≠ kt2) (h : conv k (get L kt) (get L kt2) = .err ev msg) :
    mapToMap L conv value (get L kt) (get L et) (get L kt2) (get L et2) (decide (kt ≠ kt2))
        (.cons k x post) newValue
      = .err value ("could not convert key \"" ++ Sprint L k ++ "\" to \"" ++ (get L kt2).Str
          ++ "\". " ++ msg) := by
  simp [mapToMap, hk, h]

theorem mapToMap_value_err (L : Lib) (conv : Val → TypeMeta → TypeMeta → Res) (value : Val)
    (kt et kt2 et2 : Ty) (k x : Val) (post : Entries) (newValue ev : Val) (msg : String)
    (hk : kt ≠ kt2 → ∃ rk, conv k (get L kt) (get L kt2) = .ok rk)
    (h : conv x (get L et) (get L et2) = .err ev msg) :
    mapToMap L conv value (get L kt) (get L et) (get L kt2) (get L et2) (decide (kt ≠ kt2))
        (.cons k x post) newValue
      = .err value ("could not convert value of key \"" ++ Sprint L k ++ "\" to \""
          ++ (get L et2).Str ++ "\". " ++ msg) := by
  by_cases hkk : kt = kt2
  · simp [mapToMap, hkk, h]
  · obtain ⟨rk, hrk⟩ := hk hkk
    simp [mapToMap, hkk, h, hrk]

theorem ConvertValue_map_same_entries (L : Lib) (fuel : Nat) (d d2 : Option Decl) (kt et : Ty)
    (es : Entries) (hw : Entries.wt kt et es = true) :
    ConvertValue L (fuel + 1) (.map (.map d kt et) es) (.type (.map d2 kt et))
      = .ok (.map (.map d2 kt et) es) := by
  have hv : (Val.map (.map d kt et) es).Type = some (.map d kt et) := rfl
  simp only [ConvertValue, hv, Get]
  by_cases hd : d = d2
  · subst hd
    exact convertValue_same L fuel _ _ _ _ hv (get_Type L _)
      (fun _ _ h => by cases h) (fun _ h => by cases h)
  · have hST : Ty.map d kt et ≠ Ty.map d2 kt et := by
      intro h; simp only [Ty.map.injEq] at h; exact hd h.1
    rw [convertValue_plain L fuel _ _ _ (.map d kt et) (.map d2 kt et) hv (get_Type L _) rfl hST
      (by simp [Ty.Kind]) (by simp [Ty.Kind])]
    have hk : (Ty.map d2 kt et).Kind = .map := rfl
    have hg1 : get L (.map d kt et) = .Map (get L kt) (get L et) (.map d kt et) := by simp [get]
    have hg2 : get L (.map d2 kt et) = .Map (get L kt) (get L et) (.map d2 kt et) := by
      simp [get]
    have ht : (TypeMeta.Map (get L kt) (get L et) (.map d2 kt et)).Type
        = some (.map d2 kt et) := rfl
    have hn : convertNonPtrValue L (convertValue L fuel) (.map (.map d kt et) es)
        (NonPtr (get L (.map d kt et))) (NonPtr (get L (.map d2 kt et)))
        = .ok (.map (.map d2 kt et) es) := by
      rw [hg1, hg2]
      simp only [NonPtr, convertNonPtrValue, ht, hk, get_Type, convertOf, convertTo,
        convertDirect, hv]
      simp [hST, haveIdenticalUnderlyingType, identicalTypeIf, retag,
        retagEntries_self es kt et hw]
    rw [hn]
    exact convertValueEnd_ok _ _ _ _ _ _ rfl

theorem ConvertValue_unexported_field (L : Lib) (fuel : Nat) (d : Decl) (decls : FieldList)
    (md : Option Decl) (kt et : Ty) (key x : Val) (rest : Entries) (sf : StructField) (r : Val)
    (hT : (Ty.struct d decls).Implements primitiveType = false)
    (hf : (get L (.struct d decls)).FieldByName key.GoString = some sf)
    (he : exported L sf.info.Name = false)
    (hc : convertValue L fuel x (get L et) sf.TypeMeta = .ok r) :
    ConvertValue L (fuel + 1) (.map (.map md kt et) (.cons key x rest)) (.type (.struct d decls))
      = .panic "reflect.Set: the field cannot be set to the value" := by
  obtain ⟨f, ft, hg, hn, _⟩ := FieldByName_get L d decls hT _ sf hf
  rw [ConvertValue_map_to_struct L fuel d decls md kt et _ hT]
  rw [hn] at he
  simp [mapToStruct, hf, hc, setField, hg, he, convertValueEnd]

theorem ConvertValue_unconvertible_primitive (L : Lib) (fuel : Nat) (v : Val) (S T : Ty)
    (hS : get L S = .Primitive S "") (hT : get L T = .Primitive T "") (hne : S ≠ T)
    (hk : S.Kind = T.Kind) (hks : T.Kind ≠ .string) (hkp : T.Kind ≠ .ptr)
    (hki : T.Kind ≠ .interface) (hv : v.Type = some S) (hp : v.plain = true)
    (hz : v.IsZero = false) (hc : convertTo L v T = none) :
    ConvertValue L (fuel + 1) v (.type T)
      = .panic "reflect.Value.Convert: value cannot be converted" := by
  simp only [ConvertValue, hv, Get]
  rw [convertValue_plain L fuel v _ _ S T hv (get_Type L _) hp hne hki hkp, hS, hT]
  simp only [NonPtr]
  rw [convertNonPtrValue_prim L _ v S T "" "" hks]
  simp [convertPrimitiveValue, convertPrimitiveValueWith, hks, hz, hk, convertOf, TypeMeta.Type,
    hc, convertValueEnd]

theorem convertPrimitiveValue_int_returns (L : Lib) (k K : Kind) (n : Int)
    (hk : k.isInt = true) (hK : primitiveKind K = true) (hKs : K ≠ .string) (hne : k ≠ K)
    (hz : n ≠ 0) :
    ∃ r, convertPrimitiveValue L (.int (builtin k) n) (.Primitive (builtin k) "")
        (.Primitive (builtin K) "") = .ok r ∧ r.Type = some (builtin K) := by
  cases K <;> simp [primitiveKind, Kind.isInt, Kind.isUint, Kind.isFloat] at hK hKs <;>
  cases k <;> simp [Kind.isInt] at hk hne <;>
    simp [convertPrimitiveValue, convertPrimitiveValueWith, builtin, Ty.Kind, Val.IsZero, hz,
      Kind.isInt, Kind.isUint, Kind.isFloat, convertOf, TypeMeta.Type, convertTo, makeInt,
      makeFloat, convertDirect, Val.Type, Val.GoString]

theorem convertPrimitiveValue_uint_returns (L : Lib) (k K : Kind) (n : Nat)
    (hk : k.isUint = true) (hK : primitiveKind K = true) (hKs : K ≠ .string) (hne : k ≠ K)
    (hz : n ≠ 0) :
    ∃ r, convertPrimitiveValue L (.uint (builtin k) n) (.Primitive (builtin k) "")
        (.Primitive (builtin K) "") = .ok r ∧ r.Type = some (builtin K) := by
  cases K <;> simp [primitiveKind, Kind.isInt, Kind.isUint, Kind.isFloat] at hK hKs <;>
  cases k <;> simp [Kind.isUint] at hk hne <;>
    simp [convertPrimitiveValue, convertPrimitiveValueWith, builtin, Ty.Kind, Val.IsZero, hz,
      Kind.isInt, Kind.isUint, Kind.isFloat, convertOf, TypeMeta.Type, convertTo, makeInt,
      makeFloat, convertDirect, Val.Type, Val.GoString]

theorem convertPrimitiveValue_float_returns (L : Lib) (k K : Kind) (bits : Nat)
    (hk : k.isFloat = true) (hK : primitiveKind K = true) (hKs : K ≠ .string) (hne : k ≠ K)
    (hz : bits ≠ 0) :
    ∃ r, convertPrimitiveValue L (.float (builtin k) bits) (.Primitive (builtin k) "")
        (.Primitive (builtin K) "") = .ok r ∧ r.Type = some (builtin K) := by
  cases K <;> simp [primitiveKind, Kind.isInt, Kind.isUint, Kind.isFloat] at hK hKs <;>
  cases k <;> simp [Kind.isFloat] at hk hne <;>
    simp [convertPrimitiveValue, convertPrimitiveValueWith, builtin, Ty.Kind, Val.IsZero, hz,
      Kind.isInt, Kind.isUint, Kind.isFloat, convertOf, TypeMeta.Type, convertTo, makeInt,
      makeFloat, convertDirect, Val.Type, Val.GoString]

theorem convertPrimitiveValue_bool_returns (L : Lib) (K : Kind)
    (hK : primitiveKind K = true) (hKs : K ≠ .string) (hne : Kind.bool ≠ K) :
    ∃ r, convertPrimitiveValue L (.bool (builtin .bool) true) (.Primitive (builtin .bool) "")
        (.Primitive (builtin K) "") = .ok r ∧ r.Type = some (builtin K) := by
  cases K <;> simp [primitiveKind, Kind.isInt, Kind.isUint, Kind.isFloat] at hK hKs hne <;>
    simp [convertPrimitiveValue, convertPrimitiveValueWith, builtin, Ty.Kind, Val.IsZero,
      Kind.isInt, Kind.isUint, Kind.isFloat, convertOf, TypeMeta.Type, convertTo, makeInt,
      makeFloat, convertDirect, Val.Type, Val.GoString]

theorem convertPrimitiveValue_str_returns (L : Lib) (K : Kind) (s : String)
    (hK : primitiveKind K = true) (hKs : K ≠ .string) (hz : s.length ≠ 0) :
    (∃ r, convertPrimitiveValue L (.str (builtin .string) s) (.Primitive (builtin .string) "")
        (.Primitive (builtin K) "") = .ok r ∧ r.Type = some (builtin K))
    ∨ (∃ e m, convertPrimitiveValue L (.str (builtin .string) s) (.Primitive (builtin .string) "")
        (.Primitive (builtin K) "") = .err e m) := by
  cases K <;> simp [primitiveKind, Kind.isInt, Kind.isUint, Kind.isFloat] at hK hKs <;>
    simp only [convertPrimitiveValue, convertPrimitiveValueWith, builtin, Ty.Kind, Val.IsZero,
      Kind.isInt, Kind.isUint, Kind.isFloat, Val.GoString, get] <;>
    simp only [hz, beq_iff_eq, reduceCtorEq, if_false, if_true, beq_self_eq_true,
      decide_False, decide_True, Bool.false_eq_true, Bool.or_false, Bool.or_true] <;>
    first
    | ((cases ParseInt s <;>
        simp [convertOf, TypeMeta.Type, convertTo, convertDirect, Val.Type, makeFloat, makeInt,
          Ty.Kind, Kind.isInt, Kind.isUint, Kind.isFloat]); done)
    | ((cases ParseUint s <;>
        simp [convertOf, TypeMeta.Type, convertTo, convertDirect, Val.Type, makeFloat, makeInt,
          Ty.Kind, Kind.isInt, Kind.isUint, Kind.isFloat]); done)
    | (cases ParseBool s <;> cases L.parseFloat s <;>
        simp [convertOf, TypeMeta.Type, convertTo, convertDirect, Val.Type, makeFloat, makeInt,
          Ty.Kind, Kind.isInt, Kind.isUint, Kind.isFloat])

theorem ConvertValue_kind_eq_type (L : Lib) (fuel : Nat) (v : Val) (K : Kind)
    (hK : primitiveKind K = true) :
    ConvertValue L fuel v (.kind K) = ConvertValue L fuel v (.type (builtin K)) := by
  simp only [ConvertValue, Get_kind_prim L K hK]
  simp [Get, get, builtin]

theorem scalar_returns_core (L : Lib) (fuel : Nat) (v : Val) (ks K : Kind)
    (hv : v.Type = some (builtin ks)) (hp : v.plain = true) (hK : primitiveKind K = true)
    (hid : v.IsZero = true → builtin ks = builtin K → v = zero (builtin K))
    (hnz : v.IsZero = false → ks ≠ K → K ≠ .string →
      (∃ r, convertPrimitiveValue L v (.Primitive (builtin ks) "") (.Primitive (builtin K) "")
          = .ok r ∧ r.Type = some (builtin K))
      ∨ (∃ e m, convertPrimitiveValue L v (.Primitive (builtin ks) "")
          (.Primitive (builtin K) "") = .err e m)) :
    (ConvertValue L (fuel + 2) v (.kind K)).returns = true := by
  rw [ConvertValue_kind_eq_type L _ v K hK]
  have hTk : (builtin K).Kind = K := rfl
  have hKi : K ≠ .interface := by rintro rfl; simp [primitiveKind, Kind.isInt, Kind.isUint, Kind.isFloat] at hK
  have hKp : K ≠ .ptr := by rintro rfl; simp [primitiveKind, Kind.isInt, Kind.isUint, Kind.isFloat] at hK
  by_cases hKs : K = .string
  · subst hKs
    by_cases hks : ks = .string
    · subst hks
      simp only [ConvertValue, hv, Get]
      rw [convertValue_same L (fuel + 1) v _ _ _ hv (get_Type L _)
        (fun _ _ h => by subst h; simp [Val.plain] at hp)
        (fun _ h => by subst h; simp [Val.plain] at hp)]
      rfl
    · simp only [ConvertValue, hv, Get, get, builtin]
      rw [convertValue_to_string L (fuel + 1) v _ (.basic ks none) none "" hv hp
        (by simp [hks]) (marshalerOf_builtin v ks hv)]
      rfl
  · by_cases hz : v.IsZero = true
    · rw [zero_rule_core L fuel v (builtin ks) (builtin K) hv hz (by simp [get, builtin])
        (by simp [get, builtin])
        (by
          simp only [hTk, zeroRuleKind]
          simp only [primitiveKind, Bool.or_eq_true, beq_iff_eq] at hK
          rcases hK with (((h | h) | h) | h) | h
          · simp [h]
          · simp [h]
          · simp [h]
          · simp [h]
          · exact absurd h hKs)
        (hid hz)]
      rfl
    · have hz' : v.IsZero = false := by simpa using hz
      by_cases hkK : ks = K
      · subst hkK
        simp only [ConvertValue, hv, Get]
        rw [convertValue_same L (fuel + 1) v _ _ _ hv (get_Type L _)
          (fun _ _ h => by subst h; simp [Val.plain] at hp)
          (fun _ h => by subst h; simp [Val.plain] at hp)]
        rfl
      · simp only [ConvertValue, hv, Get, get, builtin]
        rw [convertValue_plain L (fuel + 1) v (.Primitive (.basic ks none) "")
          (.Primitive (.basic K none) "") (.basic ks none) (.basic K none) hv rfl hp
          (by simp [hkK]) (by simpa [Ty.Kind] using hKi) (by simpa [Ty.Kind] using hKp)]
        simp only [NonPtr]
        rw [convertNonPtrValue_prim L _ v _ _ "" "" (by simpa [Ty.Kind] using hKs)]
        rcases hnz hz' hkK hKs with ⟨r, h1, h2⟩ | ⟨e, m, h1⟩
        · simp only [builtin] at h1 h2
          rw [h1, convertValueEnd_ok _ _ _ _ _ _ h2]
          rfl
        · simp only [builtin] at h1
          rw [h1]
          rfl

theorem scalar_returns (L : Lib) (fuel : Nat) (v : Val) (K : Kind)
    (hs : isScalar v = true) (hK : primitiveKind K = true) :
    (ConvertValue L (fuel + 2) v (.kind K)).returns = true := by
  cases v with
  | bool t b =>
    cases t with
    | basic k d =>
      cases d with
      | some d => cases k <;> simp [isScalar] at hs
      | none =>
        cases k <;> simp [isScalar] at hs
        refine scalar_returns_core L fuel _ .bool K rfl rfl hK ?_ ?_
        · intro hz hk
          simp only [Val.IsZero, Bool.not_eq_true'] at hz
          subst hz
          simp only [builtin, Ty.basic.injEq, and_true] at hk
          subst hk
          rfl
        · intro hz hk hKs
          simp only [Val.IsZero, Bool.not_eq_false'] at hz
          subst hz
          exact Or.inl (convertPrimitiveValue_bool_returns L K hK hKs hk)
    | _ => simp [isScalar] at hs
  | int t n =>
    cases t with
    | basic k d =>
      cases d with
      | some d => simp [isScalar] at hs
      | none =>
        simp only [isScalar] at hs
        refine scalar_returns_core L fuel _ k K rfl rfl hK ?_ ?_
        · intro hz hk
          simp only [Val.IsZero, beq_iff_eq] at hz
          subst hz
          simp only [builtin, Ty.basic.injEq, and_true] at hk
          subst hk
          have hb : k ≠ .bool := by rintro rfl; simp [Kind.isInt] at hs
          simp [zero, builtin, hs, hb]
        · intro hz hk hKs
          simp only [Val.IsZero, beq_eq_false_iff_ne, ne_eq] at hz
          exact Or.inl (convertPrimitiveValue_int_returns L k K n hs hK hKs hk hz)
    | _ => simp [isScalar] at hs
  | uint t n =>
    cases t with
    | basic k d =>
      cases d with
      | some d => simp [isScalar] at hs
      | none =>
        simp only [isScalar] at hs
        refine scalar_returns_core L fuel _ k K rfl rfl hK ?_ ?_
        · intro hz hk
          simp only [Val.IsZero, beq_iff_eq] at hz
          subst hz
          simp only [builtin, Ty.basic.injEq, and_true] at hk
          subst hk
          have hb : k ≠ .bool := by rintro rfl; simp [Kind.isUint] at hs
          have hi : k.isInt = false := by cases k <;> simp_all [Kind.isUint, Kind.isInt]
          simp [zero, builtin, hs, hb, hi]
        · intro hz hk hKs
          simp only [Val.IsZero, beq_eq_false_iff_ne, ne_eq] at hz
          exact Or.inl (convertPrimitiveValue_uint_returns L k K n hs hK hKs hk hz)
    | _ => simp [isScalar] at hs
  | float t n =>
    cases t with
    | basic k d =>
      cases d with
      | some d => simp [isScalar] at hs
      | none =>
        simp only [isScalar] at hs
        refine scalar_returns_core L fuel _ k K rfl rfl hK ?_ ?_
        · intro hz hk
          simp only [Val.IsZero, beq_iff_eq] at hz
          subst hz
          simp only [builtin, Ty.basic.injEq, and_true] at hk
          subst hk
          have hb : k ≠ .bool := by rintro rfl; simp [Kind.isFloat] at hs
          have hi : k.isInt = false := by cases k <;> simp_all [Kind.isFloat, Kind.isInt]
          have hu : k.isUint = false := by cases k <;> simp_all [Kind.isFloat, Kind.isUint]
          simp [zero, builtin, hs, hb, hi, hu]
        · intro hz hk hKs
          simp only [Val.IsZero, beq_eq_false_iff_ne, ne_eq] at hz
          exact Or.inl (convertPrimitiveValue_float_returns L k K n hs hK hKs hk hz)
    | _ => simp [isScalar] at hs
  | str t s =>
    cases t with
    | basic k d =>
      cases d with
      | some d => cases k <;> simp [isScalar] at hs
      | none =>
        cases k <;> simp [isScalar] at hs
        refine scalar_returns_core L fuel _ .string K rfl rfl hK ?_ ?_
        · intro hz hk
          simp only [builtin, Ty.basic.injEq, and_true] at hk
          subst hk
          simp only [Val.IsZero, beq_iff_eq] at hz
          have : s = "" := by
            cases s with
            | mk data =>
              cases data with
              | nil => rfl
              | cons c cs => simp [String.length] at hz
          subst this
          rfl
        · intro hz hk hKs
          simp only [Val.IsZero, beq_eq_false_iff_ne, ne_eq] at hz
          exact convertPrimitiveValue_str_returns L K s hK hKs hz
    | _ => simp [isScalar] at hs
  | _ => simp [isScalar] at hs

theorem convertValue_str_to_bool (L : Lib) (fuel : Nat) (s : String) (ds d2 : Option Decl)
    (hs : s.length ≠ 0) :
    convertValue L (fuel + 1) (.str (.basic .string ds) s) (.Primitive (.basic .string ds) "")
        (.Primitive (.basic .bool d2) "")
      = match ParseBool s with
        | some b => .ok (.bool (.basic .bool d2) b)
        | none =>
          match L.parseFloat s with
          | some bits => .ok (.bool (.basic .bool d2) (L.floatGtZero bits))
          | none => .err (.str (.basic .string ds) s)
              (valueNotAssignibleError (.str (.basic .string ds) s)
                (.Primitive (.basic .bool d2) "")) := by
  rw [convertValue_plain L fuel (.str (.basic .string ds) s) (.Primitive (.basic .string ds) "")
    (.Primitive (.basic .bool d2) "") (.basic .string ds) (.basic .bool d2) rfl rfl rfl
    (by simp) (by simp [Ty.Kind]) (by simp [Ty.Kind])]
  have hb : ∀ b, convertOf L (.bool (builtin .bool) b) (.Primitive (.basic .bool d2) "")
      = .ok (.bool (.basic .bool d2) b) := by
    intro b
    simp only [convertOf, TypeMeta.Type, convertTo, convertDirect, Val.Type, builtin]
    by_cases hd : (none : Option Decl) = d2
    · subst hd; simp
    · simp [hd, haveIdenticalUnderlyingType, Ty.Kind, retag]
  have : convertNonPtrValue L (convertValue L fuel) (.str (.basic .string ds) s)
      (NonPtr (.Primitive (.basic .string ds) "")) (NonPtr (.Primitive (.basic .bool d2) ""))
      = match ParseBool s with
        | some b => .ok (.bool (.basic .bool d2) b)
        | none =>
          match L.parseFloat s with
          | some bits => .ok (.bool (.basic .bool d2) (L.floatGtZero bits))
          | none => .err (.str (.basic .string ds) s)
              (valueNotAssignibleError (.str (.basic .string ds) s)
                (.Primitive (.basic .bool d2) "")) := by
    simp only [NonPtr, convertNonPtrValue, TypeMeta.Type, Ty.Kind, convertPrimitiveValue,
      convertPrimitiveValueWith, Val.IsZero, Val.GoString, get, builtin, Kind.isInt,
      Kind.isUint, Kind.isFloat]
    simp only [hs, beq_iff_eq, reduceCtorEq, if_false, if_true, beq_self_eq_true,
      decide_False, decide_True, Bool.false_eq_true, Bool.or_false, Bool.or_true]
    cases ParseBool s with
    | some b => exact hb b
    | none =>
      cases L.parseFloat s with
      | none => rfl
      | some bits =>
        simp only [convertOf, TypeMeta.Type, convertTo, Ty.Kind, Kind.isInt, Kind.isUint,
          Kind.isFloat, makeFloat]
        simp only [Bool.false_eq_true, if_false, if_true, beq_iff_eq, reduceCtorEq, Bool.or_self]
        exact hb _
  rw [this]
  cases ParseBool s with
  | some b => exact convertValueEnd_ok _ _ _ _ _ _ rfl
  | none =>
    cases L.parseFloat s with
    | none => rfl
    | some bits => exact convertValueEnd_ok _ _ _ _ _ _ rfl

theorem ParseBool_true (s : String) :
    ParseBool s = some true ↔ s ∈ ["1", "t", "T", "TRUE", "true", "True"] := by
  simp only [ParseBool, Bool.or_eq_true, beq_iff_eq, List.mem_cons, List.mem_singleton,
    List.mem_nil_iff, or_false]
  constructor
  · intro h
    split_ifs at h with h1 h2
    · tauto
    · simp at h
  · intro h
    rw [if_pos (by tauto)]

theorem ParseBool_false (s : String) :
    ParseBool s = some false ↔ s ∈ ["0", "f", "F", "FALSE", "false", "False"] := by
  simp only [ParseBool, Bool.or_eq_true, beq_iff_eq, List.mem_cons, List.mem_singleton,
    List.mem_nil_iff, or_false]
  constructor
  · intro h
    split_ifs at h with h1 h2
    · simp at h
    · tauto
  · intro h
    have hn : ¬ (((((s = "1" ∨ s = "t") ∨ s = "T") ∨ s = "TRUE") ∨ s = "true") ∨ s = "True") := by
      rcases h with h | h | h | h | h | h <;> subst h <;> decide
    rw [if_neg hn, if_pos (by tauto)]

theorem haveIdenticalUnderlyingType_Kind (c : Bool) (t vt : Ty)
    (h : haveIdenticalUnderlyingType c t vt = true) : t.Kind = vt.Kind := by
  cases t <;> cases vt <;> simp_all [haveIdenticalUnderlyingType, Ty.Kind]

theorem retag_Type (t : Ty) (v : Val) (vt : Ty) (h : v.Type = some vt) :
    (retag t v).Type = some t := by
  cases v <;> simp [Val.Type] at h <;> simp only [retag] <;> first | rfl | (cases t <;> rfl)

theorem retag_plain (t : Ty) (v : Val) : (retag t v).plain = v.plain := by
  cases v <;> simp only [retag] <;> first | rfl | (cases t <;> rfl)

theorem plain_of_tagOK (x : Val) (vt : Ty) (hx : x.Type = some vt) (ht : x.tagOK = true)
    (hp : vt.Kind ≠ .ptr) (hi : vt.Kind ≠ .interface) : x.plain = true := by
  cases x <;> simp [Val.Type] at hx <;> subst hx <;>
    simp_all [Val.tagOK, Val.plain]

theorem zero_plain_kind (T : Ty) (hp : T.Kind ≠ .ptr) (hi : T.Kind ≠ .interface) :
    (zero T).plain = true := by
  cases T with
  | basic k d => simp only [zero]; split_ifs <;> rfl
  | ptr e => simp [Ty.Kind] at hp
  | iface d => simp [Ty.Kind] at hi
  | _ => rfl

theorem convertDirect_result (x : Val) (t : Ty) (r : Val) (h : convertDirect x t = some r)
    (hp : t.Kind ≠ .ptr) (hi : t.Kind ≠ .interface) (hx : x.tagOK = true) :
    r.Type = some t ∧ r.plain = true := by
  unfold convertDirect at h
  cases hxt : x.Type with
  | none => simp [hxt] at h
  | some vt =>
    simp only [hxt] at h
    by_cases h1 : vt = t
    · rw [if_pos h1] at h
      simp only [Option.some.injEq] at h
      subst h; subst h1
      exact ⟨hxt, plain_of_tagOK x vt hxt hx hp hi⟩
    · rw [if_neg h1] at h
      by_cases h2 : haveIdenticalUnderlyingType false t vt = true
      · rw [if_pos h2] at h
        simp only [Option.some.injEq] at h
        subst h
        have hk := haveIdenticalUnderlyingType_Kind _ _ _ h2
        refine ⟨retag_Type t x vt hxt, ?_⟩
        rw [retag_plain]
        exact plain_of_tagOK x vt hxt hx (hk ▸ hp) (hk ▸ hi)
      · rw [if_neg h2] at h
        cases t <;> simp [Ty.Kind] at hp hi <;> cases vt <;> simp at h

theorem convertTo_result (L : Lib) (x : Val) (t : Ty) (r : Val) (h : convertTo L x t = some r)
    (hp : t.Kind ≠ .ptr) (hi : t.Kind ≠ .interface) (hx : x.tagOK = true) :
    r.Type = some t ∧ r.plain = true := by
  cases x <;> simp only [convertTo] at h <;>
    first
    | exact convertDirect_result _ t r h hp hi hx
    | (split_ifs at h <;>
        first
        | exact convertDirect_result _ t r h hp hi hx
        | (simp only [Option.some.injEq] at h
           subst h
           simp only [makeInt, makeFloat]
           split_ifs <;> exact ⟨rfl, rfl⟩)
        | (simp only [Option.some.injEq] at h
           subst h
           exact ⟨rfl, rfl⟩))

theorem convertOf_result (L : Lib) (x : Val) (tm : TypeMeta) (T : Ty) (r : Val)
    (h : convertOf L x tm = .ok r) (ht : tm.Type = some T)
    (hp : T.Kind ≠ .ptr) (hi : T.Kind ≠ .interface) (hx : x.tagOK = true) :
    r.Type = some T ∧ r.plain = true := by
  simp only [convertOf, ht] at h
  cases hc : convertTo L x T with
  | none => simp [hc] at h
  | some r' =>
    simp only [hc, Res.ok.injEq] at h
    subst h
    exact convertTo_result L x T r' hc hp hi hx

theorem setField_result (L : Lib) (nv : Val) (i : Nat) (x filled : Val) (T : Ty)
    (h : setField L nv i x = some filled) (h1 : nv.Type = some T) :
    filled.Type = some T ∧ filled.plain = true := by
  unfold setField at h
  split at h
  · rename_i d decls fs
    split at h
    · simp at h
    · split_ifs at h
      split at h
      · simp at h
      · simp only [Option.map_eq_some'] at h
        obtain ⟨fs', _, hf⟩ := h
        subst hf
        exact ⟨h1, rfl⟩
  · simp at h

theorem mapToStruct_result (L : Lib) (conv : Val → TypeMeta → TypeMeta → Res) (value : Val)
    (ve tm : TypeMeta) (T : Ty) : ∀ (es : Entries) (nv r : Val),
    nv.Type = some T → nv.plain = true → mapToStruct L conv value ve tm es nv = .ok r →
    r.Type = some T ∧ r.plain = true
  | .nil, nv, r, h1, h2, h => by
    simp only [mapToStruct, Res.ok.injEq] at h
    subst h
    exact ⟨h1, h2⟩
  | .cons key kv rest, nv, r, h1, h2, h => by
    simp only [mapToStruct] at h
    split at h
    · simp at h
    · split at h
      · split at h
        · simp at h
        · rename_i filled hs
          obtain ⟨hf1, hf2⟩ := setField_result L nv _ _ filled T hs h1
          exact mapToStruct_result L conv value ve tm T rest filled r hf1 hf2 h
      · simp at h
      · simp at h
      · simp at h

theorem SetMapIndex_result (m key elem filled : Val) (T : Ty)
    (h : SetMapIndex m key elem = some filled) (h1 : m.Type = some T) :
    filled.Type = some T ∧ filled.plain = true := by
  unfold SetMapIndex at h
  split at h
  · split at h
    · simp at h
    · split_ifs at h
      split at h
      · simp only [Option.some.injEq] at h
        subst h
        exact ⟨h1, rfl⟩
      · split at h
        · simp at h
        · simp only [Option.some.injEq] at h
          subst h
          exact ⟨h1, rfl⟩
  · simp at h

theorem mapToMap_result (L : Lib) (conv : Val → TypeMeta → TypeMeta → Res) (value : Val)
    (vk ve tk te : TypeMeta) (ck : Bool) (T : Ty) : ∀ (es : Entries) (nv r : Val),
    nv.Type = some T → nv.plain = true →
    mapToMap L conv value vk ve tk te ck es nv = .ok r →
    r.Type = some T ∧ r.plain = true
  | .nil, nv, r, h1, h2, h => by
    simp only [mapToMap, Res.ok.injEq] at h
    subst h
    exact ⟨h1, h2⟩
  | .cons key kv rest, nv, r, h1, h2, h => by
    simp only [mapToMap] at h
    split at h
    · split at h
      · split at h
        · simp at h
        · rename_i filled hs
          obtain ⟨hf1, hf2⟩ := SetMapIndex_result nv _ _ filled T hs h1
          exact mapToMap_result L conv value vk ve tk te ck T rest filled r hf1 hf2 h
      · simp at h
      · simp at h
      · simp at h
    · simp at h
    · simp at h
    · simp at h

theorem stripPtr_tagOK_aux (T : Ty) (hp : T.Kind ≠ .ptr) (hi : T.Kind ≠ .interface) (n : Nat) :
    ∀ (v : Val), v.ptrDepth = n → v.tagOK = true →
      (∀ w, stripPtr T v = .ok w → w.tagOK = true) ∧
      (∀ r, stripPtr T v = .error r → ∃ y, r = .ok y ∧ y.Type = some T ∧ y.plain = true) := by
  induction n with
  | zero =>
    intro v hd ht
    cases v <;> simp [Val.ptrDepth] at hd <;> simp only [stripPtr] <;>
      first
      | exact ⟨fun w h => by simp at h, fun r h => by
          simp only [Except.error.injEq] at h
          exact ⟨_, h.symm, zero_Type T, zero_plain_kind T hp hi⟩⟩
      | exact ⟨fun w h => by
          simp only [Except.ok.injEq] at h
          subst h; exact ht, fun r h => by simp at h⟩
  | succ n ih =>
    intro v hd ht
    cases v <;> simp [Val.ptrDepth] at hd
    rename_i t x
    simp only [Val.tagOK, Bool.and_eq_true, beq_iff_eq] at ht
    simp only [stripPtr]
    by_cases hx : x.Type = some T
    · rw [if_pos hx]
      exact ⟨fun w h => by simp at h, fun r h => by
        simp only [Except.error.injEq] at h
        exact ⟨x, h.symm, hx, plain_of_tagOK x T hx ht.2 hp hi⟩⟩
    · rw [if_neg hx]
      exact ih x hd ht.2

theorem stripPtr_tagOK (T : Ty) (hp : T.Kind ≠ .ptr) (hi : T.Kind ≠ .interface) (v : Val)
    (ht : v.tagOK = true) :
    (∀ w, stripPtr T v = .ok w → w.tagOK = true) ∧
    (∀ r, stripPtr T v = .error r → ∃ y, r = .ok y ∧ y.Type = some T ∧ y.plain = true) :=
  stripPtr_tagOK_aux T hp hi v.ptrDepth v rfl ht

theorem convertValueToString_result (L : Lib) (value : Val) (vm tm : TypeMeta) (T : Ty) (r : Val)
    (h : convertValueToString L value vm tm = .ok r) (ht : tm.Type = some T)
    (hp : T.Kind ≠ .ptr) (hi : T.Kind ≠ .interface) :
    r.Type = some T ∧ r.plain = true := by
  unfold convertValueToString at h
  split at h
  · simp at h
  · split at h
    · simp at h
    · exact convertOf_result L _ tm T r h ht hp hi rfl
  · exact convertOf_result L _ tm T r h ht hp hi rfl

theorem convertString_result (L : Lib) (hL : L.typed) (s : String) (tm : TypeMeta) (T : Ty)
    (r : Val) (h : convertString L s tm = .ok r) (ht : tm.Type = some T)
    (hp : T.Kind ≠ .ptr) (hi : T.Kind ≠ .interface) :
    ∃ x, r = .ptr (.ptr T) x ∧ x.Type = some T ∧ x.plain = true := by
  simp only [convertString, ht] at h
  split at h
  · rename_i u hu
    have := hL.1 u T s hp hi
    cases hc : L.callUnmarshal u T s with
    | mk v e =>
      rw [hc] at h this
      cases e with
      | some err => simp at h
      | none =>
        simp only [Res.ok.injEq] at h
        exact ⟨v, h.symm, this.1, this.2⟩
  · simp only [Res.ok.injEq] at h
    exact ⟨zero T, h.symm, zero_Type T, zero_plain_kind T hp hi⟩

theorem convertPrimitiveValueWith_result (L : Lib) (hL : L.typed)
    (recur : Val → TypeMeta → TypeMeta → Res) (value : Val) (vm tm : TypeMeta)
    (T : Ty) (r0 : Val) (ht : tm.Type = some T)
    (hp : T.Kind ≠ .ptr) (hi : T.Kind ≠ .interface) (hv : value.tagOK = true)
    (h : convertPrimitiveValueWith L recur value vm tm = .ok r0) :
    (r0.Type = some T ∧ r0.plain = true)
    ∨ (∃ x, r0 = .ptr (.ptr T) x ∧ x.Type = some T ∧ x.plain = true) := by
  unfold convertPrimitiveValueWith at h
  split at h
  swap
  · simp at h
  rename_i vtyp vn toType tn
  simp only [TypeMeta.Type, Option.some.injEq] at ht
  subst ht
  have htm : (TypeMeta.Primitive toType tn).Type = some toType := rfl
  simp only at h
  by_cases c1 : (toType.Kind == Kind.string) = true
  · rw [if_pos c1] at h
    exact Or.inl (convertValueToString_result L _ _ _ toType r0 h htm hp hi)
  rw [if_neg c1] at h
  by_cases c2 : value.IsZero = true
  · rw [if_pos c2] at h
    exact Or.inr ⟨zero toType, (Res.ok.inj h).symm, zero_Type toType,
      zero_plain_kind toType hp hi⟩
  rw [if_neg c2] at h
  by_cases c3 : (vtyp.Kind == toType.Kind) = true
  · rw [if_pos c3] at h
    exact Or.inl (convertOf_result L _ _ toType r0 h htm hp hi hv)
  rw [if_neg c3] at h
  by_cases c4 : (toType.Kind == Kind.bool) = true
  · rw [if_pos c4] at h
    repeat' first
      | with_reducible exact Or.inl (convertOf_result L _ _ toType r0 h htm hp hi
          (by with_unfolding_all rfl))
      | with_reducible cases h
      | split at h
  rw [if_neg c4] at h
  by_cases c5 : (toType.Kind == Kind.struct) = true
  · rw [if_pos c5] at h
    repeat' first
      | with_reducible exact Or.inr (convertString_result L hL _ _ toType r0 h htm hp hi)
      | with_reducible cases h
      | split at h
  rw [if_neg c5] at h
  by_cases c6 : toType.Kind.isInt = true
  · rw [if_pos c6] at h
    repeat' first
      | with_reducible exact Or.inl (convertOf_result L _ _ toType r0 h htm hp hi hv)
      | with_reducible exact Or.inl (convertOf_result L _ _ toType r0 h htm hp hi
          (by with_unfolding_all rfl))
      | with_reducible cases h
      | split at h
  rw [if_neg c6] at h
  by_cases c7 : toType.Kind.isUint = true
  · rw [if_pos c7] at h
    repeat' first
      | with_reducible exact Or.inl (convertOf_result L _ _ toType r0 h htm hp hi hv)
      | with_reducible exact Or.inl (convertOf_result L _ _ toType r0 h htm hp hi
          (by with_unfolding_all rfl))
      | with_reducible cases h
      | split at h
  rw [if_neg c7] at h
  by_cases c8 : toType.Kind.isFloat = true
  · rw [if_pos c8] at h
    repeat' first
      | with_reducible exact Or.inl (convertOf_result L _ _ toType r0 h htm hp hi hv)
      | with_reducible exact Or.inl (convertOf_result L _ _ toType r0 h htm hp hi
          (by with_unfolding_all rfl))
      | with_reducible cases h
      | split at h
  rw [if_neg c8] at h
  cases h

theorem ConvertValueMeta_result (L : Lib) (conv : Val → TypeMeta → TypeMeta → Res) (x : Val)
    (tm : TypeMeta) (T : Ty) (r : Val) (hx : x.tagOK = true)
    (ih : ∀ x vm' r, x.tagOK = true → conv x vm' tm = .ok r → r.Type = some T ∧ r.plain = true)
    (h : ConvertValueMeta L conv x tm = .ok r) : r.Type = some T ∧ r.plain = true := by
  unfold ConvertValueMeta at h
  split at h
  · cases h
  · exact ih _ _ _ hx h

theorem convertElems_error_not_ok (conv : Val → Res) (value : Val) (elemType : Ty) :
    ∀ (es : Vals) (r : Res), convertElems conv value elemType es = .error r → ∀ v, r ≠ .ok v
  | .nil, r, h, v => by simp [convertElems] at h
  | .cons x rest, r, h, v => by
    simp only [convertElems] at h
    split at h
    · split at h
      · simp only [Except.error.injEq] at h
        subst h
        simp
      · split at h
        · simp at h
        · rename_i r' hr
          simp only [Except.error.injEq] at h
          subst h
          exact convertElems_error_not_ok conv value elemType rest _ hr v
    · simp only [Except.error.injEq] at h
      subst h
      simp
    · simp only [Except.error.injEq] at h
      subst h
      simp
    · simp only [Except.error.injEq] at h
      subst h
      simp

theorem convertSliceValue_result (L : Lib) (conv : Val → TypeMeta → TypeMeta → Res)
    (value : Val) (vm tm ve : TypeMeta) (T : Ty) (r0 : Val)
    (hp : T.Kind ≠ .ptr) (hi : T.Kind ≠ .interface) (hv : value.tagOK = true)
    (ih : ∀ x vm' r, x.tagOK = true → conv x vm' tm = .ok r → r.Type = some T ∧ r.plain = true)
    (h : convertSliceValue L conv value vm tm ve T = .ok r0) :
    r0.Type = some T ∧ r0.plain = true := by
  unfold convertSliceValue at h
  cases value with
  | nilSlice t =>
    simp only at h
    cases h
    exact ⟨zero_Type T, zero_plain_kind T hp hi⟩
  | slice t elems =>
    cases elems with
    | nil =>
      simp only at h
      cases h
      exact ⟨zero_Type T, zero_plain_kind T hp hi⟩
    | cons x rest =>
      simp only [Val.tagOK, Vals.tagOK, Bool.and_eq_true] at hv
      simp only at h
      split at h
      · split at h
        · split at h
          · cases h
            exact ⟨rfl, rfl⟩
          · rename_i r hr
            exact absurd h (convertElems_error_not_ok _ _ _ _ _ hr r0)
        · cases h
      · cases rest with
        | nil =>
          simp only at h
          cases hc : ConvertValueMeta L conv x tm with
          | ok nv =>
            rw [hc] at h
            simp only [Res.ok.injEq] at h
            subst h
            exact ConvertValueMeta_result L conv x tm T nv hv.1 ih hc
          | err v msg => rw [hc] at h; cases h
          | panic m => rw [hc] at h; cases h
          | timeout => rw [hc] at h; cases h
        | cons y ys =>
          simp only at h
          by_cases hk : (ve.Kind == Kind.string) = true
          · rw [if_pos hk] at h
            cases hc : ConvertValueMeta L conv (.str (builtin .string)
                (", ".intercalate (elemStrings (.cons x (.cons y ys))))) tm with
            | ok nv =>
              rw [hc] at h
              simp only [Res.ok.injEq] at h
              subst h
              exact ConvertValueMeta_result L conv (.str (builtin .string)
                (", ".intercalate (elemStrings (.cons x (.cons y ys))))) tm T nv rfl ih hc
            | err v msg => rw [hc] at h; cases h
            | panic m => rw [hc] at h; cases h
            | timeout => rw [hc] at h; cases h
          · rw [if_neg hk] at h
            cases h
  | _ => simp at h

theorem convertPrimitiveValue_result (L : Lib) (hL : L.typed) (value : Val) (vm tm : TypeMeta)
    (T : Ty) (r0 : Val) (ht : tm.Type = some T)
    (hp : T.Kind ≠ .ptr) (hi : T.Kind ≠ .interface) (hv : value.tagOK = true)
    (h : convertPrimitiveValue L value vm tm = .ok r0) :
    (r0.Type = some T ∧ r0.plain = true)
    ∨ (∃ x, r0 = .ptr (.ptr T) x ∧ x.Type = some T ∧ x.plain = true) :=
  convertPrimitiveValueWith_result L hL _ value vm tm T r0 ht hp hi hv h

theorem jsonUnmarshal_result (L : Lib) (hL : L.typed) (s : String) (T : Ty) (v : Val)
    (e : Option String) (hp : T.Kind ≠ .ptr) (hi : T.Kind ≠ .interface)
    (h : L.jsonUnmarshal s T = (v, e)) : v.Type = some T ∧ v.plain = true := by
  have := hL.2 s T hp hi
  rw [h] at this
  exact this

theorem MakeMap_result (T : Ty) (made : Val) (h : MakeMap T = some made) :
    made.Type = some T ∧ made.plain = true := by
  unfold MakeMap at h
  split at h
  · cases h; exact ⟨rfl, rfl⟩
  · cases h

theorem convertNonPtrValue_result (L : Lib) (hL : L.typed)
    (conv : Val → TypeMeta → TypeMeta → Res) (value : Val) (vm tm : TypeMeta) (T : Ty) (r0 : Val)
    (ht : tm.Type = some T) (hni : ∀ t, tm ≠ .Interface t)
    (hp : T.Kind ≠ .ptr) (hi : T.Kind ≠ .interface) (hv : value.tagOK = true)
    (ih : ∀ x vm' r, x.tagOK = true → conv x vm' tm = .ok r → r.Type = some T ∧ r.plain = true)
    (h : convertNonPtrValue L conv value vm tm = .ok r0) :
    (r0.Type = some T ∧ r0.plain = true)
    ∨ (∃ x, r0 = .ptr (.ptr T) x ∧ x.Type = some T ∧ x.plain = true) := by
  unfold convertNonPtrValue at h
  simp only [ht] at h
  by_cases hs : (T.Kind == Kind.string) = true
  · rw [if_pos hs] at h
    exact Or.inl (convertValueToString_result L _ _ _ T r0 h ht hp hi)
  rw [if_neg hs] at h
  cases vm with
  | Slice ve vt =>
    simp only at h
    exact Or.inl (convertSliceValue_result L conv _ _ _ _ T r0 hp hi hv ih h)
  | _ =>
    simp only at h
    cases tm with
    | Interface t => exact absurd rfl (hni t)
    | Ptr e t => cases h
    | Array e t => cases h
    | Primitive typ n =>
      simp only at h
      repeat' first
        | with_reducible exact convertPrimitiveValue_result L hL _ _ _ T r0 ht hp hi hv h
        | with_reducible cases h
    | Struct nm ds fs typ =>
      simp only at h
      repeat' first
        | with_reducible exact Or.inl (mapToStruct_result L conv _ _ _ T _ _ r0 (zero_Type T)
            (zero_plain_kind T hp hi) h)
        | (with_reducible cases h
           exact Or.inl ⟨zero_Type T, zero_plain_kind T hp hi⟩)
        | with_reducible cases h
        | split at h
    | Slice e typ =>
      simp only at h
      repeat' first
        | (with_reducible cases h
           exact Or.inl ⟨zero_Type T, zero_plain_kind T hp hi⟩)
        | (with_reducible cases h
           exact Or.inl (jsonUnmarshal_result L hL _ T _ _ hp hi (by assumption)))
        | (with_reducible cases h
           exact Or.inl ⟨rfl, rfl⟩)
        | with_reducible cases h
        | split at h
    | Map k e typ =>
      simp only at h
      repeat' first
        | with_reducible exact Or.inl (convertOf_result L _ _ T r0 h ht hp hi hv)
        | with_reducible exact Or.inl (mapToMap_result L conv _ _ _ _ _ _ T _ _ r0
            (MakeMap_result T _ (by assumption)).1 (MakeMap_result T _ (by assumption)).2 h)
        | (with_reducible cases h
           exact Or.inl (MakeMap_result T _ (by assumption)))
        | with_reducible cases h
        | split at h

theorem ptr_ne_self (T : Ty) (hp : T.Kind ≠ .ptr) : Ty.ptr T ≠ T := by
  intro h
  apply hp
  rw [← h]
  rfl

theorem convertValue_ptr_typed (L : Lib) (fuel : Nat) (T : Ty) (x : Val) (vm tm : TypeMeta)
    (ht : tm.Type = some T) (hp : T.Kind ≠ .ptr) (hi : T.Kind ≠ .interface)
    (hx : x.Type = some T) :
    convertValue L (fuel + 1) (.ptr (.ptr T) x) vm tm = .ok x := by
  have hki : (T.Kind == Kind.interface) = false := by simp [hi]
  have hkp : (T.Kind == Kind.ptr) = false := by simp [hp]
  have hty : (Val.ptr (.ptr T) x).Type = some (.ptr T) := rfl
  simp only [convertValue, convertValueBody, hty, ht, ptr_ne_self T hp, if_false, hki, hkp,
    Bool.false_eq_true, stripPtr, hx, if_true]

theorem convertValueEnd_result_plain (L : Lib) (conv : Val → TypeMeta → TypeMeta → Res)
    (v : Val) (tm : TypeMeta) (T : Ty) (r0 : Res) (r : Val)
    (ht : tm.Type = some T) (hp : T.Kind ≠ .ptr) (hi : T.Kind ≠ .interface) (hnp : NonPtr tm = tm)
    (hr0 : ∀ c, r0 = .ok c → (c.Type = some T ∧ c.plain = true)
      ∨ (∃ x, c = .ptr (.ptr T) x ∧ x.Type = some T ∧ x.plain = true))
    (ih : ∀ x vm r, x.Type = some T → x.plain = true →
      conv (.ptr (.ptr T) x) vm tm = .ok r → r.Type = some T ∧ r.plain = true)
    (h : convertValueEnd L conv v tm T r0 = .ok r) : r.Type = some T ∧ r.plain = true := by
  cases r0 with
  | ok converted =>
    simp only [convertValueEnd, hnp, ht] at h
    rcases hr0 converted rfl with ⟨hc, hpl⟩ | ⟨x, hx, hxt, hxp⟩
    · simp only [hc, if_true] at h
      cases h; exact ⟨hc, hpl⟩
    · subst hx
      have hty : (Val.ptr (.ptr T) x).Type = some (.ptr T) := rfl
      have hki : (T.Kind == Kind.interface) = false := by simp [hi]
      simp only [hty, ptr_ne_self T hp, if_false, hki, Bool.false_eq_true] at h
      exact ih x _ r hxt hxp h
  | err v' msg => simp [convertValueEnd] at h
  | panic m => simp [convertValueEnd] at h
  | timeout => simp [convertValueEnd] at h

theorem convertValueBody_result_plain (L : Lib) (hL : L.typed)
    (conv : Val → TypeMeta → TypeMeta → Res)
    (v : Val) (vm tm : TypeMeta) (T : Ty) (r : Val)
    (ht : tm.Type = some T) (hp : T.Kind ≠ .ptr) (hi : T.Kind ≠ .interface) (hnp : NonPtr tm = tm)
    (hni : ∀ t, tm ≠ .Interface t) (hv : v.tagOK = true)
    (ih1 : ∀ x vm r, x.tagOK = true → conv x vm tm = .ok r → r.Type = some T ∧ r.plain = true)
    (ih2 : ∀ x vm r, x.Type = some T → x.plain = true →
      conv (.ptr (.ptr T) x) vm tm = .ok r → r.Type = some T ∧ r.plain = true)
    (h : convertValueBody L conv v vm tm = .ok r) : r.Type = some T ∧ r.plain = true := by
  have hki : (T.Kind == Kind.interface) = false := by simp [hi]
  have hkp : (T.Kind == Kind.ptr) = false := by simp [hp]
  cases hvt : v.Type with
  | none => simp [convertValueBody, hvt] at h
  | some S =>
    simp only [convertValueBody, hvt, ht] at h
    by_cases h1 : S = T
    · simp [h1] at h; subst h; subst h1
      exact ⟨hvt, plain_of_tagOK v S hvt hv hp hi⟩
    · simp only [h1, if_false, hki, hkp, Bool.false_eq_true] at h
      have hst := stripPtr_tagOK T hp hi v hv
      cases hs : stripPtr T v with
      | error r' =>
        simp only [hs] at h
        obtain ⟨y, hy, hyt, hyp⟩ := hst.2 r' hs
        subst hy
        cases h; exact ⟨hyt, hyp⟩
      | ok npv =>
        simp only [hs] at h
        have hnt := hst.1 npv hs
        split_ifs at h with h4
        · cases h; exact ⟨h4, plain_of_tagOK _ T h4 hnt hp hi⟩
        · refine convertValueEnd_result_plain L conv v tm T _ r ht hp hi hnp ?_ ih2 h
          intro c hc
          rw [hnp] at hc
          exact convertNonPtrValue_result L hL conv npv (NonPtr vm) tm T c ht hni hp hi hnt ih1 hc

theorem convertValue_result_plain (L : Lib) (hL : L.typed) (tm : TypeMeta) (T : Ty)
    (ht : tm.Type = some T) (hp : T.Kind ≠ .ptr) (hi : T.Kind ≠ .interface) (hnp : NonPtr tm = tm)
    (hni : ∀ t, tm ≠ .Interface t) :
    ∀ (fuel : Nat) (v : Val) (vm : TypeMeta) (r : Val), v.tagOK = true →
      convertValue L fuel v vm tm = .ok r → r.Type = some T ∧ r.plain = true := by
  intro fuel
  induction fuel with
  | zero => intro v vm r _ h; simp [convertValue] at h
  | succ n ih =>
    intro v vm r hv h
    have ih2 : ∀ x vm r, x.Type = some T → x.plain = true →
        convertValue L n (.ptr (.ptr T) x) vm tm = .ok r → r.Type = some T ∧ r.plain = true := by
      intro x vm r hxt hxp hc
      cases n with
      | zero => simp [convertValue] at hc
      | succ m =>
        rw [convertValue_ptr_typed L m T x vm tm ht hp hi hxt] at hc
        cases hc; exact ⟨hxt, hxp⟩
    have hb := fun v' vm' hv' => convertValueBody_result_plain L hL (convertValue L n) v' vm' tm T r
      ht hp hi hnp hni hv' ih ih2
    cases v with
    | invalid => simp [convertValue] at h
    | nilIface it =>
      simp [convertValue, ht] at h
      subst h; exact ⟨zero_Type T, zero_plain_kind T hp hi⟩
    | iface it dyn =>
      simp only [convertValue] at h
      cases hd : dyn.Type with
      | none => simp [hd] at h
      | some dt =>
        simp only [hd] at h
        refine hb _ _ ?_ h
        simp only [Val.tagOK, Bool.and_eq_true] at hv
        exact hv.2
    | _ => simp only [convertValue] at h; exact hb _ _ hv h

theorem get_not_Interface (L : Lib) (T : Ty) (hi : T.Kind ≠ .interface) :
    ∀ t, get L T ≠ .Interface t := by
  intro t
  cases T with
  | iface d => simp [Ty.Kind] at hi
  | struct d fs =>
    by_cases h : (Ty.struct d fs).Implements primitiveType = true <;> simp [get, h]
  | _ => simp [get]

theorem asciiLib_typed : asciiLib.typed :=
  ⟨fun _ t _ hp hi => ⟨zero_Type t, zero_plain_kind t hp hi⟩,
   fun _ t hp hi => ⟨zero_Type t, zero_plain_kind t hp hi⟩⟩

theorem convertValue_nonptr_to_ptr (L : Lib) (g : Nat) (v : Val) (S T : Ty)
    (hv : v.Type = some S) (hpl : v.plain = true) (hS : S.Kind ≠ .ptr)
    (hT : T.Kind ≠ .ptr) (hST : S ≠ T) :
    convertValue L (g + 2) v (get L S) (get L (.ptr T)) =
      convertValueEnd L (convertValue L g) (.ptr (.ptr S) v) (get L (.ptr T)) (.ptr T)
        (convertNonPtrValue L (convertValue L g) v (NonPtr (get L S)) (get L T)) := by
  have hs : stripPtr (.ptr T) v = .ok v := by
    apply stripPtr_of_not_ptr <;> intros <;> intro h <;> subst h <;> simp [Val.plain] at hpl
  have hne1 : S ≠ .ptr T := by
    intro h; apply hS; rw [h]; rfl
  have hne2 : Ty.ptr S ≠ .ptr T := by
    intro h; apply hST; cases h; rfl
  have hk1 : ((Ty.ptr T).Kind == Kind.interface) = false := rfl
  have hk2 : ((Ty.ptr T).Kind == Kind.ptr) = true := rfl
  have hvk : (v.Kind != Kind.ptr) = true := by
    simp only [Val.Kind, hv, bne_iff_ne]; exact hS
  have hty : (Val.ptr (.ptr S) v).Type = some (.ptr S) := rfl
  have hpk : ((Val.ptr (.ptr S) v).Kind != Kind.ptr) = false := rfl
  have hnp : (Ty.ptr T).nonPtr ≠ (Ty.ptr S).nonPtr := by
    simp only [Ty.nonPtr, (ptrLevel_of_not_ptr T hT).2, (ptrLevel_of_not_ptr S hS).2]
    exact fun h => hST h.symm
  have hvt : v.Type ≠ some (.ptr T) := by
    rw [hv]; intro h; cases h; exact hne1 rfl
  have hnp1 : NonPtr (get L (.ptr S)) = NonPtr (get L S) := by simp [get, NonPtr]
  have hnp2 : NonPtr (get L (.ptr T)) = get L T := by
    rw [← NonPtr_get L T hT]; simp [get, NonPtr]
  rw [convertValue_eq_body L (g + 1) v _ _ S hv
    (by intro it dyn h; subst h; simp [Val.plain] at hpl)
    (by intro it h; subst h; simp [Val.plain] at hpl)]
  simp only [convertValueBody, hv, get_Type, hne1, if_false, hk1, hk2, hvk, if_true,
    Bool.false_eq_true]
  rw [convertValue_eq_body L g (.ptr (.ptr S) v) _ _ (.ptr S) hty
    (by intro it dyn h; cases h) (by intro it h; cases h)]
  simp only [convertValueBody, hty, get_Type, hne2, if_false, hk1, hk2, hpk, if_true,
    Bool.false_eq_true, hnp, stripPtr, hvt, hs, hnp1, hnp2]

theorem convertValue_addr (L : Lib) (f : Nat) (c : Val) (vm : TypeMeta) (T : Ty)
    (hc : c.Type = some T) (hpl : c.plain = true) (hT : T.Kind ≠ .ptr) :
    convertValue L (f + 2) c vm (get L (.ptr T)) = .ok (.ptr (.ptr T) c) := by
  have hne1 : T ≠ .ptr T := fun h => ptr_ne_self T hT h.symm
  have hk1 : ((Ty.ptr T).Kind == Kind.interface) = false := rfl
  have hk2 : ((Ty.ptr T).Kind == Kind.ptr) = true := rfl
  have hvk : (c.Kind != Kind.ptr) = true := by
    simp only [Val.Kind, hc, bne_iff_ne]; exact hT
  have hty : (Val.ptr (.ptr T) c).Type = some (.ptr T) := rfl
  rw [convertValue_eq_body L (f + 1) c _ _ T hc
    (by intro it dyn h; subst h; simp [Val.plain] at hpl)
    (by intro it h; subst h; simp [Val.plain] at hpl)]
  simp only [convertValueBody, hc, get_Type, hne1, if_false, hk1, hk2, hvk, if_true,
    Bool.false_eq_true]
  exact convertValue_same L f _ _ _ (.ptr T) hty (get_Type L _)
    (by intro it dyn h; cases h) (by intro it h; cases h)

theorem ConvertValue_nonptr_to_ptr (L : Lib) (hL : L.typed) (fuel : Nat) (v : Val) (S T : Ty)
    (hv : v.Type = some S) (hpl : v.plain = true) (htag : v.tagOK = true)
    (hS : S.Kind ≠ .ptr) (hT : T.Kind ≠ .ptr) (hTi : T.Kind ≠ .interface) :
    ConvertValue L (fuel + 4) v (.type (.ptr T)) =
      match ConvertValue L (fuel + 3) v (.type T) with
      | .ok r => .ok (.ptr (.ptr T) r)
      | .err _ msg => .err (.ptr (.ptr S) v) msg
      | .panic m => .panic m
      | .timeout => .timeout := by
  have hki : (T.Kind == Kind.interface) = false := by simp [hTi]
  simp only [ConvertValue, hv, Get]
  by_cases hST : S = T
  · subst hST
    rw [convertValue_same L (fuel + 2) v _ _ S hv (get_Type L S)
      (by intro it dyn h; subst h; simp [Val.plain] at hpl)
      (by intro it h; subst h; simp [Val.plain] at hpl)]
    exact convertValue_addr L (fuel + 2) v _ S hv hpl hS
  · rw [convertValue_nonptr_to_ptr L (fuel + 2) v S T hv hpl hS hT hST,
      convertValue_plain L (fuel + 2) v _ _ S T hv (get_Type L T) hpl hST hTi hT,
      NonPtr_get L T hT]
    have hN := convertNonPtrValue_result L hL (convertValue L (fuel + 2)) v (NonPtr (get L S))
      (get L T) T
    generalize convertNonPtrValue L (convertValue L (fuel + 2)) v (NonPtr (get L S)) (get L T)
      = N at hN ⊢
    cases N with
    | ok c =>
      have hty : (Val.ptr (.ptr T) c).Type = some (.ptr T) := rfl
      rcases hN c (get_Type L T) (get_not_Interface L T hTi) hT hTi htag
        (fun x vm r hx h => convertValue_result_plain L hL (get L T) T (get_Type L T) hT hTi
          (NonPtr_get L T hT) (get_not_Interface L T hTi) (fuel + 2) x vm r hx h) rfl with
        ⟨hc, hcp⟩ | ⟨x, hx, hxt, hxp⟩
      · rw [convertValueEnd_ok L _ v c (get L T) T hc]
        have hnp2 : NonPtr (get L (.ptr T)) = get L T := by
          rw [← NonPtr_get L T hT]; simp [get, NonPtr]
        have hne : T ≠ .ptr T := fun h => ptr_ne_self T hT h.symm
        simp only [convertValueEnd, hc, hnp2, get_Type, hki, Bool.false_eq_true, if_false]
        rw [if_neg hne]
        exact convertValue_addr L fuel c _ T hc hcp hT
      · subst hx
        have hty2 : (Val.ptr (.ptr T) x).Type = some (.ptr T) := rfl
        rw [convertValueEnd_ok L _ _ (.ptr (.ptr T) x) (get L (.ptr T)) (.ptr T) hty2]
        simp only [convertValueEnd, hty2, ptr_ne_self T hT, if_false, NonPtr_get L T hT,
          get_Type, hki, Bool.false_eq_true]
        rw [convertValue_ptr_typed L (fuel + 1) T x _ _ (get_Type L T) hT hTi hxt]
    | err e msg => simp only [convertValueEnd]
    | panic m => simp only [convertValueEnd]
    | timeout => simp only [convertValueEnd]

/-! ## Facts about the schema as a state -/

theorem fieldInfoOf_Private (L : Lib) (f : FieldDecl) (i : Nat) :
    (fieldInfoOf L f i).Private
      = match f.name.data with
        | [] => false
        | c :: _ => L.isLower c || c == underscoreChar := by
  simp only [fieldInfoOf]
  generalize f.name.data = nm
  generalize tagsGet f.tags "json" = j
  generalize tagsGet f.tags "default" = d
  generalize tagsGet f.tags "description" = ds
  cases nm <;> cases j <;> cases d <;> cases ds <;> simp only <;> repeat' split
  all_goals rfl

theorem fieldInfoOf_JSONName (L : Lib) (f : FieldDecl) (i : Nat) :
    (fieldInfoOf L f i).JSONName
      = match tagsGet f.tags "json" with
        | some jsonTag =>
          if jsonTag.name != "" then (if jsonTag.name != "-" then jsonTag.name else "")
          else f.name
        | none => if (fieldInfoOf L f i).Private then "" else f.name := by
  rw [fieldInfoOf_Private]
  simp only [fieldInfoOf]
  generalize f.name.data = nm
  generalize tagsGet f.tags "json" = j
  generalize tagsGet f.tags "default" = d
  generalize tagsGet f.tags "description" = ds
  cases nm <;> cases j <;> cases d <;> cases ds <;> simp only <;> repeat' split
  all_goals first | rfl | simp_all

theorem fieldInfoOf_JSONExcluded (L : Lib) (f : FieldDecl) (i : Nat) :
    (fieldInfoOf L f i).JSONExcluded
      = ((fieldInfoOf L f i).Private ||
        match tagsGet f.tags "json" with
        | some jsonTag => jsonTag.name == "-"
        | none => false) := by
  rw [fieldInfoOf_Private]
  simp only [fieldInfoOf]
  generalize f.name.data = nm
  generalize tagsGet f.tags "json" = j
  generalize tagsGet f.tags "default" = d
  generalize tagsGet f.tags "description" = ds
  cases nm <;> cases j <;> cases d <;> cases ds <;> simp only <;> repeat' split
  all_goals first | rfl | simp_all

theorem fieldInfoOf_JSONOmitEmpty (L : Lib) (f : FieldDecl) (i : Nat) :
    (fieldInfoOf L f i).JSONOmitEmpty
      = match tagsGet f.tags "json" with
        | some jsonTag => jsonTag.HasOption "omitempty"
        | none => false := by
  simp only [fieldInfoOf]
  generalize f.name.data = nm
  generalize tagsGet f.tags "json" = j
  generalize tagsGet f.tags "default" = d
  generalize tagsGet f.tags "description" = ds
  cases nm <;> cases j <;> cases d <;> cases ds <;> simp only <;> repeat' split
  all_goals first | rfl | simp_all

theorem convertValue_str_to_float_err (L : Lib) (fuel : Nat) (s : String) (k : Kind)
    (ds d : Option Decl) (hk : k.isFloat = true) (hs : s.length ≠ 0)
    (hp : L.parseFloat s = none) :
    convertValue L (fuel + 1) (.str (.basic .string ds) s) (.Primitive (.basic .string ds) "")
        (.Primitive (.basic k d) "")
      = .err (.str (.basic .string ds) s)
            (valueNotAssignibleError (.str (.basic .string ds) s) (.Primitive (.basic k d) "")) := by
  have hks : k ≠ .string := by rintro rfl; simp [Kind.isFloat] at hk
  have hkb : k ≠ .bool := by rintro rfl; simp [Kind.isFloat] at hk
  have hkst : k ≠ .struct := by rintro rfl; simp [Kind.isFloat] at hk
  have hki : k.isInt = false := by cases k <;> simp [Kind.isFloat] at hk <;> rfl
  have hku : k.isUint = false := by cases k <;> simp [Kind.isFloat] at hk <;> rfl
  rw [convertValue_plain L fuel (.str (.basic .string ds) s) (.Primitive (.basic .string ds) "")
    (.Primitive (.basic k d) "") (.basic .string ds) (.basic k d) rfl rfl rfl
    (by simp [Ne.symm hks]) (by cases k <;> simp [Kind.isFloat] at hk <;> simp [Ty.Kind])
    (by cases k <;> simp [Kind.isFloat] at hk <;> simp [Ty.Kind])]
  have : convertNonPtrValue L (convertValue L fuel) (.str (.basic .string ds) s)
      (NonPtr (.Primitive (.basic .string ds) "")) (NonPtr (.Primitive (.basic k d) ""))
      = .err (.str (.basic .string ds) s)
            (valueNotAssignibleError (.str (.basic .string ds) s) (.Primitive (.basic k d) "")) := by
    simp only [NonPtr, convertNonPtrValue, TypeMeta.Type, Ty.Kind, convertPrimitiveValue,
        convertPrimitiveValueWith, Val.IsZero, Val.GoString]
    simp only [hks, hkb, hkst, hk, hki, hku, hs, hp, beq_iff_eq, if_false, if_true,
      beq_self_eq_true, reduceCtorEq, Ne.symm hks, decide_False, decide_True, Bool.false_eq_true]
  rw [this]
  rfl

theorem mapToStruct_field_err (L : Lib) (conv : Val → TypeMeta → TypeMeta → Res) (value : Val)
    (ve tm : TypeMeta) (d : Decl) (decls : FieldList) (pre : List (Val × Val))
    (iys : List (Nat × Val)) (k x : Val) (post : List (Val × Val)) (sf : StructField)
    (ev : Val) (msg : String)
    (h : List.Forall₂ (stores L conv ve tm decls) pre iys)
    (hk : tm.FieldByName k.GoString = some sf)
    (hx : conv x ve sf.TypeMeta = .err ev msg) :
    ∀ fs : Vals, fs.length = decls.length →
      mapToStruct L conv value ve tm (Entries.ofList (pre ++ (k, x) :: post))
          (.struct (.struct d decls) fs)
        = .err value ("could not convert value of key \"" ++ Sprint L k ++ "\" to field \""
            ++ sf.Str ++ "\". " ++ msg) := by
  induction h with
  | nil => intro fs _; simp [Entries.ofList, mapToStruct, hk, hx]
  | @cons e iy es' iys' hst _ ih =>
    intro fs hfs
    obtain ⟨k', x'⟩ := e
    obtain ⟨i, y⟩ := iy
    have hlt := stores_lt hst
    obtain ⟨sf', r, f, ft, h1, h2, h3, h4, h5, h6⟩ := hst
    simp only at h1 h2 h3 h5 h6 hlt
    obtain ⟨fs', hs1, hs2, _, _⟩ := Vals.set?_spec fs i y (by rw [hfs]; exact hlt)
    simp only [List.cons_append, Entries.ofList, mapToStruct, h1, h5, setField, h2, h3, h4, h6, hs1]
    simpa using ih fs' (by rw [hs2, hfs])

theorem ConvertValue_slice_elem_err (L : Lib) (fuel : Nat) (d d2 : Option Decl) (et et2 : Ty)
    (hne : Ty.slice d et ≠ Ty.slice d2 et2) (pre ys : List Val) (x : Val) (post : List Val)
    (ev : Val) (msg : String)
    (h : List.Forall₂ (fun x y => ∃ r, convertValue L fuel x (get L et) (get L et2) = .ok r
        ∧ assignTo r et2 = some y) pre ys)
    (hx : convertValue L fuel x (get L et) (get L et2) = .err ev msg) :
    ConvertValue L (fuel + 1) (.slice (.slice d et) (Vals.ofList (pre ++ x :: post)))
        (.type (.slice d2 et2))
      = .err (.slice (.slice d et) (Vals.ofList (pre ++ x :: post))) msg := by
  rw [convertValue_slice_eq L fuel d d2 et et2 _ (by rfl) (by rfl) hne]
  have hce := convertElems_err (fun x => convertValue L fuel x (get L et) (get L et2))
    (.slice (.slice d et) (Vals.ofList (pre ++ x :: post))) et2 pre ys x post ev msg h hx
  cases hl : pre ++ x :: post with
  | nil => simp at hl
  | cons a as =>
    rw [hl] at hce
    simp only [Vals.ofList] at hce ⊢
    simp only [convertSliceValue, get, hce, convertValueEnd]

theorem ConvertValue_map_value_err (L : Lib) (fuel : Nat) (d d2 : Option Decl)
    (kt et kt2 et2 : Ty) (hne : kt ≠ kt2 ∨ et ≠ et2)
    (pre ys : List (Val × Val)) (k x : Val) (post : List (Val × Val)) (ev : Val) (msg : String)
    (h : List.Forall₂ (storesEntry L (convertValue L fuel) kt et kt2 et2) pre ys)
    (hnd : (ys.map Prod.fst).Nodup)
    (hk : kt ≠ kt2 → ∃ rk, convertValue L fuel k (get L kt) (get L kt2) = .ok rk)
    (hval : convertValue L fuel x (get L et) (get L et2) = .err ev msg) :
    ConvertValue L (fuel + 1) (.map (.map d kt et) (Entries.ofList (pre ++ (k, x) :: post)))
        (.type (.map d2 kt2 et2))
      = .err (.map (.map d kt et) (Entries.ofList (pre ++ (k, x) :: post)))
          ("could not convert value of key \"" ++ Sprint L k ++ "\" to \""
            ++ (get L et2).Str ++ "\". " ++ msg) := by
  rw [ConvertValue_map_to_map L fuel d d2 kt et kt2 et2 _ hne]
  have := mapToMap_prefix L (convertValue L fuel)
    (.map (.map d kt et) (Entries.ofList (pre ++ (k, x) :: post))) d2
    kt et kt2 et2 pre ys ((k, x) :: post) h [] (by simpa using hnd)
  simp only [List.nil_append, Entries.ofList] at this
  rw [this, mapToMap_value_err L _ _ kt et kt2 et2 k x _ _ ev msg hk hval]
  rfl

theorem ConvertValue_struct_field_err (L : Lib) (fuel : Nat) (d : Decl) (decls : FieldList)
    (md : Option Decl) (kt et : Ty)
    (hT : (Ty.struct d decls).Implements primitiveType = false)
    (pre : List (Val × Val)) (iys : List (Nat × Val)) (k x : Val) (post : List (Val × Val))
    (sf : StructField) (ev : Val) (msg : String)
    (h : List.Forall₂ (fun e iy => ∃ sf r ft,
        (get L (.struct d decls)).FieldByName e.1.GoString = some sf ∧ sf.info.Index = iy.1 ∧
        exported L sf.info.Name = true ∧ sf.TypeMeta.Type = some ft ∧
        convertValue L fuel e.2 (get L et) sf.TypeMeta = .ok r ∧ assignTo r ft = some iy.2)
        pre iys)
    (hk : (get L (.struct d decls)).FieldByName k.GoString = some sf)
    (hx : convertValue L fuel x (get L et) sf.TypeMeta = .err ev msg) :
    ConvertValue L (fuel + 1) (.map (.map md kt et) (Entries.ofList (pre ++ (k, x) :: post)))
        (.type (.struct d decls))
      = .err (.map (.map md kt et) (Entries.ofList (pre ++ (k, x) :: post)))
          ("could not convert value of key \"" ++ Sprint L k ++ "\" to field \""
            ++ sf.Str ++ "\". " ++ msg) := by
  have hst := stores_of_field L fuel d decls et hT pre iys h
  rw [ConvertValue_map_to_struct L fuel d decls md kt et _ hT,
    mapToStruct_field_err L _ _ _ _ d decls pre iys k x post sf ev msg hst hk hx _
      (zeroFields_length decls)]
  rfl

theorem StructOf_wraps (s : Schema) (S : Nat) (n a : Nat) (hw : Wraps s S n a) :
    ∀ fuel, StructOf s (n + 1 + fuel) (some a) = StructOf s (1 + fuel) (some S) := by
  induction hw with
  | zero => intro fuel; simp
  | succ n a e d hd he _ ih =>
    intro fuel
    have : n + 1 + 1 + fuel = (n + 1 + fuel) + 1 := by omega
    rw [this]
    cases d <;> simp [Desc.Elem] at he <;> subst he <;> simp only [StructOf, hd] <;> exact ih fuel

theorem typesGet_new (s : Schema) (k j : Option Nat) (d : Desc) :
    (s.new k d).typesGet j = if k = j then some s.objects.length else s.typesGet j := by
  simp [Schema.new, Schema.typesGet, lookupType]

theorem typesGet_update (s : Schema) (x : Nat) (f : Desc → Desc) (j : Option Nat) :
    (s.update x f).typesGet j = s.typesGet j := rfl

theorem modifyAt_length (f : Desc → Desc) : ∀ (x : Nat) (l : List Desc),
    (modifyAt f x l).length = l.length
  | x, [] => by cases x <;> rfl
  | 0, _ :: _ => rfl
  | x + 1, d :: ds => by simp [modifyAt, modifyAt_length f x ds]

theorem modifyAt_get (f : Desc → Desc) : ∀ (x : Nat) (l : List Desc) (b : Nat),
    (modifyAt f x l)[b]? = if b = x then l[b]?.map f else l[b]?
  | x, [], b => by cases x <;> simp [modifyAt]
  | 0, d :: ds, b => by
    cases b with
    | zero => simp [modifyAt]
    | succ b => simp [modifyAt]
  | x + 1, d :: ds, b => by
    cases b with
    | zero => simp [modifyAt]
    | succ b => simp [modifyAt, modifyAt_get f x ds b]

theorem objects_new_length (s : Schema) (k : Option Nat) (d : Desc) :
    (s.new k d).objects.length = s.objects.length + 1 := by
  simp [Schema.new]

theorem objects_new_lt (s : Schema) (k : Option Nat) (d : Desc) (b : Nat)
    (h : b < s.objects.length) : (s.new k d).objects[b]? = s.objects[b]? := by
  simp [Schema.new, List.getElem?_append_left h]

theorem objects_new_self (s : Schema) (k : Option Nat) (d : Desc) :
    (s.new k d).objects[s.objects.length]? = some d := by
  simp [Schema.new]

theorem objects_update_length (s : Schema) (x : Nat) (f : Desc → Desc) :
    (s.update x f).objects.length = s.objects.length := by
  simp [Schema.update, modifyAt_length]

theorem objects_update_get (s : Schema) (x : Nat) (f : Desc → Desc) (b : Nat) :
    (s.update x f).objects[b]? = if b = x then s.objects[b]?.map f else s.objects[b]? := by
  simp [Schema.update, modifyAt_get]

theorem Ext.refl (s : Schema) : Schema.Ext s s :=
  ⟨fun _ _ h => h, le_refl _, fun _ _ h => Or.inl h⟩

theorem Ext.trans {s s1 s2 : Schema} (h1 : Schema.Ext s s1) (h2 : Schema.Ext s1 s2) :
    Schema.Ext s s2 := by
  refine ⟨fun k a h => h2.mono k a (h1.mono k a h), le_trans h1.len h2.len, ?_⟩
  intro k a h
  rcases h2.fresh k a h with h3 | h3
  · exact h1.fresh k a h3
  · exact Or.inr (le_trans h1.len h3)

theorem Ext_new (s : Schema) (k : Option Nat) (d : Desc) (hk : s.typesGet k = none) :
    Schema.Ext s (s.new k d) := by
  refine ⟨?_, ?_, ?_⟩
  · intro j a h
    rw [typesGet_new]
    by_cases hj : k = j
    · subst hj; rw [hk] at h; cases h
    · rw [if_neg hj]; exact h
  · rw [objects_new_length]; omega
  · intro j a h
    rw [typesGet_new] at h
    by_cases hj : k = j
    · rw [if_pos hj] at h; cases h; exact Or.inr (le_refl _)
    · rw [if_neg hj] at h; exact Or.inl h

theorem Ext_update (s : Schema) (x : Nat) (f : Desc → Desc) : Schema.Ext s (s.update x f) :=
  ⟨fun _ _ h => h, by rw [objects_update_length], fun _ _ h => Or.inl h⟩

theorem wf_new (s : Schema) (k : Option Nat) (d : Desc) (h : s.wf) : (s.new k d).wf := by
  intro j a hj
  rw [typesGet_new] at hj
  rw [objects_new_length]
  by_cases hkj : k = j
  · rw [if_pos hkj] at hj; cases hj; omega
  · rw [if_neg hkj] at hj
    have := h j a hj
    omega

theorem wf_update (s : Schema) (x : Nat) (f : Desc → Desc) (h : s.wf) : (s.update x f).wf := by
  intro j a hj
  rw [objects_update_length]
  exact h j a hj

theorem uniq_new (s : Schema) (k : Option Nat) (d : Desc) (h : s.wf) :
    (s.new k d).uniq k s.objects.length := by
  intro j a hj hjk
  rw [typesGet_new, if_neg (Ne.symm hjk)] at hj
  have := h j a hj
  omega

theorem uniq_ext {s s1 : Schema} (k : Option Nat) (x : Nat) (he : Schema.Ext s s1)
    (hx : x < s.objects.length) (h : s.uniq k x) : s1.uniq k x := by
  intro j a hj hjk
  rcases he.fresh j a hj with h1 | h1
  · exact h j a h1 hjk
  · omega

theorem fieldsOf_mono (L : Lib) (s s1 : Schema)
    (hm : ∀ k a, s.typesGet k = some a → s1.typesGet k = some a) :
    ∀ (fields : List (FieldDecl × Nat)) (i : Nat) (fs : List FieldObj),
      Schema.fieldsOf L s fields i = some fs → Schema.fieldsOf L s1 fields i = some fs
  | [], _, fs, h => by simpa [Schema.fieldsOf] using h
  | rsf :: rest, i, fs, h => by
    simp only [Schema.fieldsOf] at h ⊢
    cases h1 : s.typesGet (some rsf.2) with
    | none => simp [h1] at h
    | some tm =>
      cases h2 : Schema.fieldsOf L s rest (i + 1) with
      | none => simp [h1, h2] at h
      | some fs2 =>
        simp only [h1, h2] at h
        rw [hm _ _ h1, fieldsOf_mono L s s1 hm rest (i + 1) fs2 h2]
        exact h

theorem descOf_mono (L : Lib) (T : Nat → TypeDef) (s s1 : Schema)
    (hm : ∀ k a, s.typesGet k = some a → s1.typesGet k = some a) (k : Option Nat) (d : Desc)
    (h : Schema.descOf L T s k = some d) : Schema.descOf L T s1 k = some d := by
  cases k with
  | none => exact h
  | some t =>
    simp only [Schema.descOf] at h ⊢
    cases hT : T t with
    | basic kd => simpa [hT] using h
    | iface dd => simpa [hT] using h
    | ptr e =>
      simp only [hT] at h ⊢
      cases he : s.typesGet (some e) with
      | none => simp [he] at h
      | some ea => rw [hm _ _ he]; rw [he] at h; exact h
    | slice e =>
      simp only [hT] at h ⊢
      cases he : s.typesGet (some e) with
      | none => simp [he] at h
      | some ea => rw [hm _ _ he]; rw [he] at h; exact h
    | array n e =>
      simp only [hT] at h ⊢
      cases he : s.typesGet (some e) with
      | none => simp [he] at h
      | some ea => rw [hm _ _ he]; rw [he] at h; exact h
    | map kk e =>
      simp only [hT] at h ⊢
      cases hk : s.typesGet (some kk) with
      | none => simp [hk] at h
      | some ka =>
        cases he : s.typesGet (some e) with
        | none => simp [hk, he] at h
        | some ea => rw [hm _ _ hk, hm _ _ he]; rw [hk, he] at h; exact h
    | struct dd fields =>
      simp only [hT] at h ⊢
      by_cases hp : implementsPrimitive dd = true
      · rw [if_pos hp] at h ⊢; exact h
      · rw [if_neg hp] at h ⊢
        cases hf : Schema.fieldsOf L s fields 0 with
        | none => simp [hf] at h
        | some fs => rw [fieldsOf_mono L s s1 hm fields 0 fs hf]; rw [hf] at h; exact h

theorem fieldsOf_update (L : Lib) (s : Schema) (x : Nat) (f : Desc → Desc) :
    ∀ (fields : List (FieldDecl × Nat)) (i : Nat),
      Schema.fieldsOf L (s.update x f) fields i = Schema.fieldsOf L s fields i
  | [], _ => rfl
  | rsf :: rest, i => by
    simp only [Schema.fieldsOf, typesGet_update, fieldsOf_update L s x f rest (i + 1)]

theorem descOf_update (L : Lib) (T : Nat → TypeDef) (s : Schema) (x : Nat) (f : Desc → Desc)
    (k : Option Nat) : Schema.descOf L T (s.update x f) k = Schema.descOf L T s k := by
  cases k with
  | none => rfl
  | some t =>
    simp only [Schema.descOf, typesGet_update, fieldsOf_update]

theorem coh_new (L : Lib) (T : Nat → TypeDef) (s : Schema) (k : Option Nat) (d : Desc)
    (hw : s.wf) (hk : s.typesGet k = none) (P : List (Option Nat))
    (h : s.cohExcept L T P) : (s.new k d).cohExcept L T (k :: P) := by
  intro j a hj hjP
  simp only [List.mem_cons, not_or] at hjP
  rw [typesGet_new, if_neg (Ne.symm hjP.1)] at hj
  obtain ⟨dd, h1, h2⟩ := h j a hj hjP.2
  refine ⟨dd, descOf_mono L T s _ (Ext_new s k d hk).mono j dd h1, ?_⟩
  rw [objects_new_lt s k d a (hw j a hj)]
  exact h2

theorem coh_update (L : Lib) (T : Nat → TypeDef) (s : Schema) (k : Option Nat) (x : Nat)
    (f : Desc → Desc) (hu : s.uniq k x) (P : List (Option Nat)) (hk : k ∈ P)
    (h : s.cohExcept L T P) : (s.update x f).cohExcept L T P := by
  intro j a hj hjP
  rw [typesGet_update] at hj
  obtain ⟨dd, h1, h2⟩ := h j a hj hjP
  have hjk : j ≠ k := by rintro rfl; exact hjP hk
  refine ⟨dd, by rw [descOf_update]; exact h1, ?_⟩
  rw [objects_update_get, if_neg (hu j a hj hjk)]
  exact h2

theorem coh_complete (L : Lib) (T : Nat → TypeDef) (s : Schema) (k : Option Nat)
    (P : List (Option Nat)) (h : s.cohExcept L T (k :: P))
    (hk : ∀ a, s.typesGet k = some a →
      ∃ d, Schema.descOf L T s k = some d ∧ s.objects[a]? = some d) :
    s.cohExcept L T P := by
  intro j a hj hjP
  by_cases hjk : j = k
  · subst hjk; exact hk a hj
  · exact h j a hj (by simp [hjk, hjP])

theorem wrap_spec (L : Lib) (T : Nat → TypeDef) (s : Schema) (t e : Nat) (d0 : Desc)
    (s1 : Schema) (ea : Nat) (hw : s.wf) (hk : s.typesGet (some t) = none)
    (hn : Schema.GetSpec L T (s.new (some t) d0) (some e) s1 ea)
    (hd : ∀ s2 : Schema, Schema.descOf L T s2 (some t)
      = (s2.typesGet (some e)).map (fun x => d0.setElem x)) :
    Schema.GetSpec L T s (some t) (s1.update s.objects.length (Desc.setElem ea))
      s.objects.length := by
  have hx : s.objects.length < (s.new (some t) d0).objects.length := by
    rw [objects_new_length]; omega
  have hu : s1.uniq (some t) s.objects.length :=
    uniq_ext _ _ hn.ext hx (uniq_new s (some t) d0 hw)
  have hc : s1.typesGet (some t) = some s.objects.length :=
    hn.ext.mono _ _ (by rw [typesGet_new, if_pos rfl])
  refine ⟨?_, ?_, wf_update _ _ _ hn.wf, ?_, ?_⟩
  · exact Ext.trans (Ext_new s _ d0 hk) (Ext.trans hn.ext (Ext_update _ _ _))
  · intro b hb
    rw [objects_update_get, if_neg (by omega), hn.frame b (by omega), objects_new_lt s _ d0 b hb]
  · rw [typesGet_update]; exact hc
  · intro P hP
    have h1 := hn.coh _ (coh_new L T s (some t) d0 hw hk P hP)
    have h2 := coh_update L T s1 (some t) s.objects.length (Desc.setElem ea) hu _
      (List.mem_cons_self _ _) h1
    refine coh_complete L T _ (some t) P h2 ?_
    intro a ha
    rw [typesGet_update, hc] at ha
    cases ha
    refine ⟨d0.setElem ea, ?_, ?_⟩
    · rw [hd, typesGet_update, hn.cached]; rfl
    · rw [objects_update_get, if_pos rfl, hn.frame _ hx, objects_new_self]; rfl

theorem leaf_spec (L : Lib) (T : Nat → TypeDef) (s : Schema) (k : Option Nat) (d0 : Desc)
    (hw : s.wf) (hk : s.typesGet k = none)
    (hd : ∀ s2 : Schema, Schema.descOf L T s2 k = some d0) :
    Schema.GetSpec L T s k (s.new k d0) s.objects.length := by
  refine ⟨Ext_new s k d0 hk, fun b hb => objects_new_lt s k d0 b hb, wf_new s k d0 hw, ?_, ?_⟩
  · rw [typesGet_new, if_pos rfl]
  · intro P hP
    refine coh_complete L T _ k P (coh_new L T s k d0 hw hk P hP) ?_
    intro a ha
    rw [typesGet_new, if_pos rfl] at ha
    cases ha
    exact ⟨d0, hd _, objects_new_self s k d0⟩

theorem getFields_spec (L : Lib) (T : Nat → TypeDef)
    (g : Schema → Option Nat → Option (Schema × Nat))
    (hg : ∀ s k s1 a, g s k = some (s1, a) → s.wf → Schema.GetSpec L T s k s1 a)
    (x t : Nat) :
    ∀ (rest : List (FieldDecl × Nat)) (i : Nat) (s : Schema) (done : List FieldObj)
      (s1 : Schema),
      Schema.getFields L g x rest i s = some s1 → s.wf → x < s.objects.length →
      s.objects[x]? = some (.Struct done t) → s.uniq (some t) x →
      Schema.Ext s s1 ∧ Schema.Frame s s1 x ∧ s1.wf
      ∧ (∃ fs, Schema.fieldsOf L s1 rest i = some fs
          ∧ s1.objects[x]? = some (.Struct (done ++ fs) t))
      ∧ (∀ P, some t ∈ P → s.cohExcept L T P → s1.cohExcept L T P)
  | [], i, s, done, s1, h, hw, hx, ho, hu => by
    simp only [Schema.getFields, Option.some.injEq] at h
    subst h
    exact ⟨Ext.refl s, fun _ _ _ => rfl, hw, ⟨[], rfl, by simpa using ho⟩, fun _ _ h => h⟩
  | rsf :: rest, i, s, done, s1, h, hw, hx, ho, hu => by
    simp only [Schema.getFields] at h
    cases hr : g s (some rsf.2) with
    | none => simp [hr] at h
    | some r =>
      obtain ⟨s2, tm⟩ := r
      simp only [hr] at h
      have hs := hg s (some rsf.2) s2 tm hr hw
      have hx2 : x < s2.objects.length := lt_of_lt_of_le hx hs.ext.len
      have hu2 : s2.uniq (some t) x := uniq_ext _ _ hs.ext hx hu
      have ho3 : (s2.update x (Desc.addField ⟨fieldInfoOf L rsf.1 i, tm⟩)).objects[x]?
          = some (.Struct ((done ++ [⟨fieldInfoOf L rsf.1 i, tm⟩])) t) := by
        rw [objects_update_get, if_pos rfl, hs.frame x hx, ho]; rfl
      have hu3 : (s2.update x (Desc.addField ⟨fieldInfoOf L rsf.1 i, tm⟩)).uniq (some t) x :=
        fun j a hj hjk => hu2 j a hj hjk
      obtain ⟨e1, e2, e3, ⟨fs, e4, e5⟩, e6⟩ := getFields_spec L T g hg x t rest (i + 1)
        (s2.update x (Desc.addField ⟨fieldInfoOf L rsf.1 i, tm⟩))
        (done ++ [⟨fieldInfoOf L rsf.1 i, tm⟩]) s1 h (wf_update _ _ _ hs.wf)
        (by rw [objects_update_length]; exact hx2) ho3 hu3
      refine ⟨Ext.trans hs.ext (Ext.trans (Ext_update _ _ _) e1), ?_, e3, ?_, ?_⟩
      · intro b hb hbx
        rw [e2 b (by rw [objects_update_length]; exact lt_of_lt_of_le hb hs.ext.len) hbx,
          objects_update_get, if_neg hbx, hs.frame b hb]
      · refine ⟨⟨fieldInfoOf L rsf.1 i, tm⟩ :: fs, ?_, ?_⟩
        · simp only [Schema.fieldsOf]
          rw [e1.mono _ _ (by rw [typesGet_update]; exact hs.cached), e4]
        · rw [e5]; simp
      · intro P hP hc
        exact e6 P hP (coh_update L T s2 (some t) x _ hu2 P hP (hs.coh P hc))

theorem struct_spec (L : Lib) (T : Nat → TypeDef)
    (g : Schema → Option Nat → Option (Schema × Nat))
    (hg : ∀ s k s1 a, g s k = some (s1, a) → s.wf → Schema.GetSpec L T s k s1 a)
    (s : Schema) (t : Nat) (fields : List (FieldDecl × Nat)) (s1 : Schema)
    (hw : s.wf) (hk : s.typesGet (some t) = none)
    (hd : ∀ s2 : Schema, Schema.descOf L T s2 (some t)
      = (Schema.fieldsOf L s2 fields 0).map (fun fs => .Struct fs t))
    (h : Schema.getFields L g s.objects.length fields 0 (s.new (some t) (.Struct [] t))
      = some s1) :
    Schema.GetSpec L T s (some t) s1 s.objects.length := by
  have hx : s.objects.length < (s.new (some t) (.Struct [] t)).objects.length := by
    rw [objects_new_length]; omega
  obtain ⟨e1, e2, e3, ⟨fs, e4, e5⟩, e6⟩ := getFields_spec L T g hg s.objects.length t fields 0
    (s.new (some t) (.Struct [] t)) [] s1 h (wf_new _ _ _ hw) hx (objects_new_self _ _ _)
    (uniq_new s (some t) _ hw)
  have hc : s1.typesGet (some t) = some s.objects.length :=
    e1.mono _ _ (by rw [typesGet_new, if_pos rfl])
  refine ⟨Ext.trans (Ext_new s _ _ hk) e1, ?_, e3, hc, ?_⟩
  · intro b hb
    rw [e2 b (by omega) (by omega), objects_new_lt s _ _ b hb]
  · intro P hP
    have h1 := e6 _ (List.mem_cons_self _ _) (coh_new L T s (some t) _ hw hk P hP)
    refine coh_complete L T _ (some t) P h1 ?_
    intro a ha
    rw [hc] at ha
    cases ha
    refine ⟨.Struct fs t, ?_, ?_⟩
    · rw [hd, e4]; rfl
    · rw [e5]; rfl

theorem map_spec (L : Lib) (T : Nat → TypeDef) (s : Schema) (t k e : Nat)
    (s1 : Schema) (ka : Nat) (s2 : Schema) (ea : Nat) (hw : s.wf)
    (hk : s.typesGet (some t) = none)
    (h1 : Schema.GetSpec L T (s.new (some t) (.Map none none t)) (some k) s1 ka)
    (h2 : Schema.GetSpec L T (s1.update s.objects.length (Desc.setKey ka)) (some e) s2 ea)
    (hd : ∀ s3 : Schema, Schema.descOf L T s3 (some t)
      = match s3.typesGet (some k), s3.typesGet (some e) with
        | some ka, some ea => some (.Map (some ka) (some ea) t)
        | _, _ => none) :
    Schema.GetSpec L T s (some t) (s2.update s.objects.length (Desc.setElem ea))
      s.objects.length := by
  have hx : s.objects.length < (s.new (some t) (.Map none none t)).objects.length := by
    rw [objects_new_length]; omega
  have hx1 : s.objects.length < s1.objects.length := lt_of_lt_of_le hx h1.ext.len
  have hx1u : s.objects.length < (s1.update s.objects.length (Desc.setKey ka)).objects.length := by
    rw [objects_update_length]; exact hx1
  have hu1 : s1.uniq (some t) s.objects.length :=
    uniq_ext _ _ h1.ext hx (uniq_new s (some t) _ hw)
  have hu1u : (s1.update s.objects.length (Desc.setKey ka)).uniq (some t) s.objects.length :=
    fun j a hj hjk => hu1 j a hj hjk
  have hu2 : s2.uniq (some t) s.objects.length := uniq_ext _ _ h2.ext hx1u hu1u
  have hc1 : s1.typesGet (some t) = some s.objects.length :=
    h1.ext.mono _ _ (by rw [typesGet_new, if_pos rfl])
  have hc2 : s2.typesGet (some t) = some s.objects.length :=
    h2.ext.mono _ _ (by rw [typesGet_update]; exact hc1)
  have hka : s2.typesGet (some k) = some ka :=
    h2.ext.mono _ _ (by rw [typesGet_update]; exact h1.cached)
  refine ⟨?_, ?_, wf_update _ _ _ h2.wf, ?_, ?_⟩
  · exact Ext.trans (Ext_new s _ _ hk) (Ext.trans h1.ext (Ext.trans (Ext_update _ _ _)
      (Ext.trans h2.ext (Ext_update _ _ _))))
  · intro b hb
    rw [objects_update_get, if_neg (by omega),
      h2.frame b (by rw [objects_update_length]; omega),
      objects_update_get, if_neg (by omega), h1.frame b (by omega), objects_new_lt s _ _ b hb]
  · rw [typesGet_update]; exact hc2
  · intro P hP
    have g1 := h1.coh _ (coh_new L T s (some t) _ hw hk P hP)
    have g2 := coh_update L T s1 (some t) s.objects.length (Desc.setKey ka) hu1 _
      (List.mem_cons_self _ _) g1
    have g3 := h2.coh _ g2
    have g4 := coh_update L T s2 (some t) s.objects.length (Desc.setElem ea) hu2 _
      (List.mem_cons_self _ _) g3
    refine coh_complete L T _ (some t) P g4 ?_
    intro a ha
    rw [typesGet_update, hc2] at ha
    cases ha
    refine ⟨.Map (some ka) (some ea) t, ?_, ?_⟩
    · rw [hd, typesGet_update, typesGet_update, hka, h2.cached]
    · rw [objects_update_get, if_pos rfl, h2.frame _ hx1u, objects_update_get, if_pos rfl,
        h1.frame _ hx, objects_new_self]
      rfl

theorem get_spec (L : Lib) (T : Nat → TypeDef) :
    ∀ (fuel : Nat) (s : Schema) (k : Option Nat) (s1 : Schema) (a : Nat),
      Schema.get L T fuel s k = some (s1, a) → s.wf → Schema.GetSpec L T s k s1 a := by
  intro fuel
  induction fuel with
  | zero => intro s k s1 a h; simp [Schema.get] at h
  | succ n ih =>
    intro s k s1 a h hw
    simp only [Schema.get] at h
    cases hc : s.typesGet k with
    | some tm =>
      simp only [hc, Option.some.injEq, Prod.mk.injEq] at h
      obtain ⟨h1, h2⟩ := h
      subst h1 h2
      exact ⟨Ext.refl s, fun _ _ => rfl, hw, hc, fun _ h => h⟩
    | none =>
      simp only [hc] at h
      cases k with
      | none =>
        simp only [Option.some.injEq, Prod.mk.injEq] at h
        obtain ⟨h1, h2⟩ := h
        subst h1 h2
        exact leaf_spec L T s none _ hw hc (fun _ => rfl)
      | some t =>
        simp only at h
        cases hT : T t with
        | basic kd =>
          simp only [hT, Option.some.injEq, Prod.mk.injEq] at h
          obtain ⟨h1, h2⟩ := h
          subst h1 h2
          exact leaf_spec L T s _ _ hw hc (fun s2 => by simp [Schema.descOf, hT])
        | iface dd =>
          simp only [hT, Option.some.injEq, Prod.mk.injEq] at h
          obtain ⟨h1, h2⟩ := h
          subst h1 h2
          exact leaf_spec L T s _ _ hw hc (fun s2 => by simp [Schema.descOf, hT])
        | ptr e =>
          simp only [hT] at h
          cases hr : Schema.get L T n (s.new (some t) (.Ptr none t)) (some e) with
          | none => simp [hr] at h
          | some r =>
            obtain ⟨s2, ea⟩ := r
            simp only [hr, Option.some.injEq, Prod.mk.injEq] at h
            obtain ⟨h1, h2⟩ := h
            subst h1 h2
            exact wrap_spec L T s t e _ s2 ea hw hc (ih _ _ _ _ hr (wf_new _ _ _ hw))
              (fun s3 => by simp [Schema.descOf, hT, Desc.setElem])
        | slice e =>
          simp only [hT] at h
          cases hr : Schema.get L T n (s.new (some t) (.Slice none t)) (some e) with
          | none => simp [hr] at h
          | some r =>
            obtain ⟨s2, ea⟩ := r
            simp only [hr, Option.some.injEq, Prod.mk.injEq] at h
            obtain ⟨h1, h2⟩ := h
            subst h1 h2
            exact wrap_spec L T s t e _ s2 ea hw hc (ih _ _ _ _ hr (wf_new _ _ _ hw))
              (fun s3 => by simp [Schema.descOf, hT, Desc.setElem])
        | array len e =>
          simp only [hT] at h
          cases hr : Schema.get L T n (s.new (some t) (.Array none t)) (some e) with
          | none => simp [hr] at h
          | some r =>
            obtain ⟨s2, ea⟩ := r
            simp only [hr, Option.some.injEq, Prod.mk.injEq] at h
            obtain ⟨h1, h2⟩ := h
            subst h1 h2
            exact wrap_spec L T s t e _ s2 ea hw hc (ih _ _ _ _ hr (wf_new _ _ _ hw))
              (fun s3 => by simp [Schema.descOf, hT, Desc.setElem])
        | map kk e =>
          simp only [hT] at h
          cases hr : Schema.get L T n (s.new (some t) (.Map none none t)) (some kk) with
          | none => simp [hr] at h
          | some r =>
            obtain ⟨s2, ka⟩ := r
            simp only [hr] at h
            cases hr2 : Schema.get L T n (s2.update s.objects.length (Desc.setKey ka))
                (some e) with
            | none => simp [hr2] at h
            | some r2 =>
              obtain ⟨s3, ea⟩ := r2
              simp only [hr2, Option.some.injEq, Prod.mk.injEq] at h
              obtain ⟨h1, h2⟩ := h
              subst h1 h2
              have g1 := ih _ _ _ _ hr (wf_new _ _ _ hw)
              exact map_spec L T s t kk e s2 ka s3 ea hw hc g1
                (ih _ _ _ _ hr2 (wf_update _ _ _ g1.wf))
                (fun s4 => by
                  cases h3 : s4.typesGet (some kk) <;> cases h4 : s4.typesGet (some e) <;>
                    simp [Schema.descOf, hT, h3, h4])
        | struct dd fields =>
          simp only [hT] at h
          by_cases hp : implementsPrimitive dd = true
          · rw [if_pos hp] at h
            simp only [Option.some.injEq, Prod.mk.injEq] at h
            obtain ⟨h1, h2⟩ := h
            subst h1 h2
            exact leaf_spec L T s _ _ hw hc (fun s2 => by simp [Schema.descOf, hT, hp])
          · rw [if_neg hp] at h
            cases hr : Schema.getFields L (Schema.get L T n) s.objects.length fields 0
                (s.new (some t) (.Struct [] t)) with
            | none => simp [hr] at h
            | some s2 =>
              simp only [hr, Option.some.injEq, Prod.mk.injEq] at h
              obtain ⟨h1, h2⟩ := h
              subst h1 h2
              exact struct_spec L T (Schema.get L T n) ih s t fields s2 hw hc
                (fun s3 => by simp [Schema.descOf, hT, hp]) hr

theorem uncached_succ (s : Schema) (n : Nat) :
    s.uncached (n + 1) = s.uncached n + (if (s.typesGet (some n)).isNone then 1 else 0) := by
  simp only [Schema.uncached, List.range_succ, List.filter_append, List.length_append]
  congr 1
  by_cases h : (s.typesGet (some n)).isNone = true <;> simp [h]

theorem uncached_mono (s s1 : Schema)
    (hm : ∀ k a, s.typesGet k = some a → s1.typesGet k = some a) :
    ∀ n, s1.uncached n ≤ s.uncached n := by
  intro n
  induction n with
  | zero => simp [Schema.uncached]
  | succ n ih =>
    rw [uncached_succ, uncached_succ]
    have : (if (s1.typesGet (some n)).isNone then 1 else 0)
        ≤ (if (s.typesGet (some n)).isNone then 1 else 0) := by
      cases h : s.typesGet (some n) with
      | none => simp only [Option.isNone_none, if_true]; split <;> omega
      | some a => rw [hm _ _ h]
    omega

theorem uncached_le (s : Schema) : ∀ n, s.uncached n ≤ n := by
  intro n
  induction n with
  | zero => simp [Schema.uncached]
  | succ n ih =>
    rw [uncached_succ]
    split <;> omega

theorem uncached_new (s : Schema) (t : Nat) (d : Desc) (hk : s.typesGet (some t) = none) :
    ∀ n, t < n → (s.new (some t) d).uncached n < s.uncached n := by
  intro n
  induction n with
  | zero => intro h; omega
  | succ n ih =>
    intro h
    rw [uncached_succ, uncached_succ]
    by_cases htn : t = n
    · subst htn
      have h1 := uncached_mono s (s.new (some t) d) (Ext_new s _ d hk).mono t
      rw [typesGet_new, if_pos rfl, hk]
      simp only [Option.isNone_some, Option.isNone_none, if_true]
      simp only [Bool.false_eq_true, if_false]
      omega
    · have h1 := ih (by omega)
      have : (if ((s.new (some t) d).typesGet (some n)).isNone then 1 else 0)
          ≤ (if (s.typesGet (some n)).isNone then 1 else 0) := by
        have hne : (some t : Option Nat) ≠ some n := by simpa using htn
        rw [typesGet_new, if_neg hne]
      omega

theorem getFields_terminates (L : Lib) (T : Nat → TypeDef) (n f : Nat)
    (g : Schema → Option Nat → Option (Schema × Nat))
    (hg : ∀ s k s1 a, g s k = some (s1, a) → s.wf → Schema.GetSpec L T s k s1 a)
    (ht : ∀ s t, s.wf → t < n → s.uncached n < f → ∃ s1 a, g s (some t) = some (s1, a))
    (x : Nat) :
    ∀ (rest : List (FieldDecl × Nat)) (i : Nat) (s : Schema),
      (∀ r ∈ rest.map Prod.snd, r < n) → s.wf → s.uncached n < f →
      ∃ s1, Schema.getFields L g x rest i s = some s1
  | [], i, s, _, _, _ => ⟨s, rfl⟩
  | rsf :: rest, i, s, hr, hw, hu => by
    obtain ⟨s1, a, h1⟩ := ht s rsf.2 hw (hr _ (by simp)) hu
    have hs := hg s _ s1 a h1 hw
    simp only [Schema.getFields, h1]
    apply getFields_terminates L T n f g hg ht x rest (i + 1)
    · intro r hr2
      exact hr r (by simp only [List.map_cons, List.mem_cons]; exact Or.inr hr2)
    · exact wf_update _ _ _ hs.wf
    · exact lt_of_le_of_lt (uncached_mono s _ (fun k b hk => by
        rw [typesGet_update]; exact hs.ext.mono k b hk) n) hu

theorem get_terminates (L : Lib) (T : Nat → TypeDef) (n : Nat) (hT : Closed T n) :
    ∀ (fuel : Nat) (s : Schema) (k : Option Nat), s.wf → (∀ t, k = some t → t < n) →
      s.uncached n < fuel → ∃ s1 a, Schema.get L T fuel s k = some (s1, a) := by
  intro fuel
  induction fuel with
  | zero => intro s k _ _ h; omega
  | succ f ih =>
    intro s k hw hk hu
    simp only [Schema.get]
    cases hc : s.typesGet k with
    | some tm => exact ⟨_, _, rfl⟩
    | none =>
      cases k with
      | none => exact ⟨_, _, rfl⟩
      | some t =>
        have htn := hk t rfl
        have hlt : ∀ d, (s.new (some t) d).uncached n < f := fun d => by
          have := uncached_new s t d hc n htn
          omega
        have hrefs := hT t htn
        simp only
        cases hT2 : T t with
        | basic kd => exact ⟨_, _, rfl⟩
        | iface dd => exact ⟨_, _, rfl⟩
        | ptr e =>
          rw [hT2] at hrefs
          obtain ⟨s1, a, h1⟩ := ih (s.new (some t) (.Ptr none t)) (some e) (wf_new _ _ _ hw)
            (fun t2 h2 => by cases h2; exact hrefs e (by simp [TypeDef.refs])) (hlt _)
          simp only [h1]
          exact ⟨_, _, rfl⟩
        | slice e =>
          rw [hT2] at hrefs
          obtain ⟨s1, a, h1⟩ := ih (s.new (some t) (.Slice none t)) (some e) (wf_new _ _ _ hw)
            (fun t2 h2 => by cases h2; exact hrefs e (by simp [TypeDef.refs])) (hlt _)
          simp only [h1]
          exact ⟨_, _, rfl⟩
        | array len e =>
          rw [hT2] at hrefs
          obtain ⟨s1, a, h1⟩ := ih (s.new (some t) (.Array none t)) (some e) (wf_new _ _ _ hw)
            (fun t2 h2 => by cases h2; exact hrefs e (by simp [TypeDef.refs])) (hlt _)
          simp only [h1]
          exact ⟨_, _, rfl⟩
        | map kk e =>
          rw [hT2] at hrefs
          obtain ⟨s1, a, h1⟩ := ih (s.new (some t) (.Map none none t)) (some kk)
            (wf_new _ _ _ hw)
            (fun t2 h2 => by cases h2; exact hrefs kk (by simp [TypeDef.refs])) (hlt _)
          have hs := get_spec L T f _ _ s1 a h1 (wf_new _ _ _ hw)
          obtain ⟨s2, a2, h2⟩ := ih (s1.update s.objects.length (Desc.setKey a)) (some e)
            (wf_update _ _ _ hs.wf)
            (fun t2 h2 => by cases h2; exact hrefs e (by simp [TypeDef.refs]))
            (lt_of_le_of_lt (uncached_mono _ _ (fun k b hk => by
              rw [typesGet_update]; exact hs.ext.mono k b hk) n) (hlt _))
          simp only [h1, h2]
          exact ⟨_, _, rfl⟩
        | struct dd fields =>
          rw [hT2] at hrefs
          by_cases hp : implementsPrimitive dd = true
          · simp only [if_pos hp]; exact ⟨_, _, rfl⟩
          · simp only [if_neg hp]
            obtain ⟨s1, h1⟩ := getFields_terminates L T n f (Schema.get L T f)
              (get_spec L T f) (fun s2 t2 hw2 ht2 hu2 => ih s2 (some t2) hw2
                (fun t3 h3 => by cases h3; exact ht2) hu2)
              s.objects.length fields 0 (s.new (some t) (.Struct [] t))
              (fun r hr => hrefs r (by simpa [TypeDef.refs] using hr)) (wf_new _ _ _ hw) (hlt _)
            simp only [h1]
            exact ⟨_, _, rfl⟩

theorem NewSchema_wf : NewSchema.wf := by
  intro k a h
  simp [NewSchema, Schema.typesGet, lookupType] at h

theorem NewSchema_coherent (L : Lib) (T : Nat → TypeDef) : NewSchema.cohExcept L T [] := by
  intro k a h
  simp [NewSchema, Schema.typesGet, lookupType] at h

theorem steps_spec (L : Lib) (T : Nat → TypeDef) (s s1 : Schema)
    (h : Schema.Steps L T s s1) (hw : s.wf) :
    s1.wf ∧ Schema.Ext s s1 ∧ (∀ b, b < s.objects.length → s1.objects[b]? = s.objects[b]?)
      ∧ (∀ P, s.cohExcept L T P → s1.cohExcept L T P) := by
  induction h with
  | refl => exact ⟨hw, Ext.refl _, fun _ _ => rfl, fun _ h => h⟩
  | step s2 s3 fuel rtyp a _ hg ih =>
    obtain ⟨h1, h2, h3, h4⟩ := ih
    have hs := get_spec L T fuel s2 rtyp s3 a hg h1
    refine ⟨hs.wf, Ext.trans h2 hs.ext, ?_, fun P hP => hs.coh P (h4 P hP)⟩
    intro b hb
    rw [hs.frame b (lt_of_lt_of_le hb h2.len), h3 b hb]

theorem coherent_iff (L : Lib) (T : Nat → TypeDef) (s : Schema) :
    s.coherent L T ↔ s.cohExcept L T [] := by
  simp [Schema.coherent, Schema.cohExcept]

theorem coherent_wf (L : Lib) (T : Nat → TypeDef) (s : Schema) (h : s.coherent L T) : s.wf := by
  intro k a hk
  obtain ⟨d, _, h2⟩ := h k a hk
  by_contra hlt
  rw [List.getElem?_eq_none (by omega)] at h2
  cases h2

/-! ## Facts about enums, descriptor edits and orders of visit -/

theorem intLiteral_length (s : String) (n : Int) (h : intLiteral s = some n) : s.length ≠ 0 := by
  unfold intLiteral at h
  cases hd : s.data with
  | nil => rw [hd] at h; cases h
  | cons c cs =>
    intro hl
    have : s.data.length = 0 := hl
    rw [hd] at this
    cases this

theorem wrapInt_spec (k : Kind) (n : Int) (hk : k.isInt = true) :
    -(2 : Int) ^ (k.bits - 1) ≤ wrapInt k.bits n ∧ wrapInt k.bits n < 2 ^ (k.bits - 1)
      ∧ ∃ q : Int, wrapInt k.bits n = n + q * 2 ^ k.bits := by
  have hw : ((2 : Int) ^ k.bits) = 2 * 2 ^ (k.bits - 1) := by
    cases k <;> simp [Kind.isInt] at hk <;> simp only [Kind.bits] <;> norm_num
  have hpos : (0 : Int) < 2 ^ k.bits := by positivity
  have h1 := Int.emod_nonneg (n + 2 ^ (k.bits - 1)) (ne_of_gt hpos)
  have h2 := Int.emod_lt_of_pos (n + 2 ^ (k.bits - 1)) hpos
  refine ⟨?_, ?_, ⟨-((n + 2 ^ (k.bits - 1)) / 2 ^ k.bits), ?_⟩⟩
  · simp only [wrapInt]; omega
  · simp only [wrapInt]; omega
  · simp only [wrapInt]
    rw [Int.emod_def]
    ring

theorem ConvertValue_array_to_slice (L : Lib) (fuel : Nat) (d d2 : Option Decl) (n : Nat)
    (et et2 : Ty) (v : Val) (hv : v.Type = some (.array d n et)) (hp : v.plain = true) :
    ConvertValue L (fuel + 1) v (.type (.slice d2 et2)) = .ok (zero (.slice d2 et2)) := by
  simp only [ConvertValue, hv, Get]
  rw [convertValue_plain L fuel v (get L (.array d n et)) (get L (.slice d2 et2)) (.array d n et)
    (.slice d2 et2) hv (get_Type L _) hp (by simp) (by simp [Ty.Kind]) (by simp [Ty.Kind])]
  have : convertNonPtrValue L (convertValue L fuel) v (NonPtr (get L (.array d n et)))
      (NonPtr (get L (.slice d2 et2))) = .ok (zero (.slice d2 et2)) := by
    simp [get, NonPtr, convertNonPtrValue, TypeMeta.Type, Ty.Kind]
  rw [this]
  exact convertValueEnd_ok _ _ _ _ _ _ (zero_Type _)

theorem convertValueBody_iface_sound (L : Lib) (conv : Val → TypeMeta → TypeMeta → Res)
    (v : Val) (vm tm : TypeMeta) (T : Ty) (r : Val) (ht : tm.Type = some T)
    (hk : T.Kind = .interface) (h : convertValueBody L conv v vm tm = .ok r) :
    r.Type = some T ∨ ∃ rt, r.Type = some rt ∧ rt.Implements T = true := by
  cases hv : v.Type with
  | none => simp [convertValueBody, hv] at h
  | some S =>
    simp only [convertValueBody, hv, ht] at h
    by_cases h1 : S = T
    · rw [if_pos h1] at h
      cases h
      exact Or.inl (by rw [hv, h1])
    · rw [if_neg h1] at h
      have hki : (T.Kind == Kind.interface) = true := by simp [hk]
      rw [if_pos hki] at h
      by_cases hi : S.Implements T = true
      · simp only [hi, Bool.not_true, Bool.false_eq_true, if_false] at h
        cases h
        exact Or.inr ⟨S, hv, hi⟩
      · simp only [hi, Bool.not_false, if_true] at h
        cases h

theorem convertValue_iface_sound (L : Lib) (fuel : Nat) (v : Val) (vm tm : TypeMeta) (T : Ty)
    (r : Val) (ht : tm.Type = some T) (hk : T.Kind = .interface)
    (h : convertValue L fuel v vm tm = .ok r) :
    r.Type = some T ∨ ∃ rt, r.Type = some rt ∧ rt.Implements T = true := by
  cases fuel with
  | zero => simp [convertValue] at h
  | succ n =>
    cases v with
    | invalid => simp [convertValue] at h
    | nilIface it =>
      simp [convertValue, ht] at h
      subst h; exact Or.inl (zero_Type T)
    | iface it dyn =>
      simp only [convertValue] at h
      cases hd : dyn.Type with
      | none => simp [hd] at h
      | some dt =>
        simp only [hd] at h
        exact convertValueBody_iface_sound L _ _ _ tm T r ht hk h
    | _ =>
      simp only [convertValue] at h
      exact convertValueBody_iface_sound L _ _ _ tm T r ht hk h

theorem Vals.ext_get? : ∀ (fs gs : Vals), (∀ i, fs.get? i = gs.get? i) → fs = gs
  | .nil, .nil, _ => rfl
  | .nil, .cons v r, h => by have := h 0; simp [Vals.get?] at this
  | .cons v r, .nil, h => by have := h 0; simp [Vals.get?] at this
  | .cons v r, .cons w q, h => by
    have h0 := h 0
    simp only [Vals.get?, Option.some.injEq] at h0
    subst h0
    rw [Vals.ext_get? r q (fun i => by simpa [Vals.get?] using h (i + 1))]

theorem fill_perm (iys iys2 : List (Nat × Val)) (fs : Vals) (hp : iys2.Perm iys)
    (hlt : ∀ iy ∈ iys, iy.1 < fs.length) (hd : (iys.map Prod.fst).Nodup) :
    fill iys2 fs = fill iys fs := by
  have hlt2 : ∀ iy ∈ iys2, iy.1 < fs.length := fun iy h => hlt iy (hp.mem_iff.1 h)
  have hd2 : (iys2.map Prod.fst).Nodup := (hp.map Prod.fst).nodup_iff.2 hd
  apply Vals.ext_get?
  intro j
  by_cases hj : j ∈ iys.map Prod.fst
  · obtain ⟨iy, hiy, rfl⟩ := List.mem_map.1 hj
    rw [fill_get?_mem iys fs hlt hd iy hiy,
      fill_get?_mem iys2 fs hlt2 hd2 iy (hp.mem_iff.2 hiy)]
  · have hj2 : j ∉ iys2.map Prod.fst := fun h => hj ((hp.map Prod.fst).mem_iff.1 h)
    rw [fill_get?_other iys fs j hlt hj, fill_get?_other iys2 fs j hlt2 hj2]

theorem ConvertValue_map_to_struct_perm (L : Lib) (fuel : Nat) (d : Decl) (decls : FieldList)
    (md : Option Decl) (kt et : Ty)
    (hT : (Ty.struct d decls).Implements primitiveType = false)
    (es es2 : List (Val × Val)) (iys : List (Nat × Val))
    (h : List.Forall₂ (fun e iy => ∃ sf r ft,
        (get L (.struct d decls)).FieldByName e.1.GoString = some sf ∧ sf.info.Index = iy.1 ∧
        exported L sf.info.Name = true ∧ sf.TypeMeta.Type = some ft ∧
        convertValue L fuel e.2 (get L et) sf.TypeMeta = .ok r ∧ assignTo r ft = some iy.2) es iys)
    (hd : (iys.map Prod.fst).Nodup) (hp : es2.Perm es) :
    ConvertValue L (fuel + 1) (.map (.map md kt et) (Entries.ofList es)) (.type (.struct d decls))
      = .ok (.struct (.struct d decls) (fill iys (zeroFields decls)))
    ∧ ConvertValue L (fuel + 1) (.map (.map md kt et) (Entries.ofList es2))
        (.type (.struct d decls))
      = .ok (.struct (.struct d decls) (fill iys (zeroFields decls))) := by
  have hst := stores_of_field L fuel d decls et hT es iys h
  obtain ⟨iys2, hst2, hp2⟩ := List.perm_comp_forall₂ hp hst
  have hlt : ∀ iy ∈ iys, iy.1 < (zeroFields decls).length := by
    intro iy hiy
    obtain ⟨e, he⟩ := forall₂_right hst iy hiy
    rw [zeroFields_length]
    exact stores_lt he
  refine ⟨?_, ?_⟩
  · rw [ConvertValue_map_to_struct L fuel d decls md kt et _ hT,
      mapToStruct_ok L _ _ _ _ d decls es iys hst _ (zeroFields_length decls)]
    exact convertValueEnd_ok _ _ _ _ _ _ rfl
  · rw [ConvertValue_map_to_struct L fuel d decls md kt et _ hT,
      mapToStruct_ok L _ _ _ _ d decls es2 iys2 hst2 _ (zeroFields_length decls),
      fill_perm iys iys2 _ hp2 hlt hd]
    exact convertValueEnd_ok _ _ _ _ _ _ rfl

theorem ConvertValue_map_to_map_perm (L : Lib) (fuel : Nat) (d d2 : Option Decl)
    (kt et kt2 et2 : Ty) (hne : kt ≠ kt2 ∨ et ≠ et2) (es es2 ys : List (Val × Val))
    (h : List.Forall₂ (storesEntry L (convertValue L fuel) kt et kt2 et2) es ys)
    (hnd : (ys.map Prod.fst).Nodup) (hp : es2.Perm es) :
    ∃ ys2, ys2.Perm ys
      ∧ ConvertValue L (fuel + 1) (.map (.map d kt et) (Entries.ofList es))
          (.type (.map d2 kt2 et2)) = .ok (.map (.map d2 kt2 et2) (Entries.ofList ys))
      ∧ ConvertValue L (fuel + 1) (.map (.map d kt et) (Entries.ofList es2))
          (.type (.map d2 kt2 et2)) = .ok (.map (.map d2 kt2 et2) (Entries.ofList ys2)) := by
  obtain ⟨ys2, h2, hp2⟩ := List.perm_comp_forall₂ hp h
  have hnd2 : (ys2.map Prod.fst).Nodup := (hp2.map Prod.fst).nodup_iff.2 hnd
  have key : ∀ (es ys : List (Val × Val)),
      List.Forall₂ (storesEntry L (convertValue L fuel) kt et kt2 et2) es ys →
      (ys.map Prod.fst).Nodup →
      ConvertValue L (fuel + 1) (.map (.map d kt et) (Entries.ofList es))
          (.type (.map d2 kt2 et2)) = .ok (.map (.map d2 kt2 et2) (Entries.ofList ys)) := by
    intro es ys h hnd
    rw [ConvertValue_map_to_map L fuel d d2 kt et kt2 et2 _ hne]
    have := mapToMap_prefix L (convertValue L fuel) (.map (.map d kt et) (Entries.ofList es)) d2
      kt et kt2 et2 es ys [] h [] (by simpa using hnd)
    simp only [List.append_nil, List.nil_append, Entries.ofList] at this
    rw [this]
    simp only [mapToMap]
    exact convertValueEnd_ok _ _ _ _ _ _ rfl
  exact ⟨ys2, hp2, key es ys h hnd, key es2 ys2 h2 hnd2⟩

theorem Vals.toList_ofList : ∀ (l : List Val), (Vals.ofList l).toList = l
  | [] => rfl
  | v :: r => by simp [Vals.ofList, Vals.toList, Vals.toList_ofList r]

theorem enumSet_any_self (values : List (String × Val)) (k : String) (v : Val) :
    (enumSet values k v).any (fun e => e.1 == k) = true := by
  unfold enumSet
  by_cases h : values.any (fun e => e.1 == k) = true
  · rw [if_pos h]
    simp only [List.any_eq_true, List.mem_map] at h ⊢
    obtain ⟨e, he, hk⟩ := h
    exact ⟨(k, v), ⟨e, he, by simp [hk]⟩, by simp⟩
  · rw [if_neg h]
    simp

theorem enumSet_any_keep (values : List (String × Val)) (k j : String) (v : Val)
    (hj : values.any (fun e => e.1 == j) = true) :
    (enumSet values k v).any (fun e => e.1 == j) = true := by
  unfold enumSet
  by_cases h : values.any (fun e => e.1 == k) = true
  · rw [if_pos h]
    simp only [List.any_eq_true, List.mem_map] at hj ⊢
    obtain ⟨e, he, hk⟩ := hj
    by_cases hek : (e.1 == k) = true
    · refine ⟨(k, v), ⟨e, he, by simp [hek]⟩, ?_⟩
      simp only [beq_iff_eq] at hek hk ⊢
      rw [← hek, hk]
    · exact ⟨e, ⟨e, he, by simp [hek]⟩, hk⟩
  · rw [if_neg h]
    simp only [List.any_append, hj, Bool.true_or]

theorem enumSet_self (values : List (String × Val)) (k : String)
    (h : ∀ e ∈ values, e.2 = .str (builtin .string) e.1) :
    ∀ e ∈ enumSet values k (.str (builtin .string) k), e.2 = .str (builtin .string) e.1 := by
  unfold enumSet
  by_cases hk : values.any (fun e => e.1 == k) = true
  · rw [if_pos hk]
    intro e he
    simp only [List.mem_map] at he
    obtain ⟨e0, he0, rfl⟩ := he
    by_cases hek : (e0.1 == k) = true
    · simp [hek]
    · simp only [hek, Bool.false_eq_true, if_false]; exact h e0 he0
  · rw [if_neg hk]
    intro e he
    rcases List.mem_append.1 he with h1 | h1
    · exact h e h1
    · simp only [List.mem_singleton] at h1; subst h1; rfl

theorem enumGet_self (values : List (String × Val)) (k : String)
    (h : ∀ e ∈ values, e.2 = .str (builtin .string) e.1)
    (hk : values.any (fun e => e.1 == k) = true) :
    enumGet values k = some (.str (builtin .string) k) := by
  unfold enumGet
  cases hf : values.find? (fun e => e.1 == k) with
  | none =>
    rw [List.find?_eq_none] at hf
    simp only [List.any_eq_true] at hk
    obtain ⟨e, he, hek⟩ := hk
    exact absurd hek (hf e he)
  | some e =>
    have h1 := List.find?_some hf
    have h2 := List.mem_of_find?_eq_some hf
    simp only [beq_iff_eq] at h1
    simp only [Option.map_some', Option.some.injEq]
    rw [h e h2, h1]

theorem enumOfInterfaces_spec (L : Lib) : ∀ (rest : List Val) (index : Nat)
    (acc : List (String × Val) × String), index ≠ 0 →
    (∀ e ∈ acc.1, e.2 = .str (builtin .string) e.1) →
    acc.1.any (fun e => e.1 == acc.2) = true →
    (∀ e ∈ (enumOfInterfaces L rest index acc).1, e.2 = .str (builtin .string) e.1)
    ∧ (enumOfInterfaces L rest index acc).2 = acc.2
    ∧ (enumOfInterfaces L rest index acc).1.any (fun e => e.1 == acc.2) = true
  | [], _, acc, _, h1, h2 => ⟨h1, rfl, h2⟩
  | iv :: rest, index, acc, hi, h1, h2 => by
    simp only [enumOfInterfaces, if_neg hi]
    exact enumOfInterfaces_spec L rest (index + 1) _ (by omega)
      (enumSet_self acc.1 _ h1) (enumSet_any_keep acc.1 _ _ _ h2)

theorem NewEnum_interfaces_first (L : Lib) (name : String) (iv : Val) (rest : List Val)
    (visit : List (String × Val) → List (String × Val)) (h : Sprint L iv ≠ "") :
    ∃ e, NewEnum L name (.slice (.slice none emptyInterface) (Vals.ofList (iv :: rest))) = .ok e
      ∧ e.FirstEntry visit = (Sprint L iv, some (.str (builtin .string) (Sprint L iv))) := by
  have ht : (Val.slice (.slice none emptyInterface) (Vals.ofList (iv :: rest))).Type
      = some (.slice none emptyInterface) := rfl
  have hne : (some (Ty.slice none emptyInterface) : Option Ty)
      ≠ some (.slice none (builtin .string)) := by decide
  obtain ⟨h1, h2, h3⟩ := enumOfInterfaces_spec L rest 1
    (enumSet [] (Sprint L iv) (.str (builtin .string) (Sprint L iv)), Sprint L iv) (by omega)
    (enumSet_self [] _ (by simp)) (enumSet_any_self [] _ _)
  have hN : NewEnum L name (.slice (.slice none emptyInterface) (Vals.ofList (iv :: rest)))
      = .ok ⟨name, some (builtin .string),
          some (enumOfInterfaces L rest 1
            (enumSet [] (Sprint L iv) (.str (builtin .string) (Sprint L iv)), Sprint L iv)).1,
          (enumOfInterfaces L rest 1
            (enumSet [] (Sprint L iv) (.str (builtin .string) (Sprint L iv)), Sprint L iv)).2⟩ := by
    simp only [NewEnum, ht, if_neg hne, if_true, Val.items, Vals.toList_ofList,
      Option.getD_some, enumOfInterfaces, zero_add]
  refine ⟨_, hN, ?_⟩
  simp only [Enum.FirstEntry]
  simp only at h2
  rw [h2]
  have hb : (Sprint L iv != "") = true := by simpa using h
  rw [if_pos hb, enumGet_self _ _ h1 h3]

theorem copy_get_new (s : Schema) (d : Desc) :
    (s.copy d).objects[s.objects.length]? = some d := by
  simp [Schema.copy]

theorem copy_get_old (s : Schema) (d : Desc) (a : Nat) (h : a < s.objects.length) :
    (s.copy d).objects[a]? = s.objects[a]? := by
  simp [Schema.copy, List.getElem?_append_left h]

theorem setElem_ptr_never (elemTypeMeta : Option Nat) :
    ∀ (fuel : Nat) (s : Schema) (a : Nat) (Elem : Option Nat) (typ : Nat),
      s.objects[a]? = some (.Ptr Elem typ) → setElem fuel s (some a) elemTypeMeta = none
  | 0, _, _, _, _, _ => rfl
  | fuel + 1, s, a, Elem, typ, h => by
    simp only [setElem, h]
    exact setElem_ptr_never elemTypeMeta fuel _ _ Elem typ (copy_get_new s _)

theorem setElem_slice (fuel : Nat) (s : Schema) (a : Nat) (Elem elemTypeMeta : Option Nat)
    (typ : Nat) (h : s.objects[a]? = some (.Slice Elem typ)) :
    setElem (fuel + 1) s (some a) elemTypeMeta
      = some (some ((s.copy (.Slice Elem typ)).update s.objects.length
          (Desc.assignElem elemTypeMeta), s.objects.length)) := by
  simp only [setElem, h]

theorem SetFieldElem_ptr_never (T : Nat → TypeDef) (s : Schema) (st : Nat)
    (Fields : List FieldObj) (typ : Nat) (fieldName : String) (field : FieldObj)
    (Elem : Option Nat) (ptyp : Nat) (fieldElemType : Option Nat)
    (hs : s.objects[st]? = some (.Struct Fields typ))
    (hf : fieldObjByName Fields (numField T typ) fieldName = some field)
    (hp : s.objects[field.TypeMeta]? = some (.Ptr Elem ptyp)) (fuel : Nat) :
    SetFieldElem T fuel s st fieldName fieldElemType = none := by
  simp only [SetFieldElem, hs, hf, setElem_ptr_never fieldElemType fuel s _ Elem ptyp hp]

theorem SetFieldElem_slice (T : Nat → TypeDef) (s : Schema) (st : Nat)
    (Fields : List FieldObj) (typ : Nat) (fieldName : String) (field : FieldObj)
    (Elem : Option Nat) (styp : Nat) (fieldElemType : Option Nat)
    (hs : s.objects[st]? = some (.Struct Fields typ))
    (hf : fieldObjByName Fields (numField T typ) fieldName = some field)
    (hp : s.objects[field.TypeMeta]? = some (.Slice Elem styp)) (fuel : Nat) :
    ∃ s1, SetFieldElem T (fuel + 1) s st fieldName fieldElemType = some (some s1)
      ∧ s1.objects[st]? = some (.Struct (Fields.map (fun f =>
          if f.info.Index = field.info.Index then
            { field with TypeMeta := s.objects.length } else f)) typ)
      ∧ s1.objects[s.objects.length]? = some (.Slice fieldElemType styp)
      ∧ (∀ a, a < s.objects.length → a ≠ st → s1.objects[a]? = s.objects[a]?)
      ∧ s1.objects.length = s.objects.length + 1
      ∧ s1.types = s.types := by
  have hst : st < s.objects.length := by
    rcases Nat.lt_or_ge st s.objects.length with h | h
    · exact h
    · rw [List.getElem?_eq_none h] at hs; cases hs
  have hN : SetFieldElem T (fuel + 1) s st fieldName fieldElemType
      = some (some (((s.copy (.Slice Elem styp)).update s.objects.length
          (Desc.assignElem fieldElemType)).update st
          (Desc.putField { field with TypeMeta := s.objects.length }))) := by
    simp only [SetFieldElem, hs, hf, setElem_slice fuel s _ Elem fieldElemType styp hp]
  refine ⟨_, hN, ?_, ?_, ?_, ?_, ?_⟩
  · rw [objects_update_get, if_pos rfl, objects_update_get, if_neg (Nat.ne_of_lt hst),
      copy_get_old _ _ _ hst, hs]
    rfl
  · rw [objects_update_get, if_neg (Nat.ne_of_gt hst), objects_update_get, if_pos rfl,
      copy_get_new]
    rfl
  · intro a ha hne
    rw [objects_update_get, if_neg hne, objects_update_get, if_neg (Nat.ne_of_lt ha),
      copy_get_old _ _ _ ha]
  · rw [objects_update_length, objects_update_length]
    simp [Schema.copy]
  · rfl

theorem structFieldAt_bad (s : Schema) (fuel : Nat) (st : Nat) (i j : Int) (rest : List Int)
    (h : s.Field st i = none) :
    structFieldAt s fuel (some st) (i :: j :: rest)
      = some (.panic "invalid memory address or nil pointer dereference") := by
  simp [structFieldAt, h]

theorem structFieldAt_step (s : Schema) (fuel : Nat) (st : Nat) (i j : Int) (rest : List Int)
    (field : FieldObj) (h : s.Field st i = some field) :
    structFieldAt s fuel (some st) (i :: j :: rest)
      = (StructOf s fuel (some field.TypeMeta)).bind
          (fun st2 => structFieldAt s fuel st2 (j :: rest)) := by
  cases h2 : StructOf s fuel (some field.TypeMeta) <;> simp [structFieldAt, h, h2]

theorem StructFieldAt_cons (s : Schema) (fuel : Nat) (t : Option Nat) (i : Int)
    (rest : List Int) :
    StructFieldAt s fuel t (i :: rest)
      = (StructOf s fuel t).bind (fun st => structFieldAt s fuel st (i :: rest)) := by
  cases h : StructOf s fuel t <;> simp [StructFieldAt, h]

theorem assignTo_zero (t : Ty) : assignTo (zero t) t = some (zero t) := by
  simp [assignTo, zero_Type]

theorem forall₂_replicate {α β : Type} (R : α → β → Prop) (x : α) (y : β) (h : R x y) :
    ∀ n, List.Forall₂ R (List.replicate n x) (List.replicate n y)
  | 0 => List.Forall₂.nil
  | n + 1 => List.Forall₂.cons h (forall₂_replicate R x y h n)

theorem find_of_selects (L : Lib) (key : String) :
    ∀ (decls : FieldList) (k n i : Nat) (f : FieldDecl) (ft : Ty),
      decls.length ≤ n → decls.get? i = some (f, ft) → namesField L f (k + i) key = true →
      (∀ j, j < i → (decls.get? j).any (fun p => namesField L p.1 (k + j) key) = false) →
      (getFields L decls k).find
          (fun field => field.info.Name == key || field.info.JSONName == key) n
        = some ⟨fieldInfoOf L f (k + i), get L ft⟩
  | .nil, _, _, _, _, _, _, hg, _, _ => by simp [FieldList.get?] at hg
  | .cons f0 t0 rest, k, 0, _, _, _, hn, _, _, _ => by simp [FieldList.length] at hn
  | .cons f0 t0 rest, k, n + 1, 0, f, ft, _, hg, hp, _ => by
    simp only [FieldList.get?, Option.some.injEq, Prod.mk.injEq] at hg
    obtain ⟨rfl, rfl⟩ := hg
    simp only [namesField, Nat.add_zero] at hp
    simp only [getFields, StructFields.find, fieldInfoOf_Name, hp, if_true, Nat.add_zero]
  | .cons f0 t0 rest, k, n + 1, i + 1, f, ft, hn, hg, hp, hmin => by
    have h0 := hmin 0 (Nat.succ_pos i)
    simp only [FieldList.get?, Option.any, namesField, Nat.add_zero] at h0
    simp only [getFields, StructFields.find, fieldInfoOf_Name, h0]
    have hrec := find_of_selects L key rest (k + 1) n i f ft
      (by simp only [FieldList.length] at hn; omega)
      (by simpa [FieldList.get?] using hg)
      (by rw [show k + 1 + i = k + (i + 1) by omega]; exact hp)
      (by
        intro j hj
        have := hmin (j + 1) (by omega)
        simp only [FieldList.get?] at this
        rw [show k + 1 + j = k + (j + 1) by omega]; exact this)
    rw [show k + 1 + i = k + (i + 1) by omega] at hrec
    simpa using hrec

theorem FieldByName_of_selects (L : Lib) (d : Decl) (decls : FieldList)
    (hT : (Ty.struct d decls).Implements primitiveType = false) (key : String) (i : Nat)
    (f : FieldDecl) (ft : Ty) (hg : decls.get? i = some (f, ft))
    (h : selectsField L decls key i) :
    (get L (.struct d decls)).FieldByName key = some ⟨fieldInfoOf L f i, get L ft⟩ := by
  obtain ⟨hk, hp, hmin⟩ := h
  rw [hg] at hp
  simp only [Option.any] at hp
  rw [get_struct L d decls hT]
  have hk2 : (key == "") = false := by simpa using hk
  simp only [TypeMeta.FieldByName, TypeMeta.FindField, hk2]
  have := find_of_selects L key decls 0 decls.length i f ft (le_refl _) hg
    (by simpa using hp) (by simpa using hmin)
  simpa using this

theorem selects_of_find (L : Lib) (key : String) :
    ∀ (decls : FieldList) (k n : Nat) (sf : StructField),
      (getFields L decls k).find
          (fun field => field.info.Name == key || field.info.JSONName == key) n = some sf →
      ∃ i f ft, decls.get? i = some (f, ft) ∧ sf = ⟨fieldInfoOf L f (k + i), get L ft⟩ ∧
        namesField L f (k + i) key = true ∧
        ∀ j, j < i → (decls.get? j).any (fun p => namesField L p.1 (k + j) key) = false
  | .nil, k, n, sf, h => by simp [getFields, StructFields.find] at h
  | .cons f t rest, k, 0, sf, h => by simp [getFields, StructFields.find] at h
  | .cons f t rest, k, n + 1, sf, h => by
    simp only [getFields, StructFields.find] at h
    split_ifs at h with hp
    · simp only [Option.some.injEq] at h
      subst h
      refine ⟨0, f, t, rfl, rfl, ?_, fun j hj => absurd hj (Nat.not_lt_zero j)⟩
      simpa only [namesField, fieldInfoOf_Name, Nat.add_zero] using hp
    · obtain ⟨i, f', ft, h1, h2, h3, h4⟩ := selects_of_find L key rest (k + 1) n sf h
      refine ⟨i + 1, f', ft, by simpa [FieldList.get?] using h1, ?_, ?_, ?_⟩
      · rw [h2, show k + 1 + i = k + (i + 1) by omega]
      · rw [← h3, show k + 1 + i = k + (i + 1) by omega]
      · intro j hj
        cases j with
        | zero =>
          simp only [FieldList.get?, Option.any, namesField, Nat.add_zero]
          simpa only [fieldInfoOf_Name, Bool.not_eq_true] using hp
        | succ j =>
          have := h4 j (by omega)
          simp only [FieldList.get?]
          rw [show k + (j + 1) = k + 1 + j by omega]; exact this

theorem selects_of_FieldByName (L : Lib) (d : Decl) (decls : FieldList)
    (hT : (Ty.struct d decls).Implements primitiveType = false) (key : String)
    (sf : StructField) (h : (get L (.struct d decls)).FieldByName key = some sf) :
    selectsField L decls key sf.info.Index := by
  rw [get_struct L d decls hT] at h
  simp only [TypeMeta.FieldByName, TypeMeta.FindField] at h
  split_ifs at h with hk
  obtain ⟨i, f, ft, h1, h2, h3, h4⟩ := selects_of_find L key decls 0 _ sf h
  subst h2
  simp only [fieldInfoOf_Index, Nat.zero_add] at h3 h4 ⊢
  refine ⟨by simpa using hk, ?_, h4⟩
  rw [h1]
  simpa [Option.any] using h3

theorem stores_of_selects (L : Lib) (fuel : Nat) (d : Decl) (decls : FieldList) (et : Ty)
    (hT : (Ty.struct d decls).Implements primitiveType = false)
    (es : List (Val × Val)) (iys : List (Nat × Val))
    (h : List.Forall₂ (fun e iy => ∃ f ft r,
        selectsField L decls e.1.GoString iy.1 ∧ decls.get? iy.1 = some (f, ft) ∧
        exported L f.name = true ∧
        convertValue L fuel e.2 (get L et) (get L ft) = .ok r ∧ assignTo r ft = some iy.2)
      es iys) :
    List.Forall₂ (stores L (convertValue L fuel) (get L et) (get L (.struct d decls)) decls)
      es iys := by
  refine List.Forall₂.imp ?_ h
  rintro e iy ⟨f, ft, r, h1, h2, h3, h4, h5⟩
  exact ⟨⟨fieldInfoOf L f iy.1, get L ft⟩, r, f, ft,
    FieldByName_of_selects L d decls hT _ _ f ft h2 h1, fieldInfoOf_Index L f _, h2, h3, h4, h5⟩

/-! ## The claims C1 to C10 -/

set_option maxRecDepth 100000

theorem intercalate_go_append (s : String) (r : List String) :
    ∀ (p q : String), String.intercalate.go (p ++ q) s r = p ++ String.intercalate.go q s r := by
  induction r with
  | nil => intro p q; rfl
  | cons a r ih =>
    intro p q
    simp only [String.intercalate.go]
    rw [← ih p (q ++ s ++ a)]
    simp [String.append_assoc]

theorem printElems_strings (L : Lib) (xs : List String) :
    printElems L 1 (Vals.ofList (xs.map (Val.str (builtin .string)))) = " ".intercalate xs := by
  have hp : ∀ s, printValue L 1 (.str (builtin .string) s) = s := by
    intro s
    simp [printValue, printScalar, Val.Type, stringerOf, Ty.methodSet, Ty.decl, builtin]
  induction xs with
  | nil => rfl
  | cons x rest ih =>
    cases rest with
    | nil => simp [Vals.ofList, printElems, hp, String.intercalate, String.intercalate.go]
    | cons y rest' =>
      simp only [List.map_cons, Vals.ofList, printElems, hp] at ih ⊢
      rw [ih]
      simp only [String.intercalate, String.intercalate.go]
      rw [String.append_assoc, intercalate_go_append, String.append_assoc]

theorem Sprint_stringSlice (L : Lib) (xs : List String) :
    Sprint L (stringSlice xs) = "[" ++ " ".intercalate xs ++ "]" := by
  have := printElems_strings L xs
  simp only [stringSlice, Sprint, printArg, Val.Type, sliceOfString, stringerOf, Ty.methodSet,
    Ty.decl, List.contains_nil, Option.bind_some]
  simp [printValue, printScalar, this]

/-- C1 (amended). Converting a valid value to its own type succeeds. A value that is no non-nil
value of interface kind comes back unchanged; a non-nil value of interface kind comes back as
the dynamic value it holds, which `convertValue` takes out of the interface first. -/
theorem C1_identity_up_to_unwrapping (L : Lib) (fuel : Nat) (v : Val) (t : Ty)
    (hv : v.Type = some t) :
    ((∀ it dyn, v ≠ .iface it dyn) → (∀ it, v = .nilIface it → ∃ d, it = .iface d) →
        ConvertValue L (fuel + 1) v (.type t) = .ok v) ∧
    (∀ dyn dt, v = .iface t dyn → dyn.Type = some dt → dt.Implements t = true →
        ConvertValue L (fuel + 1) v (.type t) = .ok dyn) := by
  have hb := convertValueBody_same L (convertValue L fuel) v (get L t) (get L t) t hv (get_Type L t)
  constructor
  · intro h1 h2
    simp only [ConvertValue, hv, Get]
    cases v with
    | invalid => simp [Val.Type] at hv
    | iface it dyn => exact absurd rfl (h1 it dyn)
    | nilIface it =>
      simp only [Val.Type, Option.some.injEq] at hv
      subst hv
      obtain ⟨d, rfl⟩ := h2 _ rfl
      simp [convertValue, get_Type, zero]
    | _ => simpa only [convertValue] using hb
  · intro dyn dt hvd hd himp
    subst hvd
    simp only [ConvertValue, hv, Get, convertValue, hd]
    simp only [convertValueBody, hd, get_Type]
    by_cases hdt : dt = t
    · simp [hdt]
    · have hk : t.Kind = .interface := by
        cases t <;> simp_all [Ty.Implements, Ty.Kind]
      simp [hdt, hk, himp]

/-- C1, witness: a string converted to `string` is unchanged, and an `interface{}` value holding
the `int` 1 converted to `interface{}` gives the `int` 1. -/
theorem C1_identity_up_to_unwrapping_witness :
    ConvertValue asciiLib 1 (.str (builtin .string) "a") (.type (builtin .string))
      = .ok (.str (builtin .string) "a")
    ∧ ConvertValue asciiLib 1 (.iface emptyInterface (.int (builtin .int) 1)) (.type emptyInterface)
      = .ok (.int (builtin .int) 1) :=
  ⟨(C1_identity_up_to_unwrapping asciiLib 0 (.str (builtin .string) "a") (builtin .string) rfl).1
      (by intro it dyn h; cases h) (by intro it h; cases h),
    (C1_identity_up_to_unwrapping asciiLib 0 (.iface emptyInterface (.int (builtin .int) 1))
      emptyInterface rfl).2 (.int (builtin .int) 1) (builtin .int) rfl rfl (by decide)⟩

/-- C1, counterexample: a valid value of interface kind (as `Index` gives for an element of a
`[]interface{}`) that holds the `int` 1, converted to its own type `interface{}`, comes back as
a value of type `int`, which is not the value passed. -/
theorem C1_counterexample_interface_value :
    ConvertValue asciiLib 1 (.iface emptyInterface (.int (builtin .int) 1)) (.type emptyInterface)
      = .ok (.int (builtin .int) 1)
    ∧ Val.int (builtin .int) 1 ≠ .iface emptyInterface (.int (builtin .int) 1) := by
  decide

/-- C2. Zero rule with precedence: for every source type `S` and destination type `T` that the
schema classifies as primitive, `T` being a bool, an integer, an unsigned integer, a float or a
record type, the zero value of `S` converts to the zero value of `T`, a value of type `T` that
is no pointer. No parser is consulted: the result does not depend on `Lib`. -/
theorem C2_zero_rule (L : Lib) (fuel : Nat) (S T : Ty)
    (hS : get L S = .Primitive S "") (hT : get L T = .Primitive T "")
    (hk : zeroRuleKind T.Kind = true) :
    ConvertValue L (fuel + 2) (zero S) (.type T) = .ok (zero T) ∧ (zero T).Type = some T
      ∧ T.Kind ≠ .ptr :=
  ⟨zero_rule_core L fuel (zero S) S T (zero_Type S) (zero_IsZero S) hS hT hk (fun h => by rw [h]),
    zero_Type T,
    by intro h; simp [h, zeroRuleKind, Kind.isInt, Kind.isUint, Kind.isFloat] at hk⟩

/-- C2, witness: the empty string converts to the `int` 0 and to `false`, and the `int` 0
converts to the zero value of a record type classified as primitive. -/
theorem C2_zero_rule_witness :
    ConvertValue asciiLib 2 (.str (builtin .string) "") (.type (builtin .int))
      = .ok (.int (builtin .int) 0)
    ∧ ConvertValue asciiLib 2 (.str (builtin .string) "") (.type (builtin .bool))
      = .ok (.bool (builtin .bool) false)
    ∧ ConvertValue asciiLib 2 (.int (builtin .int) 0) (.type TimeLike) = .ok (zero TimeLike) :=
  ⟨(C2_zero_rule asciiLib 0 (builtin .string) (builtin .int) rfl rfl rfl).1,
    (C2_zero_rule asciiLib 0 (builtin .string) (builtin .bool) rfl rfl rfl).1,
    (C2_zero_rule asciiLib 0 (builtin .int) TimeLike rfl (by decide) rfl).1⟩

/-- C3 (amended). Zero rule over the primitive kinds: the zero value of a primitive source type
converts to the zero value of the destination kind `K` for every primitive kind other than
string; for `K = string` it converts to the text that `fmt.Sprint` renders for it (when the
source has no marshal method), which is empty only for the empty string. -/
theorem C3_zero_rule_by_kind (L : Lib) (fuel : Nat) (S : Ty) (K : Kind)
    (hS : get L S = .Primitive S "") (hK : primitiveKind K = true) :
    (K ≠ .string → ConvertValue L (fuel + 2) (zero S) (.kind K) = .ok (zero (builtin K))) ∧
    (K = .string → marshalerOf (zero S) = some none →
      ConvertValue L (fuel + 2) (zero S) (.kind K)
        = .ok (.str (builtin .string) (Sprint L (zero S)))) := by
  have hg := Get_kind_prim L K hK
  constructor
  · intro hne
    have hz : zeroRuleKind (builtin K).Kind = true := by
      cases K <;> simp [primitiveKind, Kind.isInt, Kind.isUint, Kind.isFloat] at hK <;>
        first
        | exact absurd rfl hne
        | simp [zeroRuleKind, builtin, Ty.Kind, Kind.isInt, Kind.isUint, Kind.isFloat]
    have h2 := zero_rule_core L fuel (zero S) S (builtin K) (zero_Type S) (zero_IsZero S) hS
      (by simp [get, builtin]) hz (fun h => by rw [h])
    simp only [ConvertValue, zero_Type, Get] at h2
    simp only [ConvertValue, zero_Type, hg, hS]
    rw [hS] at h2
    simpa [get, builtin] using h2
  · intro hK hm
    subst hK
    simp only [ConvertValue, zero_Type, hg, hS]
    by_cases hST : S = builtin .string
    · subst hST
      have h1 : zero (builtin .string) = .str (builtin .string) "" := by
        simp [zero, builtin, Kind.isInt, Kind.isUint, Kind.isFloat, Kind.isComplex]
      rw [h1, Sprint_builtin_str]
      exact convertValue_same L (fuel + 1) _ _ _ (builtin .string) rfl rfl (by simp) (by simp)
    · exact convertValue_to_string L (fuel + 1) (zero S) _ S none "" (zero_Type S)
        (zero_plain L S hS) hST hm

/-- C3, witness: the empty string converts to kind `int` as 0, and `false` converts to kind
`string` as the text `false`. -/
theorem C3_zero_rule_by_kind_witness :
    ConvertValue asciiLib 2 (.str (builtin .string) "") (.kind .int) = .ok (.int (builtin .int) 0)
    ∧ ConvertValue asciiLib 2 (.bool (builtin .bool) false) (.kind .string)
      = .ok (.str (builtin .string) "false") :=
  ⟨(C3_zero_rule_by_kind asciiLib 0 (builtin .string) .int rfl rfl).1 (by decide),
    (C3_zero_rule_by_kind asciiLib 0 (builtin .bool) .string rfl rfl).2 rfl (by decide)⟩

/-- C3, counterexample: the `int` 0 converted to kind `string` gives the text `0`, which is not
the zero value of `string`. -/
theorem C3_counterexample_zero_to_string :
    ConvertValue asciiLib 2 (.int (builtin .int) 0) (.kind .string)
      = .ok (.str (builtin .string) "0")
    ∧ Val.str (builtin .string) "0" ≠ zero (builtin .string) := by
  decide

/-- C4. String round trip: every value of a predeclared signed or unsigned integer type (of any
width, within its range) and every bool converts to a string, and that string converts back
to the kind of the value as the value itself. -/
theorem C4_string_round_trip (L : Lib) (fuel : Nat) (v : Val) (h : isIntegerOrBool v = true) :
    ∃ s, ConvertValue L (fuel + 1) v (.kind .string) = .ok (.str (builtin .string) s) ∧
      ConvertValue L (fuel + 1) (.str (builtin .string) s) (.kind v.Kind) = .ok v := by
  have hgs := Get_kind_prim L .string rfl
  have hsm : get L (builtin .string) = .Primitive (builtin .string) "" := by simp [get, builtin]
  cases v with
  | int t n =>
    cases t with
    | basic k d =>
      cases d with
      | some d => simp [isIntegerOrBool] at h
      | none =>
        simp only [isIntegerOrBool, Bool.and_eq_true, decide_eq_true_eq] at h
        obtain ⟨hk, h1, h2⟩ := h
        have hne : Ty.basic k none ≠ Ty.basic .string none := by
          cases k <;> simp [Kind.isInt] at hk <;> simp
        have hr := int64_of_range k n hk h1 h2
        refine ⟨formatInt n, ?_, ?_⟩
        · simp only [ConvertValue, Val.Type, hgs, builtin]
          rw [convertValue_to_string L fuel (.int (.basic k none) n) _ (.basic k none) none "" rfl
            rfl hne (marshalerOf_builtin (.int (.basic k none) n) k rfl), Sprint_builtin_int]
        · have hg := Get_kind_prim L k (by simp [primitiveKind, hk])
          simp only [ConvertValue, Val.Type, Val.Kind, Ty.Kind, hg, hsm, builtin] at *
          have := convertValue_string_to_int L fuel (formatInt n) k n hk (formatInt_length n)
            (ParseInt_formatInt n hr.1 hr.2)
          simp only [builtin] at this
          rw [this, wrapInt_eq k n hk h1 h2]
    | _ => simp [isIntegerOrBool] at h
  | uint t n =>
    cases t with
    | basic k d =>
      cases d with
      | some d => simp [isIntegerOrBool] at h
      | none =>
        simp only [isIntegerOrBool, Bool.and_eq_true, decide_eq_true_eq] at h
        obtain ⟨hk, h1⟩ := h
        have hne : Ty.basic k none ≠ Ty.basic .string none := by
          cases k <;> simp [Kind.isUint] at hk <;> simp
        refine ⟨formatNat n, ?_, ?_⟩
        · simp only [ConvertValue, Val.Type, hgs, builtin]
          rw [convertValue_to_string L fuel (.uint (.basic k none) n) _ (.basic k none) none "" rfl
            rfl hne (marshalerOf_builtin (.uint (.basic k none) n) k rfl), Sprint_builtin_uint]
        · have hg := Get_kind_prim L k (by simp [primitiveKind, hk])
          simp only [ConvertValue, Val.Type, Val.Kind, Ty.Kind, hg, hsm, builtin] at *
          have := convertValue_string_to_uint L fuel (formatNat n) k n hk (formatNat_length n)
            (ParseUint_formatNat n (uint64_of_range k n hk h1))
          simp only [builtin] at this
          rw [this, wrapUint_eq k n hk h1]
    | _ => simp [isIntegerOrBool] at h
  | bool t b =>
    cases t with
    | basic k d =>
      cases d with
      | some d => cases k <;> simp [isIntegerOrBool] at h
      | none =>
        cases k <;> simp [isIntegerOrBool] at h
        refine ⟨if b then "true" else "false", ?_, ?_⟩
        · simp only [ConvertValue, Val.Type, hgs, builtin]
          rw [convertValue_to_string L fuel (.bool (.basic .bool none) b) _ (.basic .bool none) none
            "" rfl rfl (by simp) (marshalerOf_builtin (.bool (.basic .bool none) b) .bool rfl),
            Sprint_builtin_bool]
        · have hg := Get_kind_prim L .bool rfl
          simp only [ConvertValue, Val.Type, Val.Kind, Ty.Kind, hg, hsm, builtin] at *
          have := convertValue_string_to_bool L fuel (if b then "true" else "false") b
            (by cases b <;> decide) (by cases b <;> decide)
          simp only [builtin] at this
          rw [this]
    | _ => simp [isIntegerOrBool] at h
  | _ => simp [isIntegerOrBool] at h

/-- C4, witness: the `int8` value -128 converts to a string that converts back to -128. -/
theorem C4_string_round_trip_witness :
    isIntegerOrBool (.int (builtin .int8) (-128)) = true
    ∧ ∃ s, ConvertValue asciiLib 1 (.int (builtin .int8) (-128)) (.kind .string)
        = .ok (.str (builtin .string) s) ∧
      ConvertValue asciiLib 1 (.str (builtin .string) s) (.kind .int8)
        = .ok (.int (builtin .int8) (-128)) :=
  ⟨by decide, C4_string_round_trip asciiLib 0 (.int (builtin .int8) (-128)) (by decide)⟩

/-- C5 (amended). Map to struct. A key selects the first field in declaration order whose name
or serialization alias is the key, and this is the field that `FieldByName` finds. When every
entry of the source map has a key that selects a field of the destination struct, the fields
selected are exported and pairwise distinct, and every value converts to a value assignable
to the type of its field, the conversion gives a destination struct in which each selected
field holds the converted value and every other field holds its zero value. `iys` lists, for
the entries in order, the index of the field selected and the value stored. -/
theorem C5_map_to_struct (L : Lib) (fuel : Nat) (d : Decl) (decls : FieldList)
    (md : Option Decl) (kt et : Ty)
    (hT : (Ty.struct d decls).Implements primitiveType = false) :
    (∀ (key : String) (i : Nat), selectsField L decls key i ↔
      ∃ sf, (get L (.struct d decls)).FieldByName key = some sf ∧ sf.info.Index = i)
    ∧ (∀ (es : List (Val × Val)) (iys : List (Nat × Val)),
      List.Forall₂ (fun e iy => ∃ f ft r,
        selectsField L decls e.1.GoString iy.1 ∧ decls.get? iy.1 = some (f, ft) ∧
        exported L f.name = true ∧
        convertValue L fuel e.2 (get L et) (get L ft) = .ok r ∧ assignTo r ft = some iy.2)
        es iys →
      (iys.map Prod.fst).Nodup →
      ∃ fs, ConvertValue L (fuel + 1) (.map (.map md kt et) (Entries.ofList es))
            (.type (.struct d decls)) = .ok (.struct (.struct d decls) fs) ∧
        fs.length = decls.length ∧
        (∀ iy ∈ iys, fs.get? iy.1 = some iy.2) ∧
        (∀ i, i ∉ iys.map Prod.fst → fs.get? i = (zeroFields decls).get? i)) := by
  refine ⟨?_, ?_⟩
  · intro key i
    constructor
    · intro h
      have h2 := h.2.1
      cases hg : decls.get? i with
      | none => rw [hg] at h2; simp [Option.any] at h2
      | some p =>
        obtain ⟨f, ft⟩ := p
        exact ⟨_, FieldByName_of_selects L d decls hT key i f ft hg h, fieldInfoOf_Index L f i⟩
    · rintro ⟨sf, h, rfl⟩
      exact selects_of_FieldByName L d decls hT key sf h
  · intro es iys h hd
    have hst := stores_of_selects L fuel d decls et hT es iys h
    have hlt : ∀ iy ∈ iys, iy.1 < (zeroFields decls).length := by
      intro iy hiy
      obtain ⟨e, he⟩ := forall₂_right hst iy hiy
      rw [zeroFields_length]
      exact stores_lt he
    refine ⟨fill iys (zeroFields decls), ?_, ?_, ?_, ?_⟩
    · rw [ConvertValue_map_to_struct L fuel d decls md kt et _ hT,
        mapToStruct_ok L _ _ _ _ d decls es iys hst _ (zeroFields_length decls)]
      exact convertValueEnd_ok _ _ _ _ _ _ rfl
    · rw [fill_length iys _ hlt, zeroFields_length]
    · exact fill_get?_mem iys _ hlt hd
    · intro i hi
      exact fill_get?_other iys _ i hlt hi

/-- C5, witness: the map with `string` set to the text `Test` and `Bool` set to `true` converts
to the struct `StructJ`; the key `string` is the alias of the field `String` and the key `Bool`
is the name of the field `Bool`. -/
theorem C5_map_to_struct_witness :
    ∃ fs, ConvertValue asciiLib (1 + 1)
        (.map (.map none (builtin .string) emptyInterface) (Entries.ofList
          [(.str (builtin .string) "string",
              .iface emptyInterface (.str (builtin .string) "Test")),
           (.str (builtin .string) "Bool", .iface emptyInterface (.bool (builtin .bool) true))]))
        (.type StructJ) = .ok (.struct StructJ fs) ∧
      fs.length = 2 ∧
      (∀ iy ∈ [(0, Val.str (builtin .string) "Test"), (1, Val.bool (builtin .bool) true)],
        fs.get? iy.1 = some iy.2) ∧
      (∀ i, i ∉ [0, 1] → fs.get? i = (Vals.cons (zero (builtin .string))
        (Vals.cons (zero (builtin .bool)) Vals.nil)).get? i) :=
  (C5_map_to_struct asciiLib 1 ⟨"StructJ", "typemeta.StructJ", [], []⟩
    (.cons ⟨"String", false, [⟨"json", "string", []⟩, ⟨"description", "A string field", []⟩]⟩
      (builtin .string)
      (.cons ⟨"Bool", false, [⟨"json", "bool", ["omitempty"]⟩]⟩ (builtin .bool) .nil))
    none (builtin .string) emptyInterface (by decide)).2
    [(.str (builtin .string) "string", .iface emptyInterface (.str (builtin .string) "Test")),
     (.str (builtin .string) "Bool", .iface emptyInterface (.bool (builtin .bool) true))]
    [(0, .str (builtin .string) "Test"), (1, .bool (builtin .bool) true)]
    (List.Forall₂.cons
      ⟨_, builtin .string, .str (builtin .string) "Test",
        ⟨by decide, by decide, by decide⟩, rfl, by decide, by decide, by decide⟩
      (List.Forall₂.cons
        ⟨_, builtin .bool, .bool (builtin .bool) true,
          ⟨by decide, by decide, by decide⟩, rfl, by decide, by decide, by decide⟩
        List.Forall₂.nil))
    (by decide)

/-- C5, counterexample: two inputs at which every key names a distinct exported field and every
value converts, and the struct of the claim is not returned. In `StructAB` the key `B` is the
name of the field `B` and also the alias of the field `A` declared before it; `FieldByName`
finds `A`, so the map with `A` set to `1` and `B` set to `2` gives the struct with `A` set to
`2` and `B` empty (with `A` set to `1` when `B` is visited first). In `StructP` the key `P`
names the exported field `P` of type `*interface{}` and the value 1 converts to that descriptor
without error, as the `int` 1 itself; storing it in the field panics, so no struct is
returned. -/
theorem C5_counterexample_alias_and_pointer_to_interface :
    (get asciiLib StructAB).FieldByName "B"
      = some ⟨fieldInfoOf asciiLib ⟨"A", false, [⟨"json", "B", []⟩]⟩ 0,
          get asciiLib (builtin .string)⟩
    ∧ ConvertValue asciiLib 2
        (.map (.map none (builtin .string) (builtin .string))
          (.cons (.str (builtin .string) "A") (.str (builtin .string) "1")
            (.cons (.str (builtin .string) "B") (.str (builtin .string) "2") .nil)))
        (.type StructAB)
      = .ok (.struct StructAB
          (.cons (.str (builtin .string) "2") (.cons (.str (builtin .string) "") .nil)))
    ∧ ConvertValue asciiLib 2
        (.map (.map none (builtin .string) (builtin .string))
          (.cons (.str (builtin .string) "B") (.str (builtin .string) "2")
            (.cons (.str (builtin .string) "A") (.str (builtin .string) "1") .nil)))
        (.type StructAB)
      = .ok (.struct StructAB
          (.cons (.str (builtin .string) "1") (.cons (.str (builtin .string) "") .nil)))
    ∧ (get asciiLib StructP).FieldByName "P"
      = some ⟨fieldInfoOf asciiLib ⟨"P", false, []⟩ 0, get asciiLib (.ptr emptyInterface)⟩
    ∧ convertValue asciiLib 2 (.int (builtin .int) 1) (get asciiLib (builtin .int))
        (get asciiLib (.ptr emptyInterface)) = .ok (.int (builtin .int) 1)
    ∧ ConvertValue asciiLib 3
        (.map mapStringInt (.cons (.str (builtin .string) "P") (.int (builtin .int) 1) .nil))
        (.type StructP) = .panic "reflect.Set: the field cannot be set to the value" := by
  decide

/-- C6 (amended). Map to struct, unrecognized key: a map that has a key which is neither the
name nor the alias of a field never converts to a struct; when the entries visited before
such a key are all converted and stored, the conversion returns the source map (no partially
filled struct) with the error `unrecognized key "k" does not exist in struct "T"`, where the
key is rendered by `fmt.Sprint`, for a string key the key itself. -/
theorem C6_unrecognized_key (L : Lib) (fuel : Nat) (d : Decl) (decls : FieldList) (md : Option Decl) (kt et : Ty)
    (hT : (Ty.struct d decls).Implements primitiveType = false) :
    (∀ es : List (Val × Val),
      (∃ e ∈ es, (get L (.struct d decls)).FieldByName e.1.GoString = none) →
      ∀ r, ConvertValue L (fuel + 1) (.map (.map md kt et) (Entries.ofList es))
        (.type (.struct d decls)) ≠ .ok r)
    ∧ (∀ (pre : List (Val × Val)) (iys : List (Nat × Val)) (k x : Val) (post : List (Val × Val)),
      List.Forall₂ (fun e iy => ∃ sf r ft,
        (get L (.struct d decls)).FieldByName e.1.GoString = some sf ∧ sf.info.Index = iy.1 ∧
        exported L sf.info.Name = true ∧ sf.TypeMeta.Type = some ft ∧
        convertValue L fuel e.2 (get L et) sf.TypeMeta = .ok r ∧ assignTo r ft = some iy.2)
        pre iys →
      (get L (.struct d decls)).FieldByName k.GoString = none →
      ConvertValue L (fuel + 1) (.map (.map md kt et) (Entries.ofList (pre ++ (k, x) :: post)))
          (.type (.struct d decls))
        = .err (.map (.map md kt et) (Entries.ofList (pre ++ (k, x) :: post)))
            ("unrecognized key \"" ++ Sprint L k ++ "\" does not exist in struct \"" ++ d.str
              ++ "\""))
    ∧ (∀ s, Sprint L (.str (builtin .string) s) = s) := by
  refine ⟨?_, ?_, Sprint_builtin_str L⟩
  · intro es hbad r
    rw [ConvertValue_map_to_struct L fuel d decls md kt et _ hT]
    have hn := mapToStruct_never_ok L (convertValue L fuel)
      (.map (.map md kt et) (Entries.ofList es)) (get L et) (get L (.struct d decls)) es hbad
      (.struct (.struct d decls) (zeroFields decls))
    cases hm : mapToStruct L (convertValue L fuel) (.map (.map md kt et) (Entries.ofList es))
        (get L et) (get L (.struct d decls)) (Entries.ofList es)
        (.struct (.struct d decls) (zeroFields decls)) with
    | ok v => exact absurd hm (hn v)
    | err v msg => simp [convertValueEnd]
    | panic m => simp [convertValueEnd]
    | timeout => simp [convertValueEnd]
  · intro pre iys k x post hpre hk
    have hst := stores_of_field L fuel d decls et hT pre iys hpre
    rw [ConvertValue_map_to_struct L fuel d decls md kt et _ hT,
      mapToStruct_unknown L _ _ _ _ d decls pre iys k x post hst hk _ (zeroFields_length decls)]
    simp [convertValueEnd, get_struct L d decls hT, TypeMeta.Str, Ty.Str]

/-- C6, witness: the map with the single key `Unknown` fails with an error that names it. -/
theorem C6_unrecognized_key_witness :
    (get asciiLib StructA).FieldByName (Val.str (builtin .string) "Unknown").GoString = none
    ∧ ConvertValue asciiLib 1
        (.map mapStringAny (Entries.ofList
          [(.str (builtin .string) "Unknown", .iface emptyInterface (.int (builtin .int) 1))]))
        (.type StructA)
      = .err (.map mapStringAny (Entries.ofList
          [(.str (builtin .string) "Unknown", .iface emptyInterface (.int (builtin .int) 1))]))
          "unrecognized key \"Unknown\" does not exist in struct \"typemeta.StructA\"" :=
  ⟨by decide,
    (C6_unrecognized_key asciiLib 0 ⟨"StructA", "typemeta.StructA", [], []⟩
      (.cons ⟨"Name", false, []⟩ (builtin .string)
        (.cons ⟨"Active", false, []⟩ (builtin .bool) .nil))
      none (builtin .string) emptyInterface (by decide)).2.1 [] []
      (.str (builtin .string) "Unknown") (.iface emptyInterface (.int (builtin .int) 1)) []
      List.Forall₂.nil (by decide)⟩

/-- C6, counterexample: a map with the unrecognized key `Unknown` in which the entry of the
field `Active`, visited first, holds a map: the conversion fails, but the error is that of the
entry `Active` and does not contain the key `Unknown`. -/
theorem C6_counterexample_other_entry_fails_first :
    (get asciiLib StructA).FieldByName (Val.str (builtin .string) "Unknown").GoString = none
    ∧ ConvertValue asciiLib 2
        (.map mapStringAny (Entries.ofList
          [(.str (builtin .string) "Active", .iface emptyInterface (.nilMap mapStringInt)),
           (.str (builtin .string) "Unknown", .iface emptyInterface (.int (builtin .int) 1))]))
        (.type StructA)
      = .err (.map mapStringAny (Entries.ofList
          [(.str (builtin .string) "Active", .iface emptyInterface (.nilMap mapStringInt)),
           (.str (builtin .string) "Unknown", .iface emptyInterface (.int (builtin .int) 1))]))
          "could not convert value of key \"Active\" to field \"Active: bool\". map[string]int not assignable to bool"
    ∧ ¬ ("Unknown".data <:+:
      "could not convert value of key \"Active\" to field \"Active: bool\". map[string]int not assignable to bool".data) := by
  decide

/-- C7 (what the code does). Struct to struct: for every pair of distinct struct types that are
not classified as primitive and every value of the first, the conversion returns the zero
value of the second with no error; no `not implemented` error is produced. -/
theorem C7_struct_to_struct_returns_zero (L : Lib) (fuel : Nat) (dA dB : Decl) (declsA declsB : FieldList) (fs : Vals)
    (hA : (Ty.struct dA declsA).Implements primitiveType = false)
    (hB : (Ty.struct dB declsB).Implements primitiveType = false)
    (hne : Ty.struct dA declsA ≠ Ty.struct dB declsB) :
    ConvertValue L (fuel + 1) (.struct (.struct dA declsA) fs) (.type (.struct dB declsB))
      = .ok (zero (.struct dB declsB)) := by
  simp only [ConvertValue, Val.Type, Get]
  rw [convertValue_plain L fuel (.struct (.struct dA declsA) fs) (get L (.struct dA declsA))
    (get L (.struct dB declsB)) (.struct dA declsA) (.struct dB declsB) rfl (get_Type L _) rfl hne
    (by simp [Ty.Kind]) (by simp [Ty.Kind])]
  rw [get_struct L dA declsA hA, get_struct L dB declsB hB]
  simp only [NonPtr, convertNonPtrValue, TypeMeta.Type, Ty.Kind]
  simp only [beq_iff_eq, reduceCtorEq, if_false]
  exact convertValueEnd_ok _ _ _ _ _ _ (zero_Type _)

/-- C7, witness: a `StructA` value with name `x` converts to the zero value of `StructB`. -/
theorem C7_struct_to_struct_returns_zero_witness :
    ConvertValue asciiLib 1
      (.struct StructA (.cons (.str (builtin .string) "x") (.cons (.bool (builtin .bool) true) .nil)))
      (.type StructB) = .ok (.struct StructB (.cons (.str (builtin .string) "") .nil)) :=
  C7_struct_to_struct_returns_zero asciiLib 0 ⟨"StructA", "typemeta.StructA", [], []⟩
    ⟨"StructB", "typemeta.StructB", [], []⟩
    (.cons ⟨"Name", false, []⟩ (builtin .string) (.cons ⟨"Active", false, []⟩ (builtin .bool) .nil))
    (.cons ⟨"Name", false, []⟩ (builtin .string) .nil)
    (.cons (.str (builtin .string) "x") (.cons (.bool (builtin .bool) true) .nil))
    (by decide) (by decide) (by decide)

/-- C8 (what the code does). A slice of strings converted to `string`: for every slice of type
`[]string` the result is the rendering of the slice by `fmt.Sprint`, its elements separated
by spaces inside square brackets, and not the elements joined with a comma and a space. -/
theorem C8_slice_of_strings_to_string (L : Lib) (fuel : Nat) (xs : List String) :
    ConvertValue L (fuel + 1) (stringSlice xs) (.type (builtin .string))
      = .ok (.str (builtin .string) ("[" ++ " ".intercalate xs ++ "]")) := by
  have hm : marshalerOf (stringSlice xs) = some none := by
    simp [marshalerOf, stringSlice, Val.Type, sliceOfString, methodByNames, Ty.findMethod,
      Ty.methodSet, Ty.decl]
  simp only [ConvertValue, stringSlice, Val.Type, Get]
  have := convertValue_to_string L fuel (stringSlice xs) (get L sliceOfString) sliceOfString none ""
    (by rfl) (by rfl) (by simp [sliceOfString]) hm
  rw [Sprint_stringSlice] at this
  simpa [stringSlice, get, builtin] using this

/-- C8 at the inputs of the spec: `["hello"]` gives `[hello]` and `["hello", "there"]` gives
`[hello there]`. -/
theorem C8_hello_there :
    ConvertValue asciiLib 1 (stringSlice ["hello"]) (.type (builtin .string))
      = .ok (.str (builtin .string) "[hello]")
    ∧ ConvertValue asciiLib 1 (stringSlice ["hello", "there"]) (.type (builtin .string))
      = .ok (.str (builtin .string) "[hello there]")
    ∧ "[hello there]" ≠ ", ".intercalate ["hello", "there"] := by
  decide

/-- C9 (amended). Single-element slice to element: for every slice holding exactly one element
`x` and every destination type that is neither a slice, an interface, a pointer nor of kind
string, if `x` converts to the destination then the slice converts to it too, with the same
result. -/
theorem C9_single_element_slice (L : Lib) (fuel : Nat) (d : Option Decl) (et : Ty) (x r : Val) (T : Ty)
    (hki : T.Kind ≠ .interface) (hkp : T.Kind ≠ .ptr) (hks : T.Kind ≠ .string)
    (hksl : T.Kind ≠ .slice) (hx : ConvertValue L fuel x (.type T) = .ok r) :
    ConvertValue L (fuel + 1) (.slice (.slice d et) (.cons x .nil)) (.type T) = .ok r := by
  have hgT := get_Type L T
  have hnp := NonPtr_get L T hkp
  cases hxt : x.Type with
  | none => simp [ConvertValue, hxt] at hx
  | some xt =>
    simp only [ConvertValue, hxt, Get] at hx
    have hrt := convertValue_type_sound L (get L T) T hgT hki hkp hnp fuel x _ r hx
    have hne : Ty.slice d et ≠ T := by
      intro h; apply hksl; rw [← h]; rfl
    have hcm : ConvertValueMeta L (convertValue L fuel) x (get L T) = .ok r := by
      simp only [ConvertValueMeta, hxt, hx]
    simp only [ConvertValue, Val.Type, Get]
    rw [convertValue_plain L fuel (.slice (.slice d et) (.cons x .nil)) (get L (.slice d et)) (get L T)
      (.slice d et) T rfl hgT rfl hne
      hki hkp, hnp]
    have : convertNonPtrValue L (convertValue L fuel) (.slice (.slice d et) (.cons x .nil))
        (NonPtr (get L (.slice d et))) (get L T) = .ok r := by
      simp only [get, NonPtr, convertNonPtrValue, hgT]
      simp only [beq_iff_eq, hks, if_false]
      exact convertSliceValue_single L _ _ x r _ _ _ T (get_not_Slice L T hksl) hcm
    rw [this]
    exact convertValueEnd_ok _ _ _ _ _ _ hrt

/-- C9, witness: the slice `[]bool` holding `true` converts to `bool` as `true` does. -/
theorem C9_single_element_slice_witness :
    ConvertValue asciiLib 1 (.bool (builtin .bool) true) (.type (builtin .bool))
      = .ok (.bool (builtin .bool) true)
    ∧ ConvertValue asciiLib 2
        (.slice (.slice none (builtin .bool)) (.cons (.bool (builtin .bool) true) .nil))
        (.type (builtin .bool)) = .ok (.bool (builtin .bool) true) :=
  ⟨by decide,
    C9_single_element_slice asciiLib 1 none (builtin .bool) (.bool (builtin .bool) true)
      (.bool (builtin .bool) true) (builtin .bool) (by decide) (by decide) (by decide) (by decide)
      (by decide)⟩

/-- C9, counterexample: converted to `interface{}`, the slice `[]bool` holding `true` comes back
as the slice itself while `true` comes back as `true`; converted to `*int`, the slice holding
a nil `*string` gives a pointer to 0 while the nil `*string` gives a nil `*int`. -/
theorem C9_counterexample_interface_and_pointer :
    ConvertValue asciiLib 3
        (.slice (.slice none (builtin .bool)) (.cons (.bool (builtin .bool) true) .nil))
        (.type emptyInterface)
      = .ok (.slice (.slice none (builtin .bool)) (.cons (.bool (builtin .bool) true) .nil))
    ∧ ConvertValue asciiLib 3 (.bool (builtin .bool) true) (.type emptyInterface)
      = .ok (.bool (builtin .bool) true)
    ∧ ConvertValue asciiLib 5
        (.slice (.slice none (.ptr (builtin .string))) (.cons (.nilPtr (.ptr (builtin .string))) .nil))
        (.type (.ptr (builtin .int)))
      = .ok (.ptr (.ptr (builtin .int)) (.int (builtin .int) 0))
    ∧ ConvertValue asciiLib 5 (.nilPtr (.ptr (builtin .string))) (.type (.ptr (builtin .int)))
      = .ok (.nilPtr (.ptr (builtin .int))) := by
  decide

/-- C10 (amended). Slice to slice, for a destination slice type other than the source's: if
every element converts to a value assignable to the destination element type, the result is
a destination slice of the same length whose elements are the converted elements, in order;
a nil or empty source gives the destination's nil slice with no error; and if an element
fails to convert after the elements before it were converted and stored, the conversion
returns the source with that element's error. -/
theorem C10_slice_to_slice (L : Lib) (fuel : Nat) (d d2 : Option Decl) (et et2 : Ty)
    (hne : Ty.slice d et ≠ Ty.slice d2 et2) :
    (∀ xs ys, xs ≠ [] →
      List.Forall₂ (fun x y => ∃ r, convertValue L fuel x (get L et) (get L et2) = .ok r
        ∧ assignTo r et2 = some y) xs ys →
      ConvertValue L (fuel + 1) (.slice (.slice d et) (Vals.ofList xs)) (.type (.slice d2 et2))
        = .ok (.slice (.slice d2 et2) (Vals.ofList ys)) ∧ ys.length = xs.length)
    ∧ ConvertValue L (fuel + 1) (.nilSlice (.slice d et)) (.type (.slice d2 et2))
        = .ok (.nilSlice (.slice d2 et2))
    ∧ ConvertValue L (fuel + 1) (.slice (.slice d et) .nil) (.type (.slice d2 et2))
        = .ok (.nilSlice (.slice d2 et2))
    ∧ (∀ pre ys x post ev msg,
      List.Forall₂ (fun x y => ∃ r, convertValue L fuel x (get L et) (get L et2) = .ok r
        ∧ assignTo r et2 = some y) pre ys →
      convertValue L fuel x (get L et) (get L et2) = .err ev msg →
      ConvertValue L (fuel + 1) (.slice (.slice d et) (Vals.ofList (pre ++ x :: post)))
          (.type (.slice d2 et2))
        = .err (.slice (.slice d et) (Vals.ofList (pre ++ x :: post))) msg) := by
  refine ⟨?_, ?_, ?_, ?_⟩
  · intro xs ys hxs h
    refine ⟨?_, (List.Forall₂.length_eq h).symm⟩
    rw [convertValue_slice_eq L fuel d d2 et et2 _ (by rfl) (by rfl) hne]
    have hce := convertElems_ok (fun x => convertValue L fuel x (get L et) (get L et2))
      (.slice (.slice d et) (Vals.ofList xs)) et2 xs ys h
    cases xs with
    | nil => exact absurd rfl hxs
    | cons x xs' =>
      simp only [Vals.ofList] at hce ⊢
      simp only [convertSliceValue, get, hce]
      exact convertValueEnd_ok _ _ _ _ _ _ rfl
  · rw [convertValue_slice_eq L fuel d d2 et et2 _ (by rfl) (by rfl) hne]
    simp only [convertSliceValue, zero]
    exact convertValueEnd_ok _ _ _ _ _ _ rfl
  · rw [convertValue_slice_eq L fuel d d2 et et2 _ (by rfl) (by rfl) hne]
    simp only [convertSliceValue, zero]
    exact convertValueEnd_ok _ _ _ _ _ _ rfl
  · intro pre ys x post ev msg h hx
    rw [convertValue_slice_eq L fuel d d2 et et2 _ (by rfl) (by rfl) hne]
    have hce := convertElems_err (fun x => convertValue L fuel x (get L et) (get L et2))
      (.slice (.slice d et) (Vals.ofList (pre ++ x :: post))) et2 pre ys x post ev msg h hx
    cases hl : pre ++ x :: post with
    | nil => simp at hl
    | cons a as =>
      rw [hl] at hce
      simp only [Vals.ofList] at hce ⊢
      simp only [convertSliceValue, get, hce, convertValueEnd]

/-- C10, witness: the slice of the strings `1` and `2` converts to the `[]int` of 1 and 2. -/
theorem C10_slice_to_slice_witness :
    ConvertValue asciiLib 2
        (.slice (.slice none (builtin .string))
          (Vals.ofList [.str (builtin .string) "1", .str (builtin .string) "2"]))
        (.type (.slice none (builtin .int)))
      = .ok (.slice (.slice none (builtin .int))
          (Vals.ofList [.int (builtin .int) 1, .int (builtin .int) 2]))
    ∧ [Val.int (builtin .int) 1, Val.int (builtin .int) 2].length
      = [Val.str (builtin .string) "1", Val.str (builtin .string) "2"].length :=
  (C10_slice_to_slice asciiLib 1 none none (builtin .string) (builtin .int) (by decide)).1
    [.str (builtin .string) "1", .str (builtin .string) "2"]
    [.int (builtin .int) 1, .int (builtin .int) 2] (by decide)
    (List.Forall₂.cons ⟨.int (builtin .int) 1, by decide, by decide⟩
      (List.Forall₂.cons ⟨.int (builtin .int) 2, by decide, by decide⟩ List.Forall₂.nil))

/-- C10, counterexample: the element 1 of a `[]int` converts to the element descriptor of
`[]*interface{}` without error, as the `int` 1 itself; storing it in the new slice panics. -/
theorem C10_counterexample_pointer_to_interface_element :
    convertValue asciiLib 2 (.int (builtin .int) 1) (get asciiLib (builtin .int))
        (get asciiLib (.ptr emptyInterface)) = .ok (.int (builtin .int) 1)
    ∧ ConvertValue asciiLib 3
        (.slice (.slice none (builtin .int)) (.cons (.int (builtin .int) 1) .nil))
        (.type (.slice none (.ptr emptyInterface)))
      = .panic "reflect.Set: value is not assignable to the element type" := by
  decide

/-! ## The claims C11 to C20 -/

set_option maxRecDepth 100000

/-- C11 (what the code does). Scalar to slice: a value that is neither pointer nor interface
value, of a type that the schema classifies as primitive and that is not of kind string (the
integer 5, for one), converts to every slice type as the nil slice of that type, of length 0,
with no error: the value is not wrapped. -/
theorem C11_primitive_to_slice_is_empty (L : Lib) (fuel : Nat) (v : Val) (S : Ty)
    (d : Option Decl) (e : Ty)
    (hS : get L S = .Primitive S "") (hk : S.Kind ≠ .string) (hv : v.Type = some S)
    (hp : v.plain = true) :
    ConvertValue L (fuel + 1) v (.type (.slice d e)) = .ok (.nilSlice (.slice d e)) := by
  have hne : S ≠ .slice d e := by
    intro h; rw [h] at hS; simp [get] at hS
  simp only [ConvertValue, hv, Get]
  rw [convertValue_plain L fuel v _ _ S (.slice d e) hv (get_Type L _) hp hne
    (by simp [Ty.Kind]) (by simp [Ty.Kind])]
  have : convertNonPtrValue L (convertValue L fuel) v (NonPtr (get L S))
      (NonPtr (get L (.slice d e))) = .ok (.nilSlice (.slice d e)) := by
    have hsk : (Ty.slice d e).Kind = .slice := rfl
    rw [hS]
    simp [NonPtr, get, convertNonPtrValue, TypeMeta.Type, TypeMeta.Kind, hsk, hk, zero]
  rw [this]
  exact convertValueEnd_ok _ _ _ _ _ _ rfl

/-- C11, witness: the `int` 5 converts to `[]int` as the nil slice. -/
theorem C11_primitive_to_slice_is_empty_witness :
    ConvertValue asciiLib 1 (.int (builtin .int) 5) (.type (.slice none (builtin .int)))
      = .ok (.nilSlice (.slice none (builtin .int))) :=
  C11_primitive_to_slice_is_empty asciiLib 0 (.int (builtin .int) 5) (builtin .int) none
    (builtin .int) (by decide) (by decide) rfl rfl

/-- C11, the path that does wrap: a `StructA` value, whose descriptor is no `*Primitive`,
converts to `[]StructA` as the slice of length 1 that holds it, whereas the `int` 5 converts
to itself as `int` and yet to `[]int` as a slice without element. -/
theorem C11_struct_is_wrapped_scalar_is_not :
    ConvertValue asciiLib 2
        (.struct StructA (.cons (.str (builtin .string) "x") (.cons (.bool (builtin .bool) true) .nil)))
        (.type (.slice none StructA))
      = .ok (.slice (.slice none StructA) (.cons
          (.struct StructA (.cons (.str (builtin .string) "x") (.cons (.bool (builtin .bool) true) .nil)))
          .nil))
    ∧ ConvertValue asciiLib 2 (.int (builtin .int) 5) (.type (builtin .int))
      = .ok (.int (builtin .int) 5)
    ∧ ConvertValue asciiLib 2 (.int (builtin .int) 5) (.type (.slice none (builtin .int)))
      = .ok (.nilSlice (.slice none (builtin .int))) := by
  decide

/-- C12 (amended). Map to map. When the key types or the element types of source and
destination differ: if every entry has a key (converted when the key types differ) and a
converted value that the new map can store (both assignable to the key and element types of
the destination, the key hashable) and the keys stored are pairwise distinct, the result is
the map of the destination type that holds exactly the entries stored; if the entries visited
first are stored and the key or the value of the next entry fails to convert, the conversion
returns the source map with an error that names that key (rendered by `fmt.Sprint`) and ends
with the error of the failed conversion. When key and element types are the same, the
entries of a well-typed map are passed through unchanged. -/
theorem C12_map_to_map (L : Lib) (fuel : Nat) (d d2 : Option Decl) (kt et kt2 et2 : Ty) :
    (kt ≠ kt2 ∨ et ≠ et2 →
      (∀ es ys : List (Val × Val),
        List.Forall₂ (storesEntry L (convertValue L fuel) kt et kt2 et2) es ys →
        (ys.map Prod.fst).Nodup →
        ConvertValue L (fuel + 1) (.map (.map d kt et) (Entries.ofList es))
            (.type (.map d2 kt2 et2))
          = .ok (.map (.map d2 kt2 et2) (Entries.ofList ys)))
      ∧ (∀ (pre ys : List (Val × Val)) (k x : Val) (post : List (Val × Val)) (ev : Val)
          (msg : String),
        List.Forall₂ (storesEntry L (convertValue L fuel) kt et kt2 et2) pre ys →
        (ys.map Prod.fst).Nodup → kt ≠ kt2 →
        convertValue L fuel k (get L kt) (get L kt2) = .err ev msg →
        ConvertValue L (fuel + 1) (.map (.map d kt et) (Entries.ofList (pre ++ (k, x) :: post)))
            (.type (.map d2 kt2 et2))
          = .err (.map (.map d kt et) (Entries.ofList (pre ++ (k, x) :: post)))
              ("could not convert key \"" ++ Sprint L k ++ "\" to \"" ++ (get L kt2).Str
                ++ "\". " ++ msg))
      ∧ (∀ (pre ys : List (Val × Val)) (k x : Val) (post : List (Val × Val)) (ev : Val)
          (msg : String),
        List.Forall₂ (storesEntry L (convertValue L fuel) kt et kt2 et2) pre ys →
        (ys.map Prod.fst).Nodup →
        (kt ≠ kt2 → ∃ rk, convertValue L fuel k (get L kt) (get L kt2) = .ok rk) →
        convertValue L fuel x (get L et) (get L et2) = .err ev msg →
        ConvertValue L (fuel + 1) (.map (.map d kt et) (Entries.ofList (pre ++ (k, x) :: post)))
            (.type (.map d2 kt2 et2))
          = .err (.map (.map d kt et) (Entries.ofList (pre ++ (k, x) :: post)))
              ("could not convert value of key \"" ++ Sprint L k ++ "\" to \""
                ++ (get L et2).Str ++ "\". " ++ msg)))
    ∧ (kt = kt2 → et = et2 → ∀ es : Entries, Entries.wt kt et es = true →
      ConvertValue L (fuel + 1) (.map (.map d kt et) es) (.type (.map d2 kt2 et2))
        = .ok (.map (.map d2 kt2 et2) es)) := by
  refine ⟨fun hne => ⟨?_, ?_, ?_⟩, ?_⟩
  · intro es ys h hnd
    rw [ConvertValue_map_to_map L fuel d d2 kt et kt2 et2 _ hne]
    have := mapToMap_prefix L (convertValue L fuel) (.map (.map d kt et) (Entries.ofList es)) d2
      kt et kt2 et2 es ys [] h [] (by simpa using hnd)
    simp only [List.append_nil, List.nil_append, Entries.ofList] at this
    rw [this]
    simp only [mapToMap]
    exact convertValueEnd_ok _ _ _ _ _ _ rfl
  · intro pre ys k x post ev msg h hnd hk hkey
    rw [ConvertValue_map_to_map L fuel d d2 kt et kt2 et2 _ hne]
    have := mapToMap_prefix L (convertValue L fuel)
      (.map (.map d kt et) (Entries.ofList (pre ++ (k, x) :: post))) d2
      kt et kt2 et2 pre ys ((k, x) :: post) h [] (by simpa using hnd)
    simp only [List.nil_append, Entries.ofList] at this
    rw [this, mapToMap_key_err L _ _ kt et kt2 et2 k x _ _ ev msg hk hkey]
    rfl
  · intro pre ys k x post ev msg h hnd hk hval
    rw [ConvertValue_map_to_map L fuel d d2 kt et kt2 et2 _ hne]
    have := mapToMap_prefix L (convertValue L fuel)
      (.map (.map d kt et) (Entries.ofList (pre ++ (k, x) :: post))) d2
      kt et kt2 et2 pre ys ((k, x) :: post) h [] (by simpa using hnd)
    simp only [List.nil_append, Entries.ofList] at this
    rw [this, mapToMap_value_err L _ _ kt et kt2 et2 k x _ _ ev msg hk hval]
    rfl
  · intro hk he es hw
    subst hk he
    exact ConvertValue_map_same_entries L fuel d d2 kt et es hw

/-- C12, witness: the two maps of `TestConvertValue`. The map `map[int]interface{}` with the
entry 123 to `456` converts to `MapType` with the key converted to the string `123`, and the
map `map[string]interface{}` with the entry `Hello` to 123 converts to `MapType` with its
entry unchanged. -/
theorem C12_map_to_map_witness :
    ConvertValue asciiLib 2
        (.map (.map none (builtin .int) emptyInterface) (Entries.ofList
          [(.int (builtin .int) 123, .iface emptyInterface (.str (builtin .string) "456"))]))
        (.type (.map (some ⟨"MapType", "typemeta.MapType", [], []⟩) (builtin .string)
          emptyInterface))
      = .ok (.map (.map (some ⟨"MapType", "typemeta.MapType", [], []⟩) (builtin .string)
          emptyInterface) (Entries.ofList
          [(.str (builtin .string) "123", .iface emptyInterface (.str (builtin .string) "456"))]))
    ∧ ConvertValue asciiLib 2
        (.map (.map none (builtin .string) emptyInterface)
          (.cons (.str (builtin .string) "Hello")
            (.iface emptyInterface (.int (builtin .int) 123)) .nil))
        (.type (.map (some ⟨"MapType", "typemeta.MapType", [], []⟩) (builtin .string)
          emptyInterface))
      = .ok (.map (.map (some ⟨"MapType", "typemeta.MapType", [], []⟩) (builtin .string)
          emptyInterface)
          (.cons (.str (builtin .string) "Hello")
            (.iface emptyInterface (.int (builtin .int) 123)) .nil)) :=
  ⟨((C12_map_to_map asciiLib 1 none (some ⟨"MapType", "typemeta.MapType", [], []⟩)
      (builtin .int) emptyInterface (builtin .string) emptyInterface).1
        (Or.inl (by decide))).1
      [(.int (builtin .int) 123, .iface emptyInterface (.str (builtin .string) "456"))]
      [(.str (builtin .string) "123", .iface emptyInterface (.str (builtin .string) "456"))]
      (List.Forall₂.cons
        ⟨.str (builtin .string) "123", .str (builtin .string) "456",
          by decide, by decide, by decide, by decide, by decide⟩
        List.Forall₂.nil)
      (by decide),
    (C12_map_to_map asciiLib 1 none (some ⟨"MapType", "typemeta.MapType", [], []⟩)
      (builtin .string) emptyInterface (builtin .string) emptyInterface).2 rfl rfl
      (.cons (.str (builtin .string) "Hello") (.iface emptyInterface (.int (builtin .int) 123))
        .nil)
      (by decide)⟩

/-- C12, counterexample. (1) In `map[string]int` with the entry `a` to 1, converted to
`map[string]*interface{}`, the value converts without error, as the `int` 1 itself, and
storing it in the new map panics. (2) In `map[string]string` with the entries `k1` to `x` and
`k2` to `y`, converted to `map[string]int`, the value of `k2` fails to convert, and the error
returned names `k1`, not `k2`. (3) In a map with a key of type `*map[string][]int`, converted to a
map with the key type `K`, a struct with one field `F` of type `interface{}`, the key converts
to a struct that holds a slice, and storing it in the new map panics. -/
theorem C12_counterexample_store_panics_first_error :
    convertValue asciiLib 2 (.int (builtin .int) 1) (get asciiLib (builtin .int))
        (get asciiLib (.ptr emptyInterface)) = .ok (.int (builtin .int) 1)
    ∧ ConvertValue asciiLib 3
        (.map mapStringInt (.cons (.str (builtin .string) "a") (.int (builtin .int) 1) .nil))
        (.type (.map none (builtin .string) (.ptr emptyInterface)))
      = .panic "reflect.Value.SetMapIndex: the entry cannot be set"
    ∧ convertValue asciiLib 2 (.str (builtin .string) "y") (get asciiLib (builtin .string))
        (get asciiLib (builtin .int))
      = .err (.str (builtin .string) "y") "y not assignable to int"
    ∧ ConvertValue asciiLib 3
        (.map (.map none (builtin .string) (builtin .string))
          (.cons (.str (builtin .string) "k1") (.str (builtin .string) "x")
            (.cons (.str (builtin .string) "k2") (.str (builtin .string) "y") .nil)))
        (.type mapStringInt)
      = .err (.map (.map none (builtin .string) (builtin .string))
          (.cons (.str (builtin .string) "k1") (.str (builtin .string) "x")
            (.cons (.str (builtin .string) "k2") (.str (builtin .string) "y") .nil)))
          "could not convert value of key \"k1\" to \"int\". x not assignable to int"
    ∧ ¬ ("k2".data <:+:
      "could not convert value of key \"k1\" to \"int\". x not assignable to int".data)
    ∧ convertValue asciiLib 2
        (.ptr (.ptr (.map none (builtin .string) (.slice none (builtin .int))))
          (.map (.map none (builtin .string) (.slice none (builtin .int)))
            (.cons (.str (builtin .string) "F")
              (.slice (.slice none (builtin .int)) (.cons (.int (builtin .int) 1) .nil)) .nil)))
        (get asciiLib (.ptr (.map none (builtin .string) (.slice none (builtin .int)))))
        (get asciiLib (.struct ⟨"K", "typemeta.K", [], []⟩
          (.cons ⟨"F", false, []⟩ emptyInterface .nil)))
      = .ok (.struct (.struct ⟨"K", "typemeta.K", [], []⟩
          (.cons ⟨"F", false, []⟩ emptyInterface .nil))
          (.cons (.iface emptyInterface
            (.slice (.slice none (builtin .int)) (.cons (.int (builtin .int) 1) .nil))) .nil))
    ∧ ConvertValue asciiLib 3
        (.map (.map none (.ptr (.map none (builtin .string) (.slice none (builtin .int))))
            (builtin .int))
          (.cons
            (.ptr (.ptr (.map none (builtin .string) (.slice none (builtin .int))))
              (.map (.map none (builtin .string) (.slice none (builtin .int)))
                (.cons (.str (builtin .string) "F")
                  (.slice (.slice none (builtin .int)) (.cons (.int (builtin .int) 1) .nil))
                  .nil)))
            (.int (builtin .int) 7) .nil))
        (.type (.map none (.struct ⟨"K", "typemeta.K", [], []⟩
          (.cons ⟨"F", false, []⟩ emptyInterface .nil)) (builtin .int)))
      = .panic "reflect.Value.SetMapIndex: the entry cannot be set" := by
  decide

/-- C13. Bool coercion from integers: a value `n` of a type of a signed integer kind (of any
width, predeclared or defined) converts to a type of kind bool as `n > 0`, and a value `u` of a
type of an unsigned integer kind as `u > 0`, with no error. -/
theorem C13_bool_from_integer (L : Lib) (fuel : Nat) (k : Kind) (d d2 : Option Decl) :
    (k.isInt = true → ∀ n : Int,
      ConvertValue L (fuel + 2) (.int (.basic k d) n) (.type (.basic .bool d2))
        = .ok (.bool (.basic .bool d2) (decide (n > 0))))
    ∧ (k.isUint = true → ∀ u : Nat,
      ConvertValue L (fuel + 2) (.uint (.basic k d) u) (.type (.basic .bool d2))
        = .ok (.bool (.basic .bool d2) (decide (u > 0)))) := by
  constructor
  · intro hk n
    have hkb : k ≠ .bool := by rintro rfl; simp [Kind.isInt] at hk
    by_cases hn : n = 0
    · subst hn
      have h := zero_rule_core L fuel (.int (.basic k d) 0) (.basic k d) (.basic .bool d2) rfl
        (by simp [Val.IsZero]) (by simp [get]) (by simp [get]) (by simp [zeroRuleKind, Ty.Kind])
        (by intro h; simp [hkb] at h)
      rw [h]
      simp [zero]
    · simp only [ConvertValue, Val.Type, Get, get]
      exact convertValue_int_to_bool L (fuel + 1) k d d2 n hk hn
  · intro hk u
    have hkb : k ≠ .bool := by rintro rfl; simp [Kind.isUint] at hk
    by_cases hn : u = 0
    · subst hn
      have h := zero_rule_core L fuel (.uint (.basic k d) 0) (.basic k d) (.basic .bool d2) rfl
        (by simp [Val.IsZero]) (by simp [get]) (by simp [get]) (by simp [zeroRuleKind, Ty.Kind])
        (by intro h; simp [hkb] at h)
      rw [h]
      simp [zero]
    · simp only [ConvertValue, Val.Type, Get, get]
      exact convertValue_uint_to_bool L (fuel + 1) k d d2 u hk hn

/-- C13, witness: as values of `int`, 100 gives `true`, and -1 and 0 give `false`. -/
theorem C13_bool_from_integer_witness :
    Kind.isInt .int = true
    ∧ ConvertValue asciiLib 2 (.int (builtin .int) 100) (.type (builtin .bool))
        = .ok (.bool (builtin .bool) (decide ((100 : Int) > 0)))
    ∧ ConvertValue asciiLib 2 (.int (builtin .int) (-1)) (.type (builtin .bool))
        = .ok (.bool (builtin .bool) (decide ((-1 : Int) > 0)))
    ∧ ConvertValue asciiLib 2 (.int (builtin .int) 0) (.type (builtin .bool))
        = .ok (.bool (builtin .bool) (decide ((0 : Int) > 0))) :=
  ⟨rfl, (C13_bool_from_integer asciiLib 0 .int none none).1 rfl 100,
    (C13_bool_from_integer asciiLib 0 .int none none).1 rfl (-1),
    (C13_bool_from_integer asciiLib 0 .int none none).1 rfl 0⟩

/-- C14 (amended). Bool from string: for a non-empty string `s` of a type of kind string,
converted to a type of kind bool. When `s` belongs to the boolean grammar (`1`, `t`, `T`, `TRUE`,
`true`, `True` for true; `0`, `f`, `F`, `FALSE`, `false`, `False` for false) the result is the
boolean of the grammar. Otherwise, when `strconv.ParseFloat` reads `s` as a 64-bit float `x`
(which it does for decimal and hexadecimal notation and for the names of infinity and NaN), the
result is `x > 0`; otherwise the conversion fails with an error. -/
theorem C14_bool_from_string (L : Lib) (fuel : Nat) (s : String) (ds d2 : Option Decl)
    (hs : s.length ≠ 0) :
    (∀ b, ParseBool s = some b →
      ConvertValue L (fuel + 1) (.str (.basic .string ds) s) (.type (.basic .bool d2))
        = .ok (.bool (.basic .bool d2) b))
    ∧ (ParseBool s = none → ∀ bits, L.parseFloat s = some bits →
      ConvertValue L (fuel + 1) (.str (.basic .string ds) s) (.type (.basic .bool d2))
        = .ok (.bool (.basic .bool d2) (L.floatGtZero bits)))
    ∧ (ParseBool s = none → L.parseFloat s = none →
      ∃ msg, ConvertValue L (fuel + 1) (.str (.basic .string ds) s) (.type (.basic .bool d2))
        = .err (.str (.basic .string ds) s) msg)
    ∧ (ParseBool s = some true ↔ s ∈ ["1", "t", "T", "TRUE", "true", "True"])
    ∧ (ParseBool s = some false ↔ s ∈ ["0", "f", "F", "FALSE", "false", "False"]) := by
  have h := convertValue_str_to_bool L fuel s ds d2 hs
  refine ⟨?_, ?_, ?_, ParseBool_true s, ParseBool_false s⟩
  · intro b hb
    simp only [ConvertValue, Val.Type, Get, get]
    rw [h, hb]
  · intro hb bits hf
    simp only [ConvertValue, Val.Type, Get, get]
    rw [h, hb, hf]
  · intro hb hf
    simp only [ConvertValue, Val.Type, Get, get]
    rw [h, hb, hf]
    exact ⟨_, rfl⟩

/-- C14, witness: the strings `true` and `0` convert to `true` and `false`, and the string `abc`,
which `strconv.ParseFloat` does not read, fails to convert. -/
theorem C14_bool_from_string_witness :
    ConvertValue asciiLib 1 (.str (builtin .string) "true") (.type (builtin .bool))
      = .ok (.bool (builtin .bool) true)
    ∧ ConvertValue asciiLib 1 (.str (builtin .string) "0") (.type (builtin .bool))
      = .ok (.bool (builtin .bool) false)
    ∧ (∃ msg, ConvertValue asciiLib 1 (.str (builtin .string) "abc") (.type (builtin .bool))
      = .err (.str (builtin .string) "abc") msg) :=
  ⟨(C14_bool_from_string asciiLib 0 "true" none none (by decide)).1 true (by decide),
    (C14_bool_from_string asciiLib 0 "0" none none (by decide)).1 false (by decide),
    (C14_bool_from_string asciiLib 0 "abc" none none (by decide)).2.2.1 (by decide) (by decide)⟩

/-- C14, counterexample: the text `Inf` is not in the boolean grammar and is no base-10 number
(it has no decimal digit), and `strconv.ParseFloat` reads it as positive infinity: the
conversion to `bool` gives `true` where the claim says that it fails. -/
theorem C14_counterexample_infinity :
    ParseBool "Inf" = none
    ∧ "Inf".data.any isDecimalDigit = false
    ∧ infLib.parseFloat "Inf" = some 0x7FF0000000000000
    ∧ ConvertValue infLib 1 (.str (builtin .string) "Inf") (.type (builtin .bool))
      = .ok (.bool (builtin .bool) true) := by
  decide

/-- C15. Integer from string: for a non-empty string `s` of a type of kind string and a
destination type of a signed integer kind, if `s` is a base-10 literal (digits, with or without
a sign) of an integer that fits the destination, the conversion gives exactly that integer,
and if `s` is no base-10 literal of an integer of the signed 64-bit range, the conversion
fails with an error. For a destination of an unsigned integer kind the same holds with the
literals without sign and the unsigned 64-bit range. -/
theorem C15_integer_from_string (L : Lib) (fuel : Nat) (s : String) (ds d : Option Decl)
    (k : Kind) (hs : s.length ≠ 0) :
    (k.isInt = true →
      (∀ n : Int, intLiteral s = some n → -(2 : Int) ^ (k.bits - 1) ≤ n → n < 2 ^ (k.bits - 1) →
        ConvertValue L (fuel + 1) (.str (.basic .string ds) s) (.type (.basic k d))
          = .ok (.int (.basic k d) n))
      ∧ ((∀ n : Int, intLiteral s = some n → ¬ (-(2 : Int) ^ 63 ≤ n ∧ n < 2 ^ 63)) →
        ∃ msg, ConvertValue L (fuel + 1) (.str (.basic .string ds) s) (.type (.basic k d))
          = .err (.str (.basic .string ds) s) msg))
    ∧ (k.isUint = true →
      (∀ n : Nat, natLiteral s.data = some n → n < 2 ^ k.bits →
        ConvertValue L (fuel + 1) (.str (.basic .string ds) s) (.type (.basic k d))
          = .ok (.uint (.basic k d) n))
      ∧ ((∀ n : Nat, natLiteral s.data = some n → ¬ n < 2 ^ 64) →
        ∃ msg, ConvertValue L (fuel + 1) (.str (.basic .string ds) s) (.type (.basic k d))
          = .err (.str (.basic .string ds) s) msg)) := by
  refine ⟨fun hk => ⟨?_, ?_⟩, fun hk => ⟨?_, ?_⟩⟩
  · intro n hn h1 h2
    have hr := int64_of_range k n hk h1 h2
    have hp : ParseInt s = some n := by
      rw [ParseInt_eq, hn, Option.some_bind, if_pos hr]
    simp only [ConvertValue, Val.Type, Get, get]
    rw [convertValue_str_to_int L fuel s k ds d hk hs, hp]
    simp only [wrapInt_eq k n hk h1 h2]
  · intro hn
    have hp : ParseInt s = none := by
      rw [ParseInt_eq]
      cases hl : intLiteral s with
      | none => rfl
      | some n => rw [Option.some_bind, if_neg (hn n hl)]
    simp only [ConvertValue, Val.Type, Get, get]
    rw [convertValue_str_to_int L fuel s k ds d hk hs, hp]
    exact ⟨_, rfl⟩
  · intro n hn h1
    have hr := uint64_of_range k n hk h1
    have hp : ParseUint s = some n := by
      rw [ParseUint_eq, hn, Option.some_bind, if_pos hr]
    simp only [ConvertValue, Val.Type, Get, get]
    rw [convertValue_str_to_uint L fuel s k ds d hk hs, hp]
    simp only [wrapUint_eq k n hk h1]
  · intro hn
    have hp : ParseUint s = none := by
      rw [ParseUint_eq]
      cases hl : natLiteral s.data with
      | none => rfl
      | some n => rw [Option.some_bind, if_neg (hn n hl)]
    simp only [ConvertValue, Val.Type, Get, get]
    rw [convertValue_str_to_uint L fuel s k ds d hk hs, hp]
    exact ⟨_, rfl⟩

/-- C15, witness: the string `100` converts to the `int8` 100, the strings `abc` and `100.52`
do not convert to `int`, and the string `-1` does not convert to `uint`. -/
theorem C15_integer_from_string_witness :
    ConvertValue asciiLib 1 (.str (builtin .string) "100") (.type (builtin .int8))
      = .ok (.int (builtin .int8) 100)
    ∧ (∃ msg, ConvertValue asciiLib 1 (.str (builtin .string) "abc") (.type (builtin .int))
      = .err (.str (builtin .string) "abc") msg)
    ∧ (∃ msg, ConvertValue asciiLib 1 (.str (builtin .string) "100.52") (.type (builtin .int))
      = .err (.str (builtin .string) "100.52") msg)
    ∧ (∃ msg, ConvertValue asciiLib 1 (.str (builtin .string) "-1") (.type (builtin .uint))
      = .err (.str (builtin .string) "-1") msg) :=
  ⟨((C15_integer_from_string asciiLib 0 "100" none none .int8 (by decide)).1 rfl).1 100
      (by decide) (by decide) (by decide),
    ((C15_integer_from_string asciiLib 0 "abc" none none .int (by decide)).1 rfl).2
      (fun n h => by
        have hl : intLiteral "abc" = none := by decide
        rw [hl] at h
        cases h),
    ((C15_integer_from_string asciiLib 0 "100.52" none none .int (by decide)).1 rfl).2
      (fun n h => by
        have hl : intLiteral "100.52" = none := by decide
        rw [hl] at h
        cases h),
    ((C15_integer_from_string asciiLib 0 "-1" none none .uint (by decide)).2 rfl).2
      (fun n h => by
        have hl : natLiteral "-1".data = none := by decide
        rw [hl] at h
        cases h)⟩

/-- C16 (amended). Pointer leveling on nil: a source pointer of any depth in which a nil pointer
is met on the way down to the base value converts to every destination type that is neither a
pointer type nor an interface type (string included) as the zero value of that type, with no
error. -/
theorem C16_nil_pointer_to_zero (L : Lib) (fuel : Nat) (v : Val) (T : Ty)
    (h : v.nilMet = true) (hkp : T.Kind ≠ .ptr) (hki : T.Kind ≠ .interface) :
    ConvertValue L (fuel + 1) v (.type T) = .ok (zero T) := by
  obtain ⟨e, he⟩ := nilMet_Type v h
  have hne : Ty.ptr e ≠ T := by intro hh; subst hh; simp [Ty.Kind] at hkp
  simp only [ConvertValue, he, Get]
  rw [convertValue_eq_body L fuel v _ _ (.ptr e) he
    (by intro it dyn hh; subst hh; simp [Val.nilMet] at h)
    (by intro it hh; subst hh; simp [Val.nilMet] at h)]
  simp only [convertValueBody, he, get_Type, stripPtr_nilMet T hkp v h]
  simp [hne, hki, hkp]

/-- C16, witness: a nil `**int` converts to `string` as the empty string, and a pointer to a nil
`*int` converts to `int` as 0. -/
theorem C16_nil_pointer_to_zero_witness :
    ConvertValue asciiLib 1 (.nilPtr (.ptr (.ptr (builtin .int)))) (.type (builtin .string))
      = .ok (zero (builtin .string))
    ∧ ConvertValue asciiLib 1
        (.ptr (.ptr (.ptr (builtin .int))) (.nilPtr (.ptr (builtin .int)))) (.type (builtin .int))
      = .ok (zero (builtin .int)) :=
  ⟨C16_nil_pointer_to_zero asciiLib 0 _ _ (by decide) (by decide) (by decide),
    C16_nil_pointer_to_zero asciiLib 0 _ _ (by decide) (by decide) (by decide)⟩

/-- C16, counterexample: a nil `**int` converted to the interface type `fmt.Stringer`, which is
no pointer type, fails with an error; converted to `interface{}` it comes back as the nil
pointer it is, which is not the zero value of `interface{}`. -/
theorem C16_counterexample_interface_destination :
    (Val.nilPtr (.ptr (.ptr (builtin .int)))).nilMet = true
    ∧ stringerType.Kind ≠ .ptr ∧ emptyInterface.Kind ≠ .ptr
    ∧ ConvertValue asciiLib 1 (.nilPtr (.ptr (.ptr (builtin .int)))) (.type stringerType)
      = .err (.nilPtr (.ptr (.ptr (builtin .int)))) "**int does not implement fmt.Stringer"
    ∧ ConvertValue asciiLib 1 (.nilPtr (.ptr (.ptr (builtin .int)))) (.type emptyInterface)
      = .ok (.nilPtr (.ptr (.ptr (builtin .int))))
    ∧ Val.nilPtr (.ptr (.ptr (builtin .int))) ≠ zero emptyInterface := by
  decide

/-- C17. Pointer depth adjustment: a well-typed source pointer of depth `m` to a base type
that is no pointer type, converted to the pointer type of depth `n` to the same base type with
`m ≠ n`, gives a value of exactly the destination type with no error. For `m > n` it is the
source dereferenced `m - n` times, or the nil pointer of the destination type when a nil
pointer is met during those dereferences; for `m < n` it is a chain of `n - m` pointers that
are not nil, the last of which points to the source pointer itself. -/
theorem C17_pointer_depth_adjustment (L : Lib) (fuel : Nat) (B : Ty) (m n : Nat) (v : Val)
    (hB : B.Kind ≠ .ptr) (hn : 0 < n) (hmn : m ≠ n)
    (hv : v.Type = some (ptrN m B)) (hok : v.ptrOK = true) :
    ∃ r, ConvertValue L (fuel + 1) v (.type (ptrN n B)) = .ok r ∧ r.Type = some (ptrN n B) ∧
      (n < m → nilWithin (m - n) v = false → derefN (m - n) v = some r) ∧
      (n < m → nilWithin (m - n) v = true → r = .nilPtr (ptrN n B)) ∧
      (m < n → derefN (n - m) r = some v) := by
  obtain ⟨hk, h1, h2⟩ := ptrOK_Kind v hok
  have hne := ptrN_ne B hB m n hmn
  have hTk : (ptrN n B).Kind = .ptr := by
    cases n with
    | zero => omega
    | succ n => rfl
  have hz : zero (ptrN n B) = .nilPtr (ptrN n B) := by
    cases n with
    | zero => omega
    | succ n => rfl
  simp only [ConvertValue, hv, Get]
  rw [convertValue_eq_body L fuel v _ _ (ptrN m B) hv h1 h2]
  simp only [convertValueBody, hv, get_Type, hne, if_false, hTk, hk,
    (ptrN_ptrLevel B hB m).1, (ptrN_ptrLevel B hB m).2, (ptrN_ptrLevel B hB n).1,
    (ptrN_ptrLevel B hB n).2]
  simp only [beq_self_eq_true, bne_self_eq_false, if_true, Bool.false_eq_true, if_false,
    reduceCtorEq, beq_iff_eq]
  by_cases hgt : m > n
  · rw [if_pos hgt]
    rcases derefTimes_ptrOK (ptrN n B) B (m - n) m v (by omega) hv (fun _ => hok) with
      ⟨hnil, hd⟩ | ⟨hnil, r, hd, hdn, ht⟩
    · rw [hd]
      refine ⟨zero (ptrN n B), rfl, zero_Type _, ?_, ?_, ?_⟩
      · intro _ hh; rw [hnil] at hh; cases hh
      · intro _ _; exact hz
      · intro hh; exact absurd hh (by omega)
    · rw [hd]
      refine ⟨r, rfl, ?_, ?_, ?_, ?_⟩
      · rw [ht]; congr 1; congr 1; omega
      · intro _ _; exact hdn
      · intro _ hh; rw [hnil] at hh; cases hh
      · intro hh; exact absurd hh (by omega)
  · rw [if_neg hgt]
    obtain ⟨r, hw, hdn, ht⟩ := wrapTimes_spec (n - m) v (ptrN m B) hv
    rw [hw]
    refine ⟨r, rfl, ?_, ?_, ?_, ?_⟩
    · rw [ht, ptrN_add]; congr 1; congr 1; omega
    · intro hh; exact absurd hh (by omega)
    · intro hh; exact absurd hh (by omega)
    · intro _; exact hdn

/-- C17, witness: a `**int` pointing to a pointer to 5 converts to `*int` as that pointer to 5,
the depths being 2 and 1. -/
theorem C17_pointer_depth_adjustment_witness :
    ∃ r, ConvertValue asciiLib 1
        (.ptr (.ptr (.ptr (builtin .int))) (.ptr (.ptr (builtin .int)) (.int (builtin .int) 5)))
        (.type (ptrN 1 (builtin .int))) = .ok r
      ∧ r.Type = some (ptrN 1 (builtin .int))
      ∧ (1 < 2 → nilWithin (2 - 1)
          (.ptr (.ptr (.ptr (builtin .int))) (.ptr (.ptr (builtin .int)) (.int (builtin .int) 5)))
            = false →
        derefN (2 - 1)
          (.ptr (.ptr (.ptr (builtin .int))) (.ptr (.ptr (builtin .int)) (.int (builtin .int) 5)))
            = some r)
      ∧ (1 < 2 → nilWithin (2 - 1)
          (.ptr (.ptr (.ptr (builtin .int))) (.ptr (.ptr (builtin .int)) (.int (builtin .int) 5)))
            = true →
        r = .nilPtr (ptrN 1 (builtin .int)))
      ∧ (2 < 1 → derefN (1 - 2) r
          = some (.ptr (.ptr (.ptr (builtin .int)))
              (.ptr (.ptr (builtin .int)) (.int (builtin .int) 5)))) :=
  C17_pointer_depth_adjustment asciiLib 0 (builtin .int) 2 1
    (.ptr (.ptr (.ptr (builtin .int))) (.ptr (.ptr (builtin .int)) (.int (builtin .int) 5)))
    (by decide) (by decide) (by decide) rfl (by decide)

/-- C17 at three inputs: a `**int` pointing to a pointer to 5 gives, as `*int`, the pointer to
5; a `**int` pointing to a nil `*int` gives, as `*int`, the nil pointer; a pointer to 5
gives, as `**int`, a pointer to that pointer. -/
theorem C17_three_inputs :
    ConvertValue asciiLib 1
        (.ptr (.ptr (.ptr (builtin .int))) (.ptr (.ptr (builtin .int)) (.int (builtin .int) 5)))
        (.type (.ptr (builtin .int)))
      = .ok (.ptr (.ptr (builtin .int)) (.int (builtin .int) 5))
    ∧ ConvertValue asciiLib 1
        (.ptr (.ptr (.ptr (builtin .int))) (.nilPtr (.ptr (builtin .int))))
        (.type (.ptr (builtin .int)))
      = .ok (.nilPtr (.ptr (builtin .int)))
    ∧ ConvertValue asciiLib 1 (.ptr (.ptr (builtin .int)) (.int (builtin .int) 5))
        (.type (.ptr (.ptr (builtin .int))))
      = .ok (.ptr (.ptr (.ptr (builtin .int)))
          (.ptr (.ptr (builtin .int)) (.int (builtin .int) 5))) := by
  decide

/-- C18 (amended). Non-pointer source to pointer destination: for a source value that is
neither pointer nor interface value, of a type `S` that is no pointer type, and a destination
`*T` where `T` is neither pointer nor interface type, the conversion to `*T` returns a value
exactly when the conversion to `T` does, the value is then a pointer that is not nil and
points to the value of the conversion to `T`, and when the conversion to `T` fails with an
error the conversion to `*T` fails with the same message. The library is taken to leave a value
of the type `T` in a variable of type `T` that it unmarshals into. -/
theorem C18_nonpointer_to_pointer (L : Lib) (fuel : Nat) (v : Val) (S T : Ty)
    (hL : L.typed) (hv : v.Type = some S) (hpl : v.plain = true) (htag : v.tagOK = true)
    (hS : S.Kind ≠ .ptr) (hT : T.Kind ≠ .ptr) (hTi : T.Kind ≠ .interface) :
    (∀ r, ConvertValue L (fuel + 3) v (.type T) = .ok r →
      ConvertValue L (fuel + 4) v (.type (.ptr T)) = .ok (.ptr (.ptr T) r))
    ∧ (∀ p, ConvertValue L (fuel + 4) v (.type (.ptr T)) = .ok p →
      ∃ r, ConvertValue L (fuel + 3) v (.type T) = .ok r ∧ p = .ptr (.ptr T) r)
    ∧ (∀ e msg, ConvertValue L (fuel + 3) v (.type T) = .err e msg →
      ConvertValue L (fuel + 4) v (.type (.ptr T)) = .err (.ptr (.ptr S) v) msg) := by
  have h := ConvertValue_nonptr_to_ptr L hL fuel v S T hv hpl htag hS hT hTi
  refine ⟨?_, ?_, ?_⟩
  · intro r hr; rw [h, hr]
  · intro p hp
    rw [h] at hp
    cases hd : ConvertValue L (fuel + 3) v (.type T) with
    | ok r => rw [hd] at hp; cases hp; exact ⟨r, rfl, rfl⟩
    | err e msg => rw [hd] at hp; cases hp
    | panic m => rw [hd] at hp; cases hp
    | timeout => rw [hd] at hp; cases hp
  · intro e msg he; rw [h, he]

/-- C18, witness: the string `12` converts to `int` as 12 and to `*int` as a pointer to 12, and
the string `x` fails for `int` and for `*int` with the same message. -/
theorem C18_nonpointer_to_pointer_witness :
    Lib.typed asciiLib
    ∧ ConvertValue asciiLib 3 (.str (builtin .string) "12") (.type (builtin .int))
      = .ok (.int (builtin .int) 12)
    ∧ ConvertValue asciiLib 4 (.str (builtin .string) "12") (.type (.ptr (builtin .int)))
      = .ok (.ptr (.ptr (builtin .int)) (.int (builtin .int) 12))
    ∧ (∀ e msg, ConvertValue asciiLib 3 (.str (builtin .string) "x") (.type (builtin .int))
        = .err e msg →
      ConvertValue asciiLib 4 (.str (builtin .string) "x") (.type (.ptr (builtin .int)))
        = .err (.ptr (.ptr (builtin .string)) (.str (builtin .string) "x")) msg) :=
  ⟨asciiLib_typed, by decide,
    (C18_nonpointer_to_pointer asciiLib 0 (.str (builtin .string) "12") (builtin .string)
      (builtin .int) asciiLib_typed rfl rfl rfl (by decide) (by decide) (by decide)).1 _
      (by decide),
    (C18_nonpointer_to_pointer asciiLib 0 (.str (builtin .string) "x") (builtin .string)
      (builtin .int) asciiLib_typed rfl rfl rfl (by decide) (by decide) (by decide)).2.2⟩

/-- C18, counterexample: `int` does not implement `fmt.Stringer` and the conversion of the
`int` 1 to `fmt.Stringer` fails, yet its conversion to `*fmt.Stringer` returns with no error,
and what it returns is the `int` 1 itself, which is no pointer. -/
theorem C18_counterexample_pointer_to_interface :
    ConvertValue asciiLib 3 (.int (builtin .int) 1) (.type stringerType)
      = .err (.int (builtin .int) 1) "int does not implement fmt.Stringer"
    ∧ ConvertValue asciiLib 4 (.int (builtin .int) 1) (.type (.ptr stringerType))
      = .ok (.int (builtin .int) 1)
    ∧ (Val.int (builtin .int) 1).Kind ≠ .ptr := by
  decide

/-- C19 (amended). Interface destination: a valid source value that is not of interface kind
and whose type differs from the interface destination type comes back unchanged with no error
when its type implements the destination, and otherwise the conversion fails with the error
`<source type> does not implement <destination>`. A source of interface kind is taken out of
its interface first: for the value it holds the same is true with the type of that value, and
a nil interface value gives the nil value of the destination with no error. -/
theorem C19_interface_destination (L : Lib) (fuel : Nat) (d : Decl) :
    (∀ v S, v.Type = some S → v.isInterface = false → S ≠ .iface d →
      ConvertValue L (fuel + 1) v (.type (.iface d))
        = if S.Implements (.iface d) then .ok v
          else .err v (S.Str ++ " does not implement " ++ (Ty.iface d).Str))
    ∧ (∀ it dyn D, dyn.Type = some D → D ≠ .iface d →
      ConvertValue L (fuel + 1) (.iface it dyn) (.type (.iface d))
        = if D.Implements (.iface d) then .ok dyn
          else .err dyn (D.Str ++ " does not implement " ++ (Ty.iface d).Str))
    ∧ (∀ it, ConvertValue L (fuel + 1) (.nilIface it) (.type (.iface d))
        = .ok (.nilIface (.iface d))) := by
  refine ⟨?_, ?_, ?_⟩
  · intro v S hv hi hne
    simp only [ConvertValue, hv, Get]
    rw [convertValue_eq_body L fuel v _ _ S hv
      (by intro it dyn hh; subst hh; simp [Val.isInterface] at hi)
      (by intro it hh; subst hh; simp [Val.isInterface] at hi)]
    exact convertValueBody_to_iface L _ v _ S d hv hne
  · intro it dyn D hd hne
    have ht : (Val.iface it dyn).Type = some it := rfl
    simp only [ConvertValue, ht, Get, convertValue, hd]
    exact convertValueBody_to_iface L _ dyn _ D d hd hne
  · intro it
    simp [ConvertValue, Val.Type, Get, convertValue, get, TypeMeta.Type, zero]

/-- C19, witness: the string `x` converted to `interface{}` comes back unchanged, and converted
to `fmt.Stringer` fails with `string does not implement fmt.Stringer`. -/
theorem C19_interface_destination_witness :
    ConvertValue asciiLib 1 (.str (builtin .string) "x") (.type emptyInterface)
      = .ok (.str (builtin .string) "x")
    ∧ ConvertValue asciiLib 1 (.str (builtin .string) "x") (.type stringerType)
      = .err (.str (builtin .string) "x") "string does not implement fmt.Stringer" :=
  ⟨((C19_interface_destination asciiLib 0 ⟨"", "interface \x7b\x7d", [], []⟩).1
      (.str (builtin .string) "x") (builtin .string) rfl rfl (by decide)).trans (by decide),
    ((C19_interface_destination asciiLib 0
      ⟨"Stringer", "fmt.Stringer", [⟨"String", "func() string"⟩], []⟩).1
      (.str (builtin .string) "x") (builtin .string) rfl rfl (by decide)).trans (by decide)⟩

/-- C19, counterexample: the type `interface{}` differs from `fmt.Stringer` and does not
implement it, yet the nil value of `interface{}` converts to `fmt.Stringer` with no error; and
an `interface{}` value holding the string `x` fails with an error that names `string`, the type
of the value held, not `interface {}`, and converted to a defined empty interface type it
comes back as the string held, not as the source value. -/
theorem C19_counterexample_interface_source :
    emptyInterface ≠ stringerType
    ∧ emptyInterface.Implements stringerType = false
    ∧ ConvertValue asciiLib 1 (.nilIface emptyInterface) (.type stringerType)
      = .ok (.nilIface stringerType)
    ∧ ConvertValue asciiLib 1 (.iface emptyInterface (.str (builtin .string) "x"))
        (.type stringerType)
      = .err (.str (builtin .string) "x") "string does not implement fmt.Stringer"
    ∧ "string does not implement fmt.Stringer"
      ≠ emptyInterface.Str ++ " does not implement " ++ stringerType.Str
    ∧ ConvertValue asciiLib 1 (.iface emptyInterface (.str (builtin .string) "x"))
        (.type (.iface ⟨"Any", "typemeta.Any", [], []⟩))
      = .ok (.str (builtin .string) "x")
    ∧ Val.str (builtin .string) "x" ≠ .iface emptyInterface (.str (builtin .string) "x") := by
  decide

/-- C20 (what the code does). Panics on data-shape mismatch. `ConvertValue` returns a value or
an error, without panic, for every value of a predeclared scalar type (bool, integer, float,
string) and every destination given by the kind of such a type. It does NOT return an error
but panics for a map whose first entry visited has a key that names a field of the destination
struct that is not exported and a value that converts to the field's descriptor (the panic of
`reflect.Value.Set`), and for a value that is not zero of a type classified as primitive,
converted to a different type classified as primitive of the same kind (other than string) to
which `reflect` cannot convert it (the panic of `reflect.Value.Convert`). -/
theorem C20_panics_and_scalar_safety (L : Lib) (fuel : Nat) :
    (∀ (v : Val) (K : Kind), isScalar v = true → primitiveKind K = true →
      (ConvertValue L (fuel + 2) v (.kind K)).returns = true)
    ∧ (∀ (d : Decl) (decls : FieldList) (md : Option Decl) (kt et : Ty) (key x : Val)
        (rest : Entries) (sf : StructField) (r : Val),
      (Ty.struct d decls).Implements primitiveType = false →
      (get L (.struct d decls)).FieldByName key.GoString = some sf →
      exported L sf.info.Name = false →
      convertValue L fuel x (get L et) sf.TypeMeta = .ok r →
      ConvertValue L (fuel + 1) (.map (.map md kt et) (.cons key x rest))
          (.type (.struct d decls))
        = .panic "reflect.Set: the field cannot be set to the value")
    ∧ (∀ (v : Val) (S T : Ty),
      get L S = .Primitive S "" → get L T = .Primitive T "" → S ≠ T → S.Kind = T.Kind →
      T.Kind ≠ .string → T.Kind ≠ .ptr → T.Kind ≠ .interface →
      v.Type = some S → v.plain = true → v.IsZero = false → convertTo L v T = none →
      ConvertValue L (fuel + 1) v (.type T)
        = .panic "reflect.Value.Convert: value cannot be converted") :=
  ⟨fun v K hs hK => scalar_returns L fuel v K hs hK,
    fun d decls md kt et key x rest sf r hT hf he hc =>
      ConvertValue_unexported_field L fuel d decls md kt et key x rest sf r hT hf he hc,
    fun v S T hS hT hne hk hks hkp hki hv hp hz hc =>
      ConvertValue_unconvertible_primitive L fuel v S T hS hT hne hk hks hkp hki hv hp hz hc⟩

/-- C20, witness: the string `abc` converted to kind `int` returns; the map with the key `name`
converted to `StructU`, whose field `name` is not exported, panics; a `time.Time`-like value
that is not zero, converted to the primitive-classified struct type `Decimal`, panics. -/
theorem C20_panics_and_scalar_safety_witness :
    (ConvertValue asciiLib 2 (.str (builtin .string) "abc") (.kind .int)).returns = true
    ∧ ConvertValue asciiLib 2
        (.map (.map none (builtin .string) emptyInterface)
          (.cons (.str (builtin .string) "name")
            (.iface emptyInterface (.str (builtin .string) "x")) .nil))
        (.type (.struct ⟨"StructU", "typemeta.StructU", [], []⟩
          (.cons ⟨"name", false, []⟩ (builtin .string) .nil)))
      = .panic "reflect.Set: the field cannot be set to the value"
    ∧ ConvertValue asciiLib 1
        (.struct TimeLike (.cons (.uint (builtin .uint64) 1) (.cons (.int (builtin .int64) 2) .nil)))
        (.type DecimalLike)
      = .panic "reflect.Value.Convert: value cannot be converted" :=
  ⟨(C20_panics_and_scalar_safety asciiLib 0).1 _ _ (by decide) (by decide),
    (C20_panics_and_scalar_safety asciiLib 1).2.1 ⟨"StructU", "typemeta.StructU", [], []⟩
      (.cons ⟨"name", false, []⟩ (builtin .string) .nil) none (builtin .string) emptyInterface
      (.str (builtin .string) "name") (.iface emptyInterface (.str (builtin .string) "x")) .nil
      ⟨fieldInfoOf asciiLib ⟨"name", false, []⟩ 0, get asciiLib (builtin .string)⟩
      (.str (builtin .string) "x") (by decide) (by decide) (by decide) (by decide),
    (C20_panics_and_scalar_safety asciiLib 0).2.2
      (.struct TimeLike (.cons (.uint (builtin .uint64) 1) (.cons (.int (builtin .int64) 2) .nil)))
      TimeLike DecimalLike (by decide) (by decide) (by decide) (by decide) (by decide)
      (by decide) (by decide) rfl rfl (by decide) (by decide)⟩

/-- C20 at the two failing inputs: the source values are valid and the destination descriptors
are those of the schema, yet the conversion of a map with the key `name` to `StructU`, whose
field `name` is not exported, panics, and so does the conversion of a `time.Time`-like value
that is not zero to `Decimal`, another record type classified as primitive. -/
theorem C20_unexported_field_and_unconvertible_type :
    (Val.map mapStringAny (.cons (.str (builtin .string) "name")
        (.iface emptyInterface (.str (builtin .string) "x")) .nil)).IsValid = true
    ∧ (get asciiLib StructU).FieldByName "name"
      = some ⟨fieldInfoOf asciiLib ⟨"name", false, []⟩ 0, get asciiLib (builtin .string)⟩
    ∧ (fieldInfoOf asciiLib ⟨"name", false, []⟩ 0).Private = true
    ∧ ConvertValue asciiLib 2
        (.map mapStringAny (.cons (.str (builtin .string) "name")
          (.iface emptyInterface (.str (builtin .string) "x")) .nil))
        (.type StructU)
      = .panic "reflect.Set: the field cannot be set to the value"
    ∧ get asciiLib TimeLike = .Primitive TimeLike ""
    ∧ get asciiLib DecimalLike = .Primitive DecimalLike ""
    ∧ TimeLike.Kind = DecimalLike.Kind
    ∧ ConvertValue asciiLib 2
        (.struct TimeLike (.cons (.uint (builtin .uint64) 1) (.cons (.int (builtin .int64) 2) .nil)))
        (.type DecimalLike)
      = .panic "reflect.Value.Convert: value cannot be converted" := by
  decide

/-! ## The claims C21 to C30 -/

/-- C21 (amended). Parse failure: for every string that is not empty and fails to parse as the
numeric kind of the destination (by `strconv.ParseInt` for a signed integer kind, by
`strconv.ParseUint` for an unsigned one, by `strconv.ParseFloat` for a float kind), the
conversion fails and the error message is the string itself, followed by ` not assignable to `
and the display name of the destination type: it names the source value and the destination
descriptor. -/
theorem C21_parse_failure_names_value (L : Lib) (fuel : Nat) (s : String)
    (ds d : Option Decl) (k : Kind) (hs : s.length ≠ 0) :
    (k.isInt = true → ParseInt s = none →
      ConvertValue L (fuel + 1) (.str (.basic .string ds) s) (.type (.basic k d))
        = .err (.str (.basic .string ds) s)
            (s ++ " not assignable to " ++ (get L (.basic k d)).Str))
    ∧ (k.isUint = true → ParseUint s = none →
      ConvertValue L (fuel + 1) (.str (.basic .string ds) s) (.type (.basic k d))
        = .err (.str (.basic .string ds) s)
            (s ++ " not assignable to " ++ (get L (.basic k d)).Str))
    ∧ (k.isFloat = true → L.parseFloat s = none →
      ConvertValue L (fuel + 1) (.str (.basic .string ds) s) (.type (.basic k d))
        = .err (.str (.basic .string ds) s)
            (s ++ " not assignable to " ++ (get L (.basic k d)).Str)) := by
  refine ⟨?_, ?_, ?_⟩
  · intro hk hp
    simp only [ConvertValue, Val.Type, Get, get]
    rw [convertValue_str_to_int L fuel s k ds d hk hs, hp]
    rfl
  · intro hk hp
    simp only [ConvertValue, Val.Type, Get, get]
    rw [convertValue_str_to_uint L fuel s k ds d hk hs, hp]
    rfl
  · intro hk hp
    simp only [ConvertValue, Val.Type, Get, get]
    rw [convertValue_str_to_float_err L fuel s k ds d hk hs hp]
    rfl

/-- C21, witness: the string `abc` fails to parse as `int`, as `uint` and as `float64`, and the
messages are `abc not assignable to int`, `abc not assignable to uint` and
`abc not assignable to float64`. -/
theorem C21_parse_failure_names_value_witness :
    ConvertValue asciiLib 1 (.str (builtin .string) "abc") (.type (builtin .int))
      = .err (.str (builtin .string) "abc") "abc not assignable to int"
    ∧ ConvertValue asciiLib 1 (.str (builtin .string) "abc") (.type (builtin .uint))
      = .err (.str (builtin .string) "abc") "abc not assignable to uint"
    ∧ ConvertValue asciiLib 1 (.str (builtin .string) "abc") (.type (builtin .float64))
      = .err (.str (builtin .string) "abc") "abc not assignable to float64" :=
  ⟨(C21_parse_failure_names_value asciiLib 0 "abc" none none .int (by decide)).1
      (by decide) (by decide),
    (C21_parse_failure_names_value asciiLib 0 "abc" none none .uint (by decide)).2.1
      (by decide) (by decide),
    (C21_parse_failure_names_value asciiLib 0 "abc" none none .float64 (by decide)).2.2
      (by decide) (by decide)⟩

/-- C21, counterexample: the string `abc` fails to parse as `int`; the display name of the
source descriptor is `string`, and the message `abc not assignable to int` is not
`string not assignable to int` and does not contain `string` at all. The empty string fails
to parse as well and converts to 0 with no error. -/
theorem C21_counterexample_message_names_value :
    ParseInt "abc" = none
    ∧ (get asciiLib (builtin .string)).Str = "string"
    ∧ ConvertValue asciiLib 1 (.str (builtin .string) "abc") (.type (builtin .int))
      = .err (.str (builtin .string) "abc") "abc not assignable to int"
    ∧ "abc not assignable to int" ≠ notAssignibleError (get asciiLib (builtin .string))
        (get asciiLib (builtin .int))
    ∧ ¬ ("string".data <:+: "abc not assignable to int".data)
    ∧ ParseInt "" = none
    ∧ ConvertValue asciiLib 2 (.str (builtin .string) "") (.type (builtin .int))
      = .ok (.int (builtin .int) 0) := by
  decide

/-- C22 (what the code does). Nested failures. When the value of a map entry fails to convert
in a map-to-map conversion, the error of the enclosing conversion names the key (rendered by
`fmt.Sprint`) and ends with the full message of the error of the value; when it fails in a
map-to-struct conversion, the error names the key and the field (name and type) and ends with
the full message of the error of the value. When an element of a slice fails to convert, the
error of the enclosing conversion does NOT carry the index of the element: it is the message
of the error of the element, unchanged. In each case the entries or elements visited before
are taken to be converted and stored. -/
theorem C22_nested_failures (L : Lib) (fuel : Nat) :
    (∀ (d d2 : Option Decl) (kt et kt2 et2 : Ty) (pre ys : List (Val × Val)) (k x : Val)
        (post : List (Val × Val)) (ev : Val) (msg : String),
      (kt ≠ kt2 ∨ et ≠ et2) →
      List.Forall₂ (storesEntry L (convertValue L fuel) kt et kt2 et2) pre ys →
      (ys.map Prod.fst).Nodup →
      (kt ≠ kt2 → ∃ rk, convertValue L fuel k (get L kt) (get L kt2) = .ok rk) →
      convertValue L fuel x (get L et) (get L et2) = .err ev msg →
      ConvertValue L (fuel + 1) (.map (.map d kt et) (Entries.ofList (pre ++ (k, x) :: post)))
          (.type (.map d2 kt2 et2))
        = .err (.map (.map d kt et) (Entries.ofList (pre ++ (k, x) :: post)))
            ("could not convert value of key \"" ++ Sprint L k ++ "\" to \""
              ++ (get L et2).Str ++ "\". " ++ msg))
    ∧ (∀ (d : Decl) (decls : FieldList) (md : Option Decl) (kt et : Ty)
        (pre : List (Val × Val)) (iys : List (Nat × Val)) (k x : Val) (post : List (Val × Val))
        (sf : StructField) (ev : Val) (msg : String),
      (Ty.struct d decls).Implements primitiveType = false →
      List.Forall₂ (fun e iy => ∃ sf r ft,
        (get L (.struct d decls)).FieldByName e.1.GoString = some sf ∧ sf.info.Index = iy.1 ∧
        exported L sf.info.Name = true ∧ sf.TypeMeta.Type = some ft ∧
        convertValue L fuel e.2 (get L et) sf.TypeMeta = .ok r ∧ assignTo r ft = some iy.2)
        pre iys →
      (get L (.struct d decls)).FieldByName k.GoString = some sf →
      convertValue L fuel x (get L et) sf.TypeMeta = .err ev msg →
      ConvertValue L (fuel + 1) (.map (.map md kt et) (Entries.ofList (pre ++ (k, x) :: post)))
          (.type (.struct d decls))
        = .err (.map (.map md kt et) (Entries.ofList (pre ++ (k, x) :: post)))
            ("could not convert value of key \"" ++ Sprint L k ++ "\" to field \""
              ++ sf.info.Name ++ ": " ++ sf.TypeMeta.Str ++ "\". " ++ msg))
    ∧ (∀ (d d2 : Option Decl) (et et2 : Ty) (pre ys : List Val) (x : Val) (post : List Val)
        (ev : Val) (msg : String),
      Ty.slice d et ≠ Ty.slice d2 et2 →
      List.Forall₂ (fun x y => ∃ r, convertValue L fuel x (get L et) (get L et2) = .ok r
        ∧ assignTo r et2 = some y) pre ys →
      convertValue L fuel x (get L et) (get L et2) = .err ev msg →
      ConvertValue L (fuel + 1) (.slice (.slice d et) (Vals.ofList (pre ++ x :: post)))
          (.type (.slice d2 et2))
        = .err (.slice (.slice d et) (Vals.ofList (pre ++ x :: post))) msg) := by
  refine ⟨?_, ?_, ?_⟩
  · intro d d2 kt et kt2 et2 pre ys k x post ev msg hne h hnd hk hval
    exact ConvertValue_map_value_err L fuel d d2 kt et kt2 et2 hne pre ys k x post ev msg h hnd
      hk hval
  · intro d decls md kt et pre iys k x post sf ev msg hT h hk hx
    have := ConvertValue_struct_field_err L fuel d decls md kt et hT pre iys k x post sf ev msg
      h hk hx
    simpa only [StructField.Str, String.append_assoc] using this
  · intro d d2 et et2 pre ys x post ev msg hne h hx
    exact ConvertValue_slice_elem_err L fuel d d2 et et2 hne pre ys x post ev msg h hx

/-- C22, witness: the map from `a` to `x` fails for `map[string]int` with
`could not convert value of key "a" to "int". x not assignable to int`; it fails for the
struct with the field `Active bool` and the key `Active` with
`could not convert value of key "Active" to field "Active: bool". x not assignable to bool`;
and the slice of `1` and `x` fails for `[]int` with `x not assignable to int`. -/
theorem C22_nested_failures_witness :
    ConvertValue asciiLib 2
        (.map (.map none (builtin .string) (builtin .string))
          (Entries.ofList ([] ++ (.str (builtin .string) "a", .str (builtin .string) "x") :: [])))
        (.type (.map none (builtin .string) (builtin .int)))
      = .err (.map (.map none (builtin .string) (builtin .string))
          (Entries.ofList ([] ++ (.str (builtin .string) "a", .str (builtin .string) "x") :: [])))
          ("could not convert value of key \"" ++ Sprint asciiLib (.str (builtin .string) "a")
            ++ "\" to \"" ++ (get asciiLib (builtin .int)).Str ++ "\". "
            ++ "x not assignable to int")
    ∧ ConvertValue asciiLib 2
        (.map (.map none (builtin .string) (builtin .string))
          (Entries.ofList
            ([] ++ (.str (builtin .string) "Active", .str (builtin .string) "x") :: [])))
        (.type StructA)
      = .err (.map (.map none (builtin .string) (builtin .string))
          (Entries.ofList
            ([] ++ (.str (builtin .string) "Active", .str (builtin .string) "x") :: [])))
          ("could not convert value of key \""
            ++ Sprint asciiLib (.str (builtin .string) "Active") ++ "\" to field \""
            ++ "Active" ++ ": " ++ (get asciiLib (builtin .bool)).Str ++ "\". "
            ++ "x not assignable to bool")
    ∧ ConvertValue asciiLib 2
        (.slice (.slice none (builtin .string))
          (Vals.ofList ([.str (builtin .string) "1"] ++ .str (builtin .string) "x" :: [])))
        (.type (.slice none (builtin .int)))
      = .err (.slice (.slice none (builtin .string))
          (Vals.ofList ([.str (builtin .string) "1"] ++ .str (builtin .string) "x" :: [])))
          "x not assignable to int" :=
  ⟨(C22_nested_failures asciiLib 1).1 none none (builtin .string) (builtin .string)
      (builtin .string) (builtin .int) [] [] (.str (builtin .string) "a")
      (.str (builtin .string) "x") [] (.str (builtin .string) "x") "x not assignable to int"
      (Or.inr (by decide)) List.Forall₂.nil (by decide) (fun h => absurd rfl h) (by decide),
    (C22_nested_failures asciiLib 1).2.1 ⟨"StructA", "typemeta.StructA", [], []⟩
      (.cons ⟨"Name", false, []⟩ (builtin .string)
        (.cons ⟨"Active", false, []⟩ (builtin .bool) .nil))
      none (builtin .string) (builtin .string) [] [] (.str (builtin .string) "Active")
      (.str (builtin .string) "x") []
      ⟨fieldInfoOf asciiLib ⟨"Active", false, []⟩ 1, get asciiLib (builtin .bool)⟩
      (.str (builtin .string) "x") "x not assignable to bool"
      (by decide) List.Forall₂.nil (by decide) (by decide),
    (C22_nested_failures asciiLib 1).2.2 none none (builtin .string) (builtin .int)
      [.str (builtin .string) "1"] [.int (builtin .int) 1] (.str (builtin .string) "x") []
      (.str (builtin .string) "x") "x not assignable to int" (by decide)
      (List.Forall₂.cons ⟨.int (builtin .int) 1, by decide, by decide⟩ List.Forall₂.nil)
      (by decide)⟩

/-- C22 at the failing input: in the slice of the strings `1` and `x` the element at index 1
fails to convert to `int`; the conversion of the slice to `[]int` fails with the message
`x not assignable to int`, which is the message of the element and does not contain the
index 1. -/
theorem C22_slice_element_without_index :
    convertValue asciiLib 1 (.str (builtin .string) "x") (get asciiLib (builtin .string))
        (get asciiLib (builtin .int))
      = .err (.str (builtin .string) "x") "x not assignable to int"
    ∧ ConvertValue asciiLib 2
        (.slice (.slice none (builtin .string))
          (.cons (.str (builtin .string) "1") (.cons (.str (builtin .string) "x") .nil)))
        (.type (.slice none (builtin .int)))
      = .err (.slice (.slice none (builtin .string))
          (.cons (.str (builtin .string) "1") (.cons (.str (builtin .string) "x") .nil)))
          "x not assignable to int"
    ∧ ¬ ("1".data <:+: "x not assignable to int".data) := by
  decide

/-- C23. Singleton descriptors: in every state that a schema reaches from `NewSchema` by calls
of `get`, a request for a type that the map `types` has a descriptor for returns that
descriptor and leaves the state as it is; a request that returns leaves every entry of the map
as it was, with the object it holds; and after a request has returned a descriptor, every later
request for the same type returns the same object. -/
theorem C23_singleton_descriptors (L : Lib) (T : Nat → TypeDef) (s : Schema)
    (hs : Schema.Steps L T NewSchema s) (rtyp : Option Nat) :
    (∀ a fuel, s.typesGet rtyp = some a → Schema.get L T (fuel + 1) s rtyp = some (s, a))
    ∧ (∀ fuel s1 a, Schema.get L T fuel s rtyp = some (s1, a) →
      (∀ k b, s.typesGet k = some b →
        s1.typesGet k = some b ∧ s1.objects[b]? = s.objects[b]?)
      ∧ (∀ s2, Schema.Steps L T s1 s2 → ∀ fuel2,
        Schema.get L T (fuel2 + 1) s2 rtyp = some (s2, a))) := by
  have hw := (steps_spec L T _ _ hs NewSchema_wf).1
  refine ⟨?_, ?_⟩
  · intro a fuel h
    simp only [Schema.get, h]
  · intro fuel s1 a h
    have hg := get_spec L T fuel s rtyp s1 a h hw
    refine ⟨fun k b hk => ⟨hg.ext.mono k b hk, hg.frame b (hw k b hk)⟩, ?_⟩
    intro s2 h2 fuel2
    have := (steps_spec L T _ _ h2 hg.wf).2.1.mono rtyp a hg.cached
    simp only [Schema.get, this]

/-- C23, witness: in the schema in which the descriptor of `Node` was requested, the request
for `*Node` returns the object at the address 2 and leaves the state as it is; and the request
for `Node` in a new schema returns the object at 0, which every later request for `Node`
returns. -/
theorem C23_singleton_descriptors_witness :
    Schema.get asciiLib nodeTypes (0 + 1) nodeSchema (some 1) = some (nodeSchema, 2)
    ∧ ((∀ k b, NewSchema.typesGet k = some b →
        nodeSchema.typesGet k = some b ∧ nodeSchema.objects[b]? = NewSchema.objects[b]?)
      ∧ (∀ s2, Schema.Steps asciiLib nodeTypes nodeSchema s2 → ∀ fuel2,
        Schema.get asciiLib nodeTypes (fuel2 + 1) s2 (some 0) = some (s2, 0))) :=
  ⟨(C23_singleton_descriptors asciiLib nodeTypes nodeSchema
      (.step NewSchema NewSchema nodeSchema 4 (some 0) 0 (.refl _) (by decide)) (some 1)).1
      2 0 (by decide),
    (C23_singleton_descriptors asciiLib nodeTypes NewSchema (.refl _) (some 0)).2
      4 nodeSchema 0 (by decide)⟩

/-- C24. Cyclic type graphs terminate: for the types with a number below `n`, when they refer to
such types only (to themselves and to each other as they may), a request for one of them in a
state that the schema has reached returns, with a recursion of depth `n + 1` at most; the
descriptor returned is the one that the map `types` holds for the type afterwards; every
descriptor that the map holds is then complete, the descriptors that it refers to being the
ones that the map holds for the element, key and field types; so the `Elem` of the descriptor
of every pointer type to the type requested is the very descriptor returned. -/
theorem C24_cyclic_types_terminate (L : Lib) (T : Nat → TypeDef) (n : Nat) (s : Schema)
    (t fuel : Nat) (hT : Closed T n) (hs : Schema.Steps L T NewSchema s) (ht : t < n)
    (hf : n < fuel) :
    ∃ s1 a, Schema.get L T fuel s (some t) = some (s1, a)
      ∧ s1.typesGet (some t) = some a
      ∧ s1.coherent L T
      ∧ (∀ p pa, T p = .ptr t → s1.typesGet (some p) = some pa →
        s1.objects[pa]? = some (.Ptr (some a) p)) := by
  obtain ⟨hw, _, _, hc⟩ := steps_spec L T _ _ hs NewSchema_wf
  obtain ⟨s1, a, h⟩ := get_terminates L T n hT fuel s (some t) hw
    (fun t2 h2 => by cases h2; exact ht) (lt_of_le_of_lt (uncached_le s n) hf)
  have hg := get_spec L T fuel s (some t) s1 a h hw
  have hcoh := hg.coh [] (hc [] (NewSchema_coherent L T))
  refine ⟨s1, a, h, hg.cached, (coherent_iff L T s1).2 hcoh, ?_⟩
  intro p pa hp hpa
  obtain ⟨d, h1, h2⟩ := hcoh (some p) pa hpa (by simp)
  simp only [Schema.descOf, hp, hg.cached] at h1
  rw [h2, ← h1]
  rfl

/-- C24, witness: for the types `Node`, `*Node` and `string`, where `Node` has a field of type
`*Node`, the request for `Node` in a new schema returns. -/
theorem C24_cyclic_types_terminate_witness :
    ∃ s1 a, Schema.get asciiLib nodeTypes 4 NewSchema (some 0) = some (s1, a)
      ∧ s1.typesGet (some 0) = some a
      ∧ s1.coherent asciiLib nodeTypes
      ∧ (∀ p pa, nodeTypes p = .ptr 0 → s1.typesGet (some p) = some pa →
        s1.objects[pa]? = some (.Ptr (some a) p)) :=
  C24_cyclic_types_terminate asciiLib nodeTypes 3 NewSchema 0 4
    (by
      intro t ht r hr
      interval_cases t <;> simp [nodeTypes, TypeDef.refs] at hr <;> omega)
    (.refl _) (by decide) (by decide)

/-- C24 at the types `Node`, `*Node` and `string`: the request for `Node` returns the object at
the address 0; its field `Next` holds the object at 2, the descriptor of `*Node`, and the `Elem`
of that is the object at 0 again. A recursion of depth 2 does not reach the end. -/
theorem C24_node_descriptor :
    Schema.get asciiLib nodeTypes 4 NewSchema (some 0) = some (nodeSchema, 0)
    ∧ nodeSchema.objects
      = [.Struct [⟨fieldInfoOf asciiLib ⟨"Value", false, []⟩ 0, 1⟩,
            ⟨fieldInfoOf asciiLib ⟨"Next", false, []⟩ 1, 2⟩] 0,
          .Primitive 2, .Ptr (some 0) 1]
    ∧ nodeSchema.typesGet (some 0) = some 0
    ∧ Schema.get asciiLib nodeTypes 2 NewSchema (some 0) = none := by
  decide

/-- C25. Serialization alias of a struct field: `JSONName` is the name of the json tag when
the tag has a name that is neither empty nor `-`; it is empty and the field is `JSONExcluded`
when the name of the tag is `-`; it is the name of the field when the json tag has an empty
name, or when there is no json tag and the field is not private; and it is empty when there
is no json tag and the field is private. -/
theorem C25_json_name (L : Lib) (rsf : FieldDecl) (fieldIndex : Nat) :
    (∀ jsonTag, tagsGet rsf.tags "json" = some jsonTag → jsonTag.name ≠ "" →
        jsonTag.name ≠ "-" → (fieldInfoOf L rsf fieldIndex).JSONName = jsonTag.name)
    ∧ (∀ jsonTag, tagsGet rsf.tags "json" = some jsonTag → jsonTag.name = "-" →
        (fieldInfoOf L rsf fieldIndex).JSONName = ""
        ∧ (fieldInfoOf L rsf fieldIndex).JSONExcluded = true)
    ∧ (∀ jsonTag, tagsGet rsf.tags "json" = some jsonTag → jsonTag.name = "" →
        (fieldInfoOf L rsf fieldIndex).JSONName = rsf.name)
    ∧ (tagsGet rsf.tags "json" = none → (fieldInfoOf L rsf fieldIndex).Private = false →
        (fieldInfoOf L rsf fieldIndex).JSONName = rsf.name)
    ∧ (tagsGet rsf.tags "json" = none → (fieldInfoOf L rsf fieldIndex).Private = true →
        (fieldInfoOf L rsf fieldIndex).JSONName = "") := by
  refine ⟨?_, ?_, ?_, ?_, ?_⟩
  · intro t ht h1 h2
    rw [fieldInfoOf_JSONName, ht]
    simp [h1, h2]
  · intro t ht h1
    rw [fieldInfoOf_JSONName, fieldInfoOf_JSONExcluded, ht]
    simp [h1]
  · intro t ht h1
    rw [fieldInfoOf_JSONName, ht]
    simp [h1]
  · intro ht hp
    rw [fieldInfoOf_JSONName, ht]
    simp [hp]
  · intro ht hp
    rw [fieldInfoOf_JSONName, ht]
    simp [hp]

/-- C25, witness: the fields of the test. `String` with the tag `json:"string"` has the alias
`string`; `Record` with the tag `json:"-"` has no alias and is excluded; a field `Bool` with
the tag `json:",omitempty"` has the alias `Bool`; `PublicKey` without tag has the alias
`PublicKey`; `privateKey` without tag has no alias. -/
theorem C25_json_name_witness :
    (fieldInfoOf asciiLib ⟨"String", false, [⟨"json", "string", []⟩,
        ⟨"description", "A string field", []⟩]⟩ 0).JSONName = "string"
    ∧ ((fieldInfoOf asciiLib ⟨"Record", false, [⟨"json", "-", []⟩]⟩ 2).JSONName = ""
      ∧ (fieldInfoOf asciiLib ⟨"Record", false, [⟨"json", "-", []⟩]⟩ 2).JSONExcluded = true)
    ∧ (fieldInfoOf asciiLib ⟨"Bool", false, [⟨"json", "", ["omitempty"]⟩]⟩ 1).JSONName = "Bool"
    ∧ (fieldInfoOf asciiLib ⟨"PublicKey", false, []⟩ 4).JSONName = "PublicKey"
    ∧ (fieldInfoOf asciiLib ⟨"privateKey", false, []⟩ 3).JSONName = "" :=
  ⟨(C25_json_name asciiLib ⟨"String", false, [⟨"json", "string", []⟩,
        ⟨"description", "A string field", []⟩]⟩ 0).1 ⟨"json", "string", []⟩ (by decide)
        (by decide) (by decide),
    (C25_json_name asciiLib ⟨"Record", false, [⟨"json", "-", []⟩]⟩ 2).2.1 ⟨"json", "-", []⟩
      (by decide) (by decide),
    (C25_json_name asciiLib ⟨"Bool", false, [⟨"json", "", ["omitempty"]⟩]⟩ 1).2.2.1
      ⟨"json", "", ["omitempty"]⟩ (by decide) (by decide),
    (C25_json_name asciiLib ⟨"PublicKey", false, []⟩ 4).2.2.2.1 (by decide) (by decide),
    (C25_json_name asciiLib ⟨"privateKey", false, []⟩ 3).2.2.2.2 (by decide) (by decide)⟩

/-- C26. Field privacy: for a field whose name starts with the character `c`, `Private` is
true exactly when `c` is a lowercase letter or the underscore, and every field that is
`Private` is `JSONExcluded`. -/
theorem C26_field_privacy (L : Lib) (rsf : FieldDecl) (fieldIndex : Nat) (c : Char)
    (cs : List Char) (hn : rsf.name.data = c :: cs) :
    ((fieldInfoOf L rsf fieldIndex).Private = true ↔ (L.isLower c = true ∨ c = '_'))
    ∧ ((fieldInfoOf L rsf fieldIndex).Private = true →
      (fieldInfoOf L rsf fieldIndex).JSONExcluded = true) := by
  refine ⟨?_, ?_⟩
  · rw [fieldInfoOf_Private, hn]
    simp [underscoreChar]
  · intro h
    rw [fieldInfoOf_JSONExcluded, h]
    rfl

/-- C26, witness: the field `privateKey` is private and excluded, by its first character
`p`. -/
theorem C26_field_privacy_witness :
    "privateKey".data = 'p' :: "rivateKey".data
    ∧ ((fieldInfoOf asciiLib ⟨"privateKey", false, []⟩ 3).Private = true
        ↔ (asciiLib.isLower 'p' = true ∨ 'p' = '_'))
    ∧ ((fieldInfoOf asciiLib ⟨"privateKey", false, []⟩ 3).Private = true →
      (fieldInfoOf asciiLib ⟨"privateKey", false, []⟩ 3).JSONExcluded = true) :=
  ⟨rfl, C26_field_privacy asciiLib ⟨"privateKey", false, []⟩ 3 'p' "rivateKey".data rfl⟩

/-- C27 (what the code does). `StructField.JSONNonNull` is true exactly when the field has no
omit-if-empty flag and its descriptor is NOT JSON-non-null: the descriptor's answer enters
negated. So a field whose descriptor is JSON-non-null (a primitive or a struct) never reports
true, and a field without the flag whose descriptor is not JSON-non-null (a pointer, slice,
map or interface) reports true. -/
theorem C27_JSONNonNull_negates_descriptor (sf : StructField) :
    (sf.JSONNonNull = true ↔ (sf.info.JSONOmitEmpty = false ∧ sf.TypeMeta.JSONNonNull = false))
    ∧ (sf.TypeMeta.JSONNonNull = true → sf.JSONNonNull = false)
    ∧ (sf.info.JSONOmitEmpty = false → sf.TypeMeta.JSONNonNull = false →
      sf.JSONNonNull = true) := by
  refine ⟨?_, ?_, ?_⟩
  · simp [StructField.JSONNonNull]
  · intro h
    simp [StructField.JSONNonNull, h]
  · intro h1 h2
    simp [StructField.JSONNonNull, h1, h2]

/-- C27, witness: the field `PublicKey string` without omitempty, whose descriptor is
JSON-non-null, reports false, and the field `TimePtr *string` without omitempty, whose
descriptor is not, reports true. -/
theorem C27_JSONNonNull_negates_descriptor_witness :
    (StructField.mk (fieldInfoOf asciiLib ⟨"PublicKey", false, []⟩ 4)
        (get asciiLib (builtin .string))).JSONNonNull = false
    ∧ (StructField.mk (fieldInfoOf asciiLib ⟨"TimePtr", false, []⟩ 6)
        (get asciiLib (.ptr (builtin .string)))).JSONNonNull = true :=
  ⟨(C27_JSONNonNull_negates_descriptor
      ⟨fieldInfoOf asciiLib ⟨"PublicKey", false, []⟩ 4, get asciiLib (builtin .string)⟩).2.1
      (by decide),
    (C27_JSONNonNull_negates_descriptor
      ⟨fieldInfoOf asciiLib ⟨"TimePtr", false, []⟩ 6,
        get asciiLib (.ptr (builtin .string))⟩).2.2 (by decide) (by decide)⟩

/-- C27 at the inputs of the claim: a field `PublicKey string` without omitempty reports false,
although its descriptor is JSON-non-null, and a field `TimePtr *string` without omitempty
reports true, although its descriptor is not. -/
theorem C27_string_field_and_pointer_field :
    (StructField.mk (fieldInfoOf asciiLib ⟨"PublicKey", false, []⟩ 4)
        (get asciiLib (builtin .string))).JSONNonNull = false
    ∧ (fieldInfoOf asciiLib ⟨"PublicKey", false, []⟩ 4).JSONOmitEmpty = false
    ∧ (get asciiLib (builtin .string)).JSONNonNull = true
    ∧ (StructField.mk (fieldInfoOf asciiLib ⟨"TimePtr", false, []⟩ 6)
        (get asciiLib (.ptr (builtin .string)))).JSONNonNull = true
    ∧ (get asciiLib (.ptr (builtin .string))).JSONNonNull = false := by
  decide

/-- C28 (amended). Get by kind: for every kind other than `reflect.Array` that has a default
type in the table `kindTypes`, `Get` returns a descriptor whose `Kind` is that kind; for
`reflect.Array` it returns the descriptor of the slice type `[]interface{}`, whose `Kind` is
`reflect.Slice`; for a kind without default type `Get` panics. -/
theorem C28_get_by_kind (L : Lib) (k : Kind) :
    (kindTypes k ≠ none → k ≠ .array → ∃ tm, Get L (.kind k) = some tm ∧ tm.Kind = k)
    ∧ (k = .array → ∃ tm, Get L (.kind k) = some tm ∧ tm.Kind = .slice)
    ∧ (kindTypes k = none → Get L (.kind k) = none) := by
  refine ⟨?_, ?_, ?_⟩
  · intro h1 h2
    cases k <;> simp [kindTypes] at h1 h2 ⊢ <;>
      simp [Get, kindTypes, get, getNil, TypeMeta.Kind, Ty.Kind]
  · intro h
    subst h
    simp [Get, kindTypes, get, TypeMeta.Kind]
  · intro h
    cases k <;> simp [kindTypes] at h ⊢ <;> simp [Get, kindTypes]

/-- C28, witness: `Get(reflect.Int)` has kind int, `Get(reflect.Array)` has kind slice, and
`Get(reflect.Struct)` panics. -/
theorem C28_get_by_kind_witness :
    (∃ tm, Get asciiLib (.kind .int) = some tm ∧ tm.Kind = .int)
    ∧ (∃ tm, Get asciiLib (.kind .array) = some tm ∧ tm.Kind = .slice)
    ∧ Get asciiLib (.kind .struct) = none :=
  ⟨(C28_get_by_kind asciiLib .int).1 (by decide) (by decide),
    (C28_get_by_kind asciiLib .array).2.1 rfl,
    (C28_get_by_kind asciiLib .struct).2.2 (by decide)⟩

/-- C28, counterexample: `reflect.Array` has a default type in the table, and the descriptor
that `Get` returns for it has the kind `reflect.Slice`, not `reflect.Array`. -/
theorem C28_counterexample_array :
    kindTypes .array ≠ none
    ∧ (Get asciiLib (.kind .array)).map TypeMeta.Kind = some .slice
    ∧ Kind.slice ≠ Kind.array := by
  decide

/-- C29. `StructOf` reaches the struct through wrappers: for every `*Struct` object `S` and every
descriptor built from it by `n` pointer, slice, array and map wrappers, `StructOf` returns `S`
itself, the object at the same address; and for a descriptor built by such wrappers from a
`*Primitive` or `*Interface` object it returns nil. `n + 1` calls of the recursion are enough. -/
theorem C29_StructOf_through_wrappers (s : Schema) (S n a fuel : Nat) (hw : Wraps s S n a) :
    (∀ Fields typ, s.objects[S]? = some (.Struct Fields typ) →
      StructOf s (n + 1 + fuel) (some a) = some (some S))
    ∧ (∀ typ, s.objects[S]? = some (.Primitive typ) →
      StructOf s (n + 1 + fuel) (some a) = some none)
    ∧ (∀ typ, s.objects[S]? = some (.Interface typ) →
      StructOf s (n + 1 + fuel) (some a) = some none) := by
  have h := StructOf_wraps s S n a hw fuel
  have h1 : 1 + fuel = fuel + 1 := by omega
  refine ⟨?_, ?_, ?_⟩
  · intro fs t hS
    rw [h, h1]; simp only [StructOf, hS]
  · intro t hS
    rw [h, h1]; simp only [StructOf, hS]
  · intro t hS
    rw [h, h1]; simp only [StructOf, hS]

/-- C29, witness: in the schema of `TestUtil`, `StructOf` of the descriptor of `*[]*StructA`
(built by three wrappers from the descriptor of `StructA` at the address 3) is that descriptor
at the address 3, and `StructOf` of the descriptor of `*string` is nil. -/
theorem C29_StructOf_through_wrappers_witness :
    StructOf utilSchema (3 + 1 + 0) (some 0) = some (some 3)
    ∧ StructOf utilSchema (1 + 1 + 0) (some 6) = some none :=
  ⟨(C29_StructOf_through_wrappers utilSchema 3 3 0 0
      (.succ 2 0 1 (.Ptr (some 1) 5) (by decide) rfl
        (.succ 1 1 2 (.Slice (some 2) 4) (by decide) rfl
          (.succ 0 2 3 (.Ptr (some 3) 3) (by decide) rfl .zero)))).1
      [⟨fieldInfoOf asciiLib ⟨"Name", false, []⟩ 0, 4⟩,
        ⟨fieldInfoOf asciiLib ⟨"Active", false, []⟩ 1, 5⟩] 0 (by decide),
    (C29_StructOf_through_wrappers utilSchema 4 1 6 0
      (.succ 0 6 4 (.Ptr (some 4) 6) (by decide) rfl .zero)).2.1 1 (by decide)⟩

/-- C30 (what the code does). `ElemOf` of a pointer descriptor is `ElemOf` of the `Elem` of the
pointer, not that `Elem`: for a pointer to a primitive or interface descriptor it is nil. For a
slice, array or map descriptor it is the `Elem` of the descriptor, and for a primitive, struct
or interface descriptor it is nil. -/
theorem C30_ElemOf_looks_through_pointers (s : Schema) (fuel : Nat) (t : Nat) :
    (∀ Elem typ, s.objects[t]? = some (.Ptr Elem typ) →
      ElemOf s (fuel + 1) (some t) = ElemOf s fuel Elem)
    ∧ (∀ e typ d, s.objects[t]? = some (.Ptr (some e) typ) → s.objects[e]? = some d →
      d.Elem = none → ElemOf s (fuel + 2) (some t) = some none)
    ∧ (∀ d Elem, s.objects[t]? = some d → (∀ e typ, d ≠ .Ptr e typ) → d.Elem = some Elem →
      ElemOf s (fuel + 1) (some t) = some Elem)
    ∧ (∀ d, s.objects[t]? = some d → d.Elem = none →
      ElemOf s (fuel + 1) (some t) = some none) := by
  refine ⟨?_, ?_, ?_, ?_⟩
  · intro Elem typ h
    simp only [ElemOf, h]
  · intro e typ d h he hd
    simp only [ElemOf, h, he]
    cases d <;> simp [Desc.Elem] at hd <;> rfl
  · intro d Elem h hn hd
    simp only [ElemOf, h]
    cases d <;> simp [Desc.Elem] at hd <;> subst hd
    · rfl
    · rfl
    · rfl
    · exact absurd rfl (hn _ _)
  · intro d h hd
    simp only [ElemOf, h]
    cases d <;> simp [Desc.Elem] at hd <;> rfl

/-- C30, witness: in the schema of `TestUtil` the descriptor of `*string` is at the address 6
and its `Elem` is the descriptor of `string` at the address 4; `ElemOf` of it is nil. -/
theorem C30_ElemOf_looks_through_pointers_witness :
    ElemOf utilSchema (0 + 2) (some 6) = some none :=
  (C30_ElemOf_looks_through_pointers utilSchema 0 6).2.1 4 6 (.Primitive 1) (by decide)
    (by decide) rfl

/-- C30 at two pointer descriptors of `TestUtil`: the `Elem` of the descriptor of `*string` is
the descriptor of `string`, and `ElemOf` returns nil; the `Elem` of the descriptor of
`*[]*StructA` is the descriptor of `[]*StructA` at the address 1, and `ElemOf` returns the
descriptor of `*StructA` at the address 2. -/
theorem C30_pointer_descriptors :
    utilSchema.objects[6]? = some (.Ptr (some 4) 6)
    ∧ ElemOf utilSchema 2 (some 6) = some none
    ∧ utilSchema.objects[0]? = some (.Ptr (some 1) 5)
    ∧ ElemOf utilSchema 2 (some 0) = some (some 2) := by
  decide

/-! ## The claims C31 to C40 -/

/-- C31 (what the code does). Enum first entry. For an enum made by `NewEnum` from a `[]string`
the first key is left empty, and `FirstEntry` returns the entry that a `range` over the map
visits first, whichever it is. For an enum made from a `[]interface{}` whose first item has a
rendering by `fmt.Sprint` that is not empty, `FirstEntry` returns the entry made from the first
item, in every order of visit. -/
theorem C31_first_entry (L : Lib) (name : String)
    (visit : List (String × Val) → List (String × Val)) :
    (∀ xs : List String, ∃ e values, NewEnum L name (stringSlice xs) = .ok e
      ∧ e.values = some values ∧ e.firstKey = ""
      ∧ e.FirstEntry visit = match visit values with
        | entry :: _ => (entry.1, some entry.2)
        | [] => ("", none))
    ∧ (∀ (iv : Val) (rest : List Val), Sprint L iv ≠ "" →
      ∃ e, NewEnum L name (.slice (.slice none emptyInterface) (Vals.ofList (iv :: rest))) = .ok e
        ∧ e.FirstEntry visit = (Sprint L iv, some (.str (builtin .string) (Sprint L iv)))) := by
  refine ⟨?_, ?_⟩
  · intro xs
    have ht : (stringSlice xs).Type = some (.slice none (builtin .string)) := rfl
    refine ⟨⟨name, some (builtin .string),
      some (enumOfStrings ((stringSlice xs).items.getD [])), ""⟩, _, ?_, rfl, rfl, ?_⟩
    · simp only [NewEnum, ht, if_true]
    · simp only [Enum.FirstEntry]
      rfl
  · intro iv rest h
    exact NewEnum_interfaces_first L name iv rest visit h

/-- C31, witness: the enum made from the `[]interface{}` of 7 and `x` has the first entry `7`,
also when a `range` visits the entries in the reverse order. -/
theorem C31_first_entry_witness :
    ∃ e, NewEnum asciiLib "E" (.slice (.slice none emptyInterface)
          (Vals.ofList (.iface emptyInterface (.int (builtin .int) 7)
            :: [.iface emptyInterface (.str (builtin .string) "x")]))) = .ok e
      ∧ e.FirstEntry List.reverse
        = (Sprint asciiLib (.iface emptyInterface (.int (builtin .int) 7)),
            some (.str (builtin .string)
              (Sprint asciiLib (.iface emptyInterface (.int (builtin .int) 7))))) :=
  (C31_first_entry asciiLib "E" List.reverse).2 (.iface emptyInterface (.int (builtin .int) 7))
    [.iface emptyInterface (.str (builtin .string) "x")] (by decide)

/-- C31 at a failing input: the enum made from the `[]string` of `a` and `b` has no first key;
when a `range` visits the entry of `b` first, `FirstEntry` returns the entry of `b`, not the
entry made from the first item `a`. -/
theorem C31_strings_first_entry_by_visit :
    NewEnum asciiLib "E" (stringSlice ["a", "b"])
      = .ok ⟨"E", some (builtin .string),
          some [("a", .str (builtin .string) "a"), ("b", .str (builtin .string) "b")], ""⟩
    ∧ Enum.FirstEntry List.reverse ⟨"E", some (builtin .string),
          some [("a", .str (builtin .string) "a"), ("b", .str (builtin .string) "b")], ""⟩
        = ("b", some (.str (builtin .string) "b"))
    ∧ Enum.FirstEntry id ⟨"E", some (builtin .string),
          some [("a", .str (builtin .string) "a"), ("b", .str (builtin .string) "b")], ""⟩
        = ("a", some (.str (builtin .string) "a")) := by
  refine ⟨?_, ?_, ?_⟩ <;> rfl

/-- C32 (what the code does). `NewEnum` with a nil value panics, for every name, with the
message `Unable to create enum <name> from value <nil>`: no enum is returned. A nil
`map[string]interface{}` does give an enum with that name and no values, to which `SetValue`
adds a value. -/
theorem C32_new_enum_nil_panics (L : Lib) (name : String) :
    NewEnum L name .invalid
      = .error ("Unable to create enum " ++ name ++ " from value " ++ "<nil>")
    ∧ NewEnum L name (.nilMap mapStringAny) = .ok ⟨name, some (builtin .string), none, ""⟩
    ∧ ∀ (key : String) (value : Val),
      (Enum.SetValue ⟨name, some (builtin .string), none, ""⟩ key value).values
        = some [(key, value)] := by
  refine ⟨?_, ?_, ?_⟩
  · rfl
  · rfl
  · intro key value
    rfl

/-- C33. `Enum.Parse` never matches: for every enum and every value, `Parse` returns nil and
false, and `Has` returns false. -/
theorem C33_parse_never_matches (e : Enum) (value : Val) :
    e.Parse value = (none, false) ∧ e.Has value = false := by
  unfold Enum.Has Enum.Parse
  cases e.values <;> exact ⟨rfl, rfl⟩

/-- C33 at an input: the enum made from the `[]string` of `a` and `b` does not have `a`, which
is the name and the value of one of its cases. -/
theorem C33_case_name_is_not_found :
    ∃ e, NewEnum asciiLib "E" (stringSlice ["a", "b"]) = .ok e
      ∧ enumGet (e.values.getD []) "a" = some (.str (builtin .string) "a")
      ∧ e.Parse (.str (builtin .string) "a") = (none, false)
      ∧ e.Has (.str (builtin .string) "a") = false :=
  ⟨⟨"E", some (builtin .string),
      some [("a", .str (builtin .string) "a"), ("b", .str (builtin .string) "b")], ""⟩,
    rfl, rfl, rfl, rfl⟩

/-- C34 (what the code does). `SetFieldElem` on the struct descriptor at `st` and an existing
field. When the descriptor of the field is a slice descriptor, the call returns with any
recursion budget of at least one: the field holds a new descriptor object, a copy of the slice
descriptor with the given element descriptor, every other field and every other object is
unchanged. When the descriptor of the field is a pointer descriptor (a pointer to a slice
also), the call never returns: `setElem` copies the pointer descriptor and calls itself on the
copy, so no recursion budget gives a result. -/
theorem C34_SetFieldElem (T : Nat → TypeDef) (s : Schema) (st : Nat)
    (Fields : List FieldObj) (typ : Nat) (fieldName : String) (field : FieldObj)
    (fieldElemType : Option Nat)
    (hs : s.objects[st]? = some (.Struct Fields typ))
    (hf : fieldObjByName Fields (numField T typ) fieldName = some field) :
    (∀ Elem styp fuel, s.objects[field.TypeMeta]? = some (.Slice Elem styp) →
      ∃ s1, SetFieldElem T (fuel + 1) s st fieldName fieldElemType = some (some s1)
        ∧ s1.objects[st]? = some (.Struct (Fields.map (fun f =>
            if f.info.Index = field.info.Index then
              { field with TypeMeta := s.objects.length } else f)) typ)
        ∧ s1.objects[s.objects.length]? = some (.Slice fieldElemType styp)
        ∧ (∀ a, a < s.objects.length → a ≠ st → s1.objects[a]? = s.objects[a]?)
        ∧ s1.objects.length = s.objects.length + 1
        ∧ s1.types = s.types)
    ∧ (∀ Elem ptyp, s.objects[field.TypeMeta]? = some (.Ptr Elem ptyp) →
      ∀ fuel, SetFieldElem T fuel s st fieldName fieldElemType = none) :=
  ⟨fun Elem styp fuel hp =>
      SetFieldElem_slice T s st Fields typ fieldName field Elem styp fieldElemType hs hf hp fuel,
    fun Elem ptyp hp fuel =>
      SetFieldElem_ptr_never T s st Fields typ fieldName field Elem ptyp fieldElemType hs hf hp
        fuel⟩

/-- C34, witness: in the schema with `Outer` the field `Refs *[]string` of the struct
descriptor at the address 0 has the pointer descriptor at the address 4; `SetFieldElem` with
the descriptor of `int` gives no result with a recursion budget of 1000. -/
theorem C34_SetFieldElem_witness :
    SetFieldElem outerTypes 1000 outerSchema 0 "Refs" (some 5) = none :=
  (C34_SetFieldElem outerTypes outerSchema 0 outerFields 0 "Refs"
    ⟨⟨"Refs", 2, false, false, "Refs", false, false, "", none, []⟩, 4⟩ (some 5) (by decide)
    (by decide)).2 (some 3) 4 (by decide) 1000

/-- C34 at the two fields of `Outer`: for the field `Tags []string` the call returns, the field
then holds the new descriptor at the address 6, a slice descriptor with the descriptor of `int`
as element, and the descriptor of `[]string` at the address 3 is as before; for the field
`Refs *[]string` the call gives no result with any recursion budget. -/
theorem C34_slice_field_and_pointer_field :
    (∃ s1, SetFieldElem outerTypes 1 outerSchema 0 "Tags" (some 5) = some (some s1)
      ∧ s1.Field 0 1 = some ⟨⟨"Tags", 1, false, false, "Tags", false, false, "", none, []⟩, 6⟩
      ∧ s1.objects[6]? = some (.Slice (some 5) 3)
      ∧ s1.objects[3]? = some (.Slice (some 2) 3)
      ∧ s1.Field 0 2 = outerSchema.Field 0 2)
    ∧ (∀ fuel, SetFieldElem outerTypes fuel outerSchema 0 "Refs" (some 5) = none) :=
  ⟨⟨(outerSchema.copy (.Slice (some 2) 3)).update 6 (Desc.assignElem (some 5)) |>.update 0
      (Desc.putField ⟨⟨"Tags", 1, false, false, "Tags", false, false, "", none, []⟩, 6⟩),
    by decide, by decide, by decide, by decide, by decide⟩,
   SetFieldElem_ptr_never outerTypes outerSchema 0 outerFields 0 "Refs"
    ⟨⟨"Refs", 2, false, false, "Refs", false, false, "", none, []⟩, 4⟩ (some 3) 4 (some 5)
    (by decide) (by decide) (by decide)⟩

/-- C35. Nil dynamic value: a source of interface kind that holds no value converts, for every
destination descriptor that has a type, to the zero value of that type with no error, whatever
the source descriptor is; so `ConvertValue` of a nil interface value gives the zero value of
the destination type, a slice of interface type whose elements are all nil converts to the
slice of as many zero values, and the error `received interface value with nil type` is not
the result. -/
theorem C35_nil_dynamic_value (L : Lib) (fuel : Nat) (it : Ty) (toType : Ty) :
    (∀ valueTypeMeta toTypeMeta : TypeMeta, toTypeMeta.Type = some toType →
      convertValue L (fuel + 1) (.nilIface it) valueTypeMeta toTypeMeta = .ok (zero toType)
      ∧ ∀ v, convertValue L (fuel + 1) (.nilIface it) valueTypeMeta toTypeMeta
          ≠ .err v "received interface value with nil type")
    ∧ ConvertValue L (fuel + 1) (.nilIface it) (.type toType) = .ok (zero toType)
    ∧ (∀ (d d2 : Option Decl) (n : Nat), Ty.slice d it ≠ Ty.slice d2 toType →
      ConvertValue L (fuel + 2)
          (.slice (.slice d it) (Vals.ofList (List.replicate (n + 1) (.nilIface it))))
          (.type (.slice d2 toType))
        = .ok (.slice (.slice d2 toType) (Vals.ofList (List.replicate (n + 1) (zero toType))))) := by
  have h1 : ∀ valueTypeMeta toTypeMeta : TypeMeta, toTypeMeta.Type = some toType →
      convertValue L (fuel + 1) (.nilIface it) valueTypeMeta toTypeMeta = .ok (zero toType) := by
    intro valueTypeMeta toTypeMeta ht
    simp only [convertValue, ht]
  refine ⟨?_, ?_, ?_⟩
  · intro valueTypeMeta toTypeMeta ht
    refine ⟨h1 _ _ ht, ?_⟩
    intro v hv
    rw [h1 _ _ ht] at hv
    cases hv
  · have hv : (Val.nilIface it).Type = some it := rfl
    simp only [ConvertValue, hv, Get]
    exact h1 _ _ (get_Type L toType)
  · intro d d2 n hne
    rw [convertValue_slice_eq L (fuel + 1) d d2 it toType _ (by rfl) (by rfl) hne]
    have hce := convertElems_ok (fun x => convertValue L (fuel + 1) x (get L it) (get L toType))
      (.slice (.slice d it) (Vals.ofList (List.replicate (n + 1) (.nilIface it)))) toType
      (List.replicate (n + 1) (.nilIface it)) (List.replicate (n + 1) (zero toType))
      (forall₂_replicate _ _ _ ⟨zero toType, h1 _ _ (get_Type L toType), assignTo_zero toType⟩ _)
    simp only [List.replicate, Vals.ofList] at hce ⊢
    simp only [convertSliceValue, get, hce]
    exact convertValueEnd_ok _ _ _ _ _ _ rfl

/-- C35, witness: the `[]interface{}` of two nil elements converts to the `[]int` of 0 and 0. -/
theorem C35_nil_dynamic_value_witness :
    ConvertValue asciiLib (0 + 2)
        (.slice (.slice none emptyInterface)
          (Vals.ofList (List.replicate (1 + 1) (.nilIface emptyInterface))))
        (.type (.slice none (builtin .int)))
      = .ok (.slice (.slice none (builtin .int))
          (Vals.ofList (List.replicate (1 + 1) (zero (builtin .int))))) :=
  (C35_nil_dynamic_value asciiLib 0 emptyInterface (builtin .int)).2.2 none none 1 (by decide)

/-- C35 at the inputs of the claim: the `[]interface{}` holding nil and 7 converts to the `[]int`
of 0 and 7, and the `map[string]interface{}` with a nil value for the key `Name` converts to
the `StructA` whose fields are zero. -/
theorem C35_nil_element_and_nil_map_value :
    ConvertValue asciiLib 3
        (.slice (.slice none emptyInterface)
          (.cons (.nilIface emptyInterface)
            (.cons (.iface emptyInterface (.int (builtin .int) 7)) .nil)))
        (.type (.slice none (builtin .int)))
      = .ok (.slice (.slice none (builtin .int))
          (.cons (.int (builtin .int) 0) (.cons (.int (builtin .int) 7) .nil)))
    ∧ ConvertValue asciiLib 3
        (.map mapStringAny (.cons (.str (builtin .string) "Name") (.nilIface emptyInterface) .nil))
        (.type StructA)
      = .ok (.struct StructA
          (.cons (.str (builtin .string) "") (.cons (.bool (builtin .bool) false) .nil))) := by
  decide

/-- C36 (amended). Result type soundness: whenever `convertValue` returns without error for a
destination type that is no pointer type, the type of the value returned is exactly the
destination type or, when the destination is an interface type, a type that implements it. -/
theorem C36_result_type_soundness (L : Lib) (fuel : Nat) (value : Val) (valueTypeMeta : TypeMeta)
    (toType : Ty) (r : Val) (hp : toType.Kind ≠ .ptr)
    (h : convertValue L fuel value valueTypeMeta (get L toType) = .ok r) :
    r.Type = some toType
      ∨ (toType.Kind = .interface ∧ ∃ rt, r.Type = some rt ∧ rt.Implements toType = true) := by
  by_cases hk : toType.Kind = .interface
  · rcases convertValue_iface_sound L fuel value valueTypeMeta _ toType r (get_Type L _) hk h with
      h1 | h1
    · exact Or.inl h1
    · exact Or.inr ⟨hk, h1⟩
  · exact Or.inl (convertValue_type_sound L (get L toType) toType (get_Type L _) hk hp
      (NonPtr_get L toType hp) fuel value valueTypeMeta r h)

/-- C36, witness: the string `12` converts to `int` as a value of type `int`. -/
theorem C36_result_type_soundness_witness :
    (Val.int (builtin .int) 12).Type = some (builtin .int)
      ∨ ((builtin .int).Kind = .interface
        ∧ ∃ rt, (Val.int (builtin .int) 12).Type = some rt
          ∧ rt.Implements (builtin .int) = true) :=
  C36_result_type_soundness asciiLib 1 (.str (builtin .string) "12")
    (get asciiLib (builtin .string)) (builtin .int) (.int (builtin .int) 12) (by decide)
    (by decide)

/-- C36, counterexample: for the destination `*fmt.Stringer`, a pointer to an interface type,
`convertValue` returns the `int` 1 with no error; its type `int` is not `*fmt.Stringer`, and
`int` does not implement `fmt.Stringer` either. For `*interface{}` it returns the string `x`,
of type `string`. -/
theorem C36_counterexample_pointer_to_interface :
    convertValue asciiLib 4 (.int (builtin .int) 1) (get asciiLib (builtin .int))
        (get asciiLib (.ptr stringerType))
      = .ok (.int (builtin .int) 1)
    ∧ (Val.int (builtin .int) 1).Type = some (builtin .int)
    ∧ builtin .int ≠ .ptr stringerType
    ∧ (builtin .int).Implements stringerType = false
    ∧ convertValue asciiLib 4 (.str (builtin .string) "x") (get asciiLib (builtin .string))
        (get asciiLib (.ptr emptyInterface))
      = .ok (.str (builtin .string) "x")
    ∧ builtin .string ≠ .ptr emptyInterface := by
  decide

/-- C37. Array to slice drops the elements: for every array value, of any length and contents,
and every slice type, the conversion returns the zero value of the slice type, the nil slice,
with no error. -/
theorem C37_array_to_slice (L : Lib) (fuel : Nat) (d d2 : Option Decl) (n : Nat) (et et2 : Ty)
    (elems : Vals) :
    ConvertValue L (fuel + 1) (.array (.array d n et) elems) (.type (.slice d2 et2))
      = .ok (.nilSlice (.slice d2 et2)) :=
  ConvertValue_array_to_slice L fuel d d2 n et et2 _ rfl rfl

/-- C37 at an input: the array `[2]int` of 1 and 2 converts to `[]int` and to `[]string` as the
nil slice. -/
theorem C37_two_ints :
    ConvertValue asciiLib 1
        (.array (.array none 2 (builtin .int))
          (.cons (.int (builtin .int) 1) (.cons (.int (builtin .int) 2) .nil)))
        (.type (.slice none (builtin .int)))
      = .ok (.nilSlice (.slice none (builtin .int)))
    ∧ ConvertValue asciiLib 1
        (.array (.array none 2 (builtin .int))
          (.cons (.int (builtin .int) 1) (.cons (.int (builtin .int) 2) .nil)))
        (.type (.slice none (builtin .string)))
      = .ok (.nilSlice (.slice none (builtin .string))) := by
  decide

/-- C38. Narrowing from string wraps: for every string that is a base-10 literal of an integer
`n` of the signed 64-bit range and every destination type of a signed integer kind of width `w`,
the conversion succeeds, and the integer it returns lies in the range of the destination and
differs from `n` by a multiple of `2 ^ w`. -/
theorem C38_narrowing_from_string_wraps (L : Lib) (fuel : Nat) (s : String) (ds d : Option Decl)
    (k : Kind) (n : Int) (hk : k.isInt = true) (hn : intLiteral s = some n)
    (h1 : -(2 : Int) ^ 63 ≤ n) (h2 : n < 2 ^ 63) :
    ∃ r : Int, ConvertValue L (fuel + 1) (.str (.basic .string ds) s) (.type (.basic k d))
        = .ok (.int (.basic k d) r)
      ∧ -(2 : Int) ^ (k.bits - 1) ≤ r ∧ r < 2 ^ (k.bits - 1)
      ∧ ∃ q : Int, r = n + q * 2 ^ k.bits := by
  have hp : ParseInt s = some n := by
    rw [ParseInt_eq, hn, Option.some_bind, if_pos ⟨h1, h2⟩]
  refine ⟨wrapInt k.bits n, ?_, wrapInt_spec k n hk⟩
  simp only [ConvertValue, Val.Type, Get, get]
  rw [convertValue_str_to_int L fuel s k ds d hk (intLiteral_length s n hn), hp]

/-- C38, witness: the string `300` converts to `int8` as 44, which is 300 less 256. -/
theorem C38_narrowing_from_string_wraps_witness :
    ∃ r : Int, ConvertValue asciiLib (0 + 1) (.str (.basic .string none) "300")
        (.type (.basic .int8 none)) = .ok (.int (.basic .int8 none) r)
      ∧ -(2 : Int) ^ (Kind.int8.bits - 1) ≤ r ∧ r < 2 ^ (Kind.int8.bits - 1)
      ∧ ∃ q : Int, r = 300 + q * 2 ^ Kind.int8.bits :=
  C38_narrowing_from_string_wraps asciiLib 0 "300" none none .int8 300 (by decide) (by decide)
    (by decide) (by decide)

/-- C38 at the input of the claim: `300` gives 44 as `int8`, and `-129` gives 127. -/
theorem C38_three_hundred :
    ConvertValue asciiLib 1 (.str (builtin .string) "300") (.type (builtin .int8))
      = .ok (.int (builtin .int8) 44)
    ∧ ConvertValue asciiLib 1 (.str (builtin .string) "-129") (.type (builtin .int8))
      = .ok (.int (builtin .int8) 127) := by
  decide

/-- C39 (amended). Order independence of map conversion: when every entry of the source map is
converted and stored and the entries name pairwise distinct fields of the destination struct,
the struct returned is the same for every order in which the entries are visited; and when
every entry of the source map is converted and stored and the keys stored in the destination
map are pairwise distinct, the map returned holds the same entries for every order in which
the entries are visited. -/
theorem C39_order_independence (L : Lib) (fuel : Nat) :
    (∀ (d : Decl) (decls : FieldList) (md : Option Decl) (kt et : Ty)
        (es es2 : List (Val × Val)) (iys : List (Nat × Val)),
      (Ty.struct d decls).Implements primitiveType = false →
      List.Forall₂ (fun e iy => ∃ sf r ft,
        (get L (.struct d decls)).FieldByName e.1.GoString = some sf ∧ sf.info.Index = iy.1 ∧
        exported L sf.info.Name = true ∧ sf.TypeMeta.Type = some ft ∧
        convertValue L fuel e.2 (get L et) sf.TypeMeta = .ok r ∧ assignTo r ft = some iy.2)
        es iys →
      (iys.map Prod.fst).Nodup → es2.Perm es →
      ∃ r, ConvertValue L (fuel + 1) (.map (.map md kt et) (Entries.ofList es))
            (.type (.struct d decls)) = .ok r
        ∧ ConvertValue L (fuel + 1) (.map (.map md kt et) (Entries.ofList es2))
            (.type (.struct d decls)) = .ok r)
    ∧ (∀ (d d2 : Option Decl) (kt et kt2 et2 : Ty) (es es2 ys : List (Val × Val)),
      (kt ≠ kt2 ∨ et ≠ et2) →
      List.Forall₂ (storesEntry L (convertValue L fuel) kt et kt2 et2) es ys →
      (ys.map Prod.fst).Nodup → es2.Perm es →
      ∃ ys2, ys2.Perm ys
        ∧ ConvertValue L (fuel + 1) (.map (.map d kt et) (Entries.ofList es))
            (.type (.map d2 kt2 et2)) = .ok (.map (.map d2 kt2 et2) (Entries.ofList ys))
        ∧ ConvertValue L (fuel + 1) (.map (.map d kt et) (Entries.ofList es2))
            (.type (.map d2 kt2 et2)) = .ok (.map (.map d2 kt2 et2) (Entries.ofList ys2))) := by
  refine ⟨?_, ?_⟩
  · intro d decls md kt et es es2 iys hT h hd hp
    obtain ⟨h1, h2⟩ := ConvertValue_map_to_struct_perm L fuel d decls md kt et hT es es2 iys h hd hp
    exact ⟨_, h1, h2⟩
  · intro d d2 kt et kt2 et2 es es2 ys hne h hnd hp
    exact ConvertValue_map_to_map_perm L fuel d d2 kt et kt2 et2 hne es es2 ys h hnd hp

/-- C39, witness: the map with `Name` set to `Test` and `Active` set to `true` gives the same
`StructA` when `Active` is visited first. -/
theorem C39_order_independence_witness :
    ∃ r, ConvertValue asciiLib (1 + 1)
          (.map (.map none (builtin .string) emptyInterface) (Entries.ofList
            [(.str (builtin .string) "Name", .iface emptyInterface (.str (builtin .string) "Test")),
             (.str (builtin .string) "Active", .iface emptyInterface (.bool (builtin .bool) true))]))
          (.type (.struct ⟨"StructA", "typemeta.StructA", [], []⟩
            (.cons ⟨"Name", false, []⟩ (builtin .string)
              (.cons ⟨"Active", false, []⟩ (builtin .bool) .nil)))) = .ok r
      ∧ ConvertValue asciiLib (1 + 1)
          (.map (.map none (builtin .string) emptyInterface) (Entries.ofList
            [(.str (builtin .string) "Active", .iface emptyInterface (.bool (builtin .bool) true)),
             (.str (builtin .string) "Name", .iface emptyInterface (.str (builtin .string) "Test"))]))
          (.type (.struct ⟨"StructA", "typemeta.StructA", [], []⟩
            (.cons ⟨"Name", false, []⟩ (builtin .string)
              (.cons ⟨"Active", false, []⟩ (builtin .bool) .nil)))) = .ok r :=
  (C39_order_independence asciiLib 1).1 ⟨"StructA", "typemeta.StructA", [], []⟩
    (.cons ⟨"Name", false, []⟩ (builtin .string) (.cons ⟨"Active", false, []⟩ (builtin .bool) .nil))
    none (builtin .string) emptyInterface
    [(.str (builtin .string) "Name", .iface emptyInterface (.str (builtin .string) "Test")),
     (.str (builtin .string) "Active", .iface emptyInterface (.bool (builtin .bool) true))]
    [(.str (builtin .string) "Active", .iface emptyInterface (.bool (builtin .bool) true)),
     (.str (builtin .string) "Name", .iface emptyInterface (.str (builtin .string) "Test"))]
    [(0, .str (builtin .string) "Test"), (1, .bool (builtin .bool) true)]
    (by decide)
    (List.Forall₂.cons
      ⟨⟨fieldInfoOf asciiLib ⟨"Name", false, []⟩ 0, get asciiLib (builtin .string)⟩,
        .str (builtin .string) "Test", builtin .string,
        by decide, by decide, by decide, by decide, by decide, by decide⟩
      (List.Forall₂.cons
        ⟨⟨fieldInfoOf asciiLib ⟨"Active", false, []⟩ 1, get asciiLib (builtin .bool)⟩,
          .bool (builtin .bool) true, builtin .bool,
          by decide, by decide, by decide, by decide, by decide, by decide⟩
        List.Forall₂.nil))
    (by decide) (List.Perm.swap _ _ _)

/-- C39, counterexample: three maps visited in two orders. The keys `Name` and `name` both name
the field `Name` of `StructN`, and the field holds the value visited last. The key `Active` has
a value that fails to convert and the key `Unknown` names no field of `StructA`, and the error
is that of the entry visited first. The keys 1 and `1` of a `map[interface{}]string` both
convert to the key `1` of a `map[string]string`, which holds the value visited last. -/
theorem C39_counterexample_order_matters :
    ConvertValue asciiLib 2
        (.map (.map none (builtin .string) (builtin .string)) (Entries.ofList
          [(.str (builtin .string) "Name", .str (builtin .string) "a"),
           (.str (builtin .string) "name", .str (builtin .string) "b")]))
        (.type StructN)
      = .ok (.struct StructN (.cons (.str (builtin .string) "b") .nil))
    ∧ ConvertValue asciiLib 2
        (.map (.map none (builtin .string) (builtin .string)) (Entries.ofList
          [(.str (builtin .string) "name", .str (builtin .string) "b"),
           (.str (builtin .string) "Name", .str (builtin .string) "a")]))
        (.type StructN)
      = .ok (.struct StructN (.cons (.str (builtin .string) "a") .nil))
    ∧ ConvertValue asciiLib 2
        (.map (.map none (builtin .string) (builtin .string)) (Entries.ofList
          [(.str (builtin .string) "Active", .str (builtin .string) "x"),
           (.str (builtin .string) "Unknown", .str (builtin .string) "1")]))
        (.type StructA)
      = .err (.map (.map none (builtin .string) (builtin .string)) (Entries.ofList
          [(.str (builtin .string) "Active", .str (builtin .string) "x"),
           (.str (builtin .string) "Unknown", .str (builtin .string) "1")]))
          "could not convert value of key \"Active\" to field \"Active: bool\". x not assignable to bool"
    ∧ ConvertValue asciiLib 2
        (.map (.map none (builtin .string) (builtin .string)) (Entries.ofList
          [(.str (builtin .string) "Unknown", .str (builtin .string) "1"),
           (.str (builtin .string) "Active", .str (builtin .string) "x")]))
        (.type StructA)
      = .err (.map (.map none (builtin .string) (builtin .string)) (Entries.ofList
          [(.str (builtin .string) "Unknown", .str (builtin .string) "1"),
           (.str (builtin .string) "Active", .str (builtin .string) "x")]))
          "unrecognized key \"Unknown\" does not exist in struct \"typemeta.StructA\""
    ∧ ConvertValue asciiLib 3
        (.map (.map none emptyInterface (builtin .string)) (Entries.ofList
          [(.iface emptyInterface (.int (builtin .int) 1), .str (builtin .string) "a"),
           (.iface emptyInterface (.str (builtin .string) "1"), .str (builtin .string) "b")]))
        (.type (.map none (builtin .string) (builtin .string)))
      = .ok (.map (.map none (builtin .string) (builtin .string)) (Entries.ofList
          [(.str (builtin .string) "1", .str (builtin .string) "b")]))
    ∧ ConvertValue asciiLib 3
        (.map (.map none emptyInterface (builtin .string)) (Entries.ofList
          [(.iface emptyInterface (.str (builtin .string) "1"), .str (builtin .string) "b"),
           (.iface emptyInterface (.int (builtin .int) 1), .str (builtin .string) "a")]))
        (.type (.map none (builtin .string) (builtin .string)))
      = .ok (.map (.map none (builtin .string) (builtin .string)) (Entries.ofList
          [(.str (builtin .string) "1", .str (builtin .string) "a")])) := by
  decide

/-- C40 (what the code does). `StructFieldAt` on bad paths. With `st` the struct descriptor
that `StructOf` finds: the empty path gives nil; a descriptor that holds no struct gives nil;
a path of one index gives the field of that index, and nil when the index is no field index;
a longer path whose first index is a field index goes on with the descriptor of that field.
A longer path whose first index is NO field index does not give nil: the nil field is
dereferenced and the call fails with a runtime panic. -/
theorem C40_StructFieldAt_bad_paths (s : Schema) (fuel : Nat) (t : Option Nat) :
    StructFieldAt s fuel t [] = some .nil
    ∧ (∀ fieldPath, StructOf s fuel t = some none →
        StructFieldAt s fuel t fieldPath = some .nil)
    ∧ (∀ st i, StructOf s fuel t = some (some st) → s.Field st i = none →
        StructFieldAt s fuel t [i] = some .nil)
    ∧ (∀ st i field, StructOf s fuel t = some (some st) → s.Field st i = some field →
        StructFieldAt s fuel t [i] = some (.field field))
    ∧ (∀ st i j rest field, StructOf s fuel t = some (some st) →
        s.Field st i = some field →
        StructFieldAt s fuel t (i :: j :: rest)
          = StructFieldAt s fuel (some field.TypeMeta) (j :: rest))
    ∧ (∀ st i j rest, StructOf s fuel t = some (some st) → s.Field st i = none →
        StructFieldAt s fuel t (i :: j :: rest)
          = some (.panic "invalid memory address or nil pointer dereference")) := by
  refine ⟨rfl, ?_, ?_, ?_, ?_, ?_⟩
  · intro fieldPath h
    cases fieldPath with
    | nil => rfl
    | cons i rest => rw [StructFieldAt_cons, h]; rfl
  · intro st i h hf
    rw [StructFieldAt_cons, h]
    simp [structFieldAt, hf]
  · intro st i field h hf
    rw [StructFieldAt_cons, h]
    simp [structFieldAt, hf]
  · intro st i j rest field h hf
    rw [StructFieldAt_cons, h, StructFieldAt_cons]
    exact structFieldAt_step s fuel st i j rest field hf
  · intro st i j rest h hf
    rw [StructFieldAt_cons, h]
    exact structFieldAt_bad s fuel st i j rest hf

/-- C40, witness: in the schema with `Outer` the path `[7, 0]` from the descriptor of `Outer`
has a first index that is no field index of `Outer`, and the call fails. -/
theorem C40_StructFieldAt_bad_paths_witness :
    StructFieldAt outerSchema 3 (some 0) [7, 0]
      = some (.panic "invalid memory address or nil pointer dereference") :=
  (C40_StructFieldAt_bad_paths outerSchema 3 (some 0)).2.2.2.2.2 0 7 0 [] (by decide)
    (by decide)

/-- C40 at three paths from the descriptor of `Outer`, whose field 0 is `Inner Inner` and whose
struct `Inner` has the one field `Name`: the path `[0, 0]` gives the field `Name`, the path
`[0, 7]` with a bad final index gives nil, the path `[7]` gives nil, and the path `[7, 0]` with
a bad index before the final one fails with a nil dereference; so does `[0, 7, 0]`. -/
theorem C40_bad_index_before_the_final_one :
    (StructFieldAt outerSchema 3 (some 0) [0, 0]).map
        (fun r => match r with
          | .field f => f.info.Name
          | _ => "") = some "Name"
    ∧ StructFieldAt outerSchema 3 (some 0) [0, 7] = some .nil
    ∧ StructFieldAt outerSchema 3 (some 0) [7] = some .nil
    ∧ StructFieldAt outerSchema 3 (some 0) [7, 0]
        = some (.panic "invalid memory address or nil pointer dereference")
    ∧ StructFieldAt outerSchema 3 (some 0) [0, 7, 0]
        = some (.panic "invalid memory address or nil pointer dereference") := by
  decide

end Typemeta
